import Mathlib

/-!
# USBView bus enumeration (`enum.c`): descriptor fetching and string tables

A shallow embedding of the descriptor-fetching routines of `enum.c`
(`GetConfigDescriptor`, `AreThereStringDescriptors`, `GetAllStringDescriptors`,
`GetStringDescriptor`, `GetStringDescriptors`) together with theorems about them.

Conventions of the embedding.

* A buffer is a `List Nat`; an element is a byte and is read modulo 256.
* A pointer into the heap is a `Nat` handle, `NULL` is `none`.
* The hub driver and the allocator are outside the program.  They are a state
  machine `Env σ` over an arbitrary state type `σ`; the program threads a
  `World σ` that also records every request issued and every heap event.
* Machine integers are natural numbers with explicit reduction modulo `2^w`
  where the C code can wrap.
-/

namespace UsbView

/-! ## Constants of the USB headers -/

/-- Value of `sizeof(USB_DESCRIPTOR_REQUEST)`: a `ULONG ConnectionIndex` followed by the
8-byte setup packet (`bmRequest`, `bRequest`, `wValue`, `wIndex`, `wLength`), byte packed. -/
def sizeof_USB_DESCRIPTOR_REQUEST : Nat := 12

/-- Value of `sizeof(USB_COMMON_DESCRIPTOR)`: `bLength` and `bDescriptorType`. -/
def sizeof_USB_COMMON_DESCRIPTOR : Nat := 2

/-- Value of `sizeof(USB_CONFIGURATION_DESCRIPTOR)`. -/
def sizeof_USB_CONFIGURATION_DESCRIPTOR : Nat := 9

/-- Value of `sizeof(USB_INTERFACE_DESCRIPTOR)`. -/
def sizeof_USB_INTERFACE_DESCRIPTOR : Nat := 9

/-- Value of `sizeof(USB_INTERFACE_DESCRIPTOR2)`: the interface descriptor with the
trailing `wNumClasses` field. -/
def sizeof_USB_INTERFACE_DESCRIPTOR2 : Nat := 11

/-- Descriptor type tag of a configuration descriptor. -/
def USB_CONFIGURATION_DESCRIPTOR_TYPE : Nat := 2

/-- Descriptor type tag of a string descriptor. -/
def USB_STRING_DESCRIPTOR_TYPE : Nat := 3

/-- Descriptor type tag of an interface descriptor. -/
def USB_INTERFACE_DESCRIPTOR_TYPE : Nat := 4

/-- Largest string descriptor a device can return. -/
def MAXIMUM_USB_STRING_LENGTH : Nat := 255

/-- Number of values of a `ULONG`. -/
def ULONG_RANGE : Nat := 4294967296

/-- Number of values of a `USHORT`. -/
def USHORT_RANGE : Nat := 65536

/-! ## Buffers -/

/-- Byte `i` of a buffer whose size is known to exceed `i` (local arrays and freshly
sized heap blocks). -/
def byteAt (buf : List Nat) (i : Nat) : Nat :=
  buf.getD i 0 % 256

/-- Little-endian `USHORT` at offset `i`. -/
def wordAt (buf : List Nat) (i : Nat) : Nat :=
  byteAt buf i + 256 * byteAt buf (i + 1)

/-- Bytes of a `USB_DESCRIPTOR_REQUEST` header: `ConnectionIndex`, then the setup packet
with `bmRequest` and `bRequest` left zero. -/
def requestHeader (ConnectionIndex wValue wIndex wLength : Nat) : List Nat :=
  [ConnectionIndex % 256, ConnectionIndex / 256 % 256,
   ConnectionIndex / 65536 % 256, ConnectionIndex / 16777216 % 256,
   0, 0,
   wValue % 256, wValue / 256 % 256,
   wIndex % 256, wIndex / 256 % 256,
   wLength % 256, wLength / 256 % 256]

/-! ## The request executor and the allocator -/

/-- One `IOCTL_USB_GET_DESCRIPTOR_FROM_NODE_CONNECTION` call as the hub driver sees it:
the hub handle, the request header fields and the size of the in/out buffer. -/
structure IoRequest where
  hHubDevice : Nat
  ConnectionIndex : Nat
  wValue : Nat
  wIndex : Nat
  wLength : Nat
  nBytes : Nat
  deriving DecidableEq, Repr

/-- What the driver answers: the `BOOL` result and the bytes it stores at the start of
the output buffer. -/
structure IoReply where
  success : Bool
  data : List Nat
  deriving DecidableEq, Repr

/-- The external collaborators: the hub driver behind `DeviceIoControl` and the heap behind
`ALLOC`, as transition functions on a state `σ`. -/
structure Env (σ : Type) where
  ioctl : σ → IoRequest → IoReply × σ
  allocOk : σ → Nat → Bool × σ

/-- Heap events, in program order. -/
inductive HeapEvent where
  | alloc (p : Nat) (dwBytes : Nat)
  | free (p : Nat)
  deriving DecidableEq, Repr

/-- Node of the string descriptor chain (`STRING_DESCRIPTOR_NODE` of `usbview.h`):
the link, the two keys and the raw string descriptor. -/
structure STRING_DESCRIPTOR_NODE where
  Next : Option Nat
  DescriptorIndex : Nat
  LanguageID : Nat
  StringDescriptor : List Nat
  deriving DecidableEq, Repr

/-- Program state: the collaborators, the requests issued so far, the heap events so far
and the contents of the string descriptor nodes that were allocated. -/
structure World (σ : Type) where
  ext : σ
  ioLog : List IoRequest
  heapLog : List HeapEvent
  nodes : List (Nat × STRING_DESCRIPTOR_NODE)
  deriving DecidableEq

/-- Result of one `DeviceIoControl` call: the `BOOL`, the in/out buffer after the call and
`nBytesReturned`. -/
structure IoResult where
  success : Bool
  buffer : List Nat
  nBytesReturned : Nat
  deriving DecidableEq, Repr

/-- The call `DeviceIoControl(hHubDevice, IOCTL_USB_GET_DESCRIPTOR_FROM_NODE_CONNECTION,
buf, nBytes, buf, nBytes, &nBytesReturned, NULL)` with `buf` holding `inBuf`.
The driver stores at most `nBytes` bytes at the start of the buffer, the rest of the buffer
keeps what the caller wrote, and `nBytesReturned` is the number of bytes stored. -/
def DeviceIoControl {σ : Type} (env : Env σ) (w : World σ) (req : IoRequest)
    (inBuf : List Nat) : IoResult × World σ :=
  let r := env.ioctl w.ext req
  let stored := (r.1.data.take inBuf.length).map (fun b => b % 256)
  ({ success := r.1.success,
     buffer := stored ++ inBuf.drop stored.length,
     nBytesReturned := stored.length },
   { w with ext := r.2, ioLog := w.ioLog ++ [req] })

/-- Modelled from the spec: the `ALLOC` macro of `usbview.h`, which is not part of the
source file.  It returns a zero-filled block or `NULL`; a new block gets a handle that no
earlier block had. -/
def ALLOC {σ : Type} (env : Env σ) (w : World σ) (dwBytes : Nat) : Option Nat × World σ :=
  let r := env.allocOk w.ext dwBytes
  if r.1 then
    (some w.heapLog.length,
     { w with ext := r.2, heapLog := w.heapLog ++ [HeapEvent.alloc w.heapLog.length dwBytes] })
  else
    (none, { w with ext := r.2 })

/-- Modelled from the spec: the `FREE` macro of `usbview.h`, which is not part of the
source file.  It releases the block. -/
def FREE {σ : Type} (w : World σ) (p : Nat) : World σ :=
  { w with heapLog := w.heapLog ++ [HeapEvent.free p] }

/-- Effect of one heap event on the stack of live block handles. -/
def heapStep (live : List Nat) : HeapEvent → List Nat
  | HeapEvent.alloc p _ => p :: live
  | HeapEvent.free p => live.erase p

/-- Handles of the blocks that are allocated and not yet released after the events. -/
def liveBlocks (log : List HeapEvent) : List Nat :=
  log.foldl heapStep []

/-! ## GetConfigDescriptor -/

/-- A heap block returned to the caller: its handle and its bytes. -/
structure HeapBuffer where
  handle : Nat
  bytes : List Nat
  deriving DecidableEq, Repr

/-- The request that both phases of `GetConfigDescriptor` set up for a buffer of `nBytes`
bytes: `wValue = (USB_CONFIGURATION_DESCRIPTOR_TYPE << 8) | DescriptorIndex` and
`wLength = (USHORT)(nBytes - sizeof(USB_DESCRIPTOR_REQUEST))`. -/
def configRequest (hHubDevice ConnectionIndex DescriptorIndex nBytes : Nat) : IoRequest :=
  { hHubDevice := hHubDevice,
    ConnectionIndex := ConnectionIndex,
    wValue := ((USB_CONFIGURATION_DESCRIPTOR_TYPE <<< 8) ||| DescriptorIndex) % USHORT_RANGE,
    wIndex := 0,
    wLength := (nBytes - sizeof_USB_DESCRIPTOR_REQUEST) % USHORT_RANGE,
    nBytes := nBytes }

/-- The zero-filled buffer of `nBytes` bytes with the header fields of `req` written. -/
def requestBuffer (req : IoRequest) : List Nat :=
  requestHeader req.ConnectionIndex req.wValue req.wIndex req.wLength ++
    List.replicate (req.nBytes - sizeof_USB_DESCRIPTOR_REQUEST) 0

/-- The field `wTotalLength` of the configuration descriptor that follows the request
header in a request buffer (`configDesc = configDescReq + 1`). -/
def wTotalLengthOf (buffer : List Nat) : Nat :=
  wordAt buffer (sizeof_USB_DESCRIPTOR_REQUEST + 2)

/-- `GetConfigDescriptor (hHubDevice, ConnectionIndex, DescriptorIndex)`: the probe with the
local buffer of `sizeof(USB_DESCRIPTOR_REQUEST) + sizeof(USB_CONFIGURATION_DESCRIPTOR)`
bytes, then the full request with a heap block of
`sizeof(USB_DESCRIPTOR_REQUEST) + wTotalLength` bytes. -/
def GetConfigDescriptor {σ : Type} (env : Env σ) (w : World σ)
    (hHubDevice ConnectionIndex DescriptorIndex : Nat) : Option HeapBuffer × World σ :=
  -- nBytes = sizeof(configDescReqBuf)
  let nBytes := sizeof_USB_DESCRIPTOR_REQUEST + sizeof_USB_CONFIGURATION_DESCRIPTOR
  let req := configRequest hHubDevice ConnectionIndex DescriptorIndex nBytes
  let r := DeviceIoControl env w req (requestBuffer req)
  if r.1.success = false then (none, r.2)
  else if nBytes ≠ r.1.nBytesReturned then (none, r.2)
  else if wTotalLengthOf r.1.buffer < sizeof_USB_CONFIGURATION_DESCRIPTOR then (none, r.2)
  else
    let nBytes2 := sizeof_USB_DESCRIPTOR_REQUEST + wTotalLengthOf r.1.buffer
    let a := ALLOC env r.2 nBytes2
    match a.1 with
    | none => (none, a.2)
    | some configDescReq =>
      let req2 := configRequest hHubDevice ConnectionIndex DescriptorIndex nBytes2
      let r2 := DeviceIoControl env a.2 req2 (requestBuffer req2)
      if r2.1.success = false then (none, FREE r2.2 configDescReq)
      else if nBytes2 ≠ r2.1.nBytesReturned then (none, FREE r2.2 configDescReq)
      else if wTotalLengthOf r2.1.buffer ≠ nBytes2 - sizeof_USB_DESCRIPTOR_REQUEST then
        (none, FREE r2.2 configDescReq)
      else (some { handle := configDescReq, bytes := r2.1.buffer }, r2.2)

/-- The probe of `GetConfigDescriptor`: its first `DeviceIoControl` call. -/
def configProbe {σ : Type} (env : Env σ) (w : World σ)
    (hHubDevice ConnectionIndex DescriptorIndex : Nat) : IoResult × World σ :=
  let req := configRequest hHubDevice ConnectionIndex DescriptorIndex
    (sizeof_USB_DESCRIPTOR_REQUEST + sizeof_USB_CONFIGURATION_DESCRIPTOR)
  DeviceIoControl env w req (requestBuffer req)

/-- A probe result passes the three checks that follow the first request. -/
def probeValid (r : IoResult) : Prop :=
  r.success = true ∧
  r.nBytesReturned = sizeof_USB_DESCRIPTOR_REQUEST + sizeof_USB_CONFIGURATION_DESCRIPTOR ∧
  sizeof_USB_CONFIGURATION_DESCRIPTOR ≤ wTotalLengthOf r.buffer

instance (r : IoResult) : Decidable (probeValid r) := by
  unfold probeValid; infer_instance

/-- The allocation of the phase-two block of `GetConfigDescriptor`, made after the probe. -/
def configAlloc {σ : Type} (env : Env σ) (w : World σ)
    (hHubDevice ConnectionIndex DescriptorIndex : Nat) : Option Nat × World σ :=
  let r := configProbe env w hHubDevice ConnectionIndex DescriptorIndex
  ALLOC env r.2 (sizeof_USB_DESCRIPTOR_REQUEST + wTotalLengthOf r.1.buffer)

/-- The second `DeviceIoControl` call of `GetConfigDescriptor`, made after the allocation. -/
def configFull {σ : Type} (env : Env σ) (w : World σ)
    (hHubDevice ConnectionIndex DescriptorIndex : Nat) : IoResult × World σ :=
  let r := configProbe env w hHubDevice ConnectionIndex DescriptorIndex
  let a := configAlloc env w hHubDevice ConnectionIndex DescriptorIndex
  let req := configRequest hHubDevice ConnectionIndex DescriptorIndex
    (sizeof_USB_DESCRIPTOR_REQUEST + wTotalLengthOf r.1.buffer)
  DeviceIoControl env a.2 req (requestBuffer req)

/-! ## GetStringDescriptor -/

/-- Modelled from the spec: `sizeof(STRING_DESCRIPTOR_NODE)` of `usbview.h`, which is not
part of the source file: the link, the descriptor index and the language ID that precede the
string descriptor in a node. -/
def sizeof_STRING_DESCRIPTOR_NODE : Nat := 8

/-- The request that `GetStringDescriptor` sets up: `wValue = (USB_STRING_DESCRIPTOR_TYPE << 8)
| DescriptorIndex`, `wIndex = LanguageID` and a buffer for the largest string descriptor. -/
def stringRequest (hHubDevice ConnectionIndex DescriptorIndex LanguageID : Nat) : IoRequest :=
  { hHubDevice := hHubDevice,
    ConnectionIndex := ConnectionIndex,
    wValue := ((USB_STRING_DESCRIPTOR_TYPE <<< 8) ||| DescriptorIndex) % USHORT_RANGE,
    wIndex := LanguageID,
    wLength := (sizeof_USB_DESCRIPTOR_REQUEST + MAXIMUM_USB_STRING_LENGTH
      - sizeof_USB_DESCRIPTOR_REQUEST) % USHORT_RANGE,
    nBytes := sizeof_USB_DESCRIPTOR_REQUEST + MAXIMUM_USB_STRING_LENGTH }

/-- The field `bLength` of the string descriptor that follows the request header
(`stringDesc = stringDescReq + 1`). -/
def stringDesc_bLength (buffer : List Nat) : Nat :=
  byteAt buffer sizeof_USB_DESCRIPTOR_REQUEST

/-- The field `bDescriptorType` of the string descriptor that follows the request header. -/
def stringDesc_bDescriptorType (buffer : List Nat) : Nat :=
  byteAt buffer (sizeof_USB_DESCRIPTOR_REQUEST + 1)

/-- The node stored at handle `p`, if any. -/
def World.node {σ : Type} (w : World σ) (p : Nat) : Option STRING_DESCRIPTOR_NODE :=
  w.nodes.lookup p

/-- `GetStringDescriptor (hHubDevice, ConnectionIndex, DescriptorIndex, LanguageID)`: one
request with the local buffer of `sizeof(USB_DESCRIPTOR_REQUEST) + MAXIMUM_USB_STRING_LENGTH`
bytes, the sanity checks, and the copy of the descriptor into a new zero-filled node.
`nBytesReturned - sizeof(USB_DESCRIPTOR_REQUEST)` is unsigned arithmetic and wraps. -/
def GetStringDescriptor {σ : Type} (env : Env σ) (w : World σ)
    (hHubDevice ConnectionIndex DescriptorIndex LanguageID : Nat) : Option Nat × World σ :=
  let req := stringRequest hHubDevice ConnectionIndex DescriptorIndex LanguageID
  let r := DeviceIoControl env w req (requestBuffer req)
  if r.1.success = false then (none, r.2)
  else if r.1.nBytesReturned < 2 then (none, r.2)
  else if stringDesc_bDescriptorType r.1.buffer ≠ USB_STRING_DESCRIPTOR_TYPE then (none, r.2)
  else if stringDesc_bLength r.1.buffer ≠
      (r.1.nBytesReturned + ULONG_RANGE - sizeof_USB_DESCRIPTOR_REQUEST) % ULONG_RANGE then
    (none, r.2)
  else if stringDesc_bLength r.1.buffer % 2 ≠ 0 then (none, r.2)
  else
    let a := ALLOC env r.2 (sizeof_STRING_DESCRIPTOR_NODE + stringDesc_bLength r.1.buffer)
    match a.1 with
    | none => (none, a.2)
    | some stringDescNode =>
      (some stringDescNode,
       { a.2 with
         nodes :=
          (stringDescNode,
           { Next := none,
             DescriptorIndex := DescriptorIndex,
             LanguageID := LanguageID,
             -- memcpy(stringDescNode->StringDescriptor, stringDesc, stringDesc->bLength)
             StringDescriptor :=
               (r.1.buffer.drop sizeof_USB_DESCRIPTOR_REQUEST).take
                 (stringDesc_bLength r.1.buffer) }) :: a.2.nodes })

/-- The `DeviceIoControl` call of `GetStringDescriptor`. -/
def stringFetch {σ : Type} (env : Env σ) (w : World σ)
    (hHubDevice ConnectionIndex DescriptorIndex LanguageID : Nat) : IoResult × World σ :=
  let req := stringRequest hHubDevice ConnectionIndex DescriptorIndex LanguageID
  DeviceIoControl env w req (requestBuffer req)

/-- The checks of `GetStringDescriptor` on the result of its request, with the length
comparison written over the integers. -/
def stringAccepted (r : IoResult) : Prop :=
  r.success = true ∧ 2 ≤ r.nBytesReturned ∧
  stringDesc_bDescriptorType r.buffer = USB_STRING_DESCRIPTOR_TYPE ∧
  (stringDesc_bLength r.buffer : Int) =
    (r.nBytesReturned : Int) - (sizeof_USB_DESCRIPTOR_REQUEST : Int) ∧
  stringDesc_bLength r.buffer % 2 = 0

instance (r : IoResult) : Decidable (stringAccepted r) := by
  unfold stringAccepted; infer_instance

/-- The allocation of the node in `GetStringDescriptor`, made after the request. -/
def stringAlloc {σ : Type} (env : Env σ) (w : World σ)
    (hHubDevice ConnectionIndex DescriptorIndex LanguageID : Nat) : Option Nat × World σ :=
  let r := stringFetch env w hHubDevice ConnectionIndex DescriptorIndex LanguageID
  ALLOC env r.2 (sizeof_STRING_DESCRIPTOR_NODE + stringDesc_bLength r.1.buffer)

/-! ## Reads through pointers whose bounds depend on data -/

/-- Why a run of the embedding yields no value: a read outside the buffer it addresses, a
loop that is still running when the step budget is used up, or a read or write through a
pointer that is `NULL`. -/
inductive Fault where
  | outOfBounds
  | outOfFuel
  | nullDereference
  deriving DecidableEq, Repr

deriving instance DecidableEq for Except

/-- Byte at offset `i` of a buffer; a read past the end is a fault. -/
def readByte (buf : List Nat) (i : Nat) : Except Fault Nat :=
  match buf[i]? with
  | some b => Except.ok (b % 256)
  | none => Except.error Fault.outOfBounds

/-- Little-endian `USHORT` at offset `i` of a buffer. -/
def readWord (buf : List Nat) (i : Nat) : Except Fault Nat :=
  match readByte buf i with
  | Except.error e => Except.error e
  | Except.ok lo =>
    match readByte buf (i + 1) with
    | Except.error e => Except.error e
    | Except.ok hi => Except.ok (lo + 256 * hi)

/-- The three string indices of a `USB_DEVICE_DESCRIPTOR`, the only fields of the device
descriptor that the string routines read. -/
structure USB_DEVICE_DESCRIPTOR where
  iManufacturer : Nat
  iProduct : Nat
  iSerialNumber : Nat
  deriving DecidableEq, Repr

/-! ## AreThereStringDescriptors -/

/-- The `while` loop of `AreThereStringDescriptors` with `commonDesc` as an offset into
`ConfigDesc` and `descEnd` the offset `wTotalLength`.  `fuel` bounds the number of
iterations.  A `break` inside the `switch` reaches the `break` that follows the `switch`
and leaves the loop, after which the function returns `FALSE`. -/
def AreThereStringDescriptors.walk (ConfigDesc : List Nat) (descEnd : Nat) :
    Nat → Nat → Except Fault Bool
  | 0, _ => Except.error Fault.outOfFuel
  | fuel + 1, commonDesc =>
    if commonDesc + sizeof_USB_COMMON_DESCRIPTOR < descEnd then
      match readByte ConfigDesc commonDesc with
      | Except.error e => Except.error e
      | Except.ok bLength =>
        if commonDesc + bLength ≤ descEnd then
          match readByte ConfigDesc (commonDesc + 1) with
          | Except.error e => Except.error e
          | Except.ok bDescriptorType =>
            if bDescriptorType = USB_CONFIGURATION_DESCRIPTOR_TYPE then
              if bLength ≠ sizeof_USB_CONFIGURATION_DESCRIPTOR then
                Except.ok false
              else
                match readByte ConfigDesc (commonDesc + 6) with
                | Except.error e => Except.error e
                | Except.ok iConfiguration =>
                  if iConfiguration ≠ 0 then Except.ok true
                  else AreThereStringDescriptors.walk ConfigDesc descEnd fuel
                    (commonDesc + bLength)
            else if bDescriptorType = USB_INTERFACE_DESCRIPTOR_TYPE then
              if bLength ≠ sizeof_USB_INTERFACE_DESCRIPTOR ∧
                  bLength ≠ sizeof_USB_INTERFACE_DESCRIPTOR2 then
                Except.ok false
              else
                match readByte ConfigDesc (commonDesc + 8) with
                | Except.error e => Except.error e
                | Except.ok iInterface =>
                  if iInterface ≠ 0 then Except.ok true
                  else AreThereStringDescriptors.walk ConfigDesc descEnd fuel
                    (commonDesc + bLength)
            else
              AreThereStringDescriptors.walk ConfigDesc descEnd fuel (commonDesc + bLength)
        else Except.ok false
    else Except.ok false

/-- `AreThereStringDescriptors (DeviceDesc, ConfigDesc)`; `ConfigDesc` holds the bytes at
the pointer `ConfigDesc`, and `wTotalLength` is the `USHORT` at offset 2. -/
def AreThereStringDescriptors (fuel : Nat) (DeviceDesc : USB_DEVICE_DESCRIPTOR)
    (ConfigDesc : List Nat) : Except Fault Bool :=
  if DeviceDesc.iManufacturer ≠ 0 ∨ DeviceDesc.iProduct ≠ 0 ∨
      DeviceDesc.iSerialNumber ≠ 0 then
    Except.ok true
  else
    match readWord ConfigDesc 2 with
    | Except.error e => Except.error e
    | Except.ok wTotalLength => AreThereStringDescriptors.walk ConfigDesc wTotalLength fuel 0

/-! ## GetStringDescriptors and GetAllStringDescriptors -/

/-- The assignment `p->Next = next` on the node at handle `p`. -/
def setNext {σ : Type} (w : World σ) (p : Nat) (next : Option Nat) : World σ :=
  { w with
    nodes := w.nodes.map (fun e => (e.1, if e.1 = p then { e.2 with Next := next } else e.2)) }

/-- The read `*LanguageIDs` where `LanguageIDs` points `offset` bytes into the string
descriptor of the node at handle `block`. -/
def readLanguageID {σ : Type} (w : World σ) (block offset : Nat) : Except Fault Nat :=
  match w.node block with
  | none => Except.error Fault.outOfBounds
  | some node => readWord node.StringDescriptor offset

/-- The `for` loop of `GetStringDescriptors` with `remaining = NumLanguageIDs - i`
iterations to go; `LanguageIDs` is the pair of a node handle and a byte offset. -/
def GetStringDescriptors.loop {σ : Type} (env : Env σ)
    (hHubDevice ConnectionIndex DescriptorIndex block : Nat) :
    Nat → Nat → Nat → World σ → Except Fault (Nat × World σ)
  | 0, _, StringDescNodeTail, w => Except.ok (StringDescNodeTail, w)
  | remaining + 1, offset, StringDescNodeTail, w =>
    match readLanguageID w block offset with
    | Except.error e => Except.error e
    | Except.ok LanguageID =>
      let r := GetStringDescriptor env w hHubDevice ConnectionIndex DescriptorIndex LanguageID
      -- StringDescNodeTail->Next = GetStringDescriptor(...)
      let w1 := setNext r.2 StringDescNodeTail r.1
      match r.1 with
      | some next =>
        GetStringDescriptors.loop env hHubDevice ConnectionIndex DescriptorIndex block
          remaining (offset + 2) next w1
      | none =>
        GetStringDescriptors.loop env hHubDevice ConnectionIndex DescriptorIndex block
          remaining (offset + 2) StringDescNodeTail w1

/-- `GetStringDescriptors (hHubDevice, ConnectionIndex, DescriptorIndex, NumLanguageIDs,
LanguageIDs, StringDescNodeTail)`; returns the new tail. -/
def GetStringDescriptors {σ : Type} (env : Env σ) (w : World σ)
    (hHubDevice ConnectionIndex DescriptorIndex NumLanguageIDs block offset
      StringDescNodeTail : Nat) : Except Fault (Nat × World σ) :=
  GetStringDescriptors.loop env hHubDevice ConnectionIndex DescriptorIndex block
    NumLanguageIDs offset StringDescNodeTail w

/-- The statement `if (index) tail = GetStringDescriptors(..., index, ..., tail);`. -/
def fetchIfNonZero {σ : Type} (env : Env σ) (w : World σ)
    (hHubDevice ConnectionIndex index NumLanguageIDs block offset
      StringDescNodeTail : Nat) : Except Fault (Nat × World σ) :=
  if index ≠ 0 then
    GetStringDescriptors env w hHubDevice ConnectionIndex index NumLanguageIDs block offset
      StringDescNodeTail
  else Except.ok (StringDescNodeTail, w)

/-- The `while` loop of `GetAllStringDescriptors`, with the same cursor and bounds as the
loop of `AreThereStringDescriptors`; the state is the tail of the chain and the world. -/
def GetAllStringDescriptors.walk {σ : Type} (env : Env σ)
    (hHubDevice ConnectionIndex numLanguageIDs block offset : Nat)
    (ConfigDesc : List Nat) (descEnd : Nat) :
    Nat → Nat → Nat → World σ → Except Fault (Nat × World σ)
  | 0, _, _, _ => Except.error Fault.outOfFuel
  | fuel + 1, commonDesc, stringDescNodeTail, w =>
    if commonDesc + sizeof_USB_COMMON_DESCRIPTOR < descEnd then
      match readByte ConfigDesc commonDesc with
      | Except.error e => Except.error e
      | Except.ok bLength =>
        if commonDesc + bLength ≤ descEnd then
          match readByte ConfigDesc (commonDesc + 1) with
          | Except.error e => Except.error e
          | Except.ok bDescriptorType =>
            if bDescriptorType = USB_CONFIGURATION_DESCRIPTOR_TYPE then
              if bLength ≠ sizeof_USB_CONFIGURATION_DESCRIPTOR then
                Except.ok (stringDescNodeTail, w)
              else
                match readByte ConfigDesc (commonDesc + 6) with
                | Except.error e => Except.error e
                | Except.ok iConfiguration =>
                  match fetchIfNonZero env w hHubDevice ConnectionIndex iConfiguration
                      numLanguageIDs block offset stringDescNodeTail with
                  | Except.error e => Except.error e
                  | Except.ok t =>
                    GetAllStringDescriptors.walk env hHubDevice ConnectionIndex numLanguageIDs
                      block offset ConfigDesc descEnd fuel (commonDesc + bLength) t.1 t.2
            else if bDescriptorType = USB_INTERFACE_DESCRIPTOR_TYPE then
              if bLength ≠ sizeof_USB_INTERFACE_DESCRIPTOR ∧
                  bLength ≠ sizeof_USB_INTERFACE_DESCRIPTOR2 then
                Except.ok (stringDescNodeTail, w)
              else
                match readByte ConfigDesc (commonDesc + 8) with
                | Except.error e => Except.error e
                | Except.ok iInterface =>
                  match fetchIfNonZero env w hHubDevice ConnectionIndex iInterface
                      numLanguageIDs block offset stringDescNodeTail with
                  | Except.error e => Except.error e
                  | Except.ok t =>
                    GetAllStringDescriptors.walk env hHubDevice ConnectionIndex numLanguageIDs
                      block offset ConfigDesc descEnd fuel (commonDesc + bLength) t.1 t.2
            else
              GetAllStringDescriptors.walk env hHubDevice ConnectionIndex numLanguageIDs
                block offset ConfigDesc descEnd fuel (commonDesc + bLength)
                stringDescNodeTail w
        else Except.ok (stringDescNodeTail, w)
    else Except.ok (stringDescNodeTail, w)

/-- The read `node->StringDescriptor->bLength` on the node at handle `block`. -/
def readLanguageByte {σ : Type} (w : World σ) (block : Nat) : Except Fault Nat :=
  match w.node block with
  | none => Except.error Fault.outOfBounds
  | some node => readByte node.StringDescriptor 0

/-- The value of `(bLength - 2) / 2` stored in the `ULONG numLanguageIDs`: the subtraction
and the division are `int` arithmetic (division truncates toward zero) and the result is
converted to `ULONG`. -/
def numLanguageIDsOf (bLength : Nat) : Nat :=
  ((((bLength : Int) - 2).tdiv 2) % (ULONG_RANGE : Int)).toNat

/-- The device-descriptor part of `GetAllStringDescriptors`: the three conditional calls for
`iManufacturer`, `iProduct` and `iSerialNumber`. -/
def GetAllStringDescriptors.deviceStrings {σ : Type} (env : Env σ) (w : World σ)
    (hHubDevice ConnectionIndex : Nat) (DeviceDesc : USB_DEVICE_DESCRIPTOR)
    (numLanguageIDs block offset stringDescNodeTail : Nat) : Except Fault (Nat × World σ) :=
  match fetchIfNonZero env w hHubDevice ConnectionIndex DeviceDesc.iManufacturer
      numLanguageIDs block offset stringDescNodeTail with
  | Except.error e => Except.error e
  | Except.ok t1 =>
    match fetchIfNonZero env t1.2 hHubDevice ConnectionIndex DeviceDesc.iProduct
        numLanguageIDs block offset t1.1 with
    | Except.error e => Except.error e
    | Except.ok t2 =>
      fetchIfNonZero env t2.2 hHubDevice ConnectionIndex DeviceDesc.iSerialNumber
        numLanguageIDs block offset t2.1

/-- `GetAllStringDescriptors (hHubDevice, ConnectionIndex, DeviceDesc, ConfigDesc)`: string
descriptor 0 gives the language IDs; then the device strings, then the strings named by the
descriptors of the configuration.  The result is the head of the chain. -/
def GetAllStringDescriptors {σ : Type} (env : Env σ) (fuel : Nat) (w : World σ)
    (hHubDevice ConnectionIndex : Nat) (DeviceDesc : USB_DEVICE_DESCRIPTOR)
    (ConfigDesc : List Nat) : Except Fault (Option Nat × World σ) :=
  let r := GetStringDescriptor env w hHubDevice ConnectionIndex 0 0
  match r.1 with
  | none => Except.ok (none, r.2)
  | some supportedLanguagesString =>
    -- supportedLanguagesString->StringDescriptor->bLength
    match readLanguageByte r.2 supportedLanguagesString with
    | Except.error e => Except.error e
    | Except.ok bLength =>
      let numLanguageIDs := numLanguageIDsOf bLength
      -- languageIDs = &supportedLanguagesString->StringDescriptor->bString[0]
      match GetAllStringDescriptors.deviceStrings env r.2 hHubDevice ConnectionIndex DeviceDesc
          numLanguageIDs supportedLanguagesString 2 supportedLanguagesString with
      | Except.error e => Except.error e
      | Except.ok t =>
        match readWord ConfigDesc 2 with
        | Except.error e => Except.error e
        | Except.ok wTotalLength =>
          match GetAllStringDescriptors.walk env hHubDevice ConnectionIndex numLanguageIDs
              supportedLanguagesString 2 ConfigDesc wTotalLength fuel 0 t.1 t.2 with
          | Except.error e => Except.error e
          | Except.ok t2 => Except.ok (some supportedLanguagesString, t2.2)

/-! ## Notions used in the statements -/

/-- A descriptor of configuration or interface type whose declared length is not a fixed
size of its type. -/
def wrongLength (bDescriptorType bLength : Nat) : Prop :=
  (bDescriptorType = USB_CONFIGURATION_DESCRIPTOR_TYPE ∧
    bLength ≠ sizeof_USB_CONFIGURATION_DESCRIPTOR) ∨
  (bDescriptorType = USB_INTERFACE_DESCRIPTOR_TYPE ∧
    bLength ≠ sizeof_USB_INTERFACE_DESCRIPTOR ∧ bLength ≠ sizeof_USB_INTERFACE_DESCRIPTOR2)

instance (t l : Nat) : Decidable (wrongLength t l) := by
  unfold wrongLength; infer_instance

/-- The requests of a run, when the run yields a value. -/
def requestsOf {σ : Type} {α : Type} (r : Except Fault (α × World σ)) :
    Except Fault (List IoRequest) :=
  match r with
  | Except.ok x => Except.ok x.2.ioLog
  | Except.error e => Except.error e

/-! ## Reference notions for the string table -/

/-- What a chain node records apart from its link. -/
structure StringRecord where
  DescriptorIndex : Nat
  LanguageID : Nat
  StringDescriptor : List Nat
  deriving DecidableEq, Repr

/-- The record of a node. -/
def STRING_DESCRIPTOR_NODE.record (n : STRING_DESCRIPTOR_NODE) : StringRecord :=
  { DescriptorIndex := n.DescriptorIndex,
    LanguageID := n.LanguageID,
    StringDescriptor := n.StringDescriptor }

/-- The records of the chain that starts at `p`, read by following `Next` for at most
`steps` nodes; `none` when a link dangles or the chain is longer. -/
def chainFrom {σ : Type} (w : World σ) : Nat → Option Nat → Option (List StringRecord)
  | _, none => some []
  | 0, some _ => none
  | steps + 1, some p =>
    match w.node p with
    | none => none
    | some n =>
      match chainFrom w steps n.Next with
      | none => none
      | some rest => some (n.record :: rest)

/-- The string descriptor that a request left in the buffer: `bLength` bytes after the
request header. -/
def returnedDescriptor (buffer : List Nat) : List Nat :=
  (buffer.drop sizeof_USB_DESCRIPTOR_REQUEST).take (stringDesc_bLength buffer)

/-- The 16-bit codes that follow the 2-byte header of a language-list descriptor, in order:
`(length - 2) / 2` of them. -/
def languageIDsOf (sd : List Nat) : List Nat :=
  (List.range ((sd.length - 2) / 2)).map (fun i => wordAt sd (2 + 2 * i))

/-- Every index paired with every language, index by index. -/
def stringPairs (indices languages : List Nat) : List (Nat × Nat) :=
  indices.flatMap (fun i => languages.map (fun l => (i, l)))

/-- The strings obtained by fetching the given (index, language) pairs one after the other
from the world `w`; a fetch that fails contributes nothing.  The second component is the
world after the fetches. -/
def fetchStrings {σ : Type} (env : Env σ) (hHubDevice ConnectionIndex : Nat) :
    List (Nat × Nat) → World σ → List StringRecord × World σ
  | [], w => ([], w)
  | (index, language) :: rest, w =>
    let r := GetStringDescriptor env w hHubDevice ConnectionIndex index language
    match r.1 with
    | some _ =>
      ({ DescriptorIndex := index,
         LanguageID := language,
         StringDescriptor := returnedDescriptor
           (stringFetch env w hHubDevice ConnectionIndex index language).1.buffer } ::
        (fetchStrings env hHubDevice ConnectionIndex rest r.2).1,
       (fetchStrings env hHubDevice ConnectionIndex rest r.2).2)
    | none => fetchStrings env hHubDevice ConnectionIndex rest r.2

/-- The non-zero string indices of a device descriptor, in the order manufacturer, product,
serial number. -/
def deviceIndices (DeviceDesc : USB_DEVICE_DESCRIPTOR) : List Nat :=
  [DeviceDesc.iManufacturer, DeviceDesc.iProduct, DeviceDesc.iSerialNumber].filter
    (fun i => decide (i ≠ 0))

/-- The descriptor walk on its own: the non-zero `iConfiguration` and `iInterface` values
that the loop of `GetAllStringDescriptors` meets, in order, with the same bounds checks,
the same stop at a configuration or interface descriptor of a wrong length and the same
step budget. -/
def walkIndices (ConfigDesc : List Nat) (descEnd : Nat) : Nat → Nat → Except Fault (List Nat)
  | 0, _ => Except.error Fault.outOfFuel
  | fuel + 1, commonDesc =>
    if commonDesc + sizeof_USB_COMMON_DESCRIPTOR < descEnd then
      match readByte ConfigDesc commonDesc with
      | Except.error e => Except.error e
      | Except.ok bLength =>
        if commonDesc + bLength ≤ descEnd then
          match readByte ConfigDesc (commonDesc + 1) with
          | Except.error e => Except.error e
          | Except.ok bDescriptorType =>
            if bDescriptorType = USB_CONFIGURATION_DESCRIPTOR_TYPE then
              if bLength ≠ sizeof_USB_CONFIGURATION_DESCRIPTOR then Except.ok []
              else
                match readByte ConfigDesc (commonDesc + 6) with
                | Except.error e => Except.error e
                | Except.ok iConfiguration =>
                  match walkIndices ConfigDesc descEnd fuel (commonDesc + bLength) with
                  | Except.error e => Except.error e
                  | Except.ok rest =>
                    Except.ok (if iConfiguration ≠ 0 then iConfiguration :: rest else rest)
            else if bDescriptorType = USB_INTERFACE_DESCRIPTOR_TYPE then
              if bLength ≠ sizeof_USB_INTERFACE_DESCRIPTOR ∧
                  bLength ≠ sizeof_USB_INTERFACE_DESCRIPTOR2 then Except.ok []
              else
                match readByte ConfigDesc (commonDesc + 8) with
                | Except.error e => Except.error e
                | Except.ok iInterface =>
                  match walkIndices ConfigDesc descEnd fuel (commonDesc + bLength) with
                  | Except.error e => Except.error e
                  | Except.ok rest =>
                    Except.ok (if iInterface ≠ 0 then iInterface :: rest else rest)
            else walkIndices ConfigDesc descEnd fuel (commonDesc + bLength)
        else Except.ok []
    else Except.ok []

/-! ### A configuration buffer as a sequence of descriptors -/

/-- The bytes `d` are one descriptor: at least the common header, and the length byte
states the number of bytes. -/
def isDescriptor (d : List Nat) : Prop :=
  sizeof_USB_COMMON_DESCRIPTOR ≤ d.length ∧ d.length < 256 ∧ byteAt d 0 = d.length

instance (d : List Nat) : Decidable (isDescriptor d) := by
  unfold isDescriptor; infer_instance

/-- A descriptor of configuration type has the size of a configuration descriptor and one
of interface type has one of the two sizes of an interface descriptor. -/
def hasFixedSize (d : List Nat) : Bool :=
  if byteAt d 1 = USB_CONFIGURATION_DESCRIPTOR_TYPE then
    decide (d.length = sizeof_USB_CONFIGURATION_DESCRIPTOR)
  else if byteAt d 1 = USB_INTERFACE_DESCRIPTOR_TYPE then
    decide (d.length = sizeof_USB_INTERFACE_DESCRIPTOR ∨
      d.length = sizeof_USB_INTERFACE_DESCRIPTOR2)
  else true

/-- The string index that a descriptor names: `iConfiguration` of a configuration
descriptor, `iInterface` of an interface descriptor, 0 for every other type. -/
def stringIndexOf (d : List Nat) : Nat :=
  if byteAt d 1 = USB_CONFIGURATION_DESCRIPTOR_TYPE then byteAt d 6
  else if byteAt d 1 = USB_INTERFACE_DESCRIPTOR_TYPE then byteAt d 8
  else 0

/-- The non-zero string indices named by the descriptors of a configuration, in buffer
order, up to the first configuration or interface descriptor of a wrong length. -/
def configIndices (descriptors : List (List Nat)) : List Nat :=
  ((descriptors.takeWhile hasFixedSize).map stringIndexOf).filter (fun i => decide (i ≠ 0))

/-! ### The chain invariant -/

/-- The chain that starts at `p` consists of the nodes with the given handles and
records, and ends with `NULL`. -/
def IsChain {σ : Type} (w : World σ) : Option Nat → List (Nat × StringRecord) → Prop
  | p, [] => p = none
  | p, e :: rest =>
    p = some e.1 ∧ ∃ n, w.node e.1 = some n ∧ n.record = e.2 ∧ IsChain w n.Next rest

/-- State of the chain during `GetAllStringDescriptors`: the nodes `L` are linked from the
head to `tail`, their handles differ and were all allocated before now. -/
structure ChainInv {σ : Type} (w : World σ) (head : Nat) (L : List (Nat × StringRecord))
    (tail : Nat) : Prop where
  chain : IsChain w (some head) L
  last : (L.getLast?).map Prod.fst = some tail
  old : ∀ e ∈ L, e.1 < w.heapLog.length
  nodup : (L.map Prod.fst).Nodup

/-- The `count` consecutive 16-bit codes of `sd` that start at byte `offset`. -/
def codesFrom (sd : List Nat) : Nat → Nat → List Nat
  | 0, _ => []
  | count + 1, offset => wordAt sd offset :: codesFrom sd count (offset + 2)

/-- Two worlds that differ in the node store at most. -/
def SameOutside {σ : Type} (w v : World σ) : Prop :=
  w.ext = v.ext ∧ w.heapLog = v.heapLog ∧ w.ioLog = v.ioLog

/-- The run `res` of a part of `GetAllStringDescriptors`, started in the world `w` with
the chain `(head, r0) :: L`, yields a value; it appended to the chain the nodes of the
strings that `fetchStrings` obtains for `pairs`, and apart from the node store it left the
world as `fetchStrings` does. -/
def Fetched {σ : Type} (env : Env σ) (hHubDevice ConnectionIndex head : Nat)
    (r0 : StringRecord) (w : World σ) (L : List (Nat × StringRecord))
    (pairs : List (Nat × Nat)) (res : Except Fault (Nat × World σ)) : Prop :=
  ∃ tail1 w1 Lnew,
    res = Except.ok (tail1, w1) ∧
    ChainInv w1 head ((head, r0) :: (L ++ Lnew)) tail1 ∧
    (fetchStrings env hHubDevice ConnectionIndex pairs w).1 = Lnew.map Prod.snd ∧
    SameOutside (fetchStrings env hHubDevice ConnectionIndex pairs w).2 w1

/-- The run `res` of the loop of `GetAllStringDescriptors` agrees with the descriptor walk
`indices`: it stops for the same reason, or it fetches the strings of the indices found. -/
def WalkAgrees {σ : Type} (env : Env σ) (hHubDevice ConnectionIndex head : Nat)
    (r0 : StringRecord) (numLanguageIDs : Nat) (w : World σ) (L : List (Nat × StringRecord))
    (indices : Except Fault (List Nat)) (res : Except Fault (Nat × World σ)) : Prop :=
  match indices with
  | Except.error e => res = Except.error e
  | Except.ok idxs =>
    Fetched env hHubDevice ConnectionIndex head r0 w L
      (stringPairs idxs (codesFrom r0.StringDescriptor numLanguageIDs 2)) res

/-- All the string indices that `GetAllStringDescriptors` meets after the language list:
those of the device descriptor, then those of the descriptor walk over `ConfigDesc` up to
`wTotalLength`. -/
def allIndices (fuel : Nat) (DeviceDesc : USB_DEVICE_DESCRIPTOR) (ConfigDesc : List Nat) :
    Except Fault (List Nat) :=
  match readWord ConfigDesc 2 with
  | Except.error e => Except.error e
  | Except.ok wTotalLength =>
    match walkIndices ConfigDesc wTotalLength fuel 0 with
    | Except.error e => Except.error e
    | Except.ok idxs => Except.ok (deviceIndices DeviceDesc ++ idxs)

/-- The language-list descriptor that the index-0 request of `GetAllStringDescriptors`
returns in the world `w`. -/
def languageDescriptor {σ : Type} (env : Env σ) (w : World σ)
    (hHubDevice ConnectionIndex : Nat) : List Nat :=
  returnedDescriptor (stringFetch env w hHubDevice ConnectionIndex 0 0).1.buffer

/-- The run `res` of `GetAllStringDescriptors` from the world `w`, whose index-0 fetch gave
the node `head`, agrees with `indices`: it stops for the same reason, or it returns `head`
and the chain from `head` consists of the language list followed by the strings that
`fetchStrings` obtains for every index in every language. -/
def TableAgrees {σ : Type} (env : Env σ) (w : World σ) (hHubDevice ConnectionIndex head : Nat)
    (indices : Except Fault (List Nat)) (res : Except Fault (Option Nat × World σ)) : Prop :=
  match indices with
  | Except.error e => res = Except.error e
  | Except.ok idxs =>
    ∃ (wf : World σ) (L : List (Nat × StringRecord)) (tail : Nat),
      res = Except.ok (some head, wf) ∧
      ChainInv wf head
        ((head, { DescriptorIndex := 0, LanguageID := 0,
                  StringDescriptor := languageDescriptor env w hHubDevice ConnectionIndex })
          :: L) tail ∧
      (fetchStrings env hHubDevice ConnectionIndex
        (stringPairs idxs
          (languageIDsOf (languageDescriptor env w hHubDevice ConnectionIndex)))
        (GetStringDescriptor env w hHubDevice ConnectionIndex 0 0).2).1 = L.map Prod.snd ∧
      SameOutside (fetchStrings env hHubDevice ConnectionIndex
        (stringPairs idxs
          (languageIDsOf (languageDescriptor env w hHubDevice ConnectionIndex)))
        (GetStringDescriptor env w hHubDevice ConnectionIndex 0 0).2).2 wf

/-! ## Connection information, hub records and tree nodes -/

/-- Values of the enumeration `USB_CONNECTION_STATUS`, in declaration order: the indices of
the table `ConnectionStatuses`. -/
inductive USB_CONNECTION_STATUS where
  | NoDeviceConnected
  | DeviceConnected
  | DeviceFailedEnumeration
  | DeviceGeneralFailure
  | DeviceCausedOvercurrent
  | DeviceNotEnoughPower
  deriving DecidableEq, Repr

/-- Value `UsbLowSpeed` of the enumeration `USB_DEVICE_SPEED`. -/
def UsbLowSpeed : Nat := 0

/-- Value `UsbFullSpeed` of the enumeration `USB_DEVICE_SPEED`. -/
def UsbFullSpeed : Nat := 1

/-- One entry of a pipe list (`USB_PIPE_INFO`): the endpoint descriptor bytes and the
schedule offset. -/
structure USB_PIPE_INFO where
  EndpointDescriptor : List Nat
  ScheduleOffset : Nat
  deriving DecidableEq, Repr

/-- Number of pipe entries that the connection information buffers have room for. -/
def PIPE_LIST_ENTRIES : Nat := 30

/-- Value of `sizeof(USB_PIPE_INFO)`. -/
def sizeof_USB_PIPE_INFO : Nat := 11

/-- Value of `sizeof(USB_NODE_CONNECTION_INFORMATION)`. -/
def sizeof_USB_NODE_CONNECTION_INFORMATION : Nat := 35

/-- Value of `sizeof(USB_NODE_CONNECTION_INFORMATION_EX)`. -/
def sizeof_USB_NODE_CONNECTION_INFORMATION_EX : Nat := 35

/-- A pipe entry of a zero-filled buffer. -/
def zeroPipe : USB_PIPE_INFO :=
  { EndpointDescriptor := List.replicate 7 0, ScheduleOffset := 0 }

/-- The pipe list as a zero-filled buffer with room for thirty entries holds it. -/
def pipeList30 (l : List USB_PIPE_INFO) : List USB_PIPE_INFO :=
  (l ++ List.replicate PIPE_LIST_ENTRIES zeroPipe).take PIPE_LIST_ENTRIES

/-- The record `USB_NODE_CONNECTION_INFORMATION` of the legacy query. -/
structure USB_NODE_CONNECTION_INFORMATION where
  ConnectionIndex : Nat
  DeviceDescriptor : USB_DEVICE_DESCRIPTOR
  CurrentConfigurationValue : Nat
  LowSpeed : Bool
  DeviceIsHub : Bool
  DeviceAddress : Nat
  NumberOfOpenPipes : Nat
  ConnectionStatus : USB_CONNECTION_STATUS
  PipeList : List USB_PIPE_INFO
  deriving DecidableEq, Repr

/-- The record `USB_NODE_CONNECTION_INFORMATION_EX` of the extended query. -/
structure USB_NODE_CONNECTION_INFORMATION_EX where
  ConnectionIndex : Nat
  DeviceDescriptor : USB_DEVICE_DESCRIPTOR
  CurrentConfigurationValue : Nat
  Speed : Nat
  DeviceIsHub : Bool
  DeviceAddress : Nat
  NumberOfOpenPipes : Nat
  ConnectionStatus : USB_CONNECTION_STATUS
  PipeList : List USB_PIPE_INFO
  deriving DecidableEq, Repr

/-- The fields of `USB_NODE_INFORMATION` that the enumeration reads: the node type and
`u.HubInformation.HubDescriptor.bNumberOfPorts`. -/
structure USB_NODE_INFORMATION where
  NodeType : Nat
  bNumberOfPorts : Nat
  deriving DecidableEq, Repr

/-- Value of `sizeof(USB_NODE_INFORMATION)`. -/
def sizeof_USB_NODE_INFORMATION : Nat := 76

/-- Value of `sizeof(USB_HUB_CAPABILITIES)`. -/
def sizeof_USB_HUB_CAPABILITIES : Nat := 4

/-- Value of `sizeof(USB_HUB_CAPABILITIES_EX)`. -/
def sizeof_USB_HUB_CAPABILITIES_EX : Nat := 4

/-- Value of `sizeof(TCHAR)` in the `_UNICODE` build. -/
def sizeof_TCHAR : Nat := 2

/-- Number of values of a `UCHAR`. -/
def UCHAR_RANGE : Nat := 256

/-- A heap block together with the typed value stored in it. -/
structure Block (α : Type) where
  handle : Nat
  value : α
  deriving DecidableEq, Repr

/-- Modelled from the spec: the record `USBHOSTCONTROLLERINFO` of `usbview.h`, which is not
part of the source file: the driver key and the four PCI identifiers.  `self` is the block
that holds the record. -/
structure USBHOSTCONTROLLERINFO where
  self : Nat
  DriverKey : Option (Block String)
  VendorID : Nat
  DeviceID : Nat
  SubSysID : Nat
  Revision : Nat
  deriving DecidableEq, Repr

/-- Modelled from the spec: the record `USBROOTHUBINFO` of `usbview.h`, which is not part
of the source file. -/
structure USBROOTHUBINFO where
  self : Nat
  HubInfo : Block USB_NODE_INFORMATION
  HubName : Block String
  HubCaps : Option (Block Nat)
  HubCapsEx : Option (Block Nat)
  deriving DecidableEq, Repr

/-- Modelled from the spec: the record `USBEXTERNALHUBINFO` of `usbview.h`, which is not
part of the source file. -/
structure USBEXTERNALHUBINFO where
  self : Nat
  HubInfo : Block USB_NODE_INFORMATION
  HubName : Block String
  HubCaps : Option (Block Nat)
  HubCapsEx : Option (Block Nat)
  ConnectionInfo : Block USB_NODE_CONNECTION_INFORMATION_EX
  ConfigDesc : Option HeapBuffer
  StringDescs : Option Nat
  deriving DecidableEq, Repr

/-- Modelled from the spec: the record `USBDEVICEINFO` of `usbview.h`, which is not part of
the source file. -/
structure USBDEVICEINFO where
  self : Nat
  ConnectionInfo : Block USB_NODE_CONNECTION_INFORMATION_EX
  ConfigDesc : Option HeapBuffer
  StringDescs : Option Nat
  deriving DecidableEq, Repr

/-- Modelled from the spec: values of `sizeof` for the four node records of `usbview.h`,
one word for the type tag and one for each pointer or identifier. -/
def sizeof_USBHOSTCONTROLLERINFO : Nat := 32

/-- Modelled from the spec: value of `sizeof(USBROOTHUBINFO)`. -/
def sizeof_USBROOTHUBINFO : Nat := 20

/-- Modelled from the spec: value of `sizeof(USBEXTERNALHUBINFO)`. -/
def sizeof_USBEXTERNALHUBINFO : Nat := 32

/-- Modelled from the spec: value of `sizeof(USBDEVICEINFO)`. -/
def sizeof_USBDEVICEINFO : Nat := 16

/-- The reference value (`LPARAM`) of a tree item: the node record it points to, tagged by
its `DeviceInfoType`. -/
inductive NodeInfo where
  | HostControllerInfo (info : USBHOSTCONTROLLERINFO)
  | RootHubInfo (info : USBROOTHUBINFO)
  | ExternalHubInfo (info : USBEXTERNALHUBINFO)
  | DeviceInfo (info : USBDEVICEINFO)
  deriving DecidableEq, Repr

/-- The icons that the enumeration passes to `AddLeaf`. -/
inductive Icon where
  | GoodDeviceIcon
  | BadDeviceIcon
  | NoDeviceIcon
  | HubIcon
  deriving DecidableEq, Repr

/-- One item of the tree view, as `AddLeaf` was asked to add it. -/
structure TreeItem where
  hItem : Nat
  hTreeParent : Nat
  lParam : NodeInfo
  icon : Icon
  deriving DecidableEq, Repr

/-- The four name requests, which share the shape "ask for the length, then for the name". -/
inductive NameRequest where
  | rootHubName
  | nodeConnectionName
  | nodeConnectionDriverKeyName
  | hcdDriverKeyName
  deriving DecidableEq, Repr

/-- Value of `sizeof` for the fixed-size record of each name request. -/
def NameRequest.sizeof : NameRequest → Nat
  | NameRequest.rootHubName => 6
  | NameRequest.nodeConnectionName => 10
  | NameRequest.nodeConnectionDriverKeyName => 10
  | NameRequest.hcdDriverKeyName => 6

/-- Calls to the operating system other than descriptor requests, with what they
returned. -/
inductive OsCall where
  | connectionInformationEx (hHubDevice index : Nat)
      (reply : Option USB_NODE_CONNECTION_INFORMATION_EX)
  | connectionInformation (hHubDevice index : Nat)
      (reply : Option USB_NODE_CONNECTION_INFORMATION)
  | hubCapabilitiesEx (hHubDevice : Nat) (success : Bool)
  | hubCapabilities (hHubDevice : Nat) (success : Bool)
  | nodeInformation (hHubDevice : Nat) (success : Bool)
  | nameLength (request : NameRequest) (handle index : Nat) (success : Bool)
  | name (request : NameRequest) (handle index nBytes : Nat) (success : Bool)
  | createFile (lpFileName : String) (handle : Option Nat)
  | closeHandle (handle : Nat)
  deriving DecidableEq, Repr

/-- The collaborators of the enumeration: the driver and heap of `Env`, and the replies of
the hub driver, of the file system, of the device installer and of the tree view, each a
transition function on the state `σ`.  A reply `none` is a call that failed. -/
structure Host (σ : Type) extends Env σ where
  connectionInformationEx : σ → Nat → Nat → Option USB_NODE_CONNECTION_INFORMATION_EX × σ
  connectionInformation : σ → Nat → Nat → Option USB_NODE_CONNECTION_INFORMATION × σ
  hubCapabilitiesEx : σ → Nat → Option Nat × σ
  hubCapabilities : σ → Nat → Option Nat × σ
  nodeInformation : σ → Nat → Option USB_NODE_INFORMATION × σ
  nameLength : σ → NameRequest → Nat → Nat → Option Nat × σ
  name : σ → NameRequest → Nat → Nat → Nat → Option String × σ
  createFile : σ → String → Option Nat × σ
  closeHandle : σ → Nat → σ
  addLeaf : σ → Nat → Option Nat × σ
  driverNameToDeviceDesc : σ → String → Bool → Option String × σ
  sscanf : String → List Nat
  uninitialized : Nat → Nat
  setupDiGetClassDevs : σ → Option Nat × σ
  setupDiEnumDeviceInterfaces : σ → Nat → Nat → Bool × σ
  setupDiGetDeviceInterfaceDetail : σ → Nat → Nat → Nat → (Nat × String) × σ
  setupDiDestroyDeviceInfoList : σ → Nat → σ

/-- State of an enumeration pass: the program state of the descriptor routines, the calls
to the operating system so far, the items added to the tree view so far, the list
`EnumeratedHCListHead`, the two counters and the flag `gDoConfigDesc`. -/
structure Session (σ : Type) where
  world : World σ
  calls : List OsCall
  tree : List TreeItem
  EnumeratedHCList : List USBHOSTCONTROLLERINFO
  TotalDevicesConnected : Nat
  TotalHubs : Nat
  gDoConfigDesc : Bool
  deriving DecidableEq

/-- A call to a collaborator: its reply and the session with the collaborator's new
state. -/
def Session.ask {σ α : Type} (s : Session σ) (f : σ → α × σ) : α × Session σ :=
  let r := f s.world.ext
  (r.1, { s with world := { s.world with ext := r.2 } })

/-- The session with one more call in its log. -/
def Session.log {σ : Type} (s : Session σ) (c : OsCall) : Session σ :=
  { s with calls := s.calls ++ [c] }

/-- The macro `ALLOC` on the heap of the session. -/
def Session.alloc {σ : Type} (host : Host σ) (s : Session σ) (dwBytes : Nat) :
    Option Nat × Session σ :=
  let a := ALLOC host.toEnv s.world dwBytes
  (a.1, { s with world := a.2 })

/-- The macro `FREE` on the heap of the session. -/
def Session.free {σ : Type} (s : Session σ) (p : Nat) : Session σ :=
  { s with world := FREE s.world p }

/-- The call `CreateFile(lpFileName, GENERIC_WRITE, FILE_SHARE_WRITE, NULL, OPEN_EXISTING,
0, NULL)`; `none` is `INVALID_HANDLE_VALUE`. -/
def CreateFile {σ : Type} (host : Host σ) (s : Session σ) (lpFileName : String) :
    Option Nat × Session σ :=
  let r := s.ask (fun e => host.createFile e lpFileName)
  (r.1, r.2.log (OsCall.createFile lpFileName r.1))

/-- The call `CloseHandle(hObject)`. -/
def CloseHandle {σ : Type} (host : Host σ) (s : Session σ) (hObject : Nat) : Session σ :=
  (s.ask (fun e => ((), host.closeHandle e hObject))).2.log (OsCall.closeHandle hObject)

/-- Modelled from the spec: `AddLeaf` of the tree view module, which is not part of the
source file.  It adds an item with the given reference value and icon under the parent and
returns its handle, or `NULL`. -/
def AddLeaf {σ : Type} (host : Host σ) (s : Session σ) (hTreeParent : Nat) (lParam : NodeInfo)
    (icon : Icon) : Option Nat × Session σ :=
  let r := s.ask (fun e => host.addLeaf e hTreeParent)
  match r.1 with
  | none => (none, r.2)
  | some hItem =>
    (some hItem, { r.2 with tree := r.2.tree ++ [⟨hItem, hTreeParent, lParam, icon⟩] })

/-- Modelled from the spec: `DriverNameToDeviceDesc` of the device node module, which is
not part of the source file.  It returns the device description (or the device id) for a
driver key name in a buffer that the caller does not own, or `NULL`. -/
def DriverNameToDeviceDesc {σ : Type} (host : Host σ) (s : Session σ) (DriverName : String)
    (DeviceId : Bool) : Option String × Session σ :=
  s.ask (fun e => host.driverNameToDeviceDesc e DriverName DeviceId)


/-! ## The requests to the hub driver -/

/-- The call `DeviceIoControl(hHubDevice, IOCTL_USB_GET_NODE_CONNECTION_INFORMATION_EX, ...)`
for the port `index`, with a buffer for thirty pipes: the record in the buffer after a
successful call. -/
def IOCTL_USB_GET_NODE_CONNECTION_INFORMATION_EX {σ : Type} (host : Host σ) (s : Session σ)
    (hHubDevice index : Nat) : Option USB_NODE_CONNECTION_INFORMATION_EX × Session σ :=
  let r := s.ask (fun e => host.connectionInformationEx e hHubDevice index)
  let reply := r.1.map (fun c => { c with PipeList := pipeList30 c.PipeList })
  (reply, r.2.log (OsCall.connectionInformationEx hHubDevice index reply))

/-- The call `DeviceIoControl(hHubDevice, IOCTL_USB_GET_NODE_CONNECTION_INFORMATION, ...)`
for the port `index`, with a buffer for thirty pipes. -/
def IOCTL_USB_GET_NODE_CONNECTION_INFORMATION {σ : Type} (host : Host σ) (s : Session σ)
    (hHubDevice index : Nat) : Option USB_NODE_CONNECTION_INFORMATION × Session σ :=
  let r := s.ask (fun e => host.connectionInformation e hHubDevice index)
  let reply := r.1.map (fun c => { c with PipeList := pipeList30 c.PipeList })
  (reply, r.2.log (OsCall.connectionInformation hHubDevice index reply))

/-- The call `DeviceIoControl(hHubDevice, IOCTL_USB_GET_HUB_CAPABILITIES_EX, ...)`. -/
def IOCTL_USB_GET_HUB_CAPABILITIES_EX {σ : Type} (host : Host σ) (s : Session σ)
    (hHubDevice : Nat) : Option Nat × Session σ :=
  let r := s.ask (fun e => host.hubCapabilitiesEx e hHubDevice)
  (r.1, r.2.log (OsCall.hubCapabilitiesEx hHubDevice r.1.isSome))

/-- The call `DeviceIoControl(hHubDevice, IOCTL_USB_GET_HUB_CAPABILITIES, ...)`. -/
def IOCTL_USB_GET_HUB_CAPABILITIES {σ : Type} (host : Host σ) (s : Session σ)
    (hHubDevice : Nat) : Option Nat × Session σ :=
  let r := s.ask (fun e => host.hubCapabilities e hHubDevice)
  (r.1, r.2.log (OsCall.hubCapabilities hHubDevice r.1.isSome))

/-- The call `DeviceIoControl(hHubDevice, IOCTL_USB_GET_NODE_INFORMATION, ...)`. -/
def IOCTL_USB_GET_NODE_INFORMATION {σ : Type} (host : Host σ) (s : Session σ)
    (hHubDevice : Nat) : Option USB_NODE_INFORMATION × Session σ :=
  let r := s.ask (fun e => host.nodeInformation e hHubDevice)
  (r.1, r.2.log (OsCall.nodeInformation hHubDevice r.1.isSome))

/-- The first call of a name request, into the fixed-size record on the stack: the field
`ActualLength` after a successful call. -/
def nameLengthRequest {σ : Type} (host : Host σ) (s : Session σ) (request : NameRequest)
    (handle index : Nat) : Option Nat × Session σ :=
  let r := s.ask (fun e => host.nameLength e request handle index)
  (r.1, r.2.log (OsCall.nameLength request handle index r.1.isSome))

/-- The second call of a name request, into a block of `nBytes` bytes: the wide string in
the block after a successful call. -/
def nameRequest {σ : Type} (host : Host σ) (s : Session σ) (request : NameRequest)
    (handle index nBytes : Nat) : Option String × Session σ :=
  let r := s.ask (fun e => host.name e request handle index nBytes)
  (r.1, r.2.log (OsCall.name request handle index nBytes r.1.isSome))

/-! ## The name routines -/

/-- `WideStrToMultiStr` (lines 1104-1171) in the `_UNICODE` build: a copy of the string in
a new block, or `NULL`. -/
def WideStrToMultiStr {σ : Type} (host : Host σ) (s : Session σ) (WideStr : String) :
    Option (Block String) × Session σ :=
  let nChars := (WideStr.length + 1) % ULONG_RANGE
  let a := s.alloc host (nChars * sizeof_TCHAR)
  match a.1 with
  | none => (none, a.2)
  | some RetStr => (some ⟨RetStr, WideStr⟩, a.2)

/-- The common body of `GetRootHubName`, `GetExternalHubName`, `GetDriverKeyName` and
`GetHCDDriverKeyName` (lines 1184-1560): ask for the length, allocate, ask for the name,
convert it and release the wide copy.  `GetRootHubName` is the one that does not compare
the length with the size of the fixed record. -/
def getName {σ : Type} (host : Host σ) (s : Session σ) (request : NameRequest)
    (handle ConnectionIndex : Nat) : Option (Block String) × Session σ :=
  let q := nameLengthRequest host s request handle ConnectionIndex
  match q.1 with
  | none => (none, q.2)
  | some ActualLength =>
    let nBytes := ActualLength % ULONG_RANGE
    if request ≠ NameRequest.rootHubName ∧ nBytes ≤ request.sizeof then (none, q.2)
    else
      let a := q.2.alloc host nBytes
      match a.1 with
      | none => (none, a.2)
      | some nameW =>
        let f := nameRequest host a.2 request handle ConnectionIndex nBytes
        match f.1 with
        | none => (none, f.2.free nameW)
        | some name =>
          let c := WideStrToMultiStr host f.2 name
          (c.1, c.2.free nameW)

/-- `GetRootHubName` (lines 1184-1266). -/
def GetRootHubName {σ : Type} (host : Host σ) (s : Session σ) (HostController : Nat) :
    Option (Block String) × Session σ :=
  getName host s NameRequest.rootHubName HostController 0

/-- `GetExternalHubName` (lines 1275-1368). -/
def GetExternalHubName {σ : Type} (host : Host σ) (s : Session σ) (Hub ConnectionIndex : Nat) :
    Option (Block String) × Session σ :=
  getName host s NameRequest.nodeConnectionName Hub ConnectionIndex

/-- `GetDriverKeyName` (lines 1377-1471). -/
def GetDriverKeyName {σ : Type} (host : Host σ) (s : Session σ) (Hub ConnectionIndex : Nat) :
    Option (Block String) × Session σ :=
  getName host s NameRequest.nodeConnectionDriverKeyName Hub ConnectionIndex

/-- `GetHCDDriverKeyName` (lines 1480-1560). -/
def GetHCDDriverKeyName {σ : Type} (host : Host σ) (s : Session σ) (HCD : Nat) :
    Option (Block String) × Session σ :=
  getName host s NameRequest.hcdDriverKeyName HCD 0

/-! ## EnumerateHubPorts -/

/-- How the connection information of one port was looked up. -/
inductive PortQuery where
  | noMemory
  | failed
  | obtained (connectionInfoEx : Block USB_NODE_CONNECTION_INFORMATION_EX)
  deriving DecidableEq, Repr

/-- How an iteration of the port loop ends: with the next index, or with `break`. -/
inductive Flow where
  | next
  | leave
  deriving DecidableEq, Repr

/-- The copy of a legacy record into the extended record (lines 906-932). -/
def EnumerateHubPorts.copy (connectionInfo : USB_NODE_CONNECTION_INFORMATION) :
    USB_NODE_CONNECTION_INFORMATION_EX :=
  { ConnectionIndex := connectionInfo.ConnectionIndex,
    DeviceDescriptor := connectionInfo.DeviceDescriptor,
    CurrentConfigurationValue := connectionInfo.CurrentConfigurationValue,
    Speed := if connectionInfo.LowSpeed then UsbLowSpeed else UsbFullSpeed,
    DeviceIsHub := connectionInfo.DeviceIsHub,
    DeviceAddress := connectionInfo.DeviceAddress,
    NumberOfOpenPipes := connectionInfo.NumberOfOpenPipes,
    ConnectionStatus := connectionInfo.ConnectionStatus,
    PipeList := connectionInfo.PipeList.take PIPE_LIST_ENTRIES }

/-- Lines 843-935 of `EnumerateHubPorts`: the connection information of the port `index`,
by the extended query and, when that fails, by the legacy query.  The block for the legacy
record is used without a test for `NULL`. -/
def EnumerateHubPorts.connectionInfo {σ : Type} (host : Host σ) (s : Session σ)
    (hHubDevice index : Nat) : Except Fault (PortQuery × Session σ) :=
  let a := s.alloc host
    (sizeof_USB_NODE_CONNECTION_INFORMATION_EX + sizeof_USB_PIPE_INFO * PIPE_LIST_ENTRIES)
  match a.1 with
  | none => Except.ok (PortQuery.noMemory, a.2)
  | some connectionInfoEx =>
    let q := IOCTL_USB_GET_NODE_CONNECTION_INFORMATION_EX host a.2 hHubDevice index
    match q.1 with
    | some r => Except.ok (PortQuery.obtained ⟨connectionInfoEx, r⟩, q.2)
    | none =>
      let b := q.2.alloc host
        (sizeof_USB_NODE_CONNECTION_INFORMATION + sizeof_USB_PIPE_INFO * PIPE_LIST_ENTRIES)
      match b.1 with
      | none => Except.error Fault.nullDereference
      | some connectionInfo =>
        let l := IOCTL_USB_GET_NODE_CONNECTION_INFORMATION host b.2 hHubDevice index
        match l.1 with
        | none => Except.ok (PortQuery.failed, (l.2.free connectionInfo).free connectionInfoEx)
        | some r =>
          Except.ok (PortQuery.obtained ⟨connectionInfoEx, EnumerateHubPorts.copy r⟩,
            l.2.free connectionInfo)

/-- Lines 937-947: the two counters, each a 32-bit variable. -/
def EnumerateHubPorts.count {σ : Type} (s : Session σ)
    (connectionInfoEx : USB_NODE_CONNECTION_INFORMATION_EX) : Session σ :=
  let s1 :=
    if connectionInfoEx.ConnectionStatus = USB_CONNECTION_STATUS.DeviceConnected then
      { s with TotalDevicesConnected := (s.TotalDevicesConnected + 1) % ULONG_RANGE }
    else s
  if connectionInfoEx.DeviceIsHub then
    { s1 with TotalHubs := (s1.TotalHubs + 1) % ULONG_RANGE }
  else s1

/-- Lines 949-963: the device description of the device on the port, if any. -/
def EnumerateHubPorts.deviceDesc {σ : Type} (host : Host σ) (s : Session σ)
    (hHubDevice index : Nat) (connectionInfoEx : USB_NODE_CONNECTION_INFORMATION_EX) :
    Option String × Session σ :=
  if connectionInfoEx.ConnectionStatus ≠ USB_CONNECTION_STATUS.NoDeviceConnected then
    let k := GetDriverKeyName host s hHubDevice index
    match k.1 with
    | none => (none, k.2)
    | some driverKeyName =>
      let d := DriverNameToDeviceDesc host k.2 driverKeyName.value false
      (d.1, d.2.free driverKeyName.handle)
  else (none, s)

/-- Lines 965-978: the configuration descriptor of the device on the port. -/
def EnumerateHubPorts.configDesc {σ : Type} (host : Host σ) (s : Session σ)
    (hHubDevice index : Nat) (connectionInfoEx : USB_NODE_CONNECTION_INFORMATION_EX) :
    Option HeapBuffer × Session σ :=
  if s.gDoConfigDesc = true ∧
      connectionInfoEx.ConnectionStatus = USB_CONNECTION_STATUS.DeviceConnected then
    let c := GetConfigDescriptor host.toEnv s.world hHubDevice index 0
    (c.1, { s with world := c.2 })
  else (none, s)

/-- Lines 980-993: the string descriptors of the device on the port; `configDesc + 1` is
the buffer after the request header. -/
def EnumerateHubPorts.stringDescs {σ : Type} (host : Host σ) (fuel : Nat) (s : Session σ)
    (hHubDevice index : Nat) (connectionInfoEx : USB_NODE_CONNECTION_INFORMATION_EX)
    (configDesc : Option HeapBuffer) : Except Fault (Option Nat × Session σ) :=
  match configDesc with
  | none => Except.ok (none, s)
  | some c =>
    match AreThereStringDescriptors fuel connectionInfoEx.DeviceDescriptor
        (c.bytes.drop sizeof_USB_DESCRIPTOR_REQUEST) with
    | Except.error e => Except.error e
    | Except.ok false => Except.ok (none, s)
    | Except.ok true =>
      match GetAllStringDescriptors host.toEnv fuel s.world hHubDevice index
          connectionInfoEx.DeviceDescriptor (c.bytes.drop sizeof_USB_DESCRIPTOR_REQUEST) with
      | Except.error e => Except.error e
      | Except.ok r => Except.ok (r.1, { s with world := r.2 })

/-- The arguments of a call of `EnumerateHub`. -/
structure HubArguments where
  hTreeParent : Nat
  HubName : Block String
  ConnectionInfo : Option (Block USB_NODE_CONNECTION_INFORMATION_EX)
  ConfigDesc : Option HeapBuffer
  StringDescs : Option Nat
  DeviceDesc : Option String
  deriving DecidableEq, Repr

/-- Lines 1024-1035: the loop that releases a chain of string descriptor nodes. -/
def EnumerateHubPorts.freeStringDescs {σ : Type} :
    Nat → Session σ → Nat → Except Fault (Session σ)
  | 0, _, _ => Except.error Fault.outOfFuel
  | fuel + 1, s, stringDescs =>
    match s.world.node stringDescs with
    | none => Except.error Fault.outOfBounds
    | some n =>
      match n.Next with
      | none => Except.ok (s.free stringDescs)
      | some Next => EnumerateHubPorts.freeStringDescs fuel (s.free stringDescs) Next

/-- The session after `FREE(p)` when `p` is not `NULL`. -/
def Session.freeIf {σ : Type} (s : Session σ) (p : Option Nat) : Session σ :=
  match p with
  | none => s
  | some p => s.free p

/-- Lines 995-1038: the port reports a hub.  `EnumerateHub` is the routine that is called
for it. -/
def EnumerateHubPorts.hub {σ : Type} (host : Host σ)
    (EnumerateHub : HubArguments → Session σ → Except Fault (Bool × Session σ))
    (fuel : Nat) (s : Session σ) (hTreeParent hHubDevice index : Nat)
    (connectionInfoEx : Block USB_NODE_CONNECTION_INFORMATION_EX)
    (configDesc : Option HeapBuffer) (stringDescs : Option Nat) (deviceDesc : Option String) :
    Except Fault (Session σ) :=
  let n := GetExternalHubName host s hHubDevice index
  match n.1 with
  | none => Except.ok n.2
  | some extHubName =>
    match EnumerateHub
        { hTreeParent := hTreeParent, HubName := extHubName,
          ConnectionInfo := some connectionInfoEx, ConfigDesc := configDesc,
          StringDescs := stringDescs, DeviceDesc := deviceDesc } n.2 with
    | Except.error e => Except.error e
    | Except.ok r =>
      if r.1 then Except.ok r.2
      else
        let s1 := ((r.2.free extHubName.handle).free connectionInfoEx.handle).freeIf
          (configDesc.map (fun c => c.handle))
        match stringDescs with
        | none => Except.ok s1
        | some head => EnumerateHubPorts.freeStringDescs fuel s1 head

/-- The icon of a device node (lines 1076-1087). -/
def EnumerateHubPorts.icon (connectionInfoEx : USB_NODE_CONNECTION_INFORMATION_EX) : Icon :=
  if connectionInfoEx.ConnectionStatus = USB_CONNECTION_STATUS.NoDeviceConnected then
    Icon.NoDeviceIcon
  else if connectionInfoEx.CurrentConfigurationValue ≠ 0 then Icon.GoodDeviceIcon
  else Icon.BadDeviceIcon

/-- Lines 1039-1093: the port reports no hub.  The text of the label is not part of the
embedding. -/
def EnumerateHubPorts.device {σ : Type} (host : Host σ) (s : Session σ) (hTreeParent : Nat)
    (connectionInfoEx : Block USB_NODE_CONNECTION_INFORMATION_EX)
    (configDesc : Option HeapBuffer) (stringDescs : Option Nat) : Flow × Session σ :=
  let a := s.alloc host sizeof_USBDEVICEINFO
  match a.1 with
  | none =>
    (Flow.leave,
      (a.2.freeIf (configDesc.map (fun c => c.handle))).free connectionInfoEx.handle)
  | some info =>
    (Flow.next,
      (AddLeaf host a.2 hTreeParent
        (NodeInfo.DeviceInfo
          { self := info, ConnectionInfo := connectionInfoEx, ConfigDesc := configDesc,
            StringDescs := stringDescs })
        (EnumerateHubPorts.icon connectionInfoEx.value)).2)

/-- Lines 937-1093: what an iteration does with the connection information of the port. -/
def EnumerateHubPorts.port {σ : Type} (host : Host σ)
    (EnumerateHub : HubArguments → Session σ → Except Fault (Bool × Session σ))
    (fuel : Nat) (s : Session σ) (hTreeParent hHubDevice index : Nat)
    (connectionInfoEx : Block USB_NODE_CONNECTION_INFORMATION_EX) :
    Except Fault (Flow × Session σ) :=
  let s1 := EnumerateHubPorts.count s connectionInfoEx.value
  let d := EnumerateHubPorts.deviceDesc host s1 hHubDevice index connectionInfoEx.value
  let c := EnumerateHubPorts.configDesc host d.2 hHubDevice index connectionInfoEx.value
  match EnumerateHubPorts.stringDescs host fuel c.2 hHubDevice index connectionInfoEx.value
      c.1 with
  | Except.error e => Except.error e
  | Except.ok t =>
    if connectionInfoEx.value.DeviceIsHub then
      match EnumerateHubPorts.hub host EnumerateHub fuel t.2 hTreeParent hHubDevice index
          connectionInfoEx c.1 t.1 d.1 with
      | Except.error e => Except.error e
      | Except.ok s2 => Except.ok (Flow.next, s2)
    else
      Except.ok (EnumerateHubPorts.device host t.2 hTreeParent connectionInfoEx c.1 t.1)

/-- The body of the loop of `EnumerateHubPorts` (lines 829-1094) for the port `index`. -/
def EnumerateHubPorts.body {σ : Type} (host : Host σ)
    (EnumerateHub : HubArguments → Session σ → Except Fault (Bool × Session σ))
    (fuel : Nat) (hTreeParent hHubDevice index : Nat) (s : Session σ) :
    Except Fault (Flow × Session σ) :=
  match EnumerateHubPorts.connectionInfo host s hHubDevice index with
  | Except.error e => Except.error e
  | Except.ok q =>
    match q.1 with
    | PortQuery.noMemory => Except.ok (Flow.leave, q.2)
    | PortQuery.failed => Except.ok (Flow.next, q.2)
    | PortQuery.obtained connectionInfoEx =>
      EnumerateHubPorts.port host EnumerateHub fuel q.2 hTreeParent hHubDevice index
        connectionInfoEx

/-- The loop `for (index = 1; index <= NumPorts; index++)` of `EnumerateHubPorts` (line
828) over a body, with `index` a `ULONG`. -/
def EnumerateHubPorts.loop {σ : Type} (body : Nat → Session σ → Except Fault (Flow × Session σ))
    (NumPorts : Nat) : Nat → Nat → Session σ → Except Fault (Session σ)
  | 0, index, s => if index ≤ NumPorts then Except.error Fault.outOfFuel else Except.ok s
  | fuel + 1, index, s =>
    if index ≤ NumPorts then
      match body index s with
      | Except.error e => Except.error e
      | Except.ok r =>
        match r.1 with
        | Flow.leave => Except.ok r.2
        | Flow.next => EnumerateHubPorts.loop body NumPorts fuel ((index + 1) % ULONG_RANGE) r.2
    else Except.ok s

/-- `EnumerateHubPorts` (lines 804-1095). -/
def EnumerateHubPorts {σ : Type} (host : Host σ)
    (EnumerateHub : HubArguments → Session σ → Except Fault (Bool × Session σ))
    (fuel : Nat) (hTreeParent hHubDevice NumPorts : Nat) (s : Session σ) :
    Except Fault (Session σ) :=
  EnumerateHubPorts.loop (EnumerateHubPorts.body host EnumerateHub fuel hTreeParent hHubDevice)
    NumPorts fuel 1 s


/-! ## EnumerateHub -/

/-- The blocks and the handle that `EnumerateHub` holds once the hub is open. -/
structure HubRecords where
  info : Nat
  hubInfo : Nat
  hubCapsEx : Nat
  hubCaps : Nat
  hHubDevice : Nat
  deriving DecidableEq, Repr

/-- The label `EnumerateHubError` (lines 757-788), given the locals as they stand at the
jump: the handle is closed and the blocks are released. -/
def EnumerateHubError {σ : Type} (host : Host σ) (s : Session σ)
    (hHubDevice hubInfo hubCapsEx hubCaps info : Option Nat) : Session σ :=
  let s1 :=
    match hHubDevice with
    | none => s
    | some h => CloseHandle host s h
  (((s1.freeIf hubInfo).freeIf hubCapsEx).freeIf hubCaps).freeIf info

/-- Lines 518-638 of `EnumerateHub`: the four records are allocated and the hub is opened
under the name `\\.\HubName`.  The build is the one with `_WIN32_WINNT >= 0x0600`. -/
def EnumerateHub.open {σ : Type} (host : Host σ) (s : Session σ) (args : HubArguments) :
    Option HubRecords × Session σ :=
  let a1 := s.alloc host
    (if args.ConnectionInfo.isSome then sizeof_USBEXTERNALHUBINFO else sizeof_USBROOTHUBINFO)
  match a1.1 with
  | none => (none, EnumerateHubError host a1.2 none none none none none)
  | some info =>
    let a2 := a1.2.alloc host sizeof_USB_NODE_INFORMATION
    match a2.1 with
    | none => (none, EnumerateHubError host a2.2 none none none none (some info))
    | some hubInfo =>
      let a3 := a2.2.alloc host sizeof_USB_HUB_CAPABILITIES_EX
      match a3.1 with
      | none => (none, EnumerateHubError host a3.2 none (some hubInfo) none none (some info))
      | some hubCapsEx =>
        let a4 := a3.2.alloc host sizeof_USB_HUB_CAPABILITIES
        match a4.1 with
        | none =>
          (none,
            EnumerateHubError host a4.2 none (some hubInfo) (some hubCapsEx) none (some info))
        | some hubCaps =>
          let deviceNameSize := args.HubName.value.length + "\\\\.\\".length + 1
          let a5 := a4.2.alloc host (deviceNameSize * sizeof_TCHAR)
          match a5.1 with
          | none =>
            (none,
              EnumerateHubError host a5.2 none (some hubInfo) (some hubCapsEx) (some hubCaps)
                (some info))
          | some deviceName =>
            let f := CreateFile host a5.2 ("\\\\.\\" ++ args.HubName.value)
            match f.1 with
            | none =>
              (none,
                EnumerateHubError host (f.2.free deviceName) none (some hubInfo)
                  (some hubCapsEx) (some hubCaps) (some info))
            | some hHubDevice =>
              (some
                { info := info, hubInfo := hubInfo, hubCapsEx := hubCapsEx,
                  hubCaps := hubCaps, hHubDevice := hHubDevice },
                f.2.free deviceName)

/-- Lines 640-661: the extended capabilities of the hub; the block is released and the
pointer set to `NULL` when the request fails. -/
def EnumerateHub.hubCapsEx {σ : Type} (host : Host σ) (s : Session σ) (hub : HubRecords) :
    Option (Block Nat) × Session σ :=
  let q := IOCTL_USB_GET_HUB_CAPABILITIES_EX host s hub.hHubDevice
  match q.1 with
  | some v => (some ⟨hub.hubCapsEx, v⟩, q.2)
  | none => (none, q.2.free hub.hubCapsEx)

/-- Lines 663-679: the capabilities of the hub; the block is released and the pointer set
to `NULL` when the request fails. -/
def EnumerateHub.hubCaps {σ : Type} (host : Host σ) (s : Session σ) (hub : HubRecords) :
    Option (Block Nat) × Session σ :=
  let q := IOCTL_USB_GET_HUB_CAPABILITIES host s hub.hHubDevice
  match q.1 with
  | some v => (some ⟨hub.hubCaps, v⟩, q.2)
  | none => (none, q.2.free hub.hubCaps)

/-- The node record of the hub as it is when the item is added (lines 580-602 and
704-719). -/
def EnumerateHub.node (args : HubArguments) (hub : HubRecords)
    (hubInfo : USB_NODE_INFORMATION) (hubCapsEx hubCaps : Option (Block Nat)) : NodeInfo :=
  match args.ConnectionInfo with
  | some ConnectionInfo =>
    NodeInfo.ExternalHubInfo
      { self := hub.info, HubInfo := ⟨hub.hubInfo, hubInfo⟩, HubName := args.HubName,
        HubCaps := hubCaps, HubCapsEx := hubCapsEx, ConnectionInfo := ConnectionInfo,
        ConfigDesc := args.ConfigDesc, StringDescs := args.StringDescs }
  | none =>
    NodeInfo.RootHubInfo
      { self := hub.info, HubInfo := ⟨hub.hubInfo, hubInfo⟩, HubName := args.HubName,
        HubCaps := hubCaps, HubCapsEx := hubCapsEx }

/-- Lines 681-743 of `EnumerateHub`: the node information is requested and the item of the
hub is added to the tree; the result is the item and the number of ports, the `UCHAR`
field `bNumberOfPorts`.  The text of the label is not part of the embedding. -/
def EnumerateHub.attach {σ : Type} (host : Host σ) (s : Session σ) (args : HubArguments)
    (hub : HubRecords) (hubCapsEx hubCaps : Option (Block Nat)) :
    Option (Nat × Nat) × Session σ :=
  let q := IOCTL_USB_GET_NODE_INFORMATION host s hub.hHubDevice
  match q.1 with
  | none =>
    (none,
      EnumerateHubError host q.2 (some hub.hHubDevice) (some hub.hubInfo)
        (hubCapsEx.map (fun b => b.handle)) (hubCaps.map (fun b => b.handle)) (some hub.info))
  | some hubInfo =>
    let l := AddLeaf host q.2 args.hTreeParent
      (EnumerateHub.node args hub hubInfo hubCapsEx hubCaps) Icon.HubIcon
    match l.1 with
    | none =>
      (none,
        EnumerateHubError host l.2 (some hub.hHubDevice) (some hub.hubInfo)
          (hubCapsEx.map (fun b => b.handle)) (hubCaps.map (fun b => b.handle))
          (some hub.info))
    | some hItem => (some (hItem, hubInfo.bNumberOfPorts % UCHAR_RANGE), l.2)

/-- Lines 640-743 of `EnumerateHub`: the three requests to the open hub, and the item of the
hub. -/
def EnumerateHub.item {σ : Type} (host : Host σ) (s : Session σ) (args : HubArguments)
    (hub : HubRecords) : Option (Nat × Nat) × Session σ :=
  let x := EnumerateHub.hubCapsEx host s hub
  let c := EnumerateHub.hubCaps host x.2 hub
  EnumerateHub.attach host c.2 args hub x.1 c.1

/-- `EnumerateHub` (lines 493-789).  The first argument bounds the depth of the hubs below
this one, the number of ports of each hub and the length of each descriptor walk. -/
def EnumerateHub {σ : Type} (host : Host σ) :
    Nat → HubArguments → Session σ → Except Fault (Bool × Session σ)
  | 0, _, _ => Except.error Fault.outOfFuel
  | fuel + 1, args, s =>
    let o := EnumerateHub.open host s args
    match o.1 with
    | none => Except.ok (false, o.2)
    | some hub =>
      let a := EnumerateHub.item host o.2 args hub
      match a.1 with
      | none => Except.ok (false, a.2)
      | some p =>
        match EnumerateHubPorts host (EnumerateHub host fuel) fuel p.1 hub.hHubDevice p.2
            a.2 with
        | Except.error e => Except.error e
        | Except.ok s1 => Except.ok (true, CloseHandle host s1 hub.hHubDevice)

/-! ## EnumerateHostController and EnumerateHostControllers -/

/-- The loop over `EnumeratedHCListHead` (lines 225-242): whether a controller with this
driver key is in the list.  `_tcscmp` reads through the `DriverKey` of each entry. -/
def EnumerateHostController.listed (driverKeyName : String) :
    List USBHOSTCONTROLLERINFO → Except Fault Bool
  | [] => Except.ok false
  | hcInfoInList :: rest =>
    match hcInfoInList.DriverKey with
    | none => Except.error Fault.nullDereference
    | some DriverKey =>
      if driverKeyName = DriverKey.value then Except.ok true
      else EnumerateHostController.listed driverKeyName rest

/-- Lines 244-269: the record of the controller.  `_stscanf_s` stores the fields that it
converts, in order; a variable that it does not store into keeps the value that it had,
which is not initialised.  Without a device id the record stays zero-filled. -/
def EnumerateHostController.record {σ : Type} (host : Host σ) (hcInfo : Nat)
    (driverKeyName : Block String) (deviceId : Option String) : USBHOSTCONTROLLERINFO :=
  match deviceId with
  | some id =>
    let stored := (host.sscanf id).take 4
    { self := hcInfo, DriverKey := some driverKeyName,
      VendorID := (stored.getD 0 (host.uninitialized 0)) % ULONG_RANGE,
      DeviceID := (stored.getD 1 (host.uninitialized 1)) % ULONG_RANGE,
      SubSysID := (stored.getD 2 (host.uninitialized 2)) % ULONG_RANGE,
      Revision := (stored.getD 3 (host.uninitialized 3)) % ULONG_RANGE }
  | none =>
    { self := hcInfo, DriverKey := none, VendorID := 0, DeviceID := 0, SubSysID := 0,
      Revision := 0 }

/-- `EnumerateHostController` (lines 196-346).  The text of the label is not part of the
embedding. -/
def EnumerateHostController {σ : Type} (host : Host σ) (fuel : Nat) (hTreeParent hHCDev : Nat)
    (s : Session σ) : Except Fault (Session σ) :=
  let a := s.alloc host sizeof_USBHOSTCONTROLLERINFO
  match a.1 with
  | none => Except.ok a.2
  | some hcInfo =>
    let k := GetHCDDriverKeyName host a.2 hHCDev
    match k.1 with
    | none => Except.ok (k.2.free hcInfo)
    | some driverKeyName =>
      match EnumerateHostController.listed driverKeyName.value k.2.EnumeratedHCList with
      | Except.error e => Except.error e
      | Except.ok true => Except.ok ((k.2.free driverKeyName.handle).free hcInfo)
      | Except.ok false =>
        let i := DriverNameToDeviceDesc host k.2 driverKeyName.value true
        let record := EnumerateHostController.record host hcInfo driverKeyName i.1
        let d := DriverNameToDeviceDesc host i.2 driverKeyName.value false
        let l := AddLeaf host d.2 hTreeParent (NodeInfo.HostControllerInfo record)
          Icon.GoodDeviceIcon
        match l.1 with
        | none => Except.ok ((l.2.free driverKeyName.handle).free hcInfo)
        | some hHCItem =>
          let s1 := { l.2 with EnumeratedHCList := l.2.EnumeratedHCList ++ [record] }
          let r := GetRootHubName host s1 hHCDev
          match r.1 with
          | none => Except.ok r.2
          | some rootHubName =>
            match EnumerateHub host fuel
                { hTreeParent := hHCItem, HubName := rootHubName, ConnectionInfo := none,
                  ConfigDesc := none, StringDescs := none, DeviceDesc := some "RootHub" }
                r.2 with
            | Except.error e => Except.error e
            | Except.ok h =>
              if h.1 then Except.ok h.2 else Except.ok (h.2.free rootHubName.handle)

/-- Value of `NUM_HCS_TO_CHECK`. -/
def NUM_HCS_TO_CHECK : Nat := 10

/-- The loop over the controller names `\\.\HCD0`, `\\.\HCD1`, ... (lines 378-402). -/
def EnumerateHostControllers.numbered {σ : Type} (host : Host σ) (fuel hTreeParent : Nat) :
    Nat → Nat → Session σ → Except Fault (Session σ)
  | 0, HCNum, s =>
    if HCNum < NUM_HCS_TO_CHECK then Except.error Fault.outOfFuel else Except.ok s
  | n + 1, HCNum, s =>
    if HCNum < NUM_HCS_TO_CHECK then
      let f := CreateFile host s ("\\\\.\\HCD" ++ toString HCNum)
      match f.1 with
      | none => EnumerateHostControllers.numbered host fuel hTreeParent n (HCNum + 1) f.2
      | some hHCDev =>
        match EnumerateHostController host fuel hTreeParent hHCDev f.2 with
        | Except.error e => Except.error e
        | Except.ok s1 =>
          EnumerateHostControllers.numbered host fuel hTreeParent n (HCNum + 1)
            (CloseHandle host s1 hHCDev)
    else Except.ok s

/-- The loop over the device interfaces of the host controller class (lines 414-462).  The
block for the detail data is used without a test for `NULL`; `GlobalAlloc` and `GlobalFree`
are the heap of `ALLOC` and `FREE`. -/
def EnumerateHostControllers.interfaces {σ : Type} (host : Host σ)
    (fuel hTreeParent deviceInfo : Nat) : Nat → Nat → Session σ → Except Fault (Session σ)
  | 0, _, _ => Except.error Fault.outOfFuel
  | n + 1, index, s =>
    let e := s.ask (fun x => host.setupDiEnumDeviceInterfaces x deviceInfo index)
    if e.1 then
      let l := e.2.ask (fun x => host.setupDiGetDeviceInterfaceDetail x deviceInfo index 0)
      let requiredLength := l.1.1 % ULONG_RANGE
      let g := l.2.alloc host requiredLength
      match g.1 with
      | none => Except.error Fault.nullDereference
      | some deviceDetailData =>
        let d := g.2.ask
          (fun x => host.setupDiGetDeviceInterfaceDetail x deviceInfo index requiredLength)
        let f := CreateFile host d.2 d.1.2
        match f.1 with
        | none =>
          EnumerateHostControllers.interfaces host fuel hTreeParent deviceInfo n
            ((index + 1) % ULONG_RANGE) (f.2.free deviceDetailData)
        | some hHCDev =>
          match EnumerateHostController host fuel hTreeParent hHCDev f.2 with
          | Except.error err => Except.error err
          | Except.ok s1 =>
            EnumerateHostControllers.interfaces host fuel hTreeParent deviceInfo n
              ((index + 1) % ULONG_RANGE) ((CloseHandle host s1 hHCDev).free deviceDetailData)
    else Except.ok e.2

/-- `EnumerateHostControllers` (lines 357-468): the session at the end of the pass and the
value written to `*DevicesConnected`. -/
def EnumerateHostControllers {σ : Type} (host : Host σ) (fuel hTreeParent : Nat)
    (s : Session σ) : Except Fault (Nat × Session σ) :=
  match EnumerateHostControllers.numbered host fuel hTreeParent fuel 0
      { s with TotalDevicesConnected := 0, TotalHubs := 0 } with
  | Except.error e => Except.error e
  | Except.ok s1 =>
    let c := s1.ask host.setupDiGetClassDevs
    match c.1 with
    | none => Except.ok (c.2.TotalDevicesConnected, c.2)
    | some deviceInfo =>
      match EnumerateHostControllers.interfaces host fuel hTreeParent deviceInfo fuel 0
          c.2 with
      | Except.error e => Except.error e
      | Except.ok s2 =>
        let s3 := (s2.ask (fun x => ((), host.setupDiDestroyDeviceInfoList x deviceInfo))).2
        Except.ok (s3.TotalDevicesConnected, s3)


/-! ## CleanupItem -/

/-- Modelled from the spec: the macro `TreeView_GetItem` of the tree view, which is not part
of the source file, asked for the reference value of the item `hTreeItem`: the record that
the item was added with, and `NULL` for an item without a record. -/
def TreeView_GetItem {σ : Type} (s : Session σ) (hTreeItem : Nat) : Option NodeInfo :=
  (s.tree.find? (fun item => decide (item.hItem = hTreeItem))).map (fun item => item.lParam)

/-- Modelled from the spec: the macro `RemoveEntryList` of `usbview.h`, which is not part of
the source file.  It unlinks the entry at the address of the record from the list. -/
def RemoveEntryList (list : List USBHOSTCONTROLLERINFO) (info : USBHOSTCONTROLLERINFO) :
    List USBHOSTCONTROLLERINFO :=
  list.filter (fun entry => decide (entry.self ≠ info.self))

/-- The local pointers of `CleanupItem` after the `switch` (lines 2181-2222). -/
structure CleanupItem.Pointers where
  DriverKey : Option Nat
  HubInfo : Option Nat
  HubCaps : Option Nat
  HubCapsEx : Option Nat
  HubName : Option Nat
  ConnectionInfoEx : Option Nat
  ConfigDesc : Option Nat
  StringDescs : Option Nat
  deriving DecidableEq, Repr

/-- The `switch` of `CleanupItem` (lines 2190-2222): the pointers that are read out of the
record, by its type; the others stay `NULL`. -/
def CleanupItem.pointers : NodeInfo → CleanupItem.Pointers
  | NodeInfo.HostControllerInfo info =>
    { DriverKey := info.DriverKey.map (fun b => b.handle), HubInfo := none, HubCaps := none,
      HubCapsEx := none, HubName := none, ConnectionInfoEx := none, ConfigDesc := none,
      StringDescs := none }
  | NodeInfo.RootHubInfo info =>
    { DriverKey := none, HubInfo := some info.HubInfo.handle,
      HubCaps := info.HubCaps.map (fun b => b.handle),
      HubCapsEx := info.HubCapsEx.map (fun b => b.handle),
      HubName := some info.HubName.handle, ConnectionInfoEx := none, ConfigDesc := none,
      StringDescs := none }
  | NodeInfo.ExternalHubInfo info =>
    { DriverKey := none, HubInfo := some info.HubInfo.handle,
      HubCaps := info.HubCaps.map (fun b => b.handle),
      HubCapsEx := info.HubCapsEx.map (fun b => b.handle),
      HubName := some info.HubName.handle,
      ConnectionInfoEx := some info.ConnectionInfo.handle,
      ConfigDesc := info.ConfigDesc.map (fun c => c.handle),
      StringDescs := info.StringDescs }
  | NodeInfo.DeviceInfo info =>
    { DriverKey := none, HubInfo := none, HubCaps := none, HubCapsEx := none,
      HubName := none, ConnectionInfoEx := some info.ConnectionInfo.handle,
      ConfigDesc := info.ConfigDesc.map (fun c => c.handle),
      StringDescs := info.StringDescs }

/-- The block that holds the record itself. -/
def NodeInfo.self : NodeInfo → Nat
  | NodeInfo.HostControllerInfo info => info.self
  | NodeInfo.RootHubInfo info => info.self
  | NodeInfo.ExternalHubInfo info => info.self
  | NodeInfo.DeviceInfo info => info.self

/-- The loop of `CleanupItem` that releases the chain of string descriptor nodes (lines
2254-2262). -/
def CleanupItem.freeStringDescs {σ : Type} : Nat → Session σ → Nat → Except Fault (Session σ)
  | 0, _, _ => Except.error Fault.outOfFuel
  | fuel + 1, s, StringDescs =>
    match s.world.node StringDescs with
    | none => Except.error Fault.outOfBounds
    | some n =>
      match n.Next with
      | none => Except.ok (s.free StringDescs)
      | some Next => CleanupItem.freeStringDescs fuel (s.free StringDescs) Next

/-- `CleanupItem` (lines 2162-2276) on the item `hTreeItem`; `fuel` bounds the length of
the chain of string descriptor nodes. -/
def CleanupItem {σ : Type} (fuel : Nat) (s : Session σ) (hTreeItem : Nat) :
    Except Fault (Session σ) :=
  match TreeView_GetItem s hTreeItem with
  | none => Except.ok s
  | some info =>
    let s0 :=
      match info with
      | NodeInfo.HostControllerInfo hcInfo =>
        { s with EnumeratedHCList := RemoveEntryList s.EnumeratedHCList hcInfo }
      | _ => s
    let p := CleanupItem.pointers info
    let s1 := (((((s0.freeIf p.DriverKey).freeIf p.HubInfo).freeIf p.HubName).freeIf
      p.HubCaps).freeIf p.HubCapsEx).freeIf p.ConfigDesc
    let chain :=
      match p.StringDescs with
      | none => Except.ok s1
      | some head => CleanupItem.freeStringDescs fuel s1 head
    match chain with
    | Except.error e => Except.error e
    | Except.ok s2 => Except.ok ((s2.freeIf p.ConnectionInfoEx).free info.self)


/-! ## Notions used in the statements about the enumeration -/

/-- The outcomes of lines 843-935, with the calls and the heap events of each. -/
inductive ConnectionInfoOutcome {σ : Type} (host : Host σ) (s : Session σ)
    (hHubDevice index : Nat) : Except Fault (PortQuery × Session σ) → Prop
  | noMemory (s1 : Session σ) (hcalls : s1.calls = s.calls) (htree : s1.tree = s.tree)
      (hheap : s1.world.heapLog = s.world.heapLog)
      (hdev : s1.TotalDevicesConnected = s.TotalDevicesConnected)
      (hhubs : s1.TotalHubs = s.TotalHubs) :
      ConnectionInfoOutcome host s hHubDevice index (Except.ok (PortQuery.noMemory, s1))
  | extended (p : Nat) (r : USB_NODE_CONNECTION_INFORMATION_EX) (s1 : Session σ)
      (hcalls : s1.calls = s.calls ++ [OsCall.connectionInformationEx hHubDevice index (some r)])
      (htree : s1.tree = s.tree)
      (hheap : s1.world.heapLog = s.world.heapLog ++
        [HeapEvent.alloc p (sizeof_USB_NODE_CONNECTION_INFORMATION_EX +
          sizeof_USB_PIPE_INFO * PIPE_LIST_ENTRIES)])
      (hdev : s1.TotalDevicesConnected = s.TotalDevicesConnected)
      (hhubs : s1.TotalHubs = s.TotalHubs) :
      ConnectionInfoOutcome host s hHubDevice index
        (Except.ok (PortQuery.obtained ⟨p, r⟩, s1))
  | unchecked :
      ConnectionInfoOutcome host s hHubDevice index (Except.error Fault.nullDereference)
  | failed (p q : Nat) (s1 : Session σ)
      (hcalls : s1.calls = s.calls ++ [OsCall.connectionInformationEx hHubDevice index none,
        OsCall.connectionInformation hHubDevice index none])
      (htree : s1.tree = s.tree)
      (hheap : s1.world.heapLog = s.world.heapLog ++
        [HeapEvent.alloc p (sizeof_USB_NODE_CONNECTION_INFORMATION_EX +
          sizeof_USB_PIPE_INFO * PIPE_LIST_ENTRIES),
         HeapEvent.alloc q (sizeof_USB_NODE_CONNECTION_INFORMATION +
          sizeof_USB_PIPE_INFO * PIPE_LIST_ENTRIES),
         HeapEvent.free q, HeapEvent.free p])
      (hdev : s1.TotalDevicesConnected = s.TotalDevicesConnected)
      (hhubs : s1.TotalHubs = s.TotalHubs) :
      ConnectionInfoOutcome host s hHubDevice index (Except.ok (PortQuery.failed, s1))
  | legacy (p q : Nat) (r : USB_NODE_CONNECTION_INFORMATION) (s1 : Session σ)
      (hpipes : r.PipeList.length = PIPE_LIST_ENTRIES)
      (hcalls : s1.calls = s.calls ++ [OsCall.connectionInformationEx hHubDevice index none,
        OsCall.connectionInformation hHubDevice index (some r)])
      (htree : s1.tree = s.tree)
      (hheap : s1.world.heapLog = s.world.heapLog ++
        [HeapEvent.alloc p (sizeof_USB_NODE_CONNECTION_INFORMATION_EX +
          sizeof_USB_PIPE_INFO * PIPE_LIST_ENTRIES),
         HeapEvent.alloc q (sizeof_USB_NODE_CONNECTION_INFORMATION +
          sizeof_USB_PIPE_INFO * PIPE_LIST_ENTRIES),
         HeapEvent.free q])
      (hdev : s1.TotalDevicesConnected = s.TotalDevicesConnected)
      (hhubs : s1.TotalHubs = s.TotalHubs) :
      ConnectionInfoOutcome host s hHubDevice index
        (Except.ok (PortQuery.obtained ⟨p, EnumerateHubPorts.copy r⟩, s1))

/-- The hub and the port that a call asks connection information about. -/
def OsCall.port : OsCall → Option (Nat × Nat)
  | OsCall.connectionInformationEx hHubDevice index _ => some (hHubDevice, index)
  | OsCall.connectionInformation hHubDevice index _ => some (hHubDevice, index)
  | _ => none

/-- Reference run of a loop body over a list of port indices, in the order of the list: it
ends at the first `break`, at the first fault, or with the list. -/
def visitPorts {σ : Type} (body : Nat → Session σ → Except Fault (Flow × Session σ)) :
    List Nat → Session σ → Except Fault (Session σ)
  | [], s => Except.ok s
  | index :: rest, s =>
    match body index s with
    | Except.error e => Except.error e
    | Except.ok r =>
      match r.1 with
      | Flow.leave => Except.ok r.2
      | Flow.next => visitPorts body rest r.2


/-- What a step that gives up leaves behind: the tree and the counters as they were, no
question about a port, every block that it allocated released, and no release of any other
block. -/
structure Undone {σ : Type} (s s1 : Session σ) : Prop where
  tree : s1.tree = s.tree
  devices : s1.TotalDevicesConnected = s.TotalDevicesConnected
  hubs : s1.TotalHubs = s.TotalHubs
  calls : ∃ new, s1.calls = s.calls ++ new ∧ ∀ c ∈ new, c.port = none
  heap : ∃ new, s1.world.heapLog = s.world.heapLog ++ new ∧
    ∀ p, HeapEvent.free p ∈ new → s.world.heapLog.length ≤ p
  live : liveBlocks s1.world.heapLog = liveBlocks s.world.heapLog

/-- The outcomes of lines 518-638 of `EnumerateHub`. -/
inductive OpenOutcome {σ : Type} (s : Session σ) (args : HubArguments) :
    Option HubRecords × Session σ → Prop
  | failed (s1 : Session σ) (hundone : Undone s s1) : OpenOutcome s args (none, s1)
  | opened (hub : HubRecords) (s1 : Session σ) (nInfo nName : Nat)
      (hinfo : hub.info = s.world.heapLog.length)
      (hhubInfo : hub.hubInfo = s.world.heapLog.length + 1)
      (hhubCapsEx : hub.hubCapsEx = s.world.heapLog.length + 2)
      (hhubCaps : hub.hubCaps = s.world.heapLog.length + 3)
      (hheap : s1.world.heapLog = s.world.heapLog ++
        [HeapEvent.alloc (s.world.heapLog.length) nInfo,
         HeapEvent.alloc (s.world.heapLog.length + 1) sizeof_USB_NODE_INFORMATION,
         HeapEvent.alloc (s.world.heapLog.length + 2) sizeof_USB_HUB_CAPABILITIES_EX,
         HeapEvent.alloc (s.world.heapLog.length + 3) sizeof_USB_HUB_CAPABILITIES,
         HeapEvent.alloc (s.world.heapLog.length + 4) nName,
         HeapEvent.free (s.world.heapLog.length + 4)])
      (hcalls : s1.calls = s.calls ++
        [OsCall.createFile ("\\\\.\\" ++ args.HubName.value) (some hub.hHubDevice)])
      (htree : s1.tree = s.tree)
      (hdev : s1.TotalDevicesConnected = s.TotalDevicesConnected)
      (hhubs : s1.TotalHubs = s.TotalHubs) :
      OpenOutcome s args (some hub, s1)


/-- The release event of `FREE(p)` under `if (p)`. -/
def freeEvents (p : Option Nat) : List HeapEvent :=
  match p with
  | none => []
  | some p => [HeapEvent.free p]

/-- The blocks that `EnumerateHub` releases after the hub was opened when it gives up, in
the order of the events; a capabilities block whose request failed is released at the
request, the other ones at the label `EnumerateHubError`. -/
def hubReleases (hub : HubRecords) (hubCapsEx hubCaps : Bool) : List HeapEvent :=
  (if hubCapsEx then [] else [HeapEvent.free hub.hubCapsEx]) ++
  (if hubCaps then [] else [HeapEvent.free hub.hubCaps]) ++
  [HeapEvent.free hub.hubInfo] ++
  (if hubCapsEx then [HeapEvent.free hub.hubCapsEx] else []) ++
  (if hubCaps then [HeapEvent.free hub.hubCaps] else []) ++
  [HeapEvent.free hub.info]

/-- The outcomes of lines 640-743 of `EnumerateHub`. -/
inductive ItemOutcome {σ : Type} (host : Host σ) (s : Session σ) (args : HubArguments)
    (hub : HubRecords) : Option (Nat × Nat) × Session σ → Prop
  | failed (s1 : Session σ) (hubCapsEx hubCaps : Bool)
      (htree : s1.tree = s.tree)
      (hdev : s1.TotalDevicesConnected = s.TotalDevicesConnected)
      (hhubs : s1.TotalHubs = s.TotalHubs)
      (hcalls : ∃ new, s1.calls = s.calls ++ new ∧ ∀ c ∈ new, c.port = none)
      (hheap : s1.world.heapLog = s.world.heapLog ++ hubReleases hub hubCapsEx hubCaps) :
      ItemOutcome host s args hub (none, s1)
  | attached (hItem : Nat) (hubInfo : USB_NODE_INFORMATION) (s1 : Session σ)
      (htree : s1.tree = s.tree ++
        [{ hItem := hItem, hTreeParent := args.hTreeParent,
           lParam := EnumerateHub.node args hub hubInfo (EnumerateHub.hubCapsEx host s hub).1
             (EnumerateHub.hubCaps host (EnumerateHub.hubCapsEx host s hub).2 hub).1,
           icon := Icon.HubIcon }])
      (hdev : s1.TotalDevicesConnected = s.TotalDevicesConnected)
      (hhubs : s1.TotalHubs = s.TotalHubs)
      (hcalls : ∃ new, s1.calls = s.calls ++ new ∧ ∀ c ∈ new, c.port = none)
      (hheap : s1.world.heapLog = s.world.heapLog ++
        ((if (EnumerateHub.hubCapsEx host s hub).1.isSome then []
          else [HeapEvent.free hub.hubCapsEx]) ++
         (if (EnumerateHub.hubCaps host (EnumerateHub.hubCapsEx host s hub).2 hub).1.isSome
          then [] else [HeapEvent.free hub.hubCaps]))) :
      ItemOutcome host s args hub (some (hItem, hubInfo.bNumberOfPorts % UCHAR_RANGE), s1)


/-- The field `HubCaps` of the node record of a hub. -/
def NodeInfo.HubCaps : NodeInfo → Option (Block Nat)
  | NodeInfo.RootHubInfo info => info.HubCaps
  | NodeInfo.ExternalHubInfo info => info.HubCaps
  | _ => none

/-- The field `HubCapsEx` of the node record of a hub. -/
def NodeInfo.HubCapsEx : NodeInfo → Option (Block Nat)
  | NodeInfo.RootHubInfo info => info.HubCapsEx
  | NodeInfo.ExternalHubInfo info => info.HubCapsEx
  | _ => none


/-- A step that adds no item to the tree, changes neither counter, leaves the list of
controllers and the flag `gDoConfigDesc` alone and asks about no port. -/
structure Quiet {σ : Type} (s s1 : Session σ) : Prop where
  tree : s1.tree = s.tree
  devices : s1.TotalDevicesConnected = s.TotalDevicesConnected
  hubs : s1.TotalHubs = s.TotalHubs
  flag : s1.gDoConfigDesc = s.gDoConfigDesc
  list : s1.EnumeratedHCList = s.EnumeratedHCList
  calls : ∃ new, s1.calls = s.calls ++ new ∧ ∀ c ∈ new, c.port = none


/-- Whether the call obtained the connection information of a port whose status is
`DeviceConnected`: 1 if so, 0 otherwise. -/
def OsCall.connected : OsCall → Nat
  | OsCall.connectionInformationEx _ _ (some r) =>
    if r.ConnectionStatus = USB_CONNECTION_STATUS.DeviceConnected then 1 else 0
  | OsCall.connectionInformation _ _ (some r) =>
    if r.ConnectionStatus = USB_CONNECTION_STATUS.DeviceConnected then 1 else 0
  | _ => 0

/-- Whether the call obtained the connection information of a port that reports a hub: 1 if
so, 0 otherwise. -/
def OsCall.hub : OsCall → Nat
  | OsCall.connectionInformationEx _ _ (some r) => if r.DeviceIsHub then 1 else 0
  | OsCall.connectionInformation _ _ (some r) => if r.DeviceIsHub then 1 else 0
  | _ => 0

/-- Number of the ports in a log of calls whose connection information was obtained with
the status `DeviceConnected`. -/
def connectedPorts (calls : List OsCall) : Nat :=
  (calls.map OsCall.connected).sum

/-- Number of the ports in a log of calls whose connection information was obtained and
reports a hub. -/
def hubPorts (calls : List OsCall) : Nat :=
  (calls.map OsCall.hub).sum

/-- From the session `s` to the session `s1` the log of calls and the tree were extended,
and the two counters, as 32-bit variables, went up by the number of ports in the new calls
that were found connected, and that were found to report a hub. -/
structure Tally {σ : Type} (s s1 : Session σ) : Prop where
  calls : ∃ new, s1.calls = s.calls ++ new ∧
    s1.TotalDevicesConnected % ULONG_RANGE =
      (s.TotalDevicesConnected + connectedPorts new) % ULONG_RANGE ∧
    s1.TotalHubs % ULONG_RANGE = (s.TotalHubs + hubPorts new) % ULONG_RANGE
  tree : ∃ new, s1.tree = s.tree ++ new
  devices : s.TotalDevicesConnected < ULONG_RANGE → s1.TotalDevicesConnected < ULONG_RANGE
  hubs : s.TotalHubs < ULONG_RANGE → s1.TotalHubs < ULONG_RANGE

/-- Whether the item is the device item of a port at which nothing is connected: it lies
under `hTreeParent`, has the icon `NoDeviceIcon`, and its record holds connection
information with the status `NoDeviceConnected`, no configuration descriptor and no string
descriptors. -/
def isEmptyPortItem (hTreeParent : Nat) (item : TreeItem) : Bool :=
  match item.lParam with
  | NodeInfo.DeviceInfo info =>
    decide (item.hTreeParent = hTreeParent ∧ item.icon = Icon.NoDeviceIcon ∧
      info.ConnectionInfo.value.ConnectionStatus = USB_CONNECTION_STATUS.NoDeviceConnected ∧
      info.ConfigDesc = none ∧ info.StringDescs = none)
  | _ => false


/-- The blocks that a node record owns, followed by the block of the record itself:
the driver key of a host controller; the hub information, the hub name and the two
capabilities records of a hub; for an external hub and for a device also the configuration
descriptor, the nodes `chain` of the string descriptor chain and the connection
information.  A field that is `NULL` contributes nothing. -/
def ownedBlocks (chain : List Nat) : NodeInfo → List Nat
  | NodeInfo.HostControllerInfo info =>
    (info.DriverKey.map (fun b => b.handle)).toList ++ [info.self]
  | NodeInfo.RootHubInfo info =>
    [info.HubInfo.handle, info.HubName.handle] ++
      (info.HubCaps.map (fun b => b.handle)).toList ++
      (info.HubCapsEx.map (fun b => b.handle)).toList ++ [info.self]
  | NodeInfo.ExternalHubInfo info =>
    [info.HubInfo.handle, info.HubName.handle] ++
      (info.HubCaps.map (fun b => b.handle)).toList ++
      (info.HubCapsEx.map (fun b => b.handle)).toList ++
      (info.ConfigDesc.map (fun c => c.handle)).toList ++ chain ++
      [info.ConnectionInfo.handle, info.self]
  | NodeInfo.DeviceInfo info =>
    (info.ConfigDesc.map (fun c => c.handle)).toList ++ chain ++
      [info.ConnectionInfo.handle, info.self]

/-- `CleanupItem` on each of the given items, one after the other. -/
def cleanupItems {σ : Type} (fuel : Nat) : List Nat → Session σ → Except Fault (Session σ)
  | [], s => Except.ok s
  | hTreeItem :: rest, s =>
    match CleanupItem fuel s hTreeItem with
    | Except.error e => Except.error e
    | Except.ok s1 => cleanupItems fuel rest s1


/-- The body of the loop over the numbered controller names (lines 380-401) for the slot
`HCNum`: the name `\\.\HCD<HCNum>` is opened and, if that succeeds, the controller is
enumerated and the handle closed.  The loop goes on with the next slot in every case. -/
def probeSlot {σ : Type} (host : Host σ) (fuel hTreeParent HCNum : Nat) (s : Session σ) :
    Except Fault (Flow × Session σ) :=
  let f := CreateFile host s ("\\\\.\\HCD" ++ toString HCNum)
  match f.1 with
  | none => Except.ok (Flow.next, f.2)
  | some hHCDev =>
    match EnumerateHostController host fuel hTreeParent hHCDev f.2 with
    | Except.error e => Except.error e
    | Except.ok s1 => Except.ok (Flow.next, CloseHandle host s1 hHCDev)


/-! ## Concrete devices and configurations -/

/-- A driver and allocator without state, given by the reply to each request. -/
def statelessEnv (reply : IoRequest → IoReply) (allocOk : Bool) : Env Unit :=
  { ioctl := fun _ req => (reply req, ()),
    allocOk := fun _ _ => (allocOk, ()) }

/-- The world before anything happened. -/
def World.start {σ : Type} (s : σ) : World σ :=
  { ext := s, ioLog := [], heapLog := [], nodes := [] }

/-- A device whose configuration descriptor announces a total length of 4. -/
def shortTotalLengthDevice : Env Unit :=
  statelessEnv (fun req =>
    { success := true,
      data := (requestBuffer req).take 12 ++ [9, 2, 4, 0, 1, 1, 0, 128, 50] }) true

/-- Bytes of a configuration of 25 bytes: the configuration descriptor, one interface
descriptor and one endpoint descriptor, none of them naming a string. -/
def plainConfig : List Nat :=
  [9, 2, 25, 0, 1, 1, 0, 128, 50,
   9, 4, 0, 0, 1, 3, 1, 1, 0,
   7, 5, 129, 3, 8, 0, 10]

/-- A device that answers every configuration request with as much of `plainConfig` as the
buffer holds. -/
def plainDevice : Env Unit :=
  statelessEnv (fun req =>
    { success := true, data := (requestBuffer req).take 12 ++ plainConfig }) true

/-- A device that answers the probe with the header of `plainConfig` and fails the full
request. -/
def flakyDevice : Env Unit :=
  statelessEnv (fun req =>
    { success := decide (req.nBytes = 21),
      data := (requestBuffer req).take 12 ++ plainConfig }) true

/-- A device with one language (0x0409) and one string (index 1, six bytes); every other
string request fails. -/
def oneStringDevice : Env Unit :=
  statelessEnv (fun req =>
    if req.wValue = 768 then
      { success := true, data := (requestBuffer req).take 12 ++ [4, 3, 9, 4] }
    else if req.wValue = 769 ∧ req.wIndex = 1033 then
      { success := true, data := (requestBuffer req).take 12 ++ [6, 3, 65, 0, 66, 0] }
    else
      { success := false, data := [] }) true

/-- A configuration of 25 bytes whose second descriptor is an interface descriptor with the
declared length 7, followed by a well-formed interface descriptor that names string 1. -/
def malformedConfig : List Nat :=
  [9, 2, 25, 0, 1, 1, 0, 128, 50,
   7, 4, 0, 0, 1, 3, 1,
   9, 4, 1, 0, 1, 3, 1, 1, 1]

/-- The device descriptor that names no string. -/
def noStringsDevice : USB_DEVICE_DESCRIPTOR :=
  { iManufacturer := 0, iProduct := 0, iSerialNumber := 0 }

/-- A device that fails every request. -/
def deadDevice : Env Unit :=
  statelessEnv (fun _ => { success := false, data := [] }) true

/-- The records of the chain that a run of `GetAllStringDescriptors` returns. -/
def chainOf {σ : Type} (res : Except Fault (Option Nat × World σ)) :
    Except Fault (Option (List StringRecord)) :=
  match res with
  | Except.error e => Except.error e
  | Except.ok x => Except.ok (chainFrom x.2 x.2.nodes.length x.1)

/-- The descriptors of `malformedConfig`. -/
def malformedDescriptors : List (List Nat) :=
  [[9, 2, 25, 0, 1, 1, 0, 128, 50],
   [7, 4, 0, 0, 1, 3, 1],
   [9, 4, 1, 0, 1, 3, 1, 1, 1]]

/-- The descriptors of a configuration of 25 bytes whose interface descriptor names
string 1. -/
def namedInterfaceDescriptors : List (List Nat) :=
  [[9, 2, 25, 0, 1, 1, 0, 128, 50],
   [9, 4, 0, 0, 1, 3, 1, 1, 1],
   [7, 5, 129, 3, 8, 0, 10]]

/-! ## Concrete hosts -/

/-- A host on which every request fails, every name is unknown, no file opens, the tree
view takes every item and memory is never short. -/
def silentHost : Host Unit :=
  { toEnv := deadDevice,
    connectionInformationEx := fun _ _ _ => (none, ()),
    connectionInformation := fun _ _ _ => (none, ()),
    hubCapabilitiesEx := fun _ _ => (none, ()),
    hubCapabilities := fun _ _ => (none, ()),
    nodeInformation := fun _ _ => (none, ()),
    nameLength := fun _ _ _ _ => (none, ()),
    name := fun _ _ _ _ _ => (none, ()),
    createFile := fun _ _ => (none, ()),
    closeHandle := fun _ _ => (),
    addLeaf := fun _ hTreeParent => (some (hTreeParent + 1), ()),
    driverNameToDeviceDesc := fun _ _ _ => (none, ()),
    sscanf := fun _ => [],
    uninitialized := fun _ => 0,
    setupDiGetClassDevs := fun _ => (none, ()),
    setupDiEnumDeviceInterfaces := fun _ _ _ => (false, ()),
    setupDiGetDeviceInterfaceDetail := fun _ _ _ _ => ((0, ""), ()),
    setupDiDestroyDeviceInfoList := fun _ _ => () }

/-- The session before anything happened, with `gDoConfigDesc` as given. -/
def Session.start {σ : Type} (e : σ) (gDoConfigDesc : Bool) : Session σ :=
  { world := World.start e, calls := [], tree := [], EnumeratedHCList := [],
    TotalDevicesConnected := 0, TotalHubs := 0, gDoConfigDesc := gDoConfigDesc }

/-- A connection record of the legacy query: a low-speed device at address 3 with two open
pipes, in configuration 1. -/
def legacyRecord : USB_NODE_CONNECTION_INFORMATION :=
  { ConnectionIndex := 2, DeviceDescriptor := noStringsDevice, CurrentConfigurationValue := 1,
    LowSpeed := true, DeviceIsHub := false, DeviceAddress := 3, NumberOfOpenPipes := 2,
    ConnectionStatus := USB_CONNECTION_STATUS.DeviceConnected,
    PipeList := [⟨[7, 5, 129, 3, 8, 0, 10], 0⟩, ⟨[7, 5, 2, 3, 8, 0, 10], 1⟩] }

/-- A hub driver that knows the legacy query only and answers it with `legacyRecord`. -/
def legacyHost : Host Unit :=
  { silentHost with connectionInformation := fun _ _ _ => (some legacyRecord, ()) }


/-- A host like `silentHost` whose heap grants the first `k` blocks that are asked for and
no further one; its state is the number of blocks asked for so far. -/
def scarceHost (k : Nat) : Host Nat :=
  { toEnv :=
      { ioctl := fun e _ => ({ success := false, data := [] }, e),
        allocOk := fun e _ => (decide (e < k), e + 1) },
    connectionInformationEx := fun e _ _ => (none, e),
    connectionInformation := fun e _ _ => (none, e),
    hubCapabilitiesEx := fun e _ => (none, e),
    hubCapabilities := fun e _ => (none, e),
    nodeInformation := fun e _ => (none, e),
    nameLength := fun e _ _ _ => (none, e),
    name := fun e _ _ _ _ => (none, e),
    createFile := fun e _ => (none, e),
    closeHandle := fun e _ => e,
    addLeaf := fun e hTreeParent => (some (hTreeParent + 1), e),
    driverNameToDeviceDesc := fun e _ _ => (none, e),
    sscanf := fun _ => [],
    uninitialized := fun _ => 0,
    setupDiGetClassDevs := fun e => (none, e),
    setupDiEnumDeviceInterfaces := fun e _ _ => (false, e),
    setupDiGetDeviceInterfaceDetail := fun e _ _ _ => ((0, ""), e),
    setupDiDestroyDeviceInfoList := fun e _ => e }

/-- A routine in the place of `EnumerateHub` that cannot be called without a fault. -/
def neverCalled {σ : Type} : HubArguments → Session σ → Except Fault (Bool × Session σ) :=
  fun _ _ => Except.error Fault.outOfFuel

/-- The record `legacyRecord` as a buffer with room for thirty pipes holds it. -/
def legacyReply : USB_NODE_CONNECTION_INFORMATION :=
  { legacyRecord with PipeList := pipeList30 legacyRecord.PipeList }

/-- The session after the connection information of port 2 of the hub 7 was looked up on
`legacyHost`: two calls, two blocks, the block of the legacy record released. -/
def legacySession : Session Unit :=
  { world :=
      { ext := (), ioLog := [],
        heapLog := [HeapEvent.alloc 0 365, HeapEvent.alloc 1 365, HeapEvent.free 1],
        nodes := [] },
    calls :=
      [OsCall.connectionInformationEx 7 2 none,
       OsCall.connectionInformation 7 2 (some legacyReply)],
    tree := [], EnumeratedHCList := [], TotalDevicesConnected := 0, TotalHubs := 0,
    gDoConfigDesc := true }

/-- The session after both queries for port 1 of the hub 7 failed on `silentHost`. -/
def skippedSession : Session Unit :=
  { world :=
      { ext := (), ioLog := [],
        heapLog := [HeapEvent.alloc 0 365, HeapEvent.alloc 1 365, HeapEvent.free 1,
          HeapEvent.free 0],
        nodes := [] },
    calls :=
      [OsCall.connectionInformationEx 7 1 none, OsCall.connectionInformation 7 1 none],
    tree := [], EnumeratedHCList := [], TotalDevicesConnected := 0, TotalHubs := 0,
    gDoConfigDesc := true }

/-- A host with one hub: it opens under every name with the handle 7, has `ports` ports,
answers the capabilities request with 1 and fails the extended capabilities request; the
extended connection information of the port `index` is `port index`. -/
def hubHost (ports : Nat) (port : Nat → Option USB_NODE_CONNECTION_INFORMATION_EX) :
    Host Unit :=
  { silentHost with
    createFile := fun _ _ => (some 7, ()),
    nodeInformation := fun _ _ => (some { NodeType := 0, bNumberOfPorts := ports }, ()),
    hubCapabilities := fun _ _ => (some 1, ()),
    connectionInformationEx := fun _ _ index => (port index, ()) }

/-- A host whose hub opens with the handle 7 and answers no request. -/
def muteHubHost : Host Unit :=
  { silentHost with createFile := fun _ _ => (some 7, ()) }

/-- The arguments of `EnumerateHub` for a root hub named `RootHub#1` under the item 1; the
name is held by the block 100. -/
def rootHubArguments : HubArguments :=
  { hTreeParent := 1, HubName := ⟨100, "RootHub#1"⟩, ConnectionInfo := none,
    ConfigDesc := none, StringDescs := none, DeviceDesc := some "RootHub" }

/-- The session after `EnumerateHub` added the item of the root hub `rootHubArguments` on
`hubHost 0`, a hub without ports: the extended capabilities request failed and its block
was released. -/
def capabilitiesSession : Session Unit :=
  { world :=
      { ext := (), ioLog := [],
        heapLog := [HeapEvent.alloc 0 20, HeapEvent.alloc 1 76, HeapEvent.alloc 2 4,
          HeapEvent.alloc 3 4, HeapEvent.alloc 4 28, HeapEvent.free 4, HeapEvent.free 2],
        nodes := [] },
    calls :=
      [OsCall.createFile "\\\\.\\RootHub#1" (some 7), OsCall.hubCapabilitiesEx 7 false,
       OsCall.hubCapabilities 7 true, OsCall.nodeInformation 7 true],
    tree :=
      [{ hItem := 2, hTreeParent := 1,
         lParam := NodeInfo.RootHubInfo
           { self := 0, HubInfo := ⟨1, { NodeType := 0, bNumberOfPorts := 0 }⟩,
             HubName := ⟨100, "RootHub#1"⟩, HubCaps := some ⟨3, 1⟩, HubCapsEx := none },
         icon := Icon.HubIcon }],
    EnumeratedHCList := [], TotalDevicesConnected := 0, TotalHubs := 0,
    gDoConfigDesc := true }

/-- The extended connection information of a port with a configured device that is no hub
and names no string. -/
def plainPort : USB_NODE_CONNECTION_INFORMATION_EX :=
  { ConnectionIndex := 1, DeviceDescriptor := noStringsDevice, CurrentConfigurationValue := 1,
    Speed := UsbFullSpeed, DeviceIsHub := false, DeviceAddress := 2, NumberOfOpenPipes := 1,
    ConnectionStatus := USB_CONNECTION_STATUS.DeviceConnected, PipeList := [] }

/-- The host of a root hub with one port, to which the device `plainDevice` with the
configuration `plainConfig` of 25 bytes is connected. -/
def plainDeviceHost : Host Unit :=
  { hubHost 1 (fun _ => some plainPort) with toEnv := plainDevice }

/-- The extended connection information of a port to which a hub is connected. -/
def hubPort : USB_NODE_CONNECTION_INFORMATION_EX :=
  { ConnectionIndex := 1, DeviceDescriptor := noStringsDevice, CurrentConfigurationValue := 1,
    Speed := UsbFullSpeed, DeviceIsHub := true, DeviceAddress := 2, NumberOfOpenPipes := 1,
    ConnectionStatus := USB_CONNECTION_STATUS.DeviceConnected, PipeList := [] }

/-- The extended connection information of a port to which nothing is connected. -/
def emptyPort : USB_NODE_CONNECTION_INFORMATION_EX :=
  { ConnectionIndex := 0, DeviceDescriptor := noStringsDevice, CurrentConfigurationValue := 0,
    Speed := UsbLowSpeed, DeviceIsHub := false, DeviceAddress := 0, NumberOfOpenPipes := 0,
    ConnectionStatus := USB_CONNECTION_STATUS.NoDeviceConnected, PipeList := [] }

/-- A host like `hubHost` on which the name of the hub on a port is known: the name request
answers with the length 30 and the name `Hub#2`. -/
def namedHubHost (ports : Nat) (port : Nat → Option USB_NODE_CONNECTION_INFORMATION_EX) :
    Host Unit :=
  { hubHost ports port with
    nameLength := fun _ request _ _ =>
      (if request = NameRequest.nodeConnectionName then some 30 else none, ()),
    name := fun _ request _ _ _ =>
      (if request = NameRequest.nodeConnectionName then some "Hub#2" else none, ()) }

/-- The session after the iteration for a port with a hub whose name cannot be obtained,
on `hubHost`: the two counters were incremented and the two name requests failed. -/
def unnamedHubSession : Session Unit :=
  { world := World.start (),
    calls :=
      [OsCall.nameLength NameRequest.nodeConnectionDriverKeyName 7 1 false,
       OsCall.nameLength NameRequest.nodeConnectionName 7 1 false],
    tree := [], EnumeratedHCList := [], TotalDevicesConnected := 1, TotalHubs := 1,
    gDoConfigDesc := false }

/-- The session after the driver key of the hub on port 1 of the hub 7 was asked for on
`namedHubHost`, in vain: both counters were incremented. -/
def hubProbedSession : Session Unit :=
  { world := World.start (),
    calls := [OsCall.nameLength NameRequest.nodeConnectionDriverKeyName 7 1 false],
    tree := [], EnumeratedHCList := [], TotalDevicesConnected := 1, TotalHubs := 1,
    gDoConfigDesc := false }

/-- The session after the name of the hub on port 1 of the hub 7 was obtained on
`namedHubHost`: the block 1 holds the name. -/
def hubNamedSession : Session Unit :=
  { world :=
      { ext := (), ioLog := [],
        heapLog := [HeapEvent.alloc 0 30, HeapEvent.alloc 1 12, HeapEvent.free 0],
        nodes := [] },
    calls :=
      [OsCall.nameLength NameRequest.nodeConnectionDriverKeyName 7 1 false,
       OsCall.nameLength NameRequest.nodeConnectionName 7 1 true,
       OsCall.name NameRequest.nodeConnectionName 7 1 30 true],
    tree := [], EnumeratedHCList := [], TotalDevicesConnected := 1, TotalHubs := 1,
    gDoConfigDesc := false }

/-- The arguments of the call of `EnumerateHub` for the hub on port 1 in the runs on
`namedHubHost`. -/
def externalHubArguments : HubArguments :=
  { hTreeParent := 2, HubName := ⟨1, "Hub#2"⟩, ConnectionInfo := some ⟨50, hubPort⟩,
    ConfigDesc := none, StringDescs := none, DeviceDesc := none }
/-- The session after `EnumerateHub` attached the hub on port 1 in the run on
`namedHubHost 0`, a hub without ports. -/
def hubAttachedSession : Session Unit :=
  { world :=
      { ext := (), ioLog := [],
        heapLog := [HeapEvent.alloc 0 30, HeapEvent.alloc 1 12, HeapEvent.free 0,
          HeapEvent.alloc 3 32, HeapEvent.alloc 4 76, HeapEvent.alloc 5 4, HeapEvent.alloc 6 4,
          HeapEvent.alloc 7 20, HeapEvent.free 7, HeapEvent.free 5],
        nodes := [] },
    calls :=
      [OsCall.nameLength NameRequest.nodeConnectionDriverKeyName 7 1 false,
       OsCall.nameLength NameRequest.nodeConnectionName 7 1 true,
       OsCall.name NameRequest.nodeConnectionName 7 1 30 true,
       OsCall.createFile "\\\\.\\Hub#2" (some 7), OsCall.hubCapabilitiesEx 7 false,
       OsCall.hubCapabilities 7 true, OsCall.nodeInformation 7 true, OsCall.closeHandle 7],
    tree :=
      [{ hItem := 3, hTreeParent := 2,
         lParam := NodeInfo.ExternalHubInfo
           { self := 3, HubInfo := ⟨4, { NodeType := 0, bNumberOfPorts := 0 }⟩,
             HubName := ⟨1, "Hub#2"⟩, HubCaps := some ⟨6, 1⟩, HubCapsEx := none,
             ConnectionInfo := ⟨50, hubPort⟩, ConfigDesc := none, StringDescs := none },
         icon := Icon.HubIcon }],
    EnumeratedHCList := [], TotalDevicesConnected := 1, TotalHubs := 1,
    gDoConfigDesc := false }


/-- A host with host controllers.  Every controller has the driver key `usb#0000` and a
root hub `RootHub#1` with two ports: a configured device on port 1 and nothing on port 2.
A name opens if `opens` says so, always with the handle 7; the device id of the controller
is `deviceId`, and the class of host controllers has `interfaces` device interfaces. -/
def controllerHost (deviceId : Option String) (opens : String → Bool) (interfaces : Nat) :
    Host Unit :=
  { hubHost 2 (fun index => if index = 1 then some plainPort else some emptyPort) with
    createFile := fun _ lpFileName => (if opens lpFileName then some 7 else none, ()),
    nameLength := fun _ request _ _ =>
      (if request = NameRequest.hcdDriverKeyName ∨ request = NameRequest.rootHubName then
        some 30 else none, ()),
    name := fun _ request _ _ _ =>
      (if request = NameRequest.hcdDriverKeyName then some "usb#0000"
       else if request = NameRequest.rootHubName then some "RootHub#1" else none, ()),
    driverNameToDeviceDesc := fun _ _ DeviceId =>
      (if DeviceId then deviceId else some "Host Controller", ()),
    sscanf := fun _ => [32902, 9426, 4660, 2],
    setupDiGetClassDevs := fun _ => (if interfaces = 0 then none else some 5, ()),
    setupDiEnumDeviceInterfaces := fun _ _ index => (decide (index < interfaces), ()),
    setupDiGetDeviceInterfaceDetail := fun _ _ _ _ => ((40, "\\\\?\\pci#usb"), ()) }

/-- The device id of the controllers of `controllerHost` in the runs where it is known. -/
def pciDeviceId : String := "PCI\\VEN_8086&DEV_24D2&SUBSYS_1234&REV_02"

/-- The session at the end of a pass of `EnumerateHostControllers` over the host
`controllerHost (some pciDeviceId) (fun _ => true) 0`, started with both counters at 5. -/
def passSession : Session Unit :=
  match EnumerateHostControllers (controllerHost (some pciDeviceId) (fun _ => true) 0) 20 0
      { Session.start () false with TotalDevicesConnected := 5, TotalHubs := 5 } with
  | Except.ok r => r.2
  | Except.error _ => Session.start () false

/-- The host of a root hub with one port that reports a hub whose name cannot be obtained;
the device on the port is `plainDevice` with the configuration `plainConfig`. -/
def unnamedHubHost : Host Unit :=
  { hubHost 1 (fun _ => some hubPort) with toEnv := plainDevice }

/-- The record of an external hub that owns eight blocks besides its own: the string
descriptor chain consists of the nodes 15 and 16. -/
def externalHubRecord : USBEXTERNALHUBINFO :=
  { self := 10, HubInfo := ⟨11, { NodeType := 0, bNumberOfPorts := 4 }⟩,
    HubName := ⟨12, "Hub#2"⟩, HubCaps := some ⟨13, 1⟩, HubCapsEx := none,
    ConnectionInfo := ⟨17, hubPort⟩, ConfigDesc := some ⟨14, plainConfig⟩,
    StringDescs := some 15 }

/-- The two records of host controllers in the list of `cleanupSession`. -/
def firstController : USBHOSTCONTROLLERINFO :=
  { self := 20, DriverKey := some ⟨21, "usb#0000"⟩, VendorID := 32902, DeviceID := 9426,
    SubSysID := 4660, Revision := 2 }

/-- The second record of a host controller in the list of `cleanupSession`. -/
def secondController : USBHOSTCONTROLLERINFO :=
  { self := 22, DriverKey := some ⟨23, "usb#0001"⟩, VendorID := 32902, DeviceID := 9427,
    SubSysID := 4660, Revision := 2 }

/-- A session with two host controllers in the list and three items in the tree: the first
controller (item 1), the second controller (item 2) and an external hub (item 3) with a
chain of two string descriptor nodes. -/
def cleanupSession : Session Unit :=
  { world :=
      { ext := (), ioLog := [], heapLog := [],
        nodes :=
          [(15, { Next := some 16, DescriptorIndex := 0, LanguageID := 0,
                  StringDescriptor := [4, 3, 9, 4] }),
           (16, { Next := none, DescriptorIndex := 1, LanguageID := 1033,
                  StringDescriptor := [4, 3, 65, 0] })] },
    calls := [],
    tree :=
      [{ hItem := 1, hTreeParent := 0, lParam := NodeInfo.HostControllerInfo firstController,
         icon := Icon.GoodDeviceIcon },
       { hItem := 2, hTreeParent := 0, lParam := NodeInfo.HostControllerInfo secondController,
         icon := Icon.GoodDeviceIcon },
       { hItem := 3, hTreeParent := 1, lParam := NodeInfo.ExternalHubInfo externalHubRecord,
         icon := Icon.HubIcon }],
    EnumeratedHCList := [firstController, secondController],
    TotalDevicesConnected := 0, TotalHubs := 1, gDoConfigDesc := true }

/-- The session after `EnumerateHostController` enumerated, from the start, a controller of
the host `controllerHost none (fun _ => true) 0`, whose device id is not known. -/
def noDeviceIdSession : Session Unit :=
  match EnumerateHostController (controllerHost none (fun _ => true) 0) 20 0 7
      (Session.start () false) with
  | Except.ok s => s
  | Except.error _ => Session.start () false

/-- A host like `controllerHost` whose device id is not of the form that `_stscanf_s`
asks for: no field is converted, and the four local variables hold 3735928559. -/
def unparsedHost : Host Unit :=
  { controllerHost (some "USB\\ROOT_HUB") (fun _ => true) 0 with
    sscanf := fun _ => [],
    uninitialized := fun _ => 3735928559 }

/-- A configuration of 12 bytes: the configuration descriptor, which names no string, and
three more bytes that start with a descriptor of the declared length 0 and the type 5. -/
def stalledConfig : List Nat :=
  [9, 2, 12, 0, 1, 1, 0, 128, 50, 0, 5, 0]
/-- A device whose string descriptor 0 is the two-byte header alone: it lists no language.
Every other request fails. -/
def noLanguageDevice : Env Unit :=
  statelessEnv (fun req =>
    if req.wValue = 768 then
      { success := true, data := (requestBuffer req).take 12 ++ [2, 3] }
    else
      { success := false, data := [] }) true

/-- A device descriptor that names the string 1 as the manufacturer. -/
def namedManufacturer : USB_DEVICE_DESCRIPTOR :=
  { iManufacturer := 1, iProduct := 0, iSerialNumber := 0 }

/-- A host like `controllerHost` on which the slot 3 does not open and the name of the root
hub is not obtained. -/
def rootlessHost : Host Unit :=
  { controllerHost (some pciDeviceId) (fun name => decide (name ≠ "\\\\.\\HCD3")) 0 with
    nameLength := fun _ request _ _ =>
      (if request = NameRequest.hcdDriverKeyName then some 30 else none, ()) }

/-- The names that a log of calls asked to open, in order. -/
def openedNames : List OsCall → List String
  | [] => []
  | OsCall.createFile lpFileName _ :: rest => lpFileName :: openedNames rest
  | _ :: rest => openedNames rest

/-- The session after the slot 0 was probed, from the start, on the host
`controllerHost none (fun _ => true) 0`, whose controllers have no known device id. -/
def firstSlotSession : Session Unit :=
  match probeSlot (controllerHost none (fun _ => true) 0) 20 0 0 (Session.start () false) with
  | Except.ok r => r.2
  | Except.error _ => Session.start () false

/-! # Theorems -/

/-! ## GetConfigDescriptor -/

theorem liveBlocks_append (log : List HeapEvent) (e : HeapEvent) :
    liveBlocks (log ++ [e]) = heapStep (liveBlocks log) e := by
  simp [liveBlocks, List.foldl_append]

theorem liveBlocks_alloc_free (log : List HeapEvent) (p n : Nat) :
    liveBlocks (log ++ [HeapEvent.alloc p n] ++ [HeapEvent.free p]) = liveBlocks log := by
  rw [liveBlocks_append, liveBlocks_append]
  simp [heapStep]

theorem DeviceIoControl_ioLog {σ : Type} (env : Env σ) (w : World σ) (req : IoRequest)
    (inBuf : List Nat) :
    (DeviceIoControl env w req inBuf).2.ioLog = w.ioLog ++ [req] := rfl

theorem DeviceIoControl_heapLog {σ : Type} (env : Env σ) (w : World σ) (req : IoRequest)
    (inBuf : List Nat) :
    (DeviceIoControl env w req inBuf).2.heapLog = w.heapLog := rfl

theorem DeviceIoControl_buffer_length {σ : Type} (env : Env σ) (w : World σ)
    (req : IoRequest) (inBuf : List Nat) :
    (DeviceIoControl env w req inBuf).1.buffer.length = inBuf.length := by
  simp only [DeviceIoControl, List.length_append, List.length_take, List.length_drop,
    List.length_map]
  omega

/-- A probe that fails a check ends `GetConfigDescriptor` right after the first request. -/
theorem GetConfigDescriptor_of_probe_invalid {σ : Type} (env : Env σ) (w : World σ)
    (hHubDevice ConnectionIndex DescriptorIndex : Nat)
    (hbad : ¬ probeValid (configProbe env w hHubDevice ConnectionIndex DescriptorIndex).1) :
    GetConfigDescriptor env w hHubDevice ConnectionIndex DescriptorIndex =
      (none, (configProbe env w hHubDevice ConnectionIndex DescriptorIndex).2) := by
  unfold probeValid configProbe at hbad
  unfold GetConfigDescriptor configProbe
  simp only [] at hbad ⊢
  by_cases h1 : (DeviceIoControl env w
      (configRequest hHubDevice ConnectionIndex DescriptorIndex
        (sizeof_USB_DESCRIPTOR_REQUEST + sizeof_USB_CONFIGURATION_DESCRIPTOR))
      (requestBuffer (configRequest hHubDevice ConnectionIndex DescriptorIndex
        (sizeof_USB_DESCRIPTOR_REQUEST + sizeof_USB_CONFIGURATION_DESCRIPTOR)))).1.success = false
  · rw [if_pos h1]
  · rw [if_neg h1]
    by_cases h2 : sizeof_USB_DESCRIPTOR_REQUEST + sizeof_USB_CONFIGURATION_DESCRIPTOR ≠
        (DeviceIoControl env w
          (configRequest hHubDevice ConnectionIndex DescriptorIndex
            (sizeof_USB_DESCRIPTOR_REQUEST + sizeof_USB_CONFIGURATION_DESCRIPTOR))
          (requestBuffer (configRequest hHubDevice ConnectionIndex DescriptorIndex
            (sizeof_USB_DESCRIPTOR_REQUEST + sizeof_USB_CONFIGURATION_DESCRIPTOR)))).1.nBytesReturned
    · rw [if_pos h2]
    · rw [if_neg h2]
      by_cases h3 : wTotalLengthOf (DeviceIoControl env w
          (configRequest hHubDevice ConnectionIndex DescriptorIndex
            (sizeof_USB_DESCRIPTOR_REQUEST + sizeof_USB_CONFIGURATION_DESCRIPTOR))
          (requestBuffer (configRequest hHubDevice ConnectionIndex DescriptorIndex
            (sizeof_USB_DESCRIPTOR_REQUEST + sizeof_USB_CONFIGURATION_DESCRIPTOR)))).1.buffer
          < sizeof_USB_CONFIGURATION_DESCRIPTOR
      · rw [if_pos h3]
      · exfalso
        apply hbad
        refine ⟨?_, ?_, ?_⟩
        · simpa using h1
        · exact (not_ne_iff.mp h2).symm
        · exact Nat.le_of_not_lt h3

/-- C1. If the first request fails, or its returned byte count differs from the requested
size (request header plus one configuration descriptor), or the returned `wTotalLength` is
less than the size of a configuration descriptor, then `GetConfigDescriptor` returns no
buffer, the probe is the only request it issued, and it allocated nothing. -/
theorem GetConfigDescriptor_probe_rejected {σ : Type} (env : Env σ) (w : World σ)
    (hHubDevice ConnectionIndex DescriptorIndex : Nat)
    (hbad : (configProbe env w hHubDevice ConnectionIndex DescriptorIndex).1.success = false ∨
      (configProbe env w hHubDevice ConnectionIndex DescriptorIndex).1.nBytesReturned ≠
        sizeof_USB_DESCRIPTOR_REQUEST + sizeof_USB_CONFIGURATION_DESCRIPTOR ∨
      wTotalLengthOf (configProbe env w hHubDevice ConnectionIndex DescriptorIndex).1.buffer <
        sizeof_USB_CONFIGURATION_DESCRIPTOR) :
    (GetConfigDescriptor env w hHubDevice ConnectionIndex DescriptorIndex).1 = none ∧
    (GetConfigDescriptor env w hHubDevice ConnectionIndex DescriptorIndex).2.ioLog =
      w.ioLog ++ [configRequest hHubDevice ConnectionIndex DescriptorIndex
        (sizeof_USB_DESCRIPTOR_REQUEST + sizeof_USB_CONFIGURATION_DESCRIPTOR)] ∧
    (GetConfigDescriptor env w hHubDevice ConnectionIndex DescriptorIndex).2.heapLog =
      w.heapLog := by
  have hinv : ¬ probeValid (configProbe env w hHubDevice ConnectionIndex DescriptorIndex).1 := by
    rintro ⟨h1, h2, h3⟩
    rcases hbad with h | h | h
    · rw [h1] at h; cases h
    · exact h h2
    · exact absurd h (Nat.not_lt.mpr h3)
  rw [GetConfigDescriptor_of_probe_invalid env w _ _ _ hinv]
  exact ⟨rfl, rfl, rfl⟩

theorem GetConfigDescriptor_probe_rejected_witness :
    wTotalLengthOf (configProbe shortTotalLengthDevice (World.start ()) 7 1 0).1.buffer <
      sizeof_USB_CONFIGURATION_DESCRIPTOR ∧
    (GetConfigDescriptor shortTotalLengthDevice (World.start ()) 7 1 0).1 = none ∧
    (GetConfigDescriptor shortTotalLengthDevice (World.start ()) 7 1 0).2.ioLog =
      (World.start ()).ioLog ++ [configRequest 7 1 0
        (sizeof_USB_DESCRIPTOR_REQUEST + sizeof_USB_CONFIGURATION_DESCRIPTOR)] ∧
    (GetConfigDescriptor shortTotalLengthDevice (World.start ()) 7 1 0).2.heapLog =
      (World.start ()).heapLog :=
  ⟨by decide,
   GetConfigDescriptor_probe_rejected shortTotalLengthDevice (World.start ()) 7 1 0
    (Or.inr (Or.inr (by decide)))⟩

/-- A probe that passes the checks leads to the allocation and the second request. -/
theorem GetConfigDescriptor_of_probe_valid {σ : Type} (env : Env σ) (w : World σ)
    (hHubDevice ConnectionIndex DescriptorIndex : Nat)
    (hok : probeValid (configProbe env w hHubDevice ConnectionIndex DescriptorIndex).1) :
    GetConfigDescriptor env w hHubDevice ConnectionIndex DescriptorIndex =
      match (configAlloc env w hHubDevice ConnectionIndex DescriptorIndex).1 with
      | none => (none, (configAlloc env w hHubDevice ConnectionIndex DescriptorIndex).2)
      | some configDescReq =>
        if (configFull env w hHubDevice ConnectionIndex DescriptorIndex).1.success = false then
          (none, FREE (configFull env w hHubDevice ConnectionIndex DescriptorIndex).2
            configDescReq)
        else if sizeof_USB_DESCRIPTOR_REQUEST +
            wTotalLengthOf (configProbe env w hHubDevice ConnectionIndex DescriptorIndex).1.buffer
            ≠ (configFull env w hHubDevice ConnectionIndex DescriptorIndex).1.nBytesReturned then
          (none, FREE (configFull env w hHubDevice ConnectionIndex DescriptorIndex).2
            configDescReq)
        else if wTotalLengthOf
            (configFull env w hHubDevice ConnectionIndex DescriptorIndex).1.buffer ≠
            sizeof_USB_DESCRIPTOR_REQUEST +
            wTotalLengthOf (configProbe env w hHubDevice ConnectionIndex DescriptorIndex).1.buffer
            - sizeof_USB_DESCRIPTOR_REQUEST then
          (none, FREE (configFull env w hHubDevice ConnectionIndex DescriptorIndex).2
            configDescReq)
        else
          (some { handle := configDescReq,
                  bytes := (configFull env w hHubDevice ConnectionIndex
                    DescriptorIndex).1.buffer },
           (configFull env w hHubDevice ConnectionIndex DescriptorIndex).2) := by
  obtain ⟨h1, h2, h3⟩ := hok
  unfold configProbe at h1 h2 h3
  unfold GetConfigDescriptor configFull configAlloc configProbe
  simp only [] at h1 h2 h3 ⊢
  rw [if_neg (by rw [h1]; simp), if_neg (by rw [h2]; simp), if_neg (Nat.not_lt.mpr h3)]

theorem ALLOC_some {σ : Type} (env : Env σ) (w : World σ) (dwBytes p : Nat)
    (h : (ALLOC env w dwBytes).1 = some p) :
    (ALLOC env w dwBytes).2.heapLog = w.heapLog ++ [HeapEvent.alloc p dwBytes] ∧
    p = w.heapLog.length ∧ (ALLOC env w dwBytes).2.ioLog = w.ioLog ∧
    (ALLOC env w dwBytes).2.nodes = w.nodes := by
  unfold ALLOC at h ⊢
  simp only [] at h ⊢
  split_ifs at h ⊢ with hc
  simp only [Option.some.injEq] at h
  subst h
  exact ⟨rfl, rfl, rfl, rfl⟩

theorem ALLOC_none {σ : Type} (env : Env σ) (w : World σ) (dwBytes : Nat)
    (h : (ALLOC env w dwBytes).1 = none) :
    (ALLOC env w dwBytes).2.heapLog = w.heapLog ∧ (ALLOC env w dwBytes).2.ioLog = w.ioLog ∧
    (ALLOC env w dwBytes).2.nodes = w.nodes := by
  unfold ALLOC at h ⊢
  simp only [] at h ⊢
  split_ifs at h ⊢ with hc
  exact ⟨rfl, rfl, rfl⟩

theorem byteAt_lt (buf : List Nat) (i : Nat) : byteAt buf i < 256 :=
  Nat.mod_lt _ (by decide)

theorem wordAt_lt (buf : List Nat) (i : Nat) : wordAt buf i < USHORT_RANGE := by
  have h1 := byteAt_lt buf i
  have h2 := byteAt_lt buf (i + 1)
  unfold wordAt USHORT_RANGE
  omega

theorem requestBuffer_length (req : IoRequest)
    (h : sizeof_USB_DESCRIPTOR_REQUEST ≤ req.nBytes) :
    (requestBuffer req).length = req.nBytes := by
  unfold sizeof_USB_DESCRIPTOR_REQUEST at h
  simp only [requestBuffer, requestHeader, List.length_append, List.length_cons,
    List.length_nil, List.length_replicate, sizeof_USB_DESCRIPTOR_REQUEST]
  omega

/-- C2. For a probe that passes validation and a phase-two block `p` that was allocated:
if the second request fails, or returns a byte count different from the requested size
(request header plus the probe's `wTotalLength`), or the `wTotalLength` of the second
response differs from the requested payload size, then `GetConfigDescriptor` returns no
buffer and the block is released: the heap events of the call are the allocation of `p`
followed by its release, and the live blocks are those from before the call. -/
theorem GetConfigDescriptor_full_rejected {σ : Type} (env : Env σ) (w : World σ)
    (hHubDevice ConnectionIndex DescriptorIndex p : Nat)
    (hok : probeValid (configProbe env w hHubDevice ConnectionIndex DescriptorIndex).1)
    (halloc : (configAlloc env w hHubDevice ConnectionIndex DescriptorIndex).1 = some p)
    (hbad : (configFull env w hHubDevice ConnectionIndex DescriptorIndex).1.success = false ∨
      (configFull env w hHubDevice ConnectionIndex DescriptorIndex).1.nBytesReturned ≠
        sizeof_USB_DESCRIPTOR_REQUEST +
          wTotalLengthOf (configProbe env w hHubDevice ConnectionIndex DescriptorIndex).1.buffer ∨
      wTotalLengthOf (configFull env w hHubDevice ConnectionIndex DescriptorIndex).1.buffer ≠
        wTotalLengthOf (configProbe env w hHubDevice ConnectionIndex DescriptorIndex).1.buffer) :
    (GetConfigDescriptor env w hHubDevice ConnectionIndex DescriptorIndex).1 = none ∧
    (GetConfigDescriptor env w hHubDevice ConnectionIndex DescriptorIndex).2.heapLog =
      w.heapLog ++ [HeapEvent.alloc p (sizeof_USB_DESCRIPTOR_REQUEST +
          wTotalLengthOf (configProbe env w hHubDevice ConnectionIndex DescriptorIndex).1.buffer)]
        ++ [HeapEvent.free p] ∧
    liveBlocks (GetConfigDescriptor env w hHubDevice ConnectionIndex DescriptorIndex).2.heapLog =
      liveBlocks w.heapLog := by
  have hfree : (FREE (configFull env w hHubDevice ConnectionIndex DescriptorIndex).2 p).heapLog =
      w.heapLog ++ [HeapEvent.alloc p (sizeof_USB_DESCRIPTOR_REQUEST +
          wTotalLengthOf (configProbe env w hHubDevice ConnectionIndex DescriptorIndex).1.buffer)]
        ++ [HeapEvent.free p] := by
    have ha := (ALLOC_some env _ _ p halloc).1
    unfold configAlloc at halloc
    show (configFull env w hHubDevice ConnectionIndex DescriptorIndex).2.heapLog ++
      [HeapEvent.free p] = _
    have hf : (configFull env w hHubDevice ConnectionIndex DescriptorIndex).2.heapLog =
        (configAlloc env w hHubDevice ConnectionIndex DescriptorIndex).2.heapLog := rfl
    rw [hf]
    unfold configAlloc
    simp only []
    rw [ha]
    rfl
  rw [GetConfigDescriptor_of_probe_valid env w _ _ _ hok]
  simp only [halloc]
  have key : ∀ r : Option HeapBuffer × World σ,
      r = (none, FREE (configFull env w hHubDevice ConnectionIndex DescriptorIndex).2 p) →
      r.1 = none ∧ r.2.heapLog = w.heapLog ++ [HeapEvent.alloc p (sizeof_USB_DESCRIPTOR_REQUEST +
          wTotalLengthOf (configProbe env w hHubDevice ConnectionIndex DescriptorIndex).1.buffer)]
        ++ [HeapEvent.free p] ∧ liveBlocks r.2.heapLog = liveBlocks w.heapLog := by
    intro r hr
    subst hr
    refine ⟨rfl, hfree, ?_⟩
    show liveBlocks (FREE _ p).heapLog = _
    rw [hfree, liveBlocks_alloc_free]
  by_cases h1 : (configFull env w hHubDevice ConnectionIndex DescriptorIndex).1.success = false
  · rw [if_pos h1]; exact key _ rfl
  · rw [if_neg h1]
    by_cases h2 : sizeof_USB_DESCRIPTOR_REQUEST +
        wTotalLengthOf (configProbe env w hHubDevice ConnectionIndex DescriptorIndex).1.buffer
        ≠ (configFull env w hHubDevice ConnectionIndex DescriptorIndex).1.nBytesReturned
    · rw [if_pos h2]; exact key _ rfl
    · rw [if_neg h2]
      by_cases h3 : wTotalLengthOf
          (configFull env w hHubDevice ConnectionIndex DescriptorIndex).1.buffer ≠
          sizeof_USB_DESCRIPTOR_REQUEST +
          wTotalLengthOf (configProbe env w hHubDevice ConnectionIndex DescriptorIndex).1.buffer
          - sizeof_USB_DESCRIPTOR_REQUEST
      · rw [if_pos h3]; exact key _ rfl
      · exfalso
        rcases hbad with h | h | h
        · exact h1 h
        · exact h (not_ne_iff.mp h2).symm
        · apply h
          rw [not_ne_iff.mp h3]
          omega

theorem GetConfigDescriptor_full_rejected_witness :
    probeValid (configProbe flakyDevice (World.start ()) 7 1 0).1 ∧
    (configAlloc flakyDevice (World.start ()) 7 1 0).1 = some 0 ∧
    (configFull flakyDevice (World.start ()) 7 1 0).1.success = false ∧
    (GetConfigDescriptor flakyDevice (World.start ()) 7 1 0).1 = none ∧
    (GetConfigDescriptor flakyDevice (World.start ()) 7 1 0).2.heapLog =
      (World.start ()).heapLog ++ [HeapEvent.alloc 0 (sizeof_USB_DESCRIPTOR_REQUEST +
          wTotalLengthOf (configProbe flakyDevice (World.start ()) 7 1 0).1.buffer)]
        ++ [HeapEvent.free 0] ∧
    liveBlocks (GetConfigDescriptor flakyDevice (World.start ()) 7 1 0).2.heapLog =
      liveBlocks (World.start ()).heapLog :=
  ⟨by decide, by decide, by decide,
   GetConfigDescriptor_full_rejected flakyDevice (World.start ()) 7 1 0 0
     (by decide) (by decide) (Or.inl (by decide))⟩

/-- C3. Whenever `GetConfigDescriptor` returns a buffer, the descriptor payload that follows
the request header is exactly `wTotalLength` bytes long, `wTotalLength` is at least the size
of a configuration descriptor and is the same value in the probe response and in the returned
descriptor, and the requests issued are the probe followed by one request whose `wLength`
is that value. -/
theorem GetConfigDescriptor_returned_buffer {σ : Type} (env : Env σ) (w : World σ)
    (hHubDevice ConnectionIndex DescriptorIndex : Nat) (buf : HeapBuffer)
    (hret : (GetConfigDescriptor env w hHubDevice ConnectionIndex DescriptorIndex).1 = some buf) :
    (buf.bytes.drop sizeof_USB_DESCRIPTOR_REQUEST).length = wTotalLengthOf buf.bytes ∧
    sizeof_USB_CONFIGURATION_DESCRIPTOR ≤ wTotalLengthOf buf.bytes ∧
    wTotalLengthOf (configProbe env w hHubDevice ConnectionIndex DescriptorIndex).1.buffer =
      wTotalLengthOf buf.bytes ∧
    (GetConfigDescriptor env w hHubDevice ConnectionIndex DescriptorIndex).2.ioLog =
      w.ioLog ++
        [configRequest hHubDevice ConnectionIndex DescriptorIndex
          (sizeof_USB_DESCRIPTOR_REQUEST + sizeof_USB_CONFIGURATION_DESCRIPTOR),
         configRequest hHubDevice ConnectionIndex DescriptorIndex
          (sizeof_USB_DESCRIPTOR_REQUEST + wTotalLengthOf buf.bytes)] ∧
    (configRequest hHubDevice ConnectionIndex DescriptorIndex
      (sizeof_USB_DESCRIPTOR_REQUEST + wTotalLengthOf buf.bytes)).wLength =
      wTotalLengthOf buf.bytes := by
  by_cases hok : probeValid (configProbe env w hHubDevice ConnectionIndex DescriptorIndex).1
  · rw [GetConfigDescriptor_of_probe_valid env w _ _ _ hok] at hret ⊢
    cases halloc : (configAlloc env w hHubDevice ConnectionIndex DescriptorIndex).1 with
    | none => simp only [halloc] at hret; cases hret
    | some p =>
      simp only [halloc] at hret ⊢
      have hlt := wordAt_lt
        (configProbe env w hHubDevice ConnectionIndex DescriptorIndex).1.buffer
        (sizeof_USB_DESCRIPTOR_REQUEST + 2)
      have hlen : (configFull env w hHubDevice ConnectionIndex DescriptorIndex).1.buffer.length
          = sizeof_USB_DESCRIPTOR_REQUEST +
            wTotalLengthOf
              (configProbe env w hHubDevice ConnectionIndex DescriptorIndex).1.buffer := by
        unfold configFull
        simp only []
        rw [DeviceIoControl_buffer_length, requestBuffer_length]
        · rfl
        · exact Nat.le_add_right _ _
      have hio : (configFull env w hHubDevice ConnectionIndex DescriptorIndex).2.ioLog =
          w.ioLog ++
            [configRequest hHubDevice ConnectionIndex DescriptorIndex
              (sizeof_USB_DESCRIPTOR_REQUEST + sizeof_USB_CONFIGURATION_DESCRIPTOR),
             configRequest hHubDevice ConnectionIndex DescriptorIndex
              (sizeof_USB_DESCRIPTOR_REQUEST + wTotalLengthOf
                (configProbe env w hHubDevice ConnectionIndex DescriptorIndex).1.buffer)] := by
        have ha := (ALLOC_some env _ _ p halloc).2.2.1
        unfold configFull
        simp only []
        rw [DeviceIoControl_ioLog]
        unfold configAlloc
        simp only []
        rw [ha]
        unfold configProbe
        simp only []
        rw [DeviceIoControl_ioLog, List.append_assoc]
        rfl
      by_cases h1 : (configFull env w hHubDevice ConnectionIndex DescriptorIndex).1.success
          = false
      · rw [if_pos h1] at hret; cases hret
      · rw [if_neg h1] at hret ⊢
        by_cases h2 : sizeof_USB_DESCRIPTOR_REQUEST +
            wTotalLengthOf (configProbe env w hHubDevice ConnectionIndex DescriptorIndex).1.buffer
            ≠ (configFull env w hHubDevice ConnectionIndex DescriptorIndex).1.nBytesReturned
        · rw [if_pos h2] at hret; cases hret
        · rw [if_neg h2] at hret ⊢
          by_cases h3 : wTotalLengthOf
              (configFull env w hHubDevice ConnectionIndex DescriptorIndex).1.buffer ≠
              sizeof_USB_DESCRIPTOR_REQUEST +
              wTotalLengthOf
                (configProbe env w hHubDevice ConnectionIndex DescriptorIndex).1.buffer
              - sizeof_USB_DESCRIPTOR_REQUEST
          · rw [if_pos h3] at hret; cases hret
          · rw [if_neg h3] at hret ⊢
            have h3' := not_ne_iff.mp h3
            rw [Nat.add_sub_cancel_left] at h3'
            simp only [Option.some.injEq] at hret
            subst hret
            simp only []
            refine ⟨?_, ?_, h3'.symm, ?_, ?_⟩
            · rw [List.length_drop, hlen, h3']
              omega
            · rw [h3']; exact hok.2.2
            · rw [hio, h3']
            · rw [h3']
              show (sizeof_USB_DESCRIPTOR_REQUEST + _ - sizeof_USB_DESCRIPTOR_REQUEST)
                % USHORT_RANGE = _
              rw [Nat.add_sub_cancel_left]
              exact Nat.mod_eq_of_lt hlt
  · rw [GetConfigDescriptor_of_probe_invalid env w _ _ _ hok] at hret
    cases hret

theorem GetConfigDescriptor_returned_buffer_witness :
    (GetConfigDescriptor plainDevice (World.start ()) 7 1 0).1 =
      some { handle := 0, bytes := requestHeader 1 512 0 25 ++ plainConfig } ∧
    ((requestHeader 1 512 0 25 ++ plainConfig).drop sizeof_USB_DESCRIPTOR_REQUEST).length = 25 ∧
    wTotalLengthOf (requestHeader 1 512 0 25 ++ plainConfig) = 25 ∧
    (GetConfigDescriptor plainDevice (World.start ()) 7 1 0).2.ioLog =
      [configRequest 7 1 0 21, configRequest 7 1 0 37] :=
  ⟨by decide, by decide, by decide,
   (GetConfigDescriptor_returned_buffer plainDevice (World.start ()) 7 1 0
     { handle := 0, bytes := requestHeader 1 512 0 25 ++ plainConfig } (by decide)).2.2.2.1⟩

/-! ## GetStringDescriptor -/

theorem DeviceIoControl_nBytesReturned_le {σ : Type} (env : Env σ) (w : World σ)
    (req : IoRequest) (inBuf : List Nat) :
    (DeviceIoControl env w req inBuf).1.nBytesReturned ≤ inBuf.length := by
  simp only [DeviceIoControl, List.length_take, List.length_map]
  omega

theorem stringRequest_buffer_length
    (hHubDevice ConnectionIndex DescriptorIndex LanguageID : Nat) :
    (requestBuffer (stringRequest hHubDevice ConnectionIndex DescriptorIndex LanguageID)).length
      = 267 :=
  requestBuffer_length _ (by
    show sizeof_USB_DESCRIPTOR_REQUEST ≤
      sizeof_USB_DESCRIPTOR_REQUEST + MAXIMUM_USB_STRING_LENGTH
    exact Nat.le_add_right _ _)

/-- A response that fails a sanity check ends `GetStringDescriptor` without a node. -/
theorem GetStringDescriptor_of_rejected {σ : Type} (env : Env σ) (w : World σ)
    (hHubDevice ConnectionIndex DescriptorIndex LanguageID : Nat)
    (hbad : ¬ stringAccepted
      (stringFetch env w hHubDevice ConnectionIndex DescriptorIndex LanguageID).1) :
    GetStringDescriptor env w hHubDevice ConnectionIndex DescriptorIndex LanguageID =
      (none, (stringFetch env w hHubDevice ConnectionIndex DescriptorIndex LanguageID).2) := by
  unfold stringAccepted stringFetch at hbad
  unfold GetStringDescriptor stringFetch
  simp only [] at hbad ⊢
  have hn := DeviceIoControl_nBytesReturned_le env w
    (stringRequest hHubDevice ConnectionIndex DescriptorIndex LanguageID)
    (requestBuffer (stringRequest hHubDevice ConnectionIndex DescriptorIndex LanguageID))
  rw [stringRequest_buffer_length] at hn
  generalize DeviceIoControl env w
    (stringRequest hHubDevice ConnectionIndex DescriptorIndex LanguageID)
    (requestBuffer (stringRequest hHubDevice ConnectionIndex DescriptorIndex LanguageID)) = r
    at hbad hn ⊢
  by_cases h1 : r.1.success = false
  · rw [if_pos h1]
  · rw [if_neg h1]
    by_cases h2 : r.1.nBytesReturned < 2
    · rw [if_pos h2]
    · rw [if_neg h2]
      by_cases h3 : stringDesc_bDescriptorType r.1.buffer ≠ USB_STRING_DESCRIPTOR_TYPE
      · rw [if_pos h3]
      · rw [if_neg h3]
        by_cases h4 : stringDesc_bLength r.1.buffer ≠
            (r.1.nBytesReturned + ULONG_RANGE - sizeof_USB_DESCRIPTOR_REQUEST) % ULONG_RANGE
        · rw [if_pos h4]
        · rw [if_neg h4]
          by_cases h5 : stringDesc_bLength r.1.buffer % 2 ≠ 0
          · rw [if_pos h5]
          · exfalso
            apply hbad
            have hb : stringDesc_bLength r.1.buffer < 256 := byteAt_lt _ _
            have h4' := not_ne_iff.mp h4
            unfold ULONG_RANGE sizeof_USB_DESCRIPTOR_REQUEST at h4'
            refine ⟨by simpa using h1, Nat.le_of_not_lt h2, not_ne_iff.mp h3, ?_,
              not_ne_iff.mp h5⟩
            unfold sizeof_USB_DESCRIPTOR_REQUEST
            omega

/-- A response that passes the sanity checks leads to the allocation of the node. -/
theorem GetStringDescriptor_of_accepted {σ : Type} (env : Env σ) (w : World σ)
    (hHubDevice ConnectionIndex DescriptorIndex LanguageID : Nat)
    (hok : stringAccepted
      (stringFetch env w hHubDevice ConnectionIndex DescriptorIndex LanguageID).1) :
    GetStringDescriptor env w hHubDevice ConnectionIndex DescriptorIndex LanguageID =
      match (stringAlloc env w hHubDevice ConnectionIndex DescriptorIndex LanguageID).1 with
      | none =>
        (none, (stringAlloc env w hHubDevice ConnectionIndex DescriptorIndex LanguageID).2)
      | some stringDescNode =>
        (some stringDescNode,
         { (stringAlloc env w hHubDevice ConnectionIndex DescriptorIndex LanguageID).2 with
           nodes :=
            (stringDescNode,
             { Next := none,
               DescriptorIndex := DescriptorIndex,
               LanguageID := LanguageID,
               StringDescriptor :=
                 ((stringFetch env w hHubDevice ConnectionIndex DescriptorIndex
                    LanguageID).1.buffer.drop sizeof_USB_DESCRIPTOR_REQUEST).take
                   (stringDesc_bLength (stringFetch env w hHubDevice ConnectionIndex
                     DescriptorIndex LanguageID).1.buffer) }) ::
              (stringAlloc env w hHubDevice ConnectionIndex DescriptorIndex
                LanguageID).2.nodes }) := by
  obtain ⟨h1, h2, h3, h4, h5⟩ := hok
  unfold stringFetch at h1 h2 h3 h4 h5
  unfold GetStringDescriptor stringAlloc stringFetch
  simp only [] at h1 h2 h3 h4 h5 ⊢
  have hn := DeviceIoControl_nBytesReturned_le env w
    (stringRequest hHubDevice ConnectionIndex DescriptorIndex LanguageID)
    (requestBuffer (stringRequest hHubDevice ConnectionIndex DescriptorIndex LanguageID))
  rw [stringRequest_buffer_length] at hn
  generalize DeviceIoControl env w
    (stringRequest hHubDevice ConnectionIndex DescriptorIndex LanguageID)
    (requestBuffer (stringRequest hHubDevice ConnectionIndex DescriptorIndex LanguageID)) = r
    at hn h1 h2 h3 h4 h5 ⊢
  have h4' : stringDesc_bLength r.1.buffer =
      (r.1.nBytesReturned + ULONG_RANGE - sizeof_USB_DESCRIPTOR_REQUEST) % ULONG_RANGE := by
    unfold ULONG_RANGE sizeof_USB_DESCRIPTOR_REQUEST at *
    omega
  rw [if_neg (by rw [h1]; simp), if_neg (Nat.not_lt.mpr h2), if_neg (not_not.mpr h3),
    if_neg (not_not.mpr h4'), if_neg (not_not.mpr h5)]

/-- C4. `GetStringDescriptor` returns no node exactly when the request fails, or fewer than
2 bytes are returned, or the returned descriptor type is not the string descriptor type, or
the returned `bLength` differs from the returned byte count minus the size of the request
header, or `bLength` is odd, or the allocation of the node fails; in every other case it
returns a node. -/
theorem GetStringDescriptor_none_iff {σ : Type} (env : Env σ) (w : World σ)
    (hHubDevice ConnectionIndex DescriptorIndex LanguageID : Nat) :
    (GetStringDescriptor env w hHubDevice ConnectionIndex DescriptorIndex LanguageID).1 = none ↔
    ((stringFetch env w hHubDevice ConnectionIndex DescriptorIndex LanguageID).1.success = false ∨
     (stringFetch env w hHubDevice ConnectionIndex DescriptorIndex LanguageID).1.nBytesReturned
       < 2 ∨
     stringDesc_bDescriptorType
       (stringFetch env w hHubDevice ConnectionIndex DescriptorIndex LanguageID).1.buffer
       ≠ USB_STRING_DESCRIPTOR_TYPE ∨
     (stringDesc_bLength
       (stringFetch env w hHubDevice ConnectionIndex DescriptorIndex LanguageID).1.buffer : Int)
       ≠ ((stringFetch env w hHubDevice ConnectionIndex DescriptorIndex
            LanguageID).1.nBytesReturned : Int) - (sizeof_USB_DESCRIPTOR_REQUEST : Int) ∨
     stringDesc_bLength
       (stringFetch env w hHubDevice ConnectionIndex DescriptorIndex LanguageID).1.buffer % 2
       = 1 ∨
     (stringAlloc env w hHubDevice ConnectionIndex DescriptorIndex LanguageID).1 = none) := by
  by_cases hok : stringAccepted
      (stringFetch env w hHubDevice ConnectionIndex DescriptorIndex LanguageID).1
  · rw [GetStringDescriptor_of_accepted env w _ _ _ _ hok]
    obtain ⟨h1, h2, h3, h4, h5⟩ := hok
    constructor
    · intro h
      cases ha : (stringAlloc env w hHubDevice ConnectionIndex DescriptorIndex LanguageID).1 with
      | none => simp
      | some q => rw [ha] at h; cases h
    · rintro (h | h | h | h | h | h)
      · rw [h1] at h; cases h
      · omega
      · exact absurd h3 h
      · exact absurd h4 h
      · omega
      · rw [h]
  · rw [GetStringDescriptor_of_rejected env w _ _ _ _ hok]
    refine ⟨fun _ => ?_, fun _ => rfl⟩
    by_contra hcon
    apply hok
    simp only [not_or] at hcon
    obtain ⟨c1, c2, c3, c4, c5, _⟩ := hcon
    refine ⟨by simpa using c1, Nat.le_of_not_lt c2, not_ne_iff.mp c3, not_ne_iff.mp c4, ?_⟩
    omega

theorem DeviceIoControl_nodes {σ : Type} (env : Env σ) (w : World σ) (req : IoRequest)
    (inBuf : List Nat) :
    (DeviceIoControl env w req inBuf).2.nodes = w.nodes := rfl

/-- C5. Whenever `GetStringDescriptor` returns a node for `(DescriptorIndex, LanguageID)`,
the node records exactly that index and language, has no successor, and its descriptor bytes
are the first `bLength` bytes of the returned string descriptor, `bLength` bytes in all,
where `bLength` is the returned descriptor length. -/
theorem GetStringDescriptor_node {σ : Type} (env : Env σ) (w : World σ)
    (hHubDevice ConnectionIndex DescriptorIndex LanguageID p : Nat)
    (hret : (GetStringDescriptor env w hHubDevice ConnectionIndex DescriptorIndex LanguageID).1
      = some p) :
    (GetStringDescriptor env w hHubDevice ConnectionIndex DescriptorIndex LanguageID).2.node p =
      some
        { Next := none,
          DescriptorIndex := DescriptorIndex,
          LanguageID := LanguageID,
          StringDescriptor :=
            ((stringFetch env w hHubDevice ConnectionIndex DescriptorIndex
                LanguageID).1.buffer.drop sizeof_USB_DESCRIPTOR_REQUEST).take
              (stringDesc_bLength (stringFetch env w hHubDevice ConnectionIndex
                DescriptorIndex LanguageID).1.buffer) } ∧
    (((stringFetch env w hHubDevice ConnectionIndex DescriptorIndex
        LanguageID).1.buffer.drop sizeof_USB_DESCRIPTOR_REQUEST).take
      (stringDesc_bLength (stringFetch env w hHubDevice ConnectionIndex
        DescriptorIndex LanguageID).1.buffer)).length =
      stringDesc_bLength (stringFetch env w hHubDevice ConnectionIndex
        DescriptorIndex LanguageID).1.buffer ∧
    stringDesc_bLength (stringFetch env w hHubDevice ConnectionIndex
        DescriptorIndex LanguageID).1.buffer + sizeof_USB_DESCRIPTOR_REQUEST =
      (stringFetch env w hHubDevice ConnectionIndex DescriptorIndex
        LanguageID).1.nBytesReturned := by
  by_cases hok : stringAccepted
      (stringFetch env w hHubDevice ConnectionIndex DescriptorIndex LanguageID).1
  · rw [GetStringDescriptor_of_accepted env w _ _ _ _ hok] at hret ⊢
    have hlen : (stringFetch env w hHubDevice ConnectionIndex DescriptorIndex
        LanguageID).1.buffer.length = 267 := by
      unfold stringFetch
      simp only []
      rw [DeviceIoControl_buffer_length, stringRequest_buffer_length]
    have hb : stringDesc_bLength (stringFetch env w hHubDevice ConnectionIndex
        DescriptorIndex LanguageID).1.buffer < 256 := byteAt_lt _ _
    obtain ⟨h1, h2, h3, h4, h5⟩ := hok
    cases ha : (stringAlloc env w hHubDevice ConnectionIndex DescriptorIndex LanguageID).1 with
    | none => rw [ha] at hret; cases hret
    | some q =>
      rw [ha] at hret
      simp only [Option.some.injEq] at hret
      subst hret
      refine ⟨?_, ?_, ?_⟩
      · simp [World.node, List.lookup]
      · rw [List.length_take, List.length_drop, hlen]
        unfold sizeof_USB_DESCRIPTOR_REQUEST
        omega
      · unfold sizeof_USB_DESCRIPTOR_REQUEST at h4 ⊢
        omega
  · rw [GetStringDescriptor_of_rejected env w _ _ _ _ hok] at hret
    cases hret

set_option maxRecDepth 8192 in
theorem GetStringDescriptor_node_witness :
    (GetStringDescriptor oneStringDevice (World.start ()) 7 1 1 1033).1 = some 0 ∧
    (GetStringDescriptor oneStringDevice (World.start ()) 7 1 1 1033).2.node 0 =
      some { Next := none, DescriptorIndex := 1, LanguageID := 1033,
             StringDescriptor := [6, 3, 65, 0, 66, 0] } :=
  ⟨by decide,
   (GetStringDescriptor_node oneStringDevice (World.start ()) 7 1 1 1033 0 (by decide)).1⟩

theorem GetStringDescriptor_ioLog {σ : Type} (env : Env σ) (w : World σ)
    (hHubDevice ConnectionIndex DescriptorIndex LanguageID : Nat) :
    (GetStringDescriptor env w hHubDevice ConnectionIndex DescriptorIndex LanguageID).2.ioLog =
      w.ioLog ++ [stringRequest hHubDevice ConnectionIndex DescriptorIndex LanguageID] := by
  by_cases hok : stringAccepted
      (stringFetch env w hHubDevice ConnectionIndex DescriptorIndex LanguageID).1
  · rw [GetStringDescriptor_of_accepted env w _ _ _ _ hok]
    cases ha : (stringAlloc env w hHubDevice ConnectionIndex DescriptorIndex LanguageID).1 with
    | none =>
      simp only []
      exact (ALLOC_none env _ _ ha).2.1
    | some q =>
      simp only []
      exact (ALLOC_some env _ _ q ha).2.2.1
  · rw [GetStringDescriptor_of_rejected env w _ _ _ _ hok]
    rfl

/-! ## GetAllStringDescriptors: the language list -/

theorem GetAllStringDescriptors_of_index0_none {σ : Type} (env : Env σ) (fuel : Nat)
    (w : World σ) (hHubDevice ConnectionIndex : Nat) (DeviceDesc : USB_DEVICE_DESCRIPTOR)
    (ConfigDesc : List Nat)
    (hfail : (GetStringDescriptor env w hHubDevice ConnectionIndex 0 0).1 = none) :
    GetAllStringDescriptors env fuel w hHubDevice ConnectionIndex DeviceDesc ConfigDesc =
      Except.ok (none, (GetStringDescriptor env w hHubDevice ConnectionIndex 0 0).2) := by
  unfold GetAllStringDescriptors
  simp only [hfail]

/-- C7. If the fetch of string descriptor index 0 / language 0 fails,
`GetAllStringDescriptors` returns `NULL` and the index-0 request is the only request it
issued, whatever the device descriptor and the configuration buffer hold. -/
theorem GetAllStringDescriptors_index0_failed {σ : Type} (env : Env σ) (fuel : Nat)
    (w : World σ) (hHubDevice ConnectionIndex : Nat) (DeviceDesc : USB_DEVICE_DESCRIPTOR)
    (ConfigDesc : List Nat)
    (hfail : (GetStringDescriptor env w hHubDevice ConnectionIndex 0 0).1 = none) :
    GetAllStringDescriptors env fuel w hHubDevice ConnectionIndex DeviceDesc ConfigDesc =
      Except.ok (none, (GetStringDescriptor env w hHubDevice ConnectionIndex 0 0).2) ∧
    (GetStringDescriptor env w hHubDevice ConnectionIndex 0 0).2.ioLog =
      w.ioLog ++ [stringRequest hHubDevice ConnectionIndex 0 0] := by
  exact ⟨GetAllStringDescriptors_of_index0_none env fuel w _ _ _ _ hfail,
    GetStringDescriptor_ioLog env w _ _ _ _⟩

theorem GetAllStringDescriptors_index0_failed_witness :
    (GetStringDescriptor deadDevice (World.start ()) 7 1 0 0).1 = none ∧
    GetAllStringDescriptors deadDevice 0 (World.start ()) 7 1
        { iManufacturer := 1, iProduct := 2, iSerialNumber := 3 } malformedConfig =
      Except.ok (none, (GetStringDescriptor deadDevice (World.start ()) 7 1 0 0).2) ∧
    (GetStringDescriptor deadDevice (World.start ()) 7 1 0 0).2.ioLog =
      (World.start ()).ioLog ++ [stringRequest 7 1 0 0] :=
  ⟨by decide,
   GetAllStringDescriptors_index0_failed deadDevice 0 (World.start ()) 7 1
     { iManufacturer := 1, iProduct := 2, iSerialNumber := 3 } malformedConfig (by decide)⟩

/-! ## The descriptor walk: a descriptor of a known type with a wrong length -/

/-- C9, as the code behaves. In the walk of `AreThereStringDescriptors` and of
`GetAllStringDescriptors`, a descriptor of configuration or interface type that passes the
two bounds checks and whose declared length is not a fixed size of its type ends the walk:
`AreThereStringDescriptors` returns `FALSE` and `GetAllStringDescriptors` leaves the loop
with the tail and the world it had, whatever follows in the buffer. -/
theorem walk_stops_at_wrong_length (ConfigDesc : List Nat)
    (descEnd fuel commonDesc bLength bDescriptorType : Nat)
    (hhdr : commonDesc + sizeof_USB_COMMON_DESCRIPTOR < descEnd)
    (hlen : readByte ConfigDesc commonDesc = Except.ok bLength)
    (hfit : commonDesc + bLength ≤ descEnd)
    (hty : readByte ConfigDesc (commonDesc + 1) = Except.ok bDescriptorType)
    (hwrong : wrongLength bDescriptorType bLength) :
    AreThereStringDescriptors.walk ConfigDesc descEnd (fuel + 1) commonDesc = Except.ok false ∧
    ∀ (σ : Type) (env : Env σ) (w : World σ)
      (hHubDevice ConnectionIndex numLanguageIDs block offset stringDescNodeTail : Nat),
      GetAllStringDescriptors.walk env hHubDevice ConnectionIndex numLanguageIDs block offset
        ConfigDesc descEnd (fuel + 1) commonDesc stringDescNodeTail w =
      Except.ok (stringDescNodeTail, w) := by
  constructor
  · rw [AreThereStringDescriptors.walk]
    simp only [hhdr, hlen, hfit, hty, if_true]
    rcases hwrong with ⟨h1, h2⟩ | ⟨h1, h2, h3⟩
    · simp [h1, h2]
    · subst h1
      simp [h2, h3, USB_INTERFACE_DESCRIPTOR_TYPE, USB_CONFIGURATION_DESCRIPTOR_TYPE]
  · intro σ env w hHubDevice ConnectionIndex numLanguageIDs block offset stringDescNodeTail
    rw [GetAllStringDescriptors.walk]
    simp only [hhdr, hlen, hfit, hty, if_true]
    rcases hwrong with ⟨h1, h2⟩ | ⟨h1, h2, h3⟩
    · simp [h1, h2]
    · subst h1
      simp [h2, h3, USB_INTERFACE_DESCRIPTOR_TYPE, USB_CONFIGURATION_DESCRIPTOR_TYPE]

theorem walk_stops_at_wrong_length_witness :
    AreThereStringDescriptors.walk malformedConfig 25 (0 + 1) 9 = Except.ok false ∧
    ∀ (σ : Type) (env : Env σ) (w : World σ)
      (hHubDevice ConnectionIndex numLanguageIDs block offset stringDescNodeTail : Nat),
      GetAllStringDescriptors.walk env hHubDevice ConnectionIndex numLanguageIDs block offset
        malformedConfig 25 (0 + 1) 9 stringDescNodeTail w =
      Except.ok (stringDescNodeTail, w) :=
  walk_stops_at_wrong_length malformedConfig 25 0 9 7 4 (by decide) (by decide) (by decide)
    (by decide) (by decide)

set_option maxRecDepth 8192 in
/-- C9 fails as stated. In `malformedConfig` the interface descriptor at offset 9 declares
the length 7 and is followed, at offset 16, by a well-formed interface descriptor whose
`iInterface` is 1.  The walk does not reach it: `AreThereStringDescriptors` returns `FALSE`
and `GetAllStringDescriptors` requests string descriptor 0 only, although the device has
string 1.  With an unknown type in place of the interface type at offset 10 the walk does
skip the seven bytes and finds the string index. -/
theorem walk_wrong_length_aborts :
    readByte malformedConfig 9 = Except.ok 7 ∧
    readByte malformedConfig 10 = Except.ok USB_INTERFACE_DESCRIPTOR_TYPE ∧
    readByte malformedConfig 16 = Except.ok sizeof_USB_INTERFACE_DESCRIPTOR ∧
    readByte malformedConfig 17 = Except.ok USB_INTERFACE_DESCRIPTOR_TYPE ∧
    readByte malformedConfig 24 = Except.ok 1 ∧
    AreThereStringDescriptors 100 noStringsDevice malformedConfig = Except.ok false ∧
    requestsOf (GetAllStringDescriptors oneStringDevice 100 (World.start ()) 7 1
      noStringsDevice malformedConfig) = Except.ok [stringRequest 7 1 0 0] ∧
    AreThereStringDescriptors 100 noStringsDevice (malformedConfig.set 10 5) =
      Except.ok true := by
  refine ⟨by decide, by decide, by decide, by decide, by decide, by decide, ?_, by decide⟩
  decide

/-! ## Effects of GetStringDescriptor on the world -/

theorem GetStringDescriptor_none_effect {σ : Type} (env : Env σ) (w : World σ)
    (hHubDevice ConnectionIndex DescriptorIndex LanguageID : Nat)
    (hret : (GetStringDescriptor env w hHubDevice ConnectionIndex DescriptorIndex LanguageID).1
      = none) :
    (GetStringDescriptor env w hHubDevice ConnectionIndex DescriptorIndex LanguageID).2.nodes
      = w.nodes ∧
    (GetStringDescriptor env w hHubDevice ConnectionIndex DescriptorIndex LanguageID).2.heapLog
      = w.heapLog := by
  by_cases hok : stringAccepted
      (stringFetch env w hHubDevice ConnectionIndex DescriptorIndex LanguageID).1
  · rw [GetStringDescriptor_of_accepted env w _ _ _ _ hok] at hret ⊢
    cases ha : (stringAlloc env w hHubDevice ConnectionIndex DescriptorIndex LanguageID).1 with
    | none =>
      simp only []
      exact ⟨(ALLOC_none env _ _ ha).2.2, (ALLOC_none env _ _ ha).1⟩
    | some q => rw [ha] at hret; cases hret
  · rw [GetStringDescriptor_of_rejected env w _ _ _ _ hok]
    exact ⟨rfl, rfl⟩

theorem GetStringDescriptor_some_effect {σ : Type} (env : Env σ) (w : World σ)
    (hHubDevice ConnectionIndex DescriptorIndex LanguageID q : Nat)
    (hret : (GetStringDescriptor env w hHubDevice ConnectionIndex DescriptorIndex LanguageID).1
      = some q) :
    q = w.heapLog.length ∧
    (GetStringDescriptor env w hHubDevice ConnectionIndex DescriptorIndex
      LanguageID).2.heapLog.length = w.heapLog.length + 1 ∧
    (GetStringDescriptor env w hHubDevice ConnectionIndex DescriptorIndex LanguageID).2.nodes
      = (q, { Next := none,
              DescriptorIndex := DescriptorIndex,
              LanguageID := LanguageID,
              StringDescriptor := returnedDescriptor
                (stringFetch env w hHubDevice ConnectionIndex DescriptorIndex
                  LanguageID).1.buffer }) :: w.nodes ∧
    stringAccepted (stringFetch env w hHubDevice ConnectionIndex DescriptorIndex LanguageID).1
    := by
  by_cases hok : stringAccepted
      (stringFetch env w hHubDevice ConnectionIndex DescriptorIndex LanguageID).1
  · rw [GetStringDescriptor_of_accepted env w _ _ _ _ hok] at hret ⊢
    cases ha : (stringAlloc env w hHubDevice ConnectionIndex DescriptorIndex LanguageID).1 with
    | none => rw [ha] at hret; cases hret
    | some q' =>
      rw [ha] at hret
      simp only [Option.some.injEq] at hret
      subst hret
      obtain ⟨h1, h2, _, h4⟩ := ALLOC_some env _ _ q' ha
      refine ⟨h2, ?_, ?_, hok⟩
      · show (stringAlloc env w hHubDevice ConnectionIndex DescriptorIndex
          LanguageID).2.heapLog.length = _
        unfold stringAlloc
        simp only []
        rw [h1, List.length_append]
        rfl
      · show (q', _) :: (stringAlloc env w hHubDevice ConnectionIndex DescriptorIndex
          LanguageID).2.nodes = _
        unfold stringAlloc
        simp only []
        rw [h4]
        rfl
  · rw [GetStringDescriptor_of_rejected env w _ _ _ _ hok] at hret
    cases hret

theorem DeviceIoControl_congr {σ : Type} (env : Env σ) (w v : World σ) (req : IoRequest)
    (inBuf : List Nat) (hext : w.ext = v.ext) :
    (DeviceIoControl env w req inBuf).1 = (DeviceIoControl env v req inBuf).1 ∧
    (DeviceIoControl env w req inBuf).2.ext = (DeviceIoControl env v req inBuf).2.ext := by
  unfold DeviceIoControl
  simp only [hext, and_self]

theorem ALLOC_congr {σ : Type} (env : Env σ) (w v : World σ) (dwBytes : Nat)
    (hext : w.ext = v.ext) (hheap : w.heapLog = v.heapLog) :
    (ALLOC env w dwBytes).1 = (ALLOC env v dwBytes).1 ∧
    (ALLOC env w dwBytes).2.ext = (ALLOC env v dwBytes).2.ext ∧
    (ALLOC env w dwBytes).2.heapLog = (ALLOC env v dwBytes).2.heapLog := by
  unfold ALLOC
  simp only [hext, hheap]
  split_ifs <;> exact ⟨rfl, rfl, rfl⟩

/-- The outcome of `GetStringDescriptor` and what it leaves outside the node store depend on
the collaborators' state and the heap events only. -/
theorem GetStringDescriptor_congr {σ : Type} (env : Env σ) (w v : World σ)
    (hHubDevice ConnectionIndex DescriptorIndex LanguageID : Nat)
    (hext : w.ext = v.ext) (hheap : w.heapLog = v.heapLog) :
    (GetStringDescriptor env w hHubDevice ConnectionIndex DescriptorIndex LanguageID).1 =
      (GetStringDescriptor env v hHubDevice ConnectionIndex DescriptorIndex LanguageID).1 ∧
    (GetStringDescriptor env w hHubDevice ConnectionIndex DescriptorIndex LanguageID).2.ext =
      (GetStringDescriptor env v hHubDevice ConnectionIndex DescriptorIndex LanguageID).2.ext ∧
    (GetStringDescriptor env w hHubDevice ConnectionIndex DescriptorIndex LanguageID).2.heapLog =
      (GetStringDescriptor env v hHubDevice ConnectionIndex DescriptorIndex
        LanguageID).2.heapLog ∧
    (stringFetch env w hHubDevice ConnectionIndex DescriptorIndex LanguageID).1 =
      (stringFetch env v hHubDevice ConnectionIndex DescriptorIndex LanguageID).1 := by
  have hf := DeviceIoControl_congr env w v
    (stringRequest hHubDevice ConnectionIndex DescriptorIndex LanguageID)
    (requestBuffer (stringRequest hHubDevice ConnectionIndex DescriptorIndex LanguageID)) hext
  have hf1 : (stringFetch env w hHubDevice ConnectionIndex DescriptorIndex LanguageID).1 =
      (stringFetch env v hHubDevice ConnectionIndex DescriptorIndex LanguageID).1 := hf.1
  have hf2 : (stringFetch env w hHubDevice ConnectionIndex DescriptorIndex LanguageID).2.ext =
      (stringFetch env v hHubDevice ConnectionIndex DescriptorIndex LanguageID).2.ext := hf.2
  have hfh : (stringFetch env w hHubDevice ConnectionIndex DescriptorIndex LanguageID).2.heapLog
      = (stringFetch env v hHubDevice ConnectionIndex DescriptorIndex LanguageID).2.heapLog :=
    hheap
  have ha := ALLOC_congr env
    (stringFetch env w hHubDevice ConnectionIndex DescriptorIndex LanguageID).2
    (stringFetch env v hHubDevice ConnectionIndex DescriptorIndex LanguageID).2
    (sizeof_STRING_DESCRIPTOR_NODE + stringDesc_bLength
      (stringFetch env w hHubDevice ConnectionIndex DescriptorIndex LanguageID).1.buffer)
    hf2 hfh
  have ha1 : (stringAlloc env w hHubDevice ConnectionIndex DescriptorIndex LanguageID).1 =
      (stringAlloc env v hHubDevice ConnectionIndex DescriptorIndex LanguageID).1 := by
    unfold stringAlloc
    simp only []
    rw [← hf1]
    exact ha.1
  have ha2 : (stringAlloc env w hHubDevice ConnectionIndex DescriptorIndex LanguageID).2.ext =
      (stringAlloc env v hHubDevice ConnectionIndex DescriptorIndex LanguageID).2.ext := by
    unfold stringAlloc
    simp only []
    rw [← hf1]
    exact ha.2.1
  have ha3 : (stringAlloc env w hHubDevice ConnectionIndex DescriptorIndex
        LanguageID).2.heapLog =
      (stringAlloc env v hHubDevice ConnectionIndex DescriptorIndex LanguageID).2.heapLog := by
    unfold stringAlloc
    simp only []
    rw [← hf1]
    exact ha.2.2
  refine ⟨?_, ?_, ?_, hf1⟩
  all_goals
    by_cases hok : stringAccepted
      (stringFetch env w hHubDevice ConnectionIndex DescriptorIndex LanguageID).1
    · have hok' := hok
      rw [hf1] at hok'
      rw [GetStringDescriptor_of_accepted env w _ _ _ _ hok,
        GetStringDescriptor_of_accepted env v _ _ _ _ hok', ← ha1]
      try
        cases hc : (stringAlloc env w hHubDevice ConnectionIndex DescriptorIndex
          LanguageID).1 <;> first | rfl | exact ha2 | exact ha3
    · have hok' := hok
      rw [hf1] at hok'
      rw [GetStringDescriptor_of_rejected env w _ _ _ _ hok,
        GetStringDescriptor_of_rejected env v _ _ _ _ hok']
      first | done | rfl | exact hf2 | exact hfh

/-! ## The node store and the chain -/

theorem lookup_map_snd (ns : List (Nat × STRING_DESCRIPTOR_NODE)) (q : Nat)
    (g : Nat → STRING_DESCRIPTOR_NODE → STRING_DESCRIPTOR_NODE) :
    (ns.map (fun e => (e.1, g e.1 e.2))).lookup q = (ns.lookup q).map (g q) := by
  induction ns with
  | nil => rfl
  | cons e rest ih =>
    obtain ⟨a, n⟩ := e
    by_cases hqa : q = a
    · subst hqa
      simp [List.lookup]
    · have hne : (q == a) = false := by simpa using hqa
      simp only [List.map_cons, List.lookup, hne]
      exact ih

theorem setNext_node {σ : Type} (w : World σ) (p q : Nat) (next : Option Nat) :
    (setNext w p next).node q =
      (w.node q).map (fun n => if q = p then { n with Next := next } else n) := by
  unfold setNext World.node
  exact lookup_map_snd w.nodes q (fun a n => if a = p then { n with Next := next } else n)

theorem setNext_heapLog {σ : Type} (w : World σ) (p : Nat) (next : Option Nat) :
    (setNext w p next).heapLog = w.heapLog := rfl

theorem setNext_ext {σ : Type} (w : World σ) (p : Nat) (next : Option Nat) :
    (setNext w p next).ext = w.ext := rfl

theorem setNext_ioLog {σ : Type} (w : World σ) (p : Nat) (next : Option Nat) :
    (setNext w p next).ioLog = w.ioLog := rfl

/-- Writing `NULL` into the link of the last node of a chain leaves the chain as it is. -/
theorem IsChain_setNext_none {σ : Type} (w w1 : World σ) (tail : Nat)
    (hframe : ∀ a n, w.node a = some n →
      w1.node a = some (if a = tail then { n with Next := none } else n)) :
    ∀ (L : List (Nat × StringRecord)) (p : Option Nat), IsChain w p L →
      (L.getLast?).map Prod.fst = some tail → (L.map Prod.fst).Nodup → IsChain w1 p L := by
  intro L
  induction L with
  | nil => intro p h _ _; exact h
  | cons e rest ih =>
    intro p h hlast hnd
    obtain ⟨hp, n, hn, hrec, hrest⟩ := h
    refine ⟨hp, ?_⟩
    cases rest with
    | nil =>
      have hnext : n.Next = none := hrest
      refine ⟨if e.1 = tail then { n with Next := none } else n, hframe _ _ hn, ?_, ?_⟩
      · split_ifs <;> exact hrec
      · show (if e.1 = tail then { n with Next := none } else n).Next = none
        split_ifs
        · rfl
        · exact hnext
    | cons e2 rest2 =>
      have hne : e.1 ≠ tail := by
        intro heq
        have hmem : tail ∈ (e2 :: rest2).map Prod.fst := by
          have hl : ((e2 :: rest2).getLast?).map Prod.fst = some tail := by
            simpa [List.getLast?_cons_cons] using hlast
          cases hg : (e2 :: rest2).getLast? with
          | none => rw [hg] at hl; cases hl
          | some x =>
            rw [hg] at hl
            simp only [Option.map_some', Option.some.injEq] at hl
            rw [← hl]
            exact List.mem_map_of_mem _ (List.mem_of_getLast?_eq_some hg)
        rw [List.map_cons, List.nodup_cons] at hnd
        exact hnd.1 (heq ▸ hmem)
      refine ⟨n, ?_, hrec, ?_⟩
      · rw [hframe _ _ hn, if_neg hne]
      · apply ih _ hrest
        · simpa [List.getLast?_cons_cons] using hlast
        · rw [List.map_cons, List.nodup_cons] at hnd
          exact hnd.2

/-- Writing the handle of a new node into the link of the last node of a chain appends the
new node to the chain. -/
theorem IsChain_setNext_some {σ : Type} (w w1 : World σ) (tail q : Nat)
    (nq : STRING_DESCRIPTOR_NODE) (hq : w1.node q = some nq) (hqnext : nq.Next = none)
    (hframe : ∀ a n, a ≠ q → w.node a = some n →
      w1.node a = some (if a = tail then { n with Next := some q } else n)) :
    ∀ (L : List (Nat × StringRecord)) (p : Option Nat), IsChain w p L → L ≠ [] →
      (L.getLast?).map Prod.fst = some tail → (L.map Prod.fst).Nodup →
      q ∉ L.map Prod.fst → IsChain w1 p (L ++ [(q, nq.record)]) := by
  intro L
  induction L with
  | nil => intro p _ hne; exact absurd rfl hne
  | cons e rest ih =>
    intro p h _ hlast hnd hqn
    obtain ⟨hp, n, hn, hrec, hrest⟩ := h
    have heq : e.1 ≠ q := by
      intro hh
      apply hqn
      rw [List.map_cons, ← hh]
      exact List.mem_cons_self _ _
    refine ⟨hp, ?_⟩
    cases rest with
    | nil =>
      have htail : e.1 = tail := by simpa using hlast
      refine ⟨{ n with Next := some q }, ?_, hrec, ?_⟩
      · rw [hframe _ _ heq hn, if_pos htail]
      · exact ⟨rfl, nq, hq, rfl, hqnext⟩
    | cons e2 rest2 =>
      have hne : e.1 ≠ tail := by
        intro heq'
        have hmem : tail ∈ (e2 :: rest2).map Prod.fst := by
          have hl : ((e2 :: rest2).getLast?).map Prod.fst = some tail := by
            simpa [List.getLast?_cons_cons] using hlast
          cases hg : (e2 :: rest2).getLast? with
          | none => rw [hg] at hl; cases hl
          | some x =>
            rw [hg] at hl
            simp only [Option.map_some', Option.some.injEq] at hl
            rw [← hl]
            exact List.mem_map_of_mem _ (List.mem_of_getLast?_eq_some hg)
        rw [List.map_cons, List.nodup_cons] at hnd
        exact hnd.1 (heq' ▸ hmem)
      refine ⟨n, ?_, hrec, ?_⟩
      · rw [hframe _ _ heq hn, if_neg hne]
      · apply ih _ hrest (List.cons_ne_nil _ _)
        · simpa [List.getLast?_cons_cons] using hlast
        · rw [List.map_cons, List.nodup_cons] at hnd
          exact hnd.2
        · intro hh
          apply hqn
          rw [List.map_cons]
          exact List.mem_cons_of_mem _ hh

theorem getLast?_fst_mem (L : List (Nat × StringRecord)) (tail : Nat)
    (h : (L.getLast?).map Prod.fst = some tail) : tail ∈ L.map Prod.fst := by
  cases hg : L.getLast? with
  | none => rw [hg] at h; cases h
  | some x =>
    rw [hg] at h
    simp only [Option.map_some', Option.some.injEq] at h
    rw [← h]
    exact List.mem_map_of_mem _ (List.mem_of_getLast?_eq_some hg)

/-- One iteration of the loop of `GetStringDescriptors` keeps the chain invariant: a failed
fetch leaves the chain as it is, a successful one appends the new node and makes it the
tail. -/
theorem ChainInv_step {σ : Type} (env : Env σ) (w : World σ)
    (hHubDevice ConnectionIndex DescriptorIndex LanguageID head tail : Nat)
    (L : List (Nat × StringRecord)) (hL : L ≠ []) (hinv : ChainInv w head L tail) :
    ((GetStringDescriptor env w hHubDevice ConnectionIndex DescriptorIndex
        LanguageID).1 = none →
      ChainInv (setNext (GetStringDescriptor env w hHubDevice ConnectionIndex DescriptorIndex
        LanguageID).2 tail none) head L tail) ∧
    (∀ q, (GetStringDescriptor env w hHubDevice ConnectionIndex DescriptorIndex
        LanguageID).1 = some q →
      ChainInv (setNext (GetStringDescriptor env w hHubDevice ConnectionIndex DescriptorIndex
        LanguageID).2 tail (some q)) head
        (L ++ [(q, { DescriptorIndex := DescriptorIndex,
                     LanguageID := LanguageID,
                     StringDescriptor := returnedDescriptor
                       (stringFetch env w hHubDevice ConnectionIndex DescriptorIndex
                         LanguageID).1.buffer })]) q) := by
  constructor
  · intro hnone
    obtain ⟨hnodes, hheap⟩ := GetStringDescriptor_none_effect env w _ _ _ _ hnone
    have hframe : ∀ a n, w.node a = some n →
        (setNext (GetStringDescriptor env w hHubDevice ConnectionIndex DescriptorIndex
          LanguageID).2 tail none).node a =
          some (if a = tail then { n with Next := none } else n) := by
      intro a n hn
      rw [setNext_node]
      have : (GetStringDescriptor env w hHubDevice ConnectionIndex DescriptorIndex
          LanguageID).2.node a = some n := by
        unfold World.node at hn ⊢
        rw [hnodes]; exact hn
      rw [this]
      rfl
    refine ⟨IsChain_setNext_none w _ tail hframe L _ hinv.chain hinv.last hinv.nodup,
      hinv.last, ?_, hinv.nodup⟩
    intro e he
    rw [setNext_heapLog, hheap]
    exact hinv.old e he
  · intro q hsome
    obtain ⟨hq, hlen, hnodes, _⟩ := GetStringDescriptor_some_effect env w _ _ _ _ q hsome
    have hqL : q ∉ L.map Prod.fst := by
      intro hmem
      obtain ⟨e, he, heq⟩ := List.mem_map.mp hmem
      have := hinv.old e he
      omega
    have htq : tail ≠ q := by
      intro h
      exact hqL (h ▸ getLast?_fst_mem L tail hinv.last)
    have hnodeq : (GetStringDescriptor env w hHubDevice ConnectionIndex DescriptorIndex
        LanguageID).2.node q = some
          { Next := none, DescriptorIndex := DescriptorIndex, LanguageID := LanguageID,
            StringDescriptor := returnedDescriptor
              (stringFetch env w hHubDevice ConnectionIndex DescriptorIndex
                LanguageID).1.buffer } := by
      unfold World.node
      rw [hnodes]
      simp [List.lookup]
    have hnodea : ∀ a, a ≠ q →
        (GetStringDescriptor env w hHubDevice ConnectionIndex DescriptorIndex
          LanguageID).2.node a = w.node a := by
      intro a ha
      unfold World.node
      rw [hnodes]
      have hne : (a == q) = false := by simpa using ha
      simp only [List.lookup, hne]
    have hq1 : (setNext (GetStringDescriptor env w hHubDevice ConnectionIndex DescriptorIndex
        LanguageID).2 tail (some q)).node q = some
          { Next := none, DescriptorIndex := DescriptorIndex, LanguageID := LanguageID,
            StringDescriptor := returnedDescriptor
              (stringFetch env w hHubDevice ConnectionIndex DescriptorIndex
                LanguageID).1.buffer } := by
      rw [setNext_node, hnodeq]
      simp only [Option.map_some', Option.some.injEq]
      rw [if_neg (fun h => htq h.symm)]
    have hframe : ∀ a n, a ≠ q → w.node a = some n →
        (setNext (GetStringDescriptor env w hHubDevice ConnectionIndex DescriptorIndex
          LanguageID).2 tail (some q)).node a =
          some (if a = tail then { n with Next := some q } else n) := by
      intro a n ha hn
      rw [setNext_node, hnodea a ha, hn]
      rfl
    have hchain := IsChain_setNext_some w _ tail q _ hq1 rfl hframe L _ hinv.chain hL
      hinv.last hinv.nodup hqL
    refine ⟨hchain, ?_, ?_, ?_⟩
    · simp [List.getLast?_append]
    · intro e he
      rw [setNext_heapLog, hlen]
      rcases List.mem_append.mp he with h | h
      · have := hinv.old e h
        omega
      · simp only [List.mem_singleton] at h
        subst h
        show q < _
        omega
    · rw [List.map_append, List.nodup_append]
      refine ⟨hinv.nodup, by simp, ?_⟩
      intro a ha hb
      simp only [List.map_cons, List.map_nil, List.mem_singleton] at hb
      subst hb
      exact hqL ha

/-! ## The reference run `fetchStrings` -/

theorem SameOutside.refl {σ : Type} (w : World σ) : SameOutside w w := ⟨rfl, rfl, rfl⟩

theorem SameOutside.trans {σ : Type} {a b c : World σ} (h1 : SameOutside a b)
    (h2 : SameOutside b c) : SameOutside a c :=
  ⟨h1.1.trans h2.1, h1.2.1.trans h2.2.1, h1.2.2.trans h2.2.2⟩

theorem SameOutside.symm {σ : Type} {a b : World σ} (h : SameOutside a b) : SameOutside b a :=
  ⟨h.1.symm, h.2.1.symm, h.2.2.symm⟩

theorem SameOutside_setNext {σ : Type} (w : World σ) (p : Nat) (next : Option Nat) :
    SameOutside w (setNext w p next) := ⟨rfl, rfl, rfl⟩

theorem GetStringDescriptor_SameOutside {σ : Type} (env : Env σ) (w v : World σ)
    (hHubDevice ConnectionIndex DescriptorIndex LanguageID : Nat) (h : SameOutside w v) :
    SameOutside
      (GetStringDescriptor env w hHubDevice ConnectionIndex DescriptorIndex LanguageID).2
      (GetStringDescriptor env v hHubDevice ConnectionIndex DescriptorIndex LanguageID).2 := by
  obtain ⟨_, h2, h3, _⟩ := GetStringDescriptor_congr env w v hHubDevice ConnectionIndex
    DescriptorIndex LanguageID h.1 h.2.1
  refine ⟨h2, h3, ?_⟩
  rw [GetStringDescriptor_ioLog, GetStringDescriptor_ioLog, h.2.2]

theorem fetchStrings_congr {σ : Type} (env : Env σ) (hHubDevice ConnectionIndex : Nat) :
    ∀ (ps : List (Nat × Nat)) (w v : World σ), SameOutside w v →
      (fetchStrings env hHubDevice ConnectionIndex ps w).1 =
        (fetchStrings env hHubDevice ConnectionIndex ps v).1 ∧
      SameOutside (fetchStrings env hHubDevice ConnectionIndex ps w).2
        (fetchStrings env hHubDevice ConnectionIndex ps v).2 := by
  intro ps
  induction ps with
  | nil => intro w v h; exact ⟨rfl, h⟩
  | cons pr rest ih =>
    intro w v h
    obtain ⟨index, language⟩ := pr
    obtain ⟨h1, _, _, h4⟩ := GetStringDescriptor_congr env w v hHubDevice ConnectionIndex
      index language h.1 h.2.1
    have hs := GetStringDescriptor_SameOutside env w v hHubDevice ConnectionIndex
      index language h
    have hrec := ih _ _ hs
    simp only [fetchStrings]
    rw [← h1, ← h4]
    cases (GetStringDescriptor env w hHubDevice ConnectionIndex index language).1 with
    | none => exact hrec
    | some q =>
      simp only []
      exact ⟨by rw [hrec.1], hrec.2⟩

theorem fetchStrings_append {σ : Type} (env : Env σ) (hHubDevice ConnectionIndex : Nat) :
    ∀ (ps qs : List (Nat × Nat)) (w : World σ),
      fetchStrings env hHubDevice ConnectionIndex (ps ++ qs) w =
        ((fetchStrings env hHubDevice ConnectionIndex ps w).1 ++
          (fetchStrings env hHubDevice ConnectionIndex qs
            (fetchStrings env hHubDevice ConnectionIndex ps w).2).1,
         (fetchStrings env hHubDevice ConnectionIndex qs
            (fetchStrings env hHubDevice ConnectionIndex ps w).2).2) := by
  intro ps
  induction ps with
  | nil => intro qs w; rfl
  | cons pr rest ih =>
    intro qs w
    obtain ⟨index, language⟩ := pr
    have hrec := ih qs (GetStringDescriptor env w hHubDevice ConnectionIndex index language).2
    show fetchStrings env hHubDevice ConnectionIndex ((index, language) :: (rest ++ qs)) w = _
    simp only [fetchStrings]
    cases (GetStringDescriptor env w hHubDevice ConnectionIndex index language).1 with
    | none => exact hrec
    | some q =>
      simp only []
      rw [hrec]
      rfl

theorem fetchStrings_ioLog {σ : Type} (env : Env σ) (hHubDevice ConnectionIndex : Nat) :
    ∀ (ps : List (Nat × Nat)) (w : World σ),
      (fetchStrings env hHubDevice ConnectionIndex ps w).2.ioLog =
        w.ioLog ++ ps.map (fun pr => stringRequest hHubDevice ConnectionIndex pr.1 pr.2) := by
  intro ps
  induction ps with
  | nil => intro w; simp [fetchStrings]
  | cons pr rest ih =>
    intro w
    obtain ⟨index, language⟩ := pr
    simp only [fetchStrings]
    have hio := GetStringDescriptor_ioLog env w hHubDevice ConnectionIndex index language
    cases (GetStringDescriptor env w hHubDevice ConnectionIndex index language).1 with
    | none =>
      simp only []
      rw [ih, hio]
      simp
    | some q =>
      simp only []
      rw [ih, hio]
      simp

/-! ## The loop of GetStringDescriptors -/

theorem readByte_of_lt (buf : List Nat) (i : Nat) (h : i < buf.length) :
    readByte buf i = Except.ok (byteAt buf i) := by
  unfold readByte byteAt
  rw [List.getElem?_eq_getElem h]
  simp [List.getD_eq_getElem?_getD, List.getElem?_eq_getElem h]

theorem readWord_of_lt (buf : List Nat) (i : Nat) (h : i + 1 < buf.length) :
    readWord buf i = Except.ok (wordAt buf i) := by
  unfold readWord wordAt
  rw [readByte_of_lt buf i (by omega), readByte_of_lt buf (i + 1) h]

theorem codesFrom_eq_map (sd : List Nat) :
    ∀ (count offset : Nat),
      codesFrom sd count offset =
        (List.range count).map (fun i => wordAt sd (offset + 2 * i)) := by
  intro count
  induction count with
  | zero => intro offset; rfl
  | succ k ih =>
    intro offset
    rw [codesFrom, ih, List.range_succ_eq_map, List.map_cons, List.map_map]
    congr 1
    apply List.map_congr_left
    intro i _
    show wordAt sd (offset + 2 + 2 * i) = wordAt sd (offset + 2 * (i + 1))
    congr 1
    omega

theorem codesFrom_two (sd : List Nat) :
    codesFrom sd ((sd.length - 2) / 2) 2 = languageIDsOf sd :=
  codesFrom_eq_map sd _ 2

theorem IsChain_head_node {σ : Type} (w : World σ) (head : Nat) (r0 : StringRecord)
    (L : List (Nat × StringRecord)) (h : IsChain w (some head) ((head, r0) :: L)) :
    ∃ n, w.node head = some n ∧ n.StringDescriptor = r0.StringDescriptor := by
  obtain ⟨_, n, hn, hrec, _⟩ := h
  have hrec' : n.record = r0 := hrec
  exact ⟨n, hn, by rw [← hrec']; rfl⟩

/-- The loop of `GetStringDescriptors` on a world that satisfies the chain invariant, with
`LanguageIDs` pointing into the descriptor of the head node: it returns, it issues one fetch
per language code in order, and it appends the nodes of the successful fetches. -/
theorem GetStringDescriptors_loop_spec {σ : Type} (env : Env σ)
    (hHubDevice ConnectionIndex DescriptorIndex head : Nat) (r0 : StringRecord) :
    ∀ (remaining offset tail : Nat) (w : World σ) (L : List (Nat × StringRecord)),
      ChainInv w head ((head, r0) :: L) tail →
      offset + 2 * remaining ≤ r0.StringDescriptor.length →
      ∃ tail1 w1 Lnew,
        GetStringDescriptors.loop env hHubDevice ConnectionIndex DescriptorIndex head
          remaining offset tail w = Except.ok (tail1, w1) ∧
        ChainInv w1 head ((head, r0) :: (L ++ Lnew)) tail1 ∧
        (fetchStrings env hHubDevice ConnectionIndex
          ((codesFrom r0.StringDescriptor remaining offset).map
            (fun l => (DescriptorIndex, l))) w).1 = Lnew.map Prod.snd ∧
        SameOutside (fetchStrings env hHubDevice ConnectionIndex
          ((codesFrom r0.StringDescriptor remaining offset).map
            (fun l => (DescriptorIndex, l))) w).2 w1 := by
  intro remaining
  induction remaining with
  | zero =>
    intro offset tail w L hinv _
    refine ⟨tail, w, [], rfl, ?_, rfl, SameOutside.refl w⟩
    simpa using hinv
  | succ k ih =>
    intro offset tail w L hinv hbound
    obtain ⟨n, hn, hsd⟩ := IsChain_head_node w head r0 L hinv.chain
    have hread : readLanguageID w head offset =
        Except.ok (wordAt r0.StringDescriptor offset) := by
      unfold readLanguageID
      rw [hn]
      simp only []
      rw [hsd]
      exact readWord_of_lt _ _ (by omega)
    obtain ⟨hstepN, hstepS⟩ := ChainInv_step env w hHubDevice ConnectionIndex DescriptorIndex
      (wordAt r0.StringDescriptor offset) head tail ((head, r0) :: L)
      (List.cons_ne_nil _ _) hinv
    rw [GetStringDescriptors.loop]
    simp only [hread, codesFrom, List.map_cons, fetchStrings]
    cases hr : (GetStringDescriptor env w hHubDevice ConnectionIndex DescriptorIndex
        (wordAt r0.StringDescriptor offset)).1 with
    | none =>
      simp only []
      obtain ⟨tail1, w1, Lnew, hrun, hinv1, hrec, hsame⟩ :=
        ih (offset + 2) tail _ L (hstepN hr) (by omega)
      obtain ⟨hc1, hc2⟩ := fetchStrings_congr env hHubDevice ConnectionIndex
        ((codesFrom r0.StringDescriptor k (offset + 2)).map (fun l => (DescriptorIndex, l)))
        _ _ (SameOutside_setNext
          (GetStringDescriptor env w hHubDevice ConnectionIndex DescriptorIndex
            (wordAt r0.StringDescriptor offset)).2 tail none)
      exact ⟨tail1, w1, Lnew, hrun, hinv1, hc1.trans hrec, hc2.trans hsame⟩
    | some q =>
      simp only []
      have hinvq := hstepS q hr
      rw [List.cons_append] at hinvq
      obtain ⟨tail1, w1, Lnew, hrun, hinv1, hrec, hsame⟩ :=
        ih (offset + 2) q _ _ hinvq (by omega)
      obtain ⟨hc1, hc2⟩ := fetchStrings_congr env hHubDevice ConnectionIndex
        ((codesFrom r0.StringDescriptor k (offset + 2)).map (fun l => (DescriptorIndex, l)))
        _ _ (SameOutside_setNext
          (GetStringDescriptor env w hHubDevice ConnectionIndex DescriptorIndex
            (wordAt r0.StringDescriptor offset)).2 tail (some q))
      refine ⟨tail1, w1,
        (q, { DescriptorIndex := DescriptorIndex,
              LanguageID := wordAt r0.StringDescriptor offset,
              StringDescriptor := returnedDescriptor
                (stringFetch env w hHubDevice ConnectionIndex DescriptorIndex
                  (wordAt r0.StringDescriptor offset)).1.buffer }) :: Lnew,
        hrun, ?_, ?_, hc2.trans hsame⟩
      · simpa [List.append_assoc] using hinv1
      · rw [List.map_cons, hc1, hrec]

/-! ## Composition of the fetch phases -/

theorem Fetched_nil {σ : Type} (env : Env σ) (hHubDevice ConnectionIndex head : Nat)
    (r0 : StringRecord) (w : World σ) (L : List (Nat × StringRecord)) (tail : Nat)
    (hinv : ChainInv w head ((head, r0) :: L) tail) :
    Fetched env hHubDevice ConnectionIndex head r0 w L [] (Except.ok (tail, w)) :=
  ⟨tail, w, [], rfl, by simpa using hinv, rfl, SameOutside.refl w⟩

theorem Fetched_seq {σ : Type} (env : Env σ) (hHubDevice ConnectionIndex head : Nat)
    (r0 : StringRecord) (w : World σ) (L : List (Nat × StringRecord))
    (ps qs : List (Nat × Nat)) (tail1 : Nat) (w1 : World σ)
    (next : Except Fault (Nat × World σ))
    (h1 : Fetched env hHubDevice ConnectionIndex head r0 w L ps (Except.ok (tail1, w1)))
    (h2 : ∀ Lnew, ChainInv w1 head ((head, r0) :: (L ++ Lnew)) tail1 →
      Fetched env hHubDevice ConnectionIndex head r0 w1 (L ++ Lnew) qs next) :
    Fetched env hHubDevice ConnectionIndex head r0 w L (ps ++ qs) next := by
  obtain ⟨t, v, Lnew, heq, hinv, hrec, hsame⟩ := h1
  simp only [Except.ok.injEq, Prod.mk.injEq] at heq
  obtain ⟨ht, hv⟩ := heq
  subst ht hv
  obtain ⟨t2, v2, Lnew2, heq2, hinv2, hrec2, hsame2⟩ := h2 Lnew hinv
  obtain ⟨hc1, hc2⟩ := fetchStrings_congr env hHubDevice ConnectionIndex qs _ _ hsame
  refine ⟨t2, v2, Lnew ++ Lnew2, heq2, ?_, ?_, ?_⟩
  · simpa [List.append_assoc] using hinv2
  · rw [fetchStrings_append]
    simp only []
    rw [hrec, hc1, hrec2, List.map_append]
  · rw [fetchStrings_append]
    exact hc2.trans hsame2

theorem stringPairs_nil (languages : List Nat) : stringPairs [] languages = [] := rfl

theorem stringPairs_cons (i : Nat) (indices languages : List Nat) :
    stringPairs (i :: indices) languages =
      languages.map (fun l => (i, l)) ++ stringPairs indices languages := by
  simp [stringPairs, List.flatMap_cons]

theorem stringPairs_append (xs ys languages : List Nat) :
    stringPairs (xs ++ ys) languages = stringPairs xs languages ++ stringPairs ys languages := by
  simp [stringPairs, List.flatMap_append]

/-- The statement `if (index) tail = GetStringDescriptors(...)` under the chain invariant. -/
theorem fetchIfNonZero_spec {σ : Type} (env : Env σ)
    (hHubDevice ConnectionIndex index head numLanguageIDs : Nat) (r0 : StringRecord)
    (tail : Nat) (w : World σ) (L : List (Nat × StringRecord))
    (hinv : ChainInv w head ((head, r0) :: L) tail)
    (hbound : 2 + 2 * numLanguageIDs ≤ r0.StringDescriptor.length) :
    Fetched env hHubDevice ConnectionIndex head r0 w L
      (stringPairs (if index ≠ 0 then [index] else [])
        (codesFrom r0.StringDescriptor numLanguageIDs 2))
      (fetchIfNonZero env w hHubDevice ConnectionIndex index numLanguageIDs head 2 tail) := by
  unfold fetchIfNonZero
  by_cases hz : index ≠ 0
  · rw [if_pos hz, if_pos hz, stringPairs_cons, stringPairs_nil, List.append_nil]
    exact GetStringDescriptors_loop_spec env hHubDevice ConnectionIndex index head r0
      numLanguageIDs 2 tail w L hinv hbound
  · rw [if_neg hz, if_neg hz]
    exact Fetched_nil env hHubDevice ConnectionIndex head r0 w L tail hinv

theorem Fetched_ok {σ : Type} {env : Env σ} {hHubDevice ConnectionIndex head : Nat}
    {r0 : StringRecord} {w : World σ} {L : List (Nat × StringRecord)}
    {pairs : List (Nat × Nat)} {res : Except Fault (Nat × World σ)}
    (h : Fetched env hHubDevice ConnectionIndex head r0 w L pairs res) :
    ∃ t, res = Except.ok t := by
  obtain ⟨t, v, _, heq, _⟩ := h
  exact ⟨(t, v), heq⟩

theorem deviceIndices_eq (DeviceDesc : USB_DEVICE_DESCRIPTOR) :
    deviceIndices DeviceDesc =
      (if DeviceDesc.iManufacturer ≠ 0 then [DeviceDesc.iManufacturer] else []) ++
      ((if DeviceDesc.iProduct ≠ 0 then [DeviceDesc.iProduct] else []) ++
       (if DeviceDesc.iSerialNumber ≠ 0 then [DeviceDesc.iSerialNumber] else [])) := by
  unfold deviceIndices
  by_cases h1 : DeviceDesc.iManufacturer = 0 <;> by_cases h2 : DeviceDesc.iProduct = 0 <;>
    by_cases h3 : DeviceDesc.iSerialNumber = 0 <;> simp [List.filter, h1, h2, h3]

/-- The three device-descriptor fetches under the chain invariant. -/
theorem deviceStrings_spec {σ : Type} (env : Env σ)
    (hHubDevice ConnectionIndex head numLanguageIDs : Nat) (r0 : StringRecord)
    (DeviceDesc : USB_DEVICE_DESCRIPTOR)
    (tail : Nat) (w : World σ) (L : List (Nat × StringRecord))
    (hinv : ChainInv w head ((head, r0) :: L) tail)
    (hbound : 2 + 2 * numLanguageIDs ≤ r0.StringDescriptor.length) :
    Fetched env hHubDevice ConnectionIndex head r0 w L
      (stringPairs (deviceIndices DeviceDesc)
        (codesFrom r0.StringDescriptor numLanguageIDs 2))
      (GetAllStringDescriptors.deviceStrings env w hHubDevice ConnectionIndex DeviceDesc
        numLanguageIDs head 2 tail) := by
  rw [deviceIndices_eq, stringPairs_append, stringPairs_append]
  unfold GetAllStringDescriptors.deviceStrings
  have h1 := fetchIfNonZero_spec env hHubDevice ConnectionIndex DeviceDesc.iManufacturer head
    numLanguageIDs r0 tail w L hinv hbound
  obtain ⟨t1, ht1⟩ := Fetched_ok h1
  rw [ht1] at h1 ⊢
  simp only []
  apply Fetched_seq env hHubDevice ConnectionIndex head r0 w L _ _ t1.1 t1.2 _ h1
  intro Lnew1 hinv1
  have h2 := fetchIfNonZero_spec env hHubDevice ConnectionIndex DeviceDesc.iProduct head
    numLanguageIDs r0 t1.1 t1.2 (L ++ Lnew1) hinv1 hbound
  obtain ⟨t2, ht2⟩ := Fetched_ok h2
  rw [ht2] at h2 ⊢
  simp only []
  apply Fetched_seq env hHubDevice ConnectionIndex head r0 t1.2 (L ++ Lnew1) _ _ t2.1 t2.2 _ h2
  intro Lnew2 hinv2
  exact fetchIfNonZero_spec env hHubDevice ConnectionIndex DeviceDesc.iSerialNumber head
    numLanguageIDs r0 t2.1 t2.2 (L ++ Lnew1 ++ Lnew2) hinv2 hbound

/-! ## The loop of GetAllStringDescriptors against the descriptor walk -/

/-- A descriptor with string index `x` is visited: the fetch of `x` followed by the rest of
the loop agrees with the walk that puts `x`, when it is not zero, in front of the rest. -/
theorem WalkAgrees_visit {σ : Type} (env : Env σ)
    (hHubDevice ConnectionIndex head numLanguageIDs : Nat) (r0 : StringRecord)
    (hbound : 2 + 2 * numLanguageIDs ≤ r0.StringDescriptor.length)
    (x : Nat) (restIndices indices : Except Fault (List Nat))
    (hindices : indices =
      match restIndices with
      | Except.error e => Except.error e
      | Except.ok rest => Except.ok (if x ≠ 0 then x :: rest else rest))
    (restRun : Nat → World σ → Except Fault (Nat × World σ))
    (hrest : ∀ (tail : Nat) (w : World σ) (L : List (Nat × StringRecord)),
      ChainInv w head ((head, r0) :: L) tail →
      WalkAgrees env hHubDevice ConnectionIndex head r0 numLanguageIDs w L restIndices
        (restRun tail w))
    (tail : Nat) (w : World σ) (L : List (Nat × StringRecord))
    (hinv : ChainInv w head ((head, r0) :: L) tail) :
    WalkAgrees env hHubDevice ConnectionIndex head r0 numLanguageIDs w L indices
      (match fetchIfNonZero env w hHubDevice ConnectionIndex x numLanguageIDs head 2 tail with
       | Except.error e => Except.error e
       | Except.ok t => restRun t.1 t.2) := by
  have h1 := fetchIfNonZero_spec env hHubDevice ConnectionIndex x head numLanguageIDs r0
    tail w L hinv hbound
  obtain ⟨t1, ht1⟩ := Fetched_ok h1
  rw [ht1] at h1 ⊢
  simp only []
  subst hindices
  cases hri : restIndices with
  | error e =>
    simp only [WalkAgrees]
    obtain ⟨_, _, Lnew, heq, hinv1, _, _⟩ := h1
    simp only [Except.ok.injEq] at heq
    subst heq
    have := hrest _ _ _ hinv1
    rw [hri] at this
    exact this
  | ok rest =>
    simp only [WalkAgrees]
    have hp : stringPairs (if x ≠ 0 then x :: rest else rest)
        (codesFrom r0.StringDescriptor numLanguageIDs 2) =
        stringPairs (if x ≠ 0 then [x] else [])
          (codesFrom r0.StringDescriptor numLanguageIDs 2) ++
        stringPairs rest (codesFrom r0.StringDescriptor numLanguageIDs 2) := by
      rw [← stringPairs_append]
      split_ifs <;> rfl
    rw [hp]
    apply Fetched_seq env hHubDevice ConnectionIndex head r0 w L _ _ t1.1 t1.2 _ h1
    intro Lnew hinv1
    have := hrest _ _ _ hinv1
    rw [hri] at this
    exact this

/-- The loop of `GetAllStringDescriptors` agrees with the descriptor walk, for every step
budget and from every cursor. -/
theorem GetAllStringDescriptors_walk_spec {σ : Type} (env : Env σ)
    (hHubDevice ConnectionIndex head numLanguageIDs : Nat) (r0 : StringRecord)
    (ConfigDesc : List Nat) (descEnd : Nat)
    (hbound : 2 + 2 * numLanguageIDs ≤ r0.StringDescriptor.length) :
    ∀ (fuel commonDesc tail : Nat) (w : World σ) (L : List (Nat × StringRecord)),
      ChainInv w head ((head, r0) :: L) tail →
      WalkAgrees env hHubDevice ConnectionIndex head r0 numLanguageIDs w L
        (walkIndices ConfigDesc descEnd fuel commonDesc)
        (GetAllStringDescriptors.walk env hHubDevice ConnectionIndex numLanguageIDs head 2
          ConfigDesc descEnd fuel commonDesc tail w) := by
  intro fuel
  induction fuel with
  | zero =>
    intro commonDesc tail w L _
    rfl
  | succ fuel ih =>
    intro commonDesc tail w L hinv
    have hstop : WalkAgrees env hHubDevice ConnectionIndex head r0 numLanguageIDs w L
        (Except.ok []) (Except.ok (tail, w)) :=
      Fetched_nil env hHubDevice ConnectionIndex head r0 w L tail hinv
    rw [walkIndices, GetAllStringDescriptors.walk]
    by_cases hhdr : commonDesc + sizeof_USB_COMMON_DESCRIPTOR < descEnd
    · rw [if_pos hhdr, if_pos hhdr]
      cases hb : readByte ConfigDesc commonDesc with
      | error e => rfl
      | ok bLength =>
        simp only []
        by_cases hfit : commonDesc + bLength ≤ descEnd
        · rw [if_pos hfit, if_pos hfit]
          cases ht : readByte ConfigDesc (commonDesc + 1) with
          | error e => rfl
          | ok bDescriptorType =>
            simp only []
            by_cases hc : bDescriptorType = USB_CONFIGURATION_DESCRIPTOR_TYPE
            · rw [if_pos hc, if_pos hc]
              by_cases hl : bLength ≠ sizeof_USB_CONFIGURATION_DESCRIPTOR
              · rw [if_pos hl, if_pos hl]
                exact hstop
              · rw [if_neg hl, if_neg hl]
                cases hi : readByte ConfigDesc (commonDesc + 6) with
                | error e => rfl
                | ok iConfiguration =>
                  simp only []
                  exact WalkAgrees_visit env hHubDevice ConnectionIndex head numLanguageIDs r0
                    hbound iConfiguration _ _ rfl _
                    (fun t v M hM => ih (commonDesc + bLength) t v M hM) tail w L hinv
            · rw [if_neg hc, if_neg hc]
              by_cases hi : bDescriptorType = USB_INTERFACE_DESCRIPTOR_TYPE
              · rw [if_pos hi, if_pos hi]
                by_cases hl : bLength ≠ sizeof_USB_INTERFACE_DESCRIPTOR ∧
                    bLength ≠ sizeof_USB_INTERFACE_DESCRIPTOR2
                · rw [if_pos hl, if_pos hl]
                  exact hstop
                · rw [if_neg hl, if_neg hl]
                  cases hi : readByte ConfigDesc (commonDesc + 8) with
                  | error e => rfl
                  | ok iInterface =>
                    simp only []
                    exact WalkAgrees_visit env hHubDevice ConnectionIndex head numLanguageIDs
                      r0 hbound iInterface _ _ rfl _
                      (fun t v M hM => ih (commonDesc + bLength) t v M hM) tail w L hinv
              · rw [if_neg hi, if_neg hi]
                exact ih (commonDesc + bLength) tail w L hinv
        · rw [if_neg hfit, if_neg hfit]
          exact hstop
    · rw [if_neg hhdr, if_neg hhdr]
      exact hstop

/-! ## The accepted language list -/

theorem DeviceIoControl_untouched {σ : Type} (env : Env σ) (w : World σ) (req : IoRequest)
    (inBuf : List Nat) (i : Nat)
    (h : (DeviceIoControl env w req inBuf).1.nBytesReturned ≤ i) :
    (DeviceIoControl env w req inBuf).1.buffer.getD i 0 = inBuf.getD i 0 := by
  simp only [DeviceIoControl] at h ⊢
  rw [List.getD_eq_getElem?_getD, List.getD_eq_getElem?_getD,
    List.getElem?_append_right h, List.getElem?_drop]
  congr 2
  omega

theorem requestBuffer_getD_payload (req : IoRequest) (i : Nat)
    (h : sizeof_USB_DESCRIPTOR_REQUEST ≤ i) : (requestBuffer req).getD i 0 = 0 := by
  unfold sizeof_USB_DESCRIPTOR_REQUEST at h
  unfold requestBuffer requestHeader
  rw [List.getD_eq_getElem?_getD, List.getElem?_append_right (by simpa using h)]
  simp only [List.length_cons, List.length_nil]
  rw [List.getElem?_replicate]
  split_ifs <;> rfl

/-- A string descriptor that passes the checks of `GetStringDescriptor` has at least two
bytes: the bytes beyond the returned count are those of the zeroed request buffer, so a
response of 12 bytes has no string descriptor type tag. -/
theorem stringAccepted_bLength_ge {σ : Type} (env : Env σ) (w : World σ)
    (hHubDevice ConnectionIndex DescriptorIndex LanguageID : Nat)
    (hok : stringAccepted
      (stringFetch env w hHubDevice ConnectionIndex DescriptorIndex LanguageID).1) :
    2 ≤ stringDesc_bLength
      (stringFetch env w hHubDevice ConnectionIndex DescriptorIndex LanguageID).1.buffer := by
  obtain ⟨_, h2, h3, h4, h5⟩ := hok
  by_contra hlt
  have hn : (stringFetch env w hHubDevice ConnectionIndex DescriptorIndex
      LanguageID).1.nBytesReturned ≤ 13 := by
    unfold sizeof_USB_DESCRIPTOR_REQUEST at h4
    omega
  have hun := DeviceIoControl_untouched env w
    (stringRequest hHubDevice ConnectionIndex DescriptorIndex LanguageID)
    (requestBuffer (stringRequest hHubDevice ConnectionIndex DescriptorIndex LanguageID)) 13 hn
  rw [requestBuffer_getD_payload _ 13 (by decide)] at hun
  have hty : stringDesc_bDescriptorType (stringFetch env w hHubDevice ConnectionIndex
      DescriptorIndex LanguageID).1.buffer = 0 := by
    unfold stringDesc_bDescriptorType byteAt stringFetch
    simp only []
    show (List.getD _ 13 0) % 256 = 0
    rw [hun]
  rw [hty] at h3
  exact absurd h3 (by decide)

theorem numLanguageIDsOf_eq (bLength : Nat) (h : 2 ≤ bLength) (hlt : bLength < 256) :
    numLanguageIDsOf bLength = (bLength - 2) / 2 := by
  unfold numLanguageIDsOf ULONG_RANGE
  have h0 : (0 : Int) ≤ (bLength : Int) - 2 := by omega
  rw [Int.tdiv_eq_ediv h0 (by decide)]
  omega

theorem returnedDescriptor_length {σ : Type} (env : Env σ) (w : World σ)
    (hHubDevice ConnectionIndex DescriptorIndex LanguageID : Nat) :
    (returnedDescriptor (stringFetch env w hHubDevice ConnectionIndex DescriptorIndex
      LanguageID).1.buffer).length =
    stringDesc_bLength (stringFetch env w hHubDevice ConnectionIndex DescriptorIndex
      LanguageID).1.buffer := by
  have hlen : (stringFetch env w hHubDevice ConnectionIndex DescriptorIndex
      LanguageID).1.buffer.length = 267 := by
    unfold stringFetch
    simp only []
    rw [DeviceIoControl_buffer_length, stringRequest_buffer_length]
  have hb : stringDesc_bLength (stringFetch env w hHubDevice ConnectionIndex
      DescriptorIndex LanguageID).1.buffer < 256 := byteAt_lt _ _
  unfold returnedDescriptor
  rw [List.length_take, List.length_drop, hlen]
  unfold sizeof_USB_DESCRIPTOR_REQUEST
  omega

theorem returnedDescriptor_head (buffer : List Nat) (h : 1 ≤ stringDesc_bLength buffer) :
    byteAt (returnedDescriptor buffer) 0 = stringDesc_bLength buffer := by
  have hpos : 0 < stringDesc_bLength buffer := h
  have hget : (returnedDescriptor buffer).getD 0 0 =
      buffer.getD sizeof_USB_DESCRIPTOR_REQUEST 0 := by
    unfold returnedDescriptor
    rw [List.getD_eq_getElem?_getD, List.getD_eq_getElem?_getD,
      List.getElem?_take_of_lt hpos, List.getElem?_drop, Nat.add_zero]
  unfold stringDesc_bLength byteAt
  rw [hget]

/-! ## GetAllStringDescriptors as a whole -/

/-- After an accepted index-0 fetch, `GetAllStringDescriptors` agrees with the indices of the
device descriptor and of the descriptor walk: it stops for the reason the walk stops, or it
returns the head of a chain that holds the language list followed by the strings fetched
for every index in every language. -/
theorem GetAllStringDescriptors_spec {σ : Type} (env : Env σ) (fuel : Nat) (w : World σ)
    (hHubDevice ConnectionIndex : Nat) (DeviceDesc : USB_DEVICE_DESCRIPTOR)
    (ConfigDesc : List Nat) (head : Nat)
    (h0 : (GetStringDescriptor env w hHubDevice ConnectionIndex 0 0).1 = some head) :
    TableAgrees env w hHubDevice ConnectionIndex head
      (allIndices fuel DeviceDesc ConfigDesc)
      (GetAllStringDescriptors env fuel w hHubDevice ConnectionIndex DeviceDesc ConfigDesc) := by
  obtain ⟨hq, hlen, hnodes, hok⟩ := GetStringDescriptor_some_effect env w _ _ _ _ head h0
  have hbl2 := stringAccepted_bLength_ge env w _ _ _ _ hok
  have hblt : stringDesc_bLength (stringFetch env w hHubDevice ConnectionIndex 0 0).1.buffer
      < 256 := byteAt_lt _ _
  have hsdlen : (languageDescriptor env w hHubDevice ConnectionIndex).length =
      stringDesc_bLength (stringFetch env w hHubDevice ConnectionIndex 0 0).1.buffer :=
    returnedDescriptor_length env w _ _ _ _
  have hnode : (GetStringDescriptor env w hHubDevice ConnectionIndex 0 0).2.node head =
      some { Next := none, DescriptorIndex := 0, LanguageID := 0,
             StringDescriptor := languageDescriptor env w hHubDevice ConnectionIndex } := by
    unfold World.node
    rw [hnodes]
    simp [List.lookup, languageDescriptor]
  have hinv0 : ChainInv (GetStringDescriptor env w hHubDevice ConnectionIndex 0 0).2 head
      ((head, { DescriptorIndex := 0, LanguageID := 0,
                StringDescriptor := languageDescriptor env w hHubDevice ConnectionIndex })
        :: []) head := by
    refine ⟨⟨rfl, _, hnode, rfl, rfl⟩, rfl, ?_, by simp⟩
    intro e he
    simp only [List.mem_singleton] at he
    subst he
    show head < _
    omega
  have hread : readLanguageByte (GetStringDescriptor env w hHubDevice ConnectionIndex 0 0).2
      head = Except.ok (stringDesc_bLength
        (stringFetch env w hHubDevice ConnectionIndex 0 0).1.buffer) := by
    unfold readLanguageByte
    rw [hnode]
    simp only []
    rw [readByte_of_lt _ _ (by rw [hsdlen]; omega)]
    unfold languageDescriptor
    rw [returnedDescriptor_head _ (by omega)]
  have hnum := numLanguageIDsOf_eq _ hbl2 hblt
  have hcodes : codesFrom (languageDescriptor env w hHubDevice ConnectionIndex)
      (numLanguageIDsOf (stringDesc_bLength
        (stringFetch env w hHubDevice ConnectionIndex 0 0).1.buffer)) 2 =
      languageIDsOf (languageDescriptor env w hHubDevice ConnectionIndex) := by
    rw [hnum, ← hsdlen]
    exact codesFrom_two _
  have hbound : 2 + 2 * numLanguageIDsOf (stringDesc_bLength
      (stringFetch env w hHubDevice ConnectionIndex 0 0).1.buffer) ≤
      (languageDescriptor env w hHubDevice ConnectionIndex).length := by
    rw [hnum, hsdlen]
    omega
  have hdev := deviceStrings_spec env hHubDevice ConnectionIndex head _
    { DescriptorIndex := 0, LanguageID := 0,
      StringDescriptor := languageDescriptor env w hHubDevice ConnectionIndex }
    DeviceDesc head _ [] hinv0 hbound
  obtain ⟨t, ht⟩ := Fetched_ok hdev
  unfold GetAllStringDescriptors allIndices
  simp only [h0, hread]
  rw [ht] at hdev ⊢
  simp only []
  cases hw : readWord ConfigDesc 2 with
  | error e => rfl
  | ok wTotalLength =>
    simp only []
    have hwalk := fun M t1 (hM : ChainInv t.2 head _ t1) =>
      GetAllStringDescriptors_walk_spec env hHubDevice ConnectionIndex head _
        { DescriptorIndex := 0, LanguageID := 0,
          StringDescriptor := languageDescriptor env w hHubDevice ConnectionIndex }
        ConfigDesc wTotalLength hbound fuel 0 t1 t.2 M hM
    cases hi : walkIndices ConfigDesc wTotalLength fuel 0 with
    | error e =>
      simp only [TableAgrees]
      obtain ⟨_, _, Lnew, heq, hinv1, _, _⟩ := hdev
      simp only [Except.ok.injEq] at heq
      subst heq
      have := hwalk _ _ hinv1
      rw [hi] at this
      simp only [WalkAgrees] at this
      rw [this]
    | ok idxs =>
      simp only [TableAgrees]
      have hall : Fetched env hHubDevice ConnectionIndex head
          { DescriptorIndex := 0, LanguageID := 0,
            StringDescriptor := languageDescriptor env w hHubDevice ConnectionIndex }
          (GetStringDescriptor env w hHubDevice ConnectionIndex 0 0).2 []
          (stringPairs (deviceIndices DeviceDesc)
              (codesFrom (languageDescriptor env w hHubDevice ConnectionIndex)
                (numLanguageIDsOf (stringDesc_bLength
                  (stringFetch env w hHubDevice ConnectionIndex 0 0).1.buffer)) 2) ++
            stringPairs idxs
              (codesFrom (languageDescriptor env w hHubDevice ConnectionIndex)
                (numLanguageIDsOf (stringDesc_bLength
                  (stringFetch env w hHubDevice ConnectionIndex 0 0).1.buffer)) 2))
          (GetAllStringDescriptors.walk env hHubDevice ConnectionIndex
            (numLanguageIDsOf (stringDesc_bLength
              (stringFetch env w hHubDevice ConnectionIndex 0 0).1.buffer))
            head 2 ConfigDesc wTotalLength fuel 0 t.1 t.2) := by
        apply Fetched_seq env hHubDevice ConnectionIndex head _ _ [] _ _ t.1 t.2 _ hdev
        intro Lnew hinv1
        have := hwalk _ _ hinv1
        rw [hi] at this
        exact this
      rw [← stringPairs_append, hcodes] at hall
      obtain ⟨t2, wf, L, heq, hinv2, hrec, hsame⟩ := hall
      rw [heq]
      exact ⟨wf, L, t2, rfl, by simpa using hinv2, hrec, hsame⟩

theorem TableAgrees_requests {σ : Type} (env : Env σ) (w : World σ)
    (hHubDevice ConnectionIndex head : Nat) (idxs : List Nat)
    (res : Except Fault (Option Nat × World σ))
    (h : TableAgrees env w hHubDevice ConnectionIndex head (Except.ok idxs) res) :
    requestsOf res = Except.ok
      (w.ioLog ++ stringRequest hHubDevice ConnectionIndex 0 0 ::
        (stringPairs idxs
          (languageIDsOf (languageDescriptor env w hHubDevice ConnectionIndex))).map
          (fun pr => stringRequest hHubDevice ConnectionIndex pr.1 pr.2)) := by
  obtain ⟨wf, L, tail, heq, _, _, hsame⟩ := h
  rw [heq]
  simp only [requestsOf]
  rw [← hsame.2.2, fetchStrings_ioLog, GetStringDescriptor_ioLog]
  simp

/-- C6. For an index-0 response that `GetStringDescriptor` accepts, with `sd` the returned
language-list descriptor: `sd` has the returned descriptor length (the returned byte count
less the request header), `GetAllStringDescriptors` reads that length from the head node and
computes `numLanguageIDs = (length - 2) / 2`, which is the number of codes in `sd`; and when
the walk over the descriptors yields the indices `idxs`, the requests of the whole call are
the index-0 request followed, for each index in turn, by one request per 16-bit code that
follows the 2-byte header of `sd`, in the order of the codes. -/
theorem GetAllStringDescriptors_languages {σ : Type} (env : Env σ) (fuel : Nat) (w : World σ)
    (hHubDevice ConnectionIndex : Nat) (DeviceDesc : USB_DEVICE_DESCRIPTOR)
    (ConfigDesc : List Nat) (head : Nat) (idxs : List Nat)
    (h0 : (GetStringDescriptor env w hHubDevice ConnectionIndex 0 0).1 = some head)
    (hwalk : allIndices fuel DeviceDesc ConfigDesc = Except.ok idxs) :
    (languageDescriptor env w hHubDevice ConnectionIndex).length +
        sizeof_USB_DESCRIPTOR_REQUEST =
      (stringFetch env w hHubDevice ConnectionIndex 0 0).1.nBytesReturned ∧
    readLanguageByte (GetStringDescriptor env w hHubDevice ConnectionIndex 0 0).2 head =
      Except.ok (languageDescriptor env w hHubDevice ConnectionIndex).length ∧
    numLanguageIDsOf (languageDescriptor env w hHubDevice ConnectionIndex).length =
      ((languageDescriptor env w hHubDevice ConnectionIndex).length - 2) / 2 ∧
    (languageIDsOf (languageDescriptor env w hHubDevice ConnectionIndex)).length =
      ((languageDescriptor env w hHubDevice ConnectionIndex).length - 2) / 2 ∧
    (∀ i, i < ((languageDescriptor env w hHubDevice ConnectionIndex).length - 2) / 2 →
      (languageIDsOf (languageDescriptor env w hHubDevice ConnectionIndex))[i]? =
        some (wordAt (languageDescriptor env w hHubDevice ConnectionIndex) (2 + 2 * i)) ∧
      2 + 2 * i + 1 < (languageDescriptor env w hHubDevice ConnectionIndex).length) ∧
    requestsOf (GetAllStringDescriptors env fuel w hHubDevice ConnectionIndex DeviceDesc
        ConfigDesc) =
      Except.ok
        (w.ioLog ++ stringRequest hHubDevice ConnectionIndex 0 0 ::
          idxs.flatMap (fun index =>
            (languageIDsOf (languageDescriptor env w hHubDevice ConnectionIndex)).map
              (fun language => stringRequest hHubDevice ConnectionIndex index language))) := by
  obtain ⟨_, _, hnodes, hok⟩ := GetStringDescriptor_some_effect env w _ _ _ _ head h0
  have hbl2 := stringAccepted_bLength_ge env w _ _ _ _ hok
  have hblt : stringDesc_bLength (stringFetch env w hHubDevice ConnectionIndex 0 0).1.buffer
      < 256 := byteAt_lt _ _
  have hsdlen : (languageDescriptor env w hHubDevice ConnectionIndex).length =
      stringDesc_bLength (stringFetch env w hHubDevice ConnectionIndex 0 0).1.buffer :=
    returnedDescriptor_length env w _ _ _ _
  have hnode : (GetStringDescriptor env w hHubDevice ConnectionIndex 0 0).2.node head =
      some { Next := none, DescriptorIndex := 0, LanguageID := 0,
             StringDescriptor := languageDescriptor env w hHubDevice ConnectionIndex } := by
    unfold World.node
    rw [hnodes]
    simp [List.lookup, languageDescriptor]
  have hspec := GetAllStringDescriptors_spec env fuel w hHubDevice ConnectionIndex DeviceDesc
    ConfigDesc head h0
  rw [hwalk] at hspec
  refine ⟨?_, ?_, ?_, ?_, ?_, ?_⟩
  · rw [hsdlen]
    obtain ⟨_, _, _, h4, _⟩ := hok
    unfold sizeof_USB_DESCRIPTOR_REQUEST at h4 ⊢
    omega
  · unfold readLanguageByte
    rw [hnode]
    simp only []
    rw [readByte_of_lt _ _ (by rw [hsdlen]; omega), hsdlen]
    unfold languageDescriptor
    rw [returnedDescriptor_head _ (by omega)]
  · rw [hsdlen]
    exact numLanguageIDsOf_eq _ hbl2 hblt
  · simp [languageIDsOf]
  · intro i hi
    refine ⟨?_, by omega⟩
    unfold languageIDsOf
    rw [List.getElem?_map, List.getElem?_range hi]
    rfl
  · rw [TableAgrees_requests env w hHubDevice ConnectionIndex head idxs _ hspec]
    simp only [stringPairs, List.map_flatMap, List.map_map]
    rfl

set_option maxRecDepth 8192 in
theorem GetAllStringDescriptors_languages_witness :
    (GetStringDescriptor oneStringDevice (World.start ()) 7 1 0 0).1 = some 0 ∧
    allIndices 10 { iManufacturer := 1, iProduct := 0, iSerialNumber := 0 } plainConfig =
      Except.ok [1] ∧
    languageDescriptor oneStringDevice (World.start ()) 7 1 = [4, 3, 9, 4] ∧
    requestsOf (GetAllStringDescriptors oneStringDevice 10 (World.start ()) 7 1
        { iManufacturer := 1, iProduct := 0, iSerialNumber := 0 } plainConfig) =
      Except.ok [stringRequest 7 1 0 0, stringRequest 7 1 1 1033] :=
  ⟨by decide, by decide, by decide,
   (GetAllStringDescriptors_languages oneStringDevice 10 (World.start ()) 7 1
     { iManufacturer := 1, iProduct := 0, iSerialNumber := 0 } plainConfig 0 [1]
     (by decide) (by decide)).2.2.2.2.2⟩

/-! ## Bounds of the descriptor walk -/

/-- The loop of `AreThereStringDescriptors` reads inside the buffer when `descEnd` does not
exceed the buffer size. -/
theorem AreThereStringDescriptors_walk_in_bounds (ConfigDesc : List Nat) (descEnd : Nat)
    (hend : descEnd ≤ ConfigDesc.length) :
    ∀ (fuel commonDesc : Nat),
      AreThereStringDescriptors.walk ConfigDesc descEnd fuel commonDesc ≠
        Except.error Fault.outOfBounds := by
  intro fuel
  induction fuel with
  | zero => intro commonDesc h; cases h
  | succ fuel ih =>
    intro commonDesc
    rw [AreThereStringDescriptors.walk]
    by_cases hhdr : commonDesc + sizeof_USB_COMMON_DESCRIPTOR < descEnd
    · rw [if_pos hhdr]
      unfold sizeof_USB_COMMON_DESCRIPTOR at hhdr
      rw [readByte_of_lt ConfigDesc commonDesc (by omega)]
      simp only []
      by_cases hfit : commonDesc + byteAt ConfigDesc commonDesc ≤ descEnd
      · rw [if_pos hfit, readByte_of_lt ConfigDesc (commonDesc + 1) (by omega)]
        simp only []
        by_cases hc : byteAt ConfigDesc (commonDesc + 1) = USB_CONFIGURATION_DESCRIPTOR_TYPE
        · rw [if_pos hc]
          by_cases hl : byteAt ConfigDesc commonDesc ≠ sizeof_USB_CONFIGURATION_DESCRIPTOR
          · rw [if_pos hl]; intro h; cases h
          · rw [if_neg hl]
            have hl9 := not_ne_iff.mp hl
            unfold sizeof_USB_CONFIGURATION_DESCRIPTOR at hl9
            rw [readByte_of_lt ConfigDesc (commonDesc + 6) (by omega)]
            simp only []
            split_ifs
            · intro h; cases h
            · exact ih _
        · rw [if_neg hc]
          by_cases hi : byteAt ConfigDesc (commonDesc + 1) = USB_INTERFACE_DESCRIPTOR_TYPE
          · rw [if_pos hi]
            by_cases hl : byteAt ConfigDesc commonDesc ≠ sizeof_USB_INTERFACE_DESCRIPTOR ∧
                byteAt ConfigDesc commonDesc ≠ sizeof_USB_INTERFACE_DESCRIPTOR2
            · rw [if_pos hl]; intro h; cases h
            · rw [if_neg hl]
              have hl9 : 9 ≤ byteAt ConfigDesc commonDesc := by
                unfold sizeof_USB_INTERFACE_DESCRIPTOR sizeof_USB_INTERFACE_DESCRIPTOR2 at hl
                omega
              rw [readByte_of_lt ConfigDesc (commonDesc + 8) (by omega)]
              simp only []
              split_ifs
              · intro h; cases h
              · exact ih _
          · rw [if_neg hi]
            exact ih _
      · rw [if_neg hfit]; intro h; cases h
    · rw [if_neg hhdr]; intro h; cases h

/-- The descriptor walk reads inside the buffer when `descEnd` does not exceed the buffer
size. -/
theorem walkIndices_in_bounds (ConfigDesc : List Nat) (descEnd : Nat)
    (hend : descEnd ≤ ConfigDesc.length) :
    ∀ (fuel commonDesc : Nat),
      walkIndices ConfigDesc descEnd fuel commonDesc ≠ Except.error Fault.outOfBounds := by
  intro fuel
  induction fuel with
  | zero => intro commonDesc h; cases h
  | succ fuel ih =>
    intro commonDesc
    have hrec : ∀ (x : Nat),
        (match walkIndices ConfigDesc descEnd fuel
            (commonDesc + byteAt ConfigDesc commonDesc) with
          | Except.error e => Except.error e
          | Except.ok rest => Except.ok (if x ≠ 0 then x :: rest else rest)) ≠
          (Except.error Fault.outOfBounds : Except Fault (List Nat)) := by
      intro x
      have := ih (commonDesc + byteAt ConfigDesc commonDesc)
      cases hw : walkIndices ConfigDesc descEnd fuel
          (commonDesc + byteAt ConfigDesc commonDesc) with
      | error e =>
        rw [hw] at this
        simpa using this
      | ok rest => intro h; cases h
    rw [walkIndices]
    by_cases hhdr : commonDesc + sizeof_USB_COMMON_DESCRIPTOR < descEnd
    · rw [if_pos hhdr]
      unfold sizeof_USB_COMMON_DESCRIPTOR at hhdr
      rw [readByte_of_lt ConfigDesc commonDesc (by omega)]
      simp only []
      by_cases hfit : commonDesc + byteAt ConfigDesc commonDesc ≤ descEnd
      · rw [if_pos hfit, readByte_of_lt ConfigDesc (commonDesc + 1) (by omega)]
        simp only []
        by_cases hc : byteAt ConfigDesc (commonDesc + 1) = USB_CONFIGURATION_DESCRIPTOR_TYPE
        · rw [if_pos hc]
          by_cases hl : byteAt ConfigDesc commonDesc ≠ sizeof_USB_CONFIGURATION_DESCRIPTOR
          · rw [if_pos hl]; intro h; cases h
          · rw [if_neg hl]
            have hl9 := not_ne_iff.mp hl
            unfold sizeof_USB_CONFIGURATION_DESCRIPTOR at hl9
            rw [readByte_of_lt ConfigDesc (commonDesc + 6) (by omega)]
            exact hrec _
        · rw [if_neg hc]
          by_cases hi : byteAt ConfigDesc (commonDesc + 1) = USB_INTERFACE_DESCRIPTOR_TYPE
          · rw [if_pos hi]
            by_cases hl : byteAt ConfigDesc commonDesc ≠ sizeof_USB_INTERFACE_DESCRIPTOR ∧
                byteAt ConfigDesc commonDesc ≠ sizeof_USB_INTERFACE_DESCRIPTOR2
            · rw [if_pos hl]; intro h; cases h
            · rw [if_neg hl]
              have hl9 : 9 ≤ byteAt ConfigDesc commonDesc := by
                unfold sizeof_USB_INTERFACE_DESCRIPTOR sizeof_USB_INTERFACE_DESCRIPTOR2 at hl
                omega
              rw [readByte_of_lt ConfigDesc (commonDesc + 8) (by omega)]
              exact hrec _
          · rw [if_neg hi]
            exact ih _
      · rw [if_neg hfit]; intro h; cases h
    · rw [if_neg hhdr]; intro h; cases h

/-- C10. For a configuration buffer whose length equals its `wTotalLength` field, every byte
that `AreThereStringDescriptors` and `GetAllStringDescriptors` read through a pointer lies
inside the buffer it addresses: no run, of any length, ends in a read out of bounds.  The
loop body runs at a cursor only when the cursor plus the 2-byte common header is below the
buffer end and the cursor plus the declared length does not pass it: otherwise both loops
end at once, without a further read. -/
theorem walk_reads_in_bounds (ConfigDesc : List Nat)
    (htotal : readWord ConfigDesc 2 = Except.ok ConfigDesc.length) :
    (∀ (fuel : Nat) (DeviceDesc : USB_DEVICE_DESCRIPTOR),
      AreThereStringDescriptors fuel DeviceDesc ConfigDesc ≠
        Except.error Fault.outOfBounds) ∧
    (∀ (σ : Type) (env : Env σ) (fuel : Nat) (w : World σ) (hHubDevice ConnectionIndex : Nat)
      (DeviceDesc : USB_DEVICE_DESCRIPTOR),
      GetAllStringDescriptors env fuel w hHubDevice ConnectionIndex DeviceDesc ConfigDesc ≠
        Except.error Fault.outOfBounds) ∧
    (∀ (fuel commonDesc : Nat),
      (¬ commonDesc + sizeof_USB_COMMON_DESCRIPTOR < ConfigDesc.length ∨
       ∃ bLength, readByte ConfigDesc commonDesc = Except.ok bLength ∧
         ¬ commonDesc + bLength ≤ ConfigDesc.length) →
      AreThereStringDescriptors.walk ConfigDesc ConfigDesc.length (fuel + 1) commonDesc =
        Except.ok false ∧
      ∀ (σ : Type) (env : Env σ) (w : World σ)
        (hHubDevice ConnectionIndex numLanguageIDs block offset stringDescNodeTail : Nat),
        GetAllStringDescriptors.walk env hHubDevice ConnectionIndex numLanguageIDs block offset
          ConfigDesc ConfigDesc.length (fuel + 1) commonDesc stringDescNodeTail w =
        Except.ok (stringDescNodeTail, w)) := by
  refine ⟨?_, ?_, ?_⟩
  · intro fuel DeviceDesc
    unfold AreThereStringDescriptors
    split_ifs
    · intro h; cases h
    · rw [htotal]
      exact AreThereStringDescriptors_walk_in_bounds ConfigDesc _ (Nat.le_refl _) fuel 0
  · intro σ env fuel w hHubDevice ConnectionIndex DeviceDesc
    cases h0 : (GetStringDescriptor env w hHubDevice ConnectionIndex 0 0).1 with
    | none =>
      rw [GetAllStringDescriptors_of_index0_none env fuel w hHubDevice ConnectionIndex
        DeviceDesc ConfigDesc h0]
      intro h; cases h
    | some head =>
      have hspec := GetAllStringDescriptors_spec env fuel w hHubDevice ConnectionIndex
        DeviceDesc ConfigDesc head h0
      unfold allIndices at hspec
      rw [htotal] at hspec
      simp only [] at hspec
      have hin := walkIndices_in_bounds ConfigDesc _ (Nat.le_refl _) fuel 0
      cases hw : walkIndices ConfigDesc ConfigDesc.length fuel 0 with
      | error e =>
        rw [hw] at hspec hin
        simp only [TableAgrees] at hspec
        rw [hspec]
        intro h
        apply hin
        cases h
        rfl
      | ok idxs =>
        rw [hw] at hspec
        obtain ⟨wf, _, _, heq, _⟩ := hspec
        rw [heq]
        intro h; cases h
  · intro fuel commonDesc hguard
    constructor
    · rw [AreThereStringDescriptors.walk]
      rcases hguard with h | ⟨b, hb, hfit⟩
      · rw [if_neg h]
      · split_ifs
        · rw [hb]
          simp only []
          rw [if_neg hfit]
        · rfl
    · intro σ env w hHubDevice ConnectionIndex numLanguageIDs block offset stringDescNodeTail
      rw [GetAllStringDescriptors.walk]
      rcases hguard with h | ⟨b, hb, hfit⟩
      · rw [if_neg h]
      · split_ifs
        · rw [hb]
          simp only []
          rw [if_neg hfit]
        · rfl

theorem walk_reads_in_bounds_witness :
    readWord plainConfig 2 = Except.ok plainConfig.length ∧
    AreThereStringDescriptors 10 noStringsDevice plainConfig = Except.ok false ∧
    AreThereStringDescriptors.walk plainConfig plainConfig.length (0 + 1) 25 =
      Except.ok false :=
  ⟨by decide, by decide,
   ((walk_reads_in_bounds plainConfig (by decide)).2.2 0 25 (Or.inl (by decide))).1⟩

/-! ## The descriptor walk on a buffer laid out as descriptors -/

theorem configIndices_cons (d : List Nat) (rest : List (List Nat)) :
    configIndices (d :: rest) =
      if hasFixedSize d = true then
        (if stringIndexOf d ≠ 0 then stringIndexOf d :: configIndices rest
         else configIndices rest)
      else [] := by
  unfold configIndices
  rw [List.takeWhile_cons]
  by_cases hf : hasFixedSize d = true
  · rw [if_pos hf, if_pos hf, List.map_cons, List.filter_cons]
    by_cases hz : stringIndexOf d ≠ 0
    · rw [if_pos hz, if_pos (by simpa using hz)]
    · rw [if_neg hz, if_neg (by simpa using hz)]
  · rw [if_neg hf, if_neg hf]
    rfl

theorem readByte_append_mid (pre d post : List Nat) (j : Nat) (hj : j < d.length) :
    readByte (pre ++ (d ++ post)) (pre.length + j) = Except.ok (byteAt d j) := by
  rw [readByte_of_lt _ _ (by simp only [List.length_append]; omega)]
  congr 1
  unfold byteAt
  congr 1
  rw [List.getD_eq_getElem?_getD, List.getD_eq_getElem?_getD,
    List.getElem?_append_right (Nat.le_add_right _ _), Nat.add_sub_cancel_left,
    List.getElem?_append_left hj]

theorem flatten_length_zero (ds : List (List Nat)) (hds : ∀ d ∈ ds, isDescriptor d)
    (h : ds.flatten.length = 0) : ds = [] := by
  cases ds with
  | nil => rfl
  | cons d rest =>
    exfalso
    have hd := (hds d (List.mem_cons_self _ _)).1
    unfold sizeof_USB_COMMON_DESCRIPTOR at hd
    rw [List.flatten_cons, List.length_append] at h
    omega

/-- On a buffer that is a sequence of descriptors, with `descEnd` at its end, the descriptor
walk visits the descriptors one by one and yields their string indices, up to the first
configuration or interface descriptor of a wrong length. -/
theorem walkIndices_layout :
    ∀ (ds : List (List Nat)) (pre : List Nat) (fuel : Nat),
      (∀ d ∈ ds, isDescriptor d) → ds.length < fuel →
      walkIndices (pre ++ ds.flatten) (pre.length + ds.flatten.length) fuel pre.length =
        Except.ok (configIndices ds) := by
  intro ds
  induction ds with
  | nil =>
    intro pre fuel _ hfuel
    cases fuel with
    | zero => exact absurd hfuel (Nat.lt_irrefl _)
    | succ f =>
      rw [walkIndices, if_neg (by simp [sizeof_USB_COMMON_DESCRIPTOR])]
      rfl
  | cons d rest ih =>
    intro pre fuel hds hfuel
    cases fuel with
    | zero => exact absurd hfuel (Nat.not_lt_zero _)
    | succ f =>
      obtain ⟨hd2, hd256, hdlen⟩ := hds d (List.mem_cons_self _ _)
      unfold sizeof_USB_COMMON_DESCRIPTOR at hd2
      have hrest : ∀ e ∈ rest, isDescriptor e :=
        fun e he => hds e (List.mem_cons_of_mem _ he)
      have hf : rest.length < f := by
        simp only [List.length_cons] at hfuel
        omega
      have key : walkIndices (pre ++ (d ++ rest.flatten))
          (pre.length + (d.length + rest.flatten.length)) f (pre.length + d.length) =
          Except.ok (configIndices rest) := by
        have := ih (pre ++ d) f hrest hf
        simpa [List.append_assoc, Nat.add_assoc] using this
      rw [List.flatten_cons, List.length_append, walkIndices, configIndices_cons]
      by_cases hhdr : pre.length + sizeof_USB_COMMON_DESCRIPTOR <
          pre.length + (d.length + rest.flatten.length)
      · rw [if_pos hhdr]
        have hb := readByte_append_mid pre d rest.flatten 0 (by omega)
        rw [Nat.add_zero, hdlen] at hb
        rw [hb]
        simp only []
        rw [if_pos (by omega)]
        have ht := readByte_append_mid pre d rest.flatten 1 (by omega)
        rw [ht]
        simp only []
        by_cases hc : byteAt d 1 = USB_CONFIGURATION_DESCRIPTOR_TYPE
        · rw [if_pos hc]
          by_cases hl : d.length ≠ sizeof_USB_CONFIGURATION_DESCRIPTOR
          · rw [if_pos hl]
            have : hasFixedSize d = false := by
              unfold hasFixedSize
              rw [if_pos hc]
              simpa using hl
            rw [this]
            rfl
          · rw [if_neg hl]
            have hl9 := not_ne_iff.mp hl
            have hfix : hasFixedSize d = true := by
              unfold hasFixedSize
              rw [if_pos hc]
              simpa using hl9
            have hidx : stringIndexOf d = byteAt d 6 := by
              unfold stringIndexOf
              rw [if_pos hc]
            unfold sizeof_USB_CONFIGURATION_DESCRIPTOR at hl9
            rw [readByte_append_mid pre d rest.flatten 6 (by omega)]
            simp only []
            rw [key, if_pos hfix, hidx]
        · rw [if_neg hc]
          by_cases hi : byteAt d 1 = USB_INTERFACE_DESCRIPTOR_TYPE
          · rw [if_pos hi]
            by_cases hl : d.length ≠ sizeof_USB_INTERFACE_DESCRIPTOR ∧
                d.length ≠ sizeof_USB_INTERFACE_DESCRIPTOR2
            · rw [if_pos hl]
              have : hasFixedSize d = false := by
                unfold hasFixedSize
                rw [if_neg hc, if_pos hi]
                simpa [not_or] using hl
              rw [this]
              rfl
            · rw [if_neg hl]
              have hl' : d.length = sizeof_USB_INTERFACE_DESCRIPTOR ∨
                  d.length = sizeof_USB_INTERFACE_DESCRIPTOR2 := by
                by_contra hcon
                rw [not_or] at hcon
                exact hl hcon
              have hfix : hasFixedSize d = true := by
                unfold hasFixedSize
                rw [if_neg hc, if_pos hi]
                simpa using hl'
              have hidx : stringIndexOf d = byteAt d 8 := by
                unfold stringIndexOf
                rw [if_neg hc, if_pos hi]
              unfold sizeof_USB_INTERFACE_DESCRIPTOR sizeof_USB_INTERFACE_DESCRIPTOR2 at hl'
              rw [readByte_append_mid pre d rest.flatten 8 (by omega)]
              simp only []
              rw [key, if_pos hfix, hidx]
          · rw [if_neg hi]
            have hfix : hasFixedSize d = true := by
              unfold hasFixedSize
              rw [if_neg hc, if_neg hi]
            have hidx : stringIndexOf d = 0 := by
              unfold stringIndexOf
              rw [if_neg hc, if_neg hi]
            rw [key, if_pos hfix, hidx]
            rfl
      · rw [if_neg hhdr]
        unfold sizeof_USB_COMMON_DESCRIPTOR at hhdr
        have hlen2 : d.length = 2 := by omega
        have hr0 : rest.flatten.length = 0 := by omega
        have hnil := flatten_length_zero rest hrest hr0
        subst hnil
        by_cases hfix : hasFixedSize d = true
        · rw [if_pos hfix]
          have hidx : stringIndexOf d = 0 := by
            unfold hasFixedSize at hfix
            unfold stringIndexOf
            unfold sizeof_USB_CONFIGURATION_DESCRIPTOR sizeof_USB_INTERFACE_DESCRIPTOR
              sizeof_USB_INTERFACE_DESCRIPTOR2 at hfix
            split_ifs at hfix ⊢ with h1 h2
            · simp [hlen2] at hfix
            · simp [hlen2] at hfix
            · rfl
          rw [hidx]
          rfl
        · rw [if_neg hfix]

/-! ## The chain returned by GetAllStringDescriptors -/

theorem chainFrom_of_IsChain {σ : Type} (w : World σ) :
    ∀ (L : List (Nat × StringRecord)) (p : Option Nat), IsChain w p L →
      chainFrom w L.length p = some (L.map Prod.snd) := by
  intro L
  induction L with
  | nil =>
    intro p h
    have hp : p = none := h
    subst hp
    rfl
  | cons e rest ih =>
    intro p h
    obtain ⟨hp, n, hn, hrec, hrest⟩ := h
    subst hp
    rw [List.length_cons, chainFrom, hn]
    simp only []
    rw [ih _ hrest]
    simp only [List.map_cons, hrec]

/-- C8, as the code behaves. Let the configuration buffer be a sequence of descriptors, each
at least two bytes long and declaring its own length, with `wTotalLength` equal to the size
of the buffer, and let the index-0 fetch succeed.  Then, with enough steps for the
descriptors, `GetAllStringDescriptors` returns the index-0 node, and the chain from it is:
the language list, then the strings fetched for the non-zero manufacturer, product and
serial indices in that order, then those for the non-zero `iConfiguration` and `iInterface`
of the descriptors in buffer order, up to the first configuration or interface descriptor
whose length is not a fixed size of its type; for each index the languages come in the order
of the language list, and a failed fetch contributes no node. -/
theorem GetAllStringDescriptors_chain {σ : Type} (env : Env σ) (fuel : Nat) (w : World σ)
    (hHubDevice ConnectionIndex : Nat) (DeviceDesc : USB_DEVICE_DESCRIPTOR)
    (descriptors : List (List Nat)) (head : Nat)
    (h0 : (GetStringDescriptor env w hHubDevice ConnectionIndex 0 0).1 = some head)
    (hds : ∀ d ∈ descriptors, isDescriptor d)
    (htotal : readWord descriptors.flatten 2 = Except.ok descriptors.flatten.length)
    (hfuel : descriptors.length < fuel) :
    ∃ wf : World σ,
      GetAllStringDescriptors env fuel w hHubDevice ConnectionIndex DeviceDesc
        descriptors.flatten = Except.ok (some head, wf) ∧
      chainFrom wf
        (1 + (fetchStrings env hHubDevice ConnectionIndex
          (stringPairs (deviceIndices DeviceDesc ++ configIndices descriptors)
            (languageIDsOf (languageDescriptor env w hHubDevice ConnectionIndex)))
          (GetStringDescriptor env w hHubDevice ConnectionIndex 0 0).2).1.length)
        (some head) =
      some
        ({ DescriptorIndex := 0, LanguageID := 0,
           StringDescriptor := languageDescriptor env w hHubDevice ConnectionIndex } ::
         (fetchStrings env hHubDevice ConnectionIndex
          (stringPairs (deviceIndices DeviceDesc ++ configIndices descriptors)
            (languageIDsOf (languageDescriptor env w hHubDevice ConnectionIndex)))
          (GetStringDescriptor env w hHubDevice ConnectionIndex 0 0).2).1) := by
  have hidx : allIndices fuel DeviceDesc descriptors.flatten =
      Except.ok (deviceIndices DeviceDesc ++ configIndices descriptors) := by
    unfold allIndices
    rw [htotal]
    simp only []
    have := walkIndices_layout descriptors [] fuel hds hfuel
    simp only [List.nil_append, List.length_nil, Nat.zero_add] at this
    rw [this]
  have hspec := GetAllStringDescriptors_spec env fuel w hHubDevice ConnectionIndex DeviceDesc
    descriptors.flatten head h0
  rw [hidx] at hspec
  obtain ⟨wf, L, tail, heq, hinv, hrec, _⟩ := hspec
  refine ⟨wf, heq, ?_⟩
  have hc := chainFrom_of_IsChain wf _ _ hinv.chain
  rw [hrec, List.length_map, Nat.add_comm]
  simpa using hc

set_option maxRecDepth 16384 in
theorem GetAllStringDescriptors_chain_witness :
    (GetStringDescriptor oneStringDevice (World.start ()) 7 1 0 0).1 = some 0 ∧
    chainOf (GetAllStringDescriptors oneStringDevice 4 (World.start ()) 7 1
        { iManufacturer := 1, iProduct := 0, iSerialNumber := 5 }
        namedInterfaceDescriptors.flatten) =
      Except.ok (some
        [{ DescriptorIndex := 0, LanguageID := 0, StringDescriptor := [4, 3, 9, 4] },
         { DescriptorIndex := 1, LanguageID := 1033, StringDescriptor := [6, 3, 65, 0, 66, 0] },
         { DescriptorIndex := 1, LanguageID := 1033,
           StringDescriptor := [6, 3, 65, 0, 66, 0] }]) ∧
    ∃ wf : World Unit,
      GetAllStringDescriptors oneStringDevice 4 (World.start ()) 7 1
        { iManufacturer := 1, iProduct := 0, iSerialNumber := 5 }
        namedInterfaceDescriptors.flatten = Except.ok (some 0, wf) ∧
      chainFrom wf
        (1 + (fetchStrings oneStringDevice 7 1
          (stringPairs
            (deviceIndices { iManufacturer := 1, iProduct := 0, iSerialNumber := 5 } ++
              configIndices namedInterfaceDescriptors)
            (languageIDsOf (languageDescriptor oneStringDevice (World.start ()) 7 1)))
          (GetStringDescriptor oneStringDevice (World.start ()) 7 1 0 0).2).1.length)
        (some 0) =
      some
        ({ DescriptorIndex := 0, LanguageID := 0,
           StringDescriptor := languageDescriptor oneStringDevice (World.start ()) 7 1 } ::
         (fetchStrings oneStringDevice 7 1
          (stringPairs
            (deviceIndices { iManufacturer := 1, iProduct := 0, iSerialNumber := 5 } ++
              configIndices namedInterfaceDescriptors)
            (languageIDsOf (languageDescriptor oneStringDevice (World.start ()) 7 1)))
          (GetStringDescriptor oneStringDevice (World.start ()) 7 1 0 0).2).1) :=
  ⟨by decide, by decide,
   GetAllStringDescriptors_chain oneStringDevice 4 (World.start ()) 7 1
     { iManufacturer := 1, iProduct := 0, iSerialNumber := 5 } namedInterfaceDescriptors 0
     (by decide) (by decide) (by decide) (by decide)⟩

set_option maxRecDepth 16384 in
/-- C8 fails as stated. `malformedConfig` consists of a configuration descriptor, an
interface descriptor that declares the length 7, and a well-formed interface descriptor
whose `iInterface` is 1; the device has string 1 in its one language, and fetching it after
the language list succeeds.  The chain that `GetAllStringDescriptors` returns holds the
language list alone. -/
theorem chain_misses_string_after_wrong_length :
    malformedConfig = malformedDescriptors.flatten ∧
    (∀ d ∈ malformedDescriptors, isDescriptor d) ∧
    stringIndexOf [9, 4, 1, 0, 1, 3, 1, 1, 1] = 1 ∧
    (fetchStrings oneStringDevice 7 1 [(1, 1033)]
      (GetStringDescriptor oneStringDevice (World.start ()) 7 1 0 0).2).1 =
      [{ DescriptorIndex := 1, LanguageID := 1033,
         StringDescriptor := [6, 3, 65, 0, 66, 0] }] ∧
    chainOf (GetAllStringDescriptors oneStringDevice 100 (World.start ()) 7 1
        noStringsDevice malformedConfig) =
      Except.ok (some
        [{ DescriptorIndex := 0, LanguageID := 0, StringDescriptor := [4, 3, 9, 4] }]) := by
  refine ⟨by decide, by decide, by decide, ?_, ?_⟩
  · decide
  · decide

/-! ## Sessions: what the primitive steps leave unchanged -/

@[simp]
theorem Session.ask_calls {σ : Type} {α : Type} (s : Session σ) (f : σ → α × σ) :
    (s.ask f).2.calls = s.calls := rfl
@[simp]
theorem Session.ask_tree {σ : Type} {α : Type} (s : Session σ) (f : σ → α × σ) :
    (s.ask f).2.tree = s.tree := rfl
@[simp]
theorem Session.ask_heapLog {σ : Type} {α : Type} (s : Session σ) (f : σ → α × σ) :
    (s.ask f).2.world.heapLog = s.world.heapLog := rfl
@[simp]
theorem Session.ask_ioLog {σ : Type} {α : Type} (s : Session σ) (f : σ → α × σ) :
    (s.ask f).2.world.ioLog = s.world.ioLog := rfl
@[simp]
theorem Session.ask_nodes {σ : Type} {α : Type} (s : Session σ) (f : σ → α × σ) :
    (s.ask f).2.world.nodes = s.world.nodes := rfl
@[simp]
theorem Session.ask_TotalDevicesConnected {σ : Type} {α : Type} (s : Session σ) (f : σ → α × σ) :
    (s.ask f).2.TotalDevicesConnected = s.TotalDevicesConnected := rfl
@[simp]
theorem Session.ask_TotalHubs {σ : Type} {α : Type} (s : Session σ) (f : σ → α × σ) :
    (s.ask f).2.TotalHubs = s.TotalHubs := rfl
@[simp]
theorem Session.ask_EnumeratedHCList {σ : Type} {α : Type} (s : Session σ) (f : σ → α × σ) :
    (s.ask f).2.EnumeratedHCList = s.EnumeratedHCList := rfl
@[simp]
theorem Session.ask_gDoConfigDesc {σ : Type} {α : Type} (s : Session σ) (f : σ → α × σ) :
    (s.ask f).2.gDoConfigDesc = s.gDoConfigDesc := rfl

@[simp]
theorem Session.log_calls {σ : Type} (s : Session σ) (c : OsCall) :
    (s.log c).calls = s.calls ++ [c] := rfl
@[simp]
theorem Session.log_tree {σ : Type} (s : Session σ) (c : OsCall) : (s.log c).tree = s.tree := rfl
@[simp]
theorem Session.log_world {σ : Type} (s : Session σ) (c : OsCall) : (s.log c).world = s.world := rfl
@[simp]
theorem Session.log_TotalDevicesConnected {σ : Type} (s : Session σ) (c : OsCall) :
    (s.log c).TotalDevicesConnected = s.TotalDevicesConnected := rfl
@[simp]
theorem Session.log_TotalHubs {σ : Type} (s : Session σ) (c : OsCall) :
    (s.log c).TotalHubs = s.TotalHubs := rfl
@[simp]
theorem Session.log_EnumeratedHCList {σ : Type} (s : Session σ) (c : OsCall) :
    (s.log c).EnumeratedHCList = s.EnumeratedHCList := rfl
@[simp]
theorem Session.log_gDoConfigDesc {σ : Type} (s : Session σ) (c : OsCall) :
    (s.log c).gDoConfigDesc = s.gDoConfigDesc := rfl

@[simp]
theorem Session.alloc_calls {σ : Type} (host : Host σ) (s : Session σ) (n : Nat) :
    (s.alloc host n).2.calls = s.calls := rfl
@[simp]
theorem Session.alloc_tree {σ : Type} (host : Host σ) (s : Session σ) (n : Nat) :
    (s.alloc host n).2.tree = s.tree := rfl
@[simp]
theorem Session.alloc_TotalDevicesConnected {σ : Type} (host : Host σ) (s : Session σ) (n : Nat) :
    (s.alloc host n).2.TotalDevicesConnected = s.TotalDevicesConnected := rfl
@[simp]
theorem Session.alloc_TotalHubs {σ : Type} (host : Host σ) (s : Session σ) (n : Nat) :
    (s.alloc host n).2.TotalHubs = s.TotalHubs := rfl
@[simp]
theorem Session.alloc_EnumeratedHCList {σ : Type} (host : Host σ) (s : Session σ) (n : Nat) :
    (s.alloc host n).2.EnumeratedHCList = s.EnumeratedHCList := rfl
@[simp]
theorem Session.alloc_gDoConfigDesc {σ : Type} (host : Host σ) (s : Session σ) (n : Nat) :
    (s.alloc host n).2.gDoConfigDesc = s.gDoConfigDesc := rfl

@[simp]
theorem Session.free_calls {σ : Type} (s : Session σ) (p : Nat) : (s.free p).calls = s.calls := rfl
@[simp]
theorem Session.free_tree {σ : Type} (s : Session σ) (p : Nat) : (s.free p).tree = s.tree := rfl
@[simp]
theorem Session.free_heapLog {σ : Type} (s : Session σ) (p : Nat) :
    (s.free p).world.heapLog = s.world.heapLog ++ [HeapEvent.free p] := rfl
@[simp]
theorem Session.free_ioLog {σ : Type} (s : Session σ) (p : Nat) :
    (s.free p).world.ioLog = s.world.ioLog := rfl
@[simp]
theorem Session.free_TotalDevicesConnected {σ : Type} (s : Session σ) (p : Nat) :
    (s.free p).TotalDevicesConnected = s.TotalDevicesConnected := rfl
@[simp]
theorem Session.free_TotalHubs {σ : Type} (s : Session σ) (p : Nat) :
    (s.free p).TotalHubs = s.TotalHubs := rfl
@[simp]
theorem Session.free_EnumeratedHCList {σ : Type} (s : Session σ) (p : Nat) :
    (s.free p).EnumeratedHCList = s.EnumeratedHCList := rfl
@[simp]
theorem Session.free_gDoConfigDesc {σ : Type} (s : Session σ) (p : Nat) :
    (s.free p).gDoConfigDesc = s.gDoConfigDesc := rfl

theorem Session.alloc_heapLog_some {σ : Type} (host : Host σ) (s : Session σ) (n p : Nat)
    (h : (s.alloc host n).1 = some p) :
    p = s.world.heapLog.length ∧
    (s.alloc host n).2.world.heapLog = s.world.heapLog ++ [HeapEvent.alloc p n] := by
  have := ALLOC_some host.toEnv s.world n p h
  exact ⟨this.2.1, this.1⟩


/-! ## The connection information of a port -/

theorem pipeList30_length (l : List USB_PIPE_INFO) :
    (pipeList30 l).length = PIPE_LIST_ENTRIES := by
  unfold pipeList30
  simp [List.length_take, List.length_append, List.length_replicate]

theorem IOCTL_USB_GET_NODE_CONNECTION_INFORMATION_EX_calls {σ : Type} (host : Host σ)
    (s : Session σ) (hHubDevice index : Nat) :
    (IOCTL_USB_GET_NODE_CONNECTION_INFORMATION_EX host s hHubDevice index).2.calls =
      s.calls ++ [OsCall.connectionInformationEx hHubDevice index
        (IOCTL_USB_GET_NODE_CONNECTION_INFORMATION_EX host s hHubDevice index).1] := rfl

theorem IOCTL_USB_GET_NODE_CONNECTION_INFORMATION_calls {σ : Type} (host : Host σ)
    (s : Session σ) (hHubDevice index : Nat) :
    (IOCTL_USB_GET_NODE_CONNECTION_INFORMATION host s hHubDevice index).2.calls =
      s.calls ++ [OsCall.connectionInformation hHubDevice index
        (IOCTL_USB_GET_NODE_CONNECTION_INFORMATION host s hHubDevice index).1] := rfl

theorem IOCTL_USB_GET_NODE_CONNECTION_INFORMATION_pipes {σ : Type} (host : Host σ)
    (s : Session σ) (hHubDevice index : Nat) (r : USB_NODE_CONNECTION_INFORMATION)
    (h : (IOCTL_USB_GET_NODE_CONNECTION_INFORMATION host s hHubDevice index).1 = some r) :
    r.PipeList.length = PIPE_LIST_ENTRIES := by
  unfold IOCTL_USB_GET_NODE_CONNECTION_INFORMATION at h
  simp only [Option.map_eq_some'] at h
  obtain ⟨c, _, hc⟩ := h
  rw [← hc]
  exact pipeList30_length c.PipeList

theorem EnumerateHubPorts_connectionInfo_outcome {σ : Type} (host : Host σ) (s : Session σ)
    (hHubDevice index : Nat) :
    ConnectionInfoOutcome host s hHubDevice index
      (EnumerateHubPorts.connectionInfo host s hHubDevice index) := by
  unfold EnumerateHubPorts.connectionInfo
  simp only []
  cases ha : (s.alloc host (sizeof_USB_NODE_CONNECTION_INFORMATION_EX +
      sizeof_USB_PIPE_INFO * PIPE_LIST_ENTRIES)).1 with
  | none =>
    simp only []
    refine ConnectionInfoOutcome.noMemory _ rfl rfl ?_ rfl rfl
    exact (ALLOC_none host.toEnv s.world _ ha).1
  | some p =>
    simp only []
    have hp := (Session.alloc_heapLog_some host s _ p ha).2
    cases hq : (IOCTL_USB_GET_NODE_CONNECTION_INFORMATION_EX host
        (s.alloc host (sizeof_USB_NODE_CONNECTION_INFORMATION_EX +
          sizeof_USB_PIPE_INFO * PIPE_LIST_ENTRIES)).2 hHubDevice index).1 with
    | some r =>
      simp only []
      refine ConnectionInfoOutcome.extended p r _ ?_ rfl ?_ rfl rfl
      · rw [IOCTL_USB_GET_NODE_CONNECTION_INFORMATION_EX_calls, hq]; rfl
      · exact hp
    | none =>
      simp only []
      cases hb : ((IOCTL_USB_GET_NODE_CONNECTION_INFORMATION_EX host
          (s.alloc host (sizeof_USB_NODE_CONNECTION_INFORMATION_EX +
            sizeof_USB_PIPE_INFO * PIPE_LIST_ENTRIES)).2 hHubDevice index).2.alloc host
          (sizeof_USB_NODE_CONNECTION_INFORMATION +
            sizeof_USB_PIPE_INFO * PIPE_LIST_ENTRIES)).1 with
      | none => exact ConnectionInfoOutcome.unchecked
      | some q =>
        simp only []
        have hq2 := (Session.alloc_heapLog_some host _ _ q hb).2
        have hheap : ((IOCTL_USB_GET_NODE_CONNECTION_INFORMATION_EX host
            (s.alloc host (sizeof_USB_NODE_CONNECTION_INFORMATION_EX +
              sizeof_USB_PIPE_INFO * PIPE_LIST_ENTRIES)).2 hHubDevice index).2.alloc host
            (sizeof_USB_NODE_CONNECTION_INFORMATION +
              sizeof_USB_PIPE_INFO * PIPE_LIST_ENTRIES)).2.world.heapLog =
            s.world.heapLog ++
              [HeapEvent.alloc p (sizeof_USB_NODE_CONNECTION_INFORMATION_EX +
                sizeof_USB_PIPE_INFO * PIPE_LIST_ENTRIES),
               HeapEvent.alloc q (sizeof_USB_NODE_CONNECTION_INFORMATION +
                sizeof_USB_PIPE_INFO * PIPE_LIST_ENTRIES)] := by
          rw [hq2]
          have : (IOCTL_USB_GET_NODE_CONNECTION_INFORMATION_EX host
              (s.alloc host (sizeof_USB_NODE_CONNECTION_INFORMATION_EX +
                sizeof_USB_PIPE_INFO * PIPE_LIST_ENTRIES)).2 hHubDevice index).2.world.heapLog =
              (s.alloc host (sizeof_USB_NODE_CONNECTION_INFORMATION_EX +
                sizeof_USB_PIPE_INFO * PIPE_LIST_ENTRIES)).2.world.heapLog := rfl
          rw [this, hp, List.append_assoc]; rfl
        cases hl : (IOCTL_USB_GET_NODE_CONNECTION_INFORMATION host
            ((IOCTL_USB_GET_NODE_CONNECTION_INFORMATION_EX host
              (s.alloc host (sizeof_USB_NODE_CONNECTION_INFORMATION_EX +
                sizeof_USB_PIPE_INFO * PIPE_LIST_ENTRIES)).2 hHubDevice index).2.alloc host
              (sizeof_USB_NODE_CONNECTION_INFORMATION +
                sizeof_USB_PIPE_INFO * PIPE_LIST_ENTRIES)).2 hHubDevice index).1 with
        | none =>
          simp only []
          refine ConnectionInfoOutcome.failed p q _ ?_ rfl ?_ rfl rfl
          · simp only [Session.free_calls]
            rw [IOCTL_USB_GET_NODE_CONNECTION_INFORMATION_calls, hl, Session.alloc_calls,
              IOCTL_USB_GET_NODE_CONNECTION_INFORMATION_EX_calls, hq, Session.alloc_calls,
              List.append_assoc]
            rfl
          · simp only [Session.free_heapLog]
            have : (IOCTL_USB_GET_NODE_CONNECTION_INFORMATION host
                ((IOCTL_USB_GET_NODE_CONNECTION_INFORMATION_EX host
                  (s.alloc host (sizeof_USB_NODE_CONNECTION_INFORMATION_EX +
                    sizeof_USB_PIPE_INFO * PIPE_LIST_ENTRIES)).2 hHubDevice index).2.alloc host
                  (sizeof_USB_NODE_CONNECTION_INFORMATION +
                    sizeof_USB_PIPE_INFO * PIPE_LIST_ENTRIES)).2 hHubDevice
                  index).2.world.heapLog = _ := hheap
            rw [this]
            simp only [List.append_assoc, List.cons_append, List.nil_append]
        | some r =>
          simp only []
          refine ConnectionInfoOutcome.legacy p q r _
            (IOCTL_USB_GET_NODE_CONNECTION_INFORMATION_pipes host _ _ _ r hl) ?_ rfl ?_ rfl rfl
          · simp only [Session.free_calls]
            rw [IOCTL_USB_GET_NODE_CONNECTION_INFORMATION_calls, hl, Session.alloc_calls,
              IOCTL_USB_GET_NODE_CONNECTION_INFORMATION_EX_calls, hq, Session.alloc_calls,
              List.append_assoc]
            rfl
          · simp only [Session.free_heapLog]
            have : (IOCTL_USB_GET_NODE_CONNECTION_INFORMATION host
                ((IOCTL_USB_GET_NODE_CONNECTION_INFORMATION_EX host
                  (s.alloc host (sizeof_USB_NODE_CONNECTION_INFORMATION_EX +
                    sizeof_USB_PIPE_INFO * PIPE_LIST_ENTRIES)).2 hHubDevice index).2.alloc host
                  (sizeof_USB_NODE_CONNECTION_INFORMATION +
                    sizeof_USB_PIPE_INFO * PIPE_LIST_ENTRIES)).2 hHubDevice
                  index).2.world.heapLog = _ := hheap
            rw [this]
            simp only [List.append_assoc, List.cons_append, List.nil_append]
/-- C11. When the extended query for a port fails and the legacy query succeeds with the
record `r`, lines 843-935 of `EnumerateHubPorts` yield an extended record whose `Speed` is
`UsbLowSpeed` iff `r.LowSpeed` is set and `UsbFullSpeed` otherwise, and whose
`ConnectionIndex`, `DeviceDescriptor`, `CurrentConfigurationValue`, `DeviceIsHub`,
`DeviceAddress`, `NumberOfOpenPipes`, `ConnectionStatus` and pipe list of thirty entries
are those of `r`. -/
theorem EnumerateHubPorts_legacy_fallback {σ : Type} (host : Host σ) (s s1 : Session σ)
    (hHubDevice index : Nat) (q : PortQuery) (r : USB_NODE_CONNECTION_INFORMATION)
    (hrun : EnumerateHubPorts.connectionInfo host s hHubDevice index = Except.ok (q, s1))
    (hlog : s1.calls = s.calls ++
      [OsCall.connectionInformationEx hHubDevice index none,
       OsCall.connectionInformation hHubDevice index (some r)]) :
    ∃ connectionInfoEx : Block USB_NODE_CONNECTION_INFORMATION_EX,
      q = PortQuery.obtained connectionInfoEx ∧
      (connectionInfoEx.value.Speed = UsbLowSpeed ↔ r.LowSpeed = true) ∧
      (connectionInfoEx.value.Speed = UsbFullSpeed ↔ r.LowSpeed = false) ∧
      connectionInfoEx.value.ConnectionIndex = r.ConnectionIndex ∧
      connectionInfoEx.value.DeviceDescriptor = r.DeviceDescriptor ∧
      connectionInfoEx.value.CurrentConfigurationValue = r.CurrentConfigurationValue ∧
      connectionInfoEx.value.DeviceIsHub = r.DeviceIsHub ∧
      connectionInfoEx.value.DeviceAddress = r.DeviceAddress ∧
      connectionInfoEx.value.NumberOfOpenPipes = r.NumberOfOpenPipes ∧
      connectionInfoEx.value.ConnectionStatus = r.ConnectionStatus ∧
      connectionInfoEx.value.PipeList = r.PipeList ∧
      connectionInfoEx.value.PipeList.length = PIPE_LIST_ENTRIES := by
  have o := EnumerateHubPorts_connectionInfo_outcome host s hHubDevice index
  rw [hrun] at o
  cases o with
  | noMemory _ hcalls =>
    rw [hcalls] at hlog
    have := congrArg List.length hlog
    simp at this
  | extended p r0 _ hcalls =>
    rw [hcalls] at hlog
    have := congrArg List.length hlog
    simp at this
  | failed p q0 _ hcalls =>
    rw [hcalls] at hlog
    have h2 := List.append_cancel_left hlog
    simp at h2
  | legacy p q0 r0 _ hpipes hcalls =>
    rw [hcalls] at hlog
    have h2 := List.append_cancel_left hlog
    simp only [List.cons.injEq, OsCall.connectionInformation.injEq, Option.some.injEq,
      true_and, and_true] at h2
    subst h2
    have htake : r0.PipeList.take PIPE_LIST_ENTRIES = r0.PipeList :=
      List.take_of_length_le (le_of_eq hpipes)
    refine ⟨_, rfl, ?_, ?_, rfl, rfl, rfl, rfl, rfl, rfl, rfl, htake, ?_⟩
    · show (if r0.LowSpeed = true then UsbLowSpeed else UsbFullSpeed) = UsbLowSpeed ↔ _
      cases r0.LowSpeed <;> simp [UsbLowSpeed, UsbFullSpeed]
    · show (if r0.LowSpeed = true then UsbLowSpeed else UsbFullSpeed) = UsbFullSpeed ↔ _
      cases r0.LowSpeed <;> simp [UsbLowSpeed, UsbFullSpeed]
    · show (r0.PipeList.take PIPE_LIST_ENTRIES).length = _
      rw [htake, hpipes]

set_option maxRecDepth 8192 in
theorem EnumerateHubPorts_legacy_fallback_witness :
    EnumerateHubPorts.connectionInfo legacyHost (Session.start () true) 7 2 =
      Except.ok (PortQuery.obtained ⟨0, EnumerateHubPorts.copy legacyReply⟩, legacySession) ∧
    ∃ connectionInfoEx : Block USB_NODE_CONNECTION_INFORMATION_EX,
      PortQuery.obtained ⟨0, EnumerateHubPorts.copy legacyReply⟩ =
        PortQuery.obtained connectionInfoEx ∧
      (connectionInfoEx.value.Speed = UsbLowSpeed ↔ legacyReply.LowSpeed = true) ∧
      (connectionInfoEx.value.Speed = UsbFullSpeed ↔ legacyReply.LowSpeed = false) ∧
      connectionInfoEx.value.ConnectionIndex = legacyReply.ConnectionIndex ∧
      connectionInfoEx.value.DeviceDescriptor = legacyReply.DeviceDescriptor ∧
      connectionInfoEx.value.CurrentConfigurationValue =
        legacyReply.CurrentConfigurationValue ∧
      connectionInfoEx.value.DeviceIsHub = legacyReply.DeviceIsHub ∧
      connectionInfoEx.value.DeviceAddress = legacyReply.DeviceAddress ∧
      connectionInfoEx.value.NumberOfOpenPipes = legacyReply.NumberOfOpenPipes ∧
      connectionInfoEx.value.ConnectionStatus = legacyReply.ConnectionStatus ∧
      connectionInfoEx.value.PipeList = legacyReply.PipeList ∧
      connectionInfoEx.value.PipeList.length = PIPE_LIST_ENTRIES :=
  ⟨by decide,
   EnumerateHubPorts_legacy_fallback legacyHost (Session.start () true) legacySession 7 2 _
     legacyReply (by decide) (by decide)⟩

/-! ## The loop over the ports -/

theorem EnumerateHubPorts_loop_eq_visitPorts {σ : Type}
    (body : Nat → Session σ → Except Fault (Flow × Session σ)) (NumPorts : Nat)
    (hN : NumPorts + 1 < ULONG_RANGE) :
    ∀ (fuel index : Nat) (s : Session σ), index ≤ NumPorts + 1 → NumPorts + 1 - index ≤ fuel →
      EnumerateHubPorts.loop body NumPorts fuel index s =
        visitPorts body (List.range' index (NumPorts + 1 - index)) s := by
  intro fuel
  induction fuel with
  | zero =>
    intro index s hi hf
    have : index = NumPorts + 1 := by omega
    subst this
    rw [EnumerateHubPorts.loop, if_neg (by omega)]
    simp [visitPorts]
  | succ n ih =>
    intro index s hi hf
    rw [EnumerateHubPorts.loop]
    by_cases hle : index ≤ NumPorts
    · rw [if_pos hle]
      have hk : NumPorts + 1 - index = (NumPorts - index) + 1 := by omega
      rw [hk, List.range'_succ, visitPorts]
      have hmod : (index + 1) % ULONG_RANGE = index + 1 := Nat.mod_eq_of_lt (by omega)
      rw [hmod]
      cases hb : body index s with
      | error e => rfl
      | ok r =>
        simp only []
        cases hr : r.1 with
        | leave => rfl
        | next =>
          simp only []
          have := ih (index + 1) r.2 (by omega) (by omega)
          rw [this]
          have hk2 : NumPorts + 1 - (index + 1) = NumPorts - index := by omega
          rw [hk2]
    · rw [if_neg hle]
      have : index = NumPorts + 1 := by omega
      subst this
      simp [visitPorts]

/-- The failing input for C12: the extended query of a port fails and the heap has no
block for the legacy record.  The iteration then writes the port index through a `NULL`
pointer (line 883): it issues no legacy query, yields no result for the port, and the
loop over the ports of the hub ends there. -/
theorem EnumerateHubPorts_legacy_buffer_unchecked {σ : Type} (host : Host σ)
    (EnumerateHub : HubArguments → Session σ → Except Fault (Bool × Session σ))
    (fuel hTreeParent hHubDevice NumPorts connectionInfoEx : Nat) (s : Session σ)
    (hports : 1 ≤ NumPorts)
    (hfirst : (s.alloc host (sizeof_USB_NODE_CONNECTION_INFORMATION_EX +
      sizeof_USB_PIPE_INFO * PIPE_LIST_ENTRIES)).1 = some connectionInfoEx)
    (hfail : (IOCTL_USB_GET_NODE_CONNECTION_INFORMATION_EX host
      (s.alloc host (sizeof_USB_NODE_CONNECTION_INFORMATION_EX +
        sizeof_USB_PIPE_INFO * PIPE_LIST_ENTRIES)).2 hHubDevice 1).1 = none)
    (hsecond : ((IOCTL_USB_GET_NODE_CONNECTION_INFORMATION_EX host
      (s.alloc host (sizeof_USB_NODE_CONNECTION_INFORMATION_EX +
        sizeof_USB_PIPE_INFO * PIPE_LIST_ENTRIES)).2 hHubDevice 1).2.alloc host
      (sizeof_USB_NODE_CONNECTION_INFORMATION +
        sizeof_USB_PIPE_INFO * PIPE_LIST_ENTRIES)).1 = none) :
    EnumerateHubPorts.connectionInfo host s hHubDevice 1 =
      Except.error Fault.nullDereference ∧
    EnumerateHubPorts host EnumerateHub (fuel + 1) hTreeParent hHubDevice NumPorts s =
      Except.error Fault.nullDereference := by
  have h1 : EnumerateHubPorts.connectionInfo host s hHubDevice 1 =
      Except.error Fault.nullDereference := by
    unfold EnumerateHubPorts.connectionInfo
    simp only [hfirst, hfail, hsecond]
  refine ⟨h1, ?_⟩
  unfold EnumerateHubPorts
  rw [EnumerateHubPorts.loop, if_pos hports]
  unfold EnumerateHubPorts.body
  rw [h1]

theorem EnumerateHubPorts_legacy_buffer_unchecked_witness :
    EnumerateHubPorts.connectionInfo (scarceHost 1) (Session.start 0 true) 7 1 =
      Except.error Fault.nullDereference ∧
    EnumerateHubPorts (scarceHost 1) neverCalled (3 + 1) 0 7 4 (Session.start 0 true) =
      Except.error Fault.nullDereference :=
  EnumerateHubPorts_legacy_buffer_unchecked (scarceHost 1) neverCalled 3 0 7 4 0
    (Session.start 0 true) (by decide) (by decide) (by decide) (by decide)

/-- C13. When both the extended and the legacy query for the port `index` fail, the
iteration ends with `continue`: no item is added to the tree, neither counter changes, and
the loop goes on with the port indices after `index` up to `NumPorts`, in order. -/
theorem EnumerateHubPorts_port_skipped {σ : Type} (host : Host σ)
    (EnumerateHub : HubArguments → Session σ → Except Fault (Bool × Session σ))
    (fuel hTreeParent hHubDevice NumPorts index n : Nat) (s s1 : Session σ) (q : PortQuery)
    (hrun : EnumerateHubPorts.connectionInfo host s hHubDevice index = Except.ok (q, s1))
    (hlog : s1.calls = s.calls ++
      [OsCall.connectionInformationEx hHubDevice index none,
       OsCall.connectionInformation hHubDevice index none])
    (hindex : index ≤ NumPorts) (hN : NumPorts + 1 < ULONG_RANGE)
    (hfuel : NumPorts + 1 - index ≤ n) :
    EnumerateHubPorts.body host EnumerateHub fuel hTreeParent hHubDevice index s =
      Except.ok (Flow.next, s1) ∧
    s1.tree = s.tree ∧
    s1.TotalDevicesConnected = s.TotalDevicesConnected ∧
    s1.TotalHubs = s.TotalHubs ∧
    EnumerateHubPorts.loop
        (EnumerateHubPorts.body host EnumerateHub fuel hTreeParent hHubDevice)
        NumPorts n index s =
      visitPorts (EnumerateHubPorts.body host EnumerateHub fuel hTreeParent hHubDevice)
        (List.range' (index + 1) (NumPorts - index)) s1 := by
  have o := EnumerateHubPorts_connectionInfo_outcome host s hHubDevice index
  rw [hrun] at o
  have hq : q = PortQuery.failed ∧ s1.tree = s.tree ∧
      s1.TotalDevicesConnected = s.TotalDevicesConnected ∧ s1.TotalHubs = s.TotalHubs := by
    cases o with
    | noMemory _ hcalls =>
      rw [hcalls] at hlog
      have := congrArg List.length hlog
      simp at this
    | extended p r0 _ hcalls =>
      rw [hcalls] at hlog
      have := congrArg List.length hlog
      simp at this
    | failed p q0 _ hcalls htree hheap hdev hhubs => exact ⟨rfl, htree, hdev, hhubs⟩
    | legacy p q0 r0 _ hpipes hcalls =>
      rw [hcalls] at hlog
      have h2 := List.append_cancel_left hlog
      simp at h2
  obtain ⟨hq, htree, hdev, hhubs⟩ := hq
  subst hq
  have hbody : EnumerateHubPorts.body host EnumerateHub fuel hTreeParent hHubDevice index s =
      Except.ok (Flow.next, s1) := by
    unfold EnumerateHubPorts.body
    rw [hrun]
  refine ⟨hbody, htree, hdev, hhubs, ?_⟩
  rw [EnumerateHubPorts_loop_eq_visitPorts _ NumPorts hN n index s (by omega) hfuel]
  have hk : NumPorts + 1 - index = (NumPorts - index) + 1 := by omega
  rw [hk, List.range'_succ, visitPorts, hbody]

set_option maxRecDepth 8192 in
theorem EnumerateHubPorts_port_skipped_witness :
    EnumerateHubPorts.body silentHost neverCalled 5 0 7 1 (Session.start () true) =
      Except.ok (Flow.next, skippedSession) ∧
    skippedSession.tree = (Session.start () true).tree ∧
    skippedSession.TotalDevicesConnected = (Session.start () true).TotalDevicesConnected ∧
    skippedSession.TotalHubs = (Session.start () true).TotalHubs ∧
    EnumerateHubPorts.loop (EnumerateHubPorts.body silentHost neverCalled 5 0 7) 3 5 1
        (Session.start () true) =
      visitPorts (EnumerateHubPorts.body silentHost neverCalled 5 0 7)
        (List.range' (1 + 1) (3 - 1)) skippedSession :=
  EnumerateHubPorts_port_skipped silentHost neverCalled 5 0 7 3 1 5 (Session.start () true)
    skippedSession PortQuery.failed (by decide) (by decide) (by decide) (by decide)
    (by decide)

/-! ## EnumerateHub, step by step -/

theorem Session.alloc_heapLog_none {σ : Type} (host : Host σ) (s : Session σ) (n : Nat)
    (h : (s.alloc host n).1 = none) :
    (s.alloc host n).2.world.heapLog = s.world.heapLog :=
  (ALLOC_none host.toEnv s.world n h).1

theorem Session.alloc_ioLog {σ : Type} (host : Host σ) (s : Session σ) (n : Nat) :
    (s.alloc host n).2.world.ioLog = s.world.ioLog := by
  unfold Session.alloc ALLOC
  simp only []
  split_ifs <;> rfl

theorem Session.alloc_nodes {σ : Type} (host : Host σ) (s : Session σ) (n : Nat) :
    (s.alloc host n).2.world.nodes = s.world.nodes := by
  unfold Session.alloc ALLOC
  simp only []
  split_ifs <;> rfl

@[simp]
theorem CreateFile_calls {σ : Type} (host : Host σ) (s : Session σ) (name : String) :
    (CreateFile host s name).2.calls =
      s.calls ++ [OsCall.createFile name (CreateFile host s name).1] := rfl
@[simp]
theorem CreateFile_tree {σ : Type} (host : Host σ) (s : Session σ) (name : String) :
    (CreateFile host s name).2.tree = s.tree := rfl
@[simp]
theorem CreateFile_heapLog {σ : Type} (host : Host σ) (s : Session σ) (name : String) :
    (CreateFile host s name).2.world.heapLog = s.world.heapLog := rfl
@[simp]
theorem CreateFile_TotalDevicesConnected {σ : Type} (host : Host σ) (s : Session σ)
    (name : String) :
    (CreateFile host s name).2.TotalDevicesConnected = s.TotalDevicesConnected := rfl
@[simp]
theorem CreateFile_TotalHubs {σ : Type} (host : Host σ) (s : Session σ) (name : String) :
    (CreateFile host s name).2.TotalHubs = s.TotalHubs := rfl

@[simp]
theorem CloseHandle_calls {σ : Type} (host : Host σ) (s : Session σ) (h : Nat) :
    (CloseHandle host s h).calls = s.calls ++ [OsCall.closeHandle h] := rfl
@[simp]
theorem CloseHandle_tree {σ : Type} (host : Host σ) (s : Session σ) (h : Nat) :
    (CloseHandle host s h).tree = s.tree := rfl
@[simp]
theorem CloseHandle_heapLog {σ : Type} (host : Host σ) (s : Session σ) (h : Nat) :
    (CloseHandle host s h).world.heapLog = s.world.heapLog := rfl
@[simp]
theorem CloseHandle_TotalDevicesConnected {σ : Type} (host : Host σ) (s : Session σ)
    (h : Nat) :
    (CloseHandle host s h).TotalDevicesConnected = s.TotalDevicesConnected := rfl
@[simp]
theorem CloseHandle_TotalHubs {σ : Type} (host : Host σ) (s : Session σ) (h : Nat) :
    (CloseHandle host s h).TotalHubs = s.TotalHubs := rfl

@[simp]
theorem Session.freeIf_none {σ : Type} (s : Session σ) : s.freeIf none = s := rfl
@[simp]
theorem Session.freeIf_some {σ : Type} (s : Session σ) (p : Nat) :
    s.freeIf (some p) = s.free p := rfl

theorem Undone.same {σ : Type} (s : Session σ) : Undone s s :=
  ⟨rfl, rfl, rfl, ⟨[], by simp, by simp⟩, ⟨[], by simp, by simp⟩, rfl⟩

theorem EnumerateHub_open_outcome {σ : Type} (host : Host σ) (s : Session σ)
    (args : HubArguments) :
    OpenOutcome s args (EnumerateHub.open host s args) := by
  unfold EnumerateHub.open
  simp only []
  generalize (if args.ConnectionInfo.isSome = true then sizeof_USBEXTERNALHUBINFO
    else sizeof_USBROOTHUBINFO) = nInfo
  generalize ((args.HubName.value.length + "\\\\.\\".length + 1) * sizeof_TCHAR) = nName
  split
  · rename_i h1
    refine OpenOutcome.failed _ ⟨rfl, rfl, rfl, ⟨[], by simp [EnumerateHubError], by simp⟩,
      ⟨[], ?_, by simp⟩, ?_⟩
    · simp [EnumerateHubError, Session.alloc_heapLog_none host s _ h1]
    · simp [EnumerateHubError, Session.alloc_heapLog_none host s _ h1]
  · rename_i info h1
    have e1 := Session.alloc_heapLog_some host s _ info h1
    obtain ⟨e1p, e1h⟩ := e1
    split
    · rename_i h2
      have e2 := Session.alloc_heapLog_none host _ _ h2
      refine OpenOutcome.failed _ ⟨rfl, rfl, rfl, ⟨[], by simp [EnumerateHubError], by simp⟩,
        ⟨[HeapEvent.alloc info nInfo, HeapEvent.free info], ?_, ?_⟩, ?_⟩
      · simp [EnumerateHubError, e2, e1h]
      · intro p hp
        simp at hp
        omega
      · simp [EnumerateHubError, e2, e1h, liveBlocks, List.foldl_append, heapStep]
    · rename_i hubInfo h2
      obtain ⟨e2p, e2h⟩ := Session.alloc_heapLog_some host _ _ hubInfo h2
      rw [e1h] at e2p e2h
      split
      · rename_i h3
        have e3 := Session.alloc_heapLog_none host _ _ h3
        refine OpenOutcome.failed _ ⟨rfl, rfl, rfl,
          ⟨[], by simp [EnumerateHubError], by simp⟩,
          ⟨[HeapEvent.alloc info nInfo, HeapEvent.alloc hubInfo sizeof_USB_NODE_INFORMATION, HeapEvent.free hubInfo,
            HeapEvent.free info], ?_, ?_⟩, ?_⟩
        · simp [EnumerateHubError, e3, e2h]
        · intro p hp
          simp at hp e2p
          omega
        · simp at e2p
          simp [EnumerateHubError, e3, e2h, liveBlocks, List.foldl_append, heapStep,
            List.erase_cons, e1p, e2p]
      · rename_i hubCapsEx h3
        obtain ⟨e3p, e3h⟩ := Session.alloc_heapLog_some host _ _ hubCapsEx h3
        rw [e2h] at e3p e3h
        split
        · rename_i h4
          have e4 := Session.alloc_heapLog_none host _ _ h4
          refine OpenOutcome.failed _ ⟨rfl, rfl, rfl,
            ⟨[], by simp [EnumerateHubError], by simp⟩,
            ⟨[HeapEvent.alloc info nInfo, HeapEvent.alloc hubInfo sizeof_USB_NODE_INFORMATION, HeapEvent.alloc hubCapsEx sizeof_USB_HUB_CAPABILITIES_EX,
              HeapEvent.free hubInfo, HeapEvent.free hubCapsEx, HeapEvent.free info],
              ?_, ?_⟩, ?_⟩
          · simp [EnumerateHubError, e4, e3h]
          · intro p hp
            simp at hp e2p e3p
            omega
          · simp at e2p e3p
            simp [EnumerateHubError, e4, e3h, liveBlocks, List.foldl_append, heapStep,
              List.erase_cons, e1p, e2p, e3p]
        · rename_i hubCaps h4
          obtain ⟨e4p, e4h⟩ := Session.alloc_heapLog_some host _ _ hubCaps h4
          rw [e3h] at e4p e4h
          split
          · rename_i h5
            have e5 := Session.alloc_heapLog_none host _ _ h5
            refine OpenOutcome.failed _ ⟨rfl, rfl, rfl,
              ⟨[], by simp [EnumerateHubError], by simp⟩,
              ⟨[HeapEvent.alloc info nInfo, HeapEvent.alloc hubInfo sizeof_USB_NODE_INFORMATION,
                HeapEvent.alloc hubCapsEx sizeof_USB_HUB_CAPABILITIES_EX, HeapEvent.alloc hubCaps sizeof_USB_HUB_CAPABILITIES,
                HeapEvent.free hubInfo, HeapEvent.free hubCapsEx, HeapEvent.free hubCaps,
                HeapEvent.free info], ?_, ?_⟩, ?_⟩
            · simp [EnumerateHubError, e5, e4h]
            · intro p hp
              simp at hp e2p e3p e4p
              omega
            · simp at e2p e3p e4p
              simp [EnumerateHubError, e5, e4h, liveBlocks, List.foldl_append, heapStep,
                List.erase_cons, e1p, e2p, e3p, e4p]
          · rename_i deviceName h5
            obtain ⟨e5p, e5h⟩ := Session.alloc_heapLog_some host _ _ deviceName h5
            rw [e4h] at e5p e5h
            simp at e2p e3p e4p e5p
            split
            · rename_i h6
              refine OpenOutcome.failed _ ⟨rfl, rfl, rfl,
                ⟨[OsCall.createFile ("\\\\.\\" ++ args.HubName.value) none], ?_,
                  by simp [OsCall.port]⟩,
                ⟨[HeapEvent.alloc info nInfo, HeapEvent.alloc hubInfo sizeof_USB_NODE_INFORMATION,
                  HeapEvent.alloc hubCapsEx sizeof_USB_HUB_CAPABILITIES_EX, HeapEvent.alloc hubCaps sizeof_USB_HUB_CAPABILITIES,
                  HeapEvent.alloc deviceName nName, HeapEvent.free deviceName,
                  HeapEvent.free hubInfo, HeapEvent.free hubCapsEx, HeapEvent.free hubCaps,
                  HeapEvent.free info], ?_, ?_⟩, ?_⟩
              · simp [EnumerateHubError, h6]
              · simp [EnumerateHubError, e5h]
              · intro p hp
                simp at hp
                omega
              · simp [EnumerateHubError, e5h, liveBlocks, List.foldl_append, heapStep,
                  List.erase_cons, e1p, e2p, e3p, e4p, e5p]
            · rename_i hHubDevice h6
              refine OpenOutcome.opened _ _ nInfo nName e1p e2p e3p e4p ?_ ?_ rfl rfl rfl
              · simp [e5h, e1p, e2p, e3p, e4p, e5p]
              · simp [h6]

theorem EnumerateHub_hubCapsEx_none_iff {σ : Type} (host : Host σ) (s : Session σ)
    (hub : HubRecords) :
    (EnumerateHub.hubCapsEx host s hub).1 = none ↔
      (IOCTL_USB_GET_HUB_CAPABILITIES_EX host s hub.hHubDevice).1 = none := by
  unfold EnumerateHub.hubCapsEx
  simp only []
  split <;> simp_all

theorem EnumerateHub_hubCaps_none_iff {σ : Type} (host : Host σ) (s : Session σ)
    (hub : HubRecords) :
    (EnumerateHub.hubCaps host s hub).1 = none ↔
      (IOCTL_USB_GET_HUB_CAPABILITIES host s hub.hHubDevice).1 = none := by
  unfold EnumerateHub.hubCaps
  simp only []
  split <;> simp_all

theorem EnumerateHub_hubCapsEx_some {σ : Type} (host : Host σ) (s : Session σ)
    (hub : HubRecords) (b : Block Nat) (h : (EnumerateHub.hubCapsEx host s hub).1 = some b) :
    b.handle = hub.hubCapsEx ∧
    (IOCTL_USB_GET_HUB_CAPABILITIES_EX host s hub.hHubDevice).1 = some b.value := by
  unfold EnumerateHub.hubCapsEx at h
  simp only [] at h
  split at h
  · rename_i v hv
    simp only [Option.some.injEq] at h
    subst h
    exact ⟨rfl, hv⟩
  · cases h

theorem EnumerateHub_hubCaps_some {σ : Type} (host : Host σ) (s : Session σ)
    (hub : HubRecords) (b : Block Nat) (h : (EnumerateHub.hubCaps host s hub).1 = some b) :
    b.handle = hub.hubCaps ∧
    (IOCTL_USB_GET_HUB_CAPABILITIES host s hub.hHubDevice).1 = some b.value := by
  unfold EnumerateHub.hubCaps at h
  simp only [] at h
  split at h
  · rename_i v hv
    simp only [Option.some.injEq] at h
    subst h
    exact ⟨rfl, hv⟩
  · cases h

theorem EnumerateHub_hubCapsEx_effect {σ : Type} (host : Host σ) (s : Session σ)
    (hub : HubRecords) :
    (EnumerateHub.hubCapsEx host s hub).2.tree = s.tree ∧
    (EnumerateHub.hubCapsEx host s hub).2.TotalDevicesConnected = s.TotalDevicesConnected ∧
    (EnumerateHub.hubCapsEx host s hub).2.TotalHubs = s.TotalHubs ∧
    (EnumerateHub.hubCapsEx host s hub).2.calls = s.calls ++
      [OsCall.hubCapabilitiesEx hub.hHubDevice
        (EnumerateHub.hubCapsEx host s hub).1.isSome] ∧
    (EnumerateHub.hubCapsEx host s hub).2.world.heapLog = s.world.heapLog ++
      (if (EnumerateHub.hubCapsEx host s hub).1.isSome then []
       else [HeapEvent.free hub.hubCapsEx]) ∧
    (∀ b, (EnumerateHub.hubCapsEx host s hub).1 = some b → b.handle = hub.hubCapsEx) := by
  unfold EnumerateHub.hubCapsEx
  simp only []
  have hcalls : (IOCTL_USB_GET_HUB_CAPABILITIES_EX host s hub.hHubDevice).2.calls = s.calls ++
      [OsCall.hubCapabilitiesEx hub.hHubDevice (IOCTL_USB_GET_HUB_CAPABILITIES_EX host s hub.hHubDevice).1.isSome] := rfl
  have htree : (IOCTL_USB_GET_HUB_CAPABILITIES_EX host s hub.hHubDevice).2.tree = s.tree := rfl
  have hdev : (IOCTL_USB_GET_HUB_CAPABILITIES_EX host s hub.hHubDevice).2.TotalDevicesConnected =
      s.TotalDevicesConnected := rfl
  have hhubs : (IOCTL_USB_GET_HUB_CAPABILITIES_EX host s hub.hHubDevice).2.TotalHubs = s.TotalHubs := rfl
  have hheap : (IOCTL_USB_GET_HUB_CAPABILITIES_EX host s hub.hHubDevice).2.world.heapLog = s.world.heapLog := rfl
  generalize IOCTL_USB_GET_HUB_CAPABILITIES_EX host s hub.hHubDevice = q at hcalls htree hdev hhubs hheap ⊢
  obtain ⟨o, s1⟩ := q
  simp only [] at hcalls htree hdev hhubs hheap
  cases o with
  | some v =>
    refine ⟨htree, hdev, hhubs, hcalls, ?_, ?_⟩
    · simp [hheap]
    · intro b hb
      simp only [Option.some.injEq] at hb
      subst hb; rfl
  | none =>
    refine ⟨htree, hdev, hhubs, hcalls, ?_, ?_⟩
    · simp [hheap]
    · intro b hb; cases hb

theorem EnumerateHub_hubCaps_effect {σ : Type} (host : Host σ) (s : Session σ)
    (hub : HubRecords) :
    (EnumerateHub.hubCaps host s hub).2.tree = s.tree ∧
    (EnumerateHub.hubCaps host s hub).2.TotalDevicesConnected = s.TotalDevicesConnected ∧
    (EnumerateHub.hubCaps host s hub).2.TotalHubs = s.TotalHubs ∧
    (EnumerateHub.hubCaps host s hub).2.calls = s.calls ++
      [OsCall.hubCapabilities hub.hHubDevice (EnumerateHub.hubCaps host s hub).1.isSome] ∧
    (EnumerateHub.hubCaps host s hub).2.world.heapLog = s.world.heapLog ++
      (if (EnumerateHub.hubCaps host s hub).1.isSome then []
       else [HeapEvent.free hub.hubCaps]) ∧
    (∀ b, (EnumerateHub.hubCaps host s hub).1 = some b → b.handle = hub.hubCaps) := by
  unfold EnumerateHub.hubCaps
  simp only []
  have hcalls : (IOCTL_USB_GET_HUB_CAPABILITIES host s hub.hHubDevice).2.calls = s.calls ++
      [OsCall.hubCapabilities hub.hHubDevice (IOCTL_USB_GET_HUB_CAPABILITIES host s hub.hHubDevice).1.isSome] := rfl
  have htree : (IOCTL_USB_GET_HUB_CAPABILITIES host s hub.hHubDevice).2.tree = s.tree := rfl
  have hdev : (IOCTL_USB_GET_HUB_CAPABILITIES host s hub.hHubDevice).2.TotalDevicesConnected =
      s.TotalDevicesConnected := rfl
  have hhubs : (IOCTL_USB_GET_HUB_CAPABILITIES host s hub.hHubDevice).2.TotalHubs = s.TotalHubs := rfl
  have hheap : (IOCTL_USB_GET_HUB_CAPABILITIES host s hub.hHubDevice).2.world.heapLog = s.world.heapLog := rfl
  generalize IOCTL_USB_GET_HUB_CAPABILITIES host s hub.hHubDevice = q at hcalls htree hdev hhubs hheap ⊢
  obtain ⟨o, s1⟩ := q
  simp only [] at hcalls htree hdev hhubs hheap
  cases o with
  | some v =>
    refine ⟨htree, hdev, hhubs, hcalls, ?_, ?_⟩
    · simp [hheap]
    · intro b hb
      simp only [Option.some.injEq] at hb
      subst hb; rfl
  | none =>
    refine ⟨htree, hdev, hhubs, hcalls, ?_, ?_⟩
    · simp [hheap]
    · intro b hb; cases hb

@[simp]
theorem AddLeaf_calls {σ : Type} (host : Host σ) (s : Session σ) (hTreeParent : Nat)
    (lParam : NodeInfo) (icon : Icon) :
    (AddLeaf host s hTreeParent lParam icon).2.calls = s.calls := by
  unfold AddLeaf; simp only []; split <;> rfl
@[simp]
theorem AddLeaf_heapLog {σ : Type} (host : Host σ) (s : Session σ) (hTreeParent : Nat)
    (lParam : NodeInfo) (icon : Icon) :
    (AddLeaf host s hTreeParent lParam icon).2.world.heapLog = s.world.heapLog := by
  unfold AddLeaf; simp only []; split <;> rfl
@[simp]
theorem AddLeaf_ioLog {σ : Type} (host : Host σ) (s : Session σ) (hTreeParent : Nat)
    (lParam : NodeInfo) (icon : Icon) :
    (AddLeaf host s hTreeParent lParam icon).2.world.ioLog = s.world.ioLog := by
  unfold AddLeaf; simp only []; split <;> rfl
@[simp]
theorem AddLeaf_TotalDevicesConnected {σ : Type} (host : Host σ) (s : Session σ)
    (hTreeParent : Nat) (lParam : NodeInfo) (icon : Icon) :
    (AddLeaf host s hTreeParent lParam icon).2.TotalDevicesConnected =
      s.TotalDevicesConnected := by
  unfold AddLeaf; simp only []; split <;> rfl
@[simp]
theorem AddLeaf_TotalHubs {σ : Type} (host : Host σ) (s : Session σ) (hTreeParent : Nat)
    (lParam : NodeInfo) (icon : Icon) :
    (AddLeaf host s hTreeParent lParam icon).2.TotalHubs = s.TotalHubs := by
  unfold AddLeaf; simp only []; split <;> rfl

theorem AddLeaf_tree {σ : Type} (host : Host σ) (s : Session σ) (hTreeParent : Nat)
    (lParam : NodeInfo) (icon : Icon) :
    (AddLeaf host s hTreeParent lParam icon).2.tree = s.tree ++
      (match (AddLeaf host s hTreeParent lParam icon).1 with
       | none => []
       | some hItem => [{ hItem := hItem, hTreeParent := hTreeParent, lParam := lParam,
                          icon := icon }]) := by
  unfold AddLeaf; simp only []; split <;> simp

theorem AddLeaf_result {σ : Type} (host : Host σ) (s : Session σ) (hTreeParent : Nat)
    (lParam : NodeInfo) (icon : Icon) :
    (AddLeaf host s hTreeParent lParam icon).1 = (host.addLeaf s.world.ext hTreeParent).1 := by
  unfold AddLeaf; simp only []; split <;> simp_all [Session.ask]

@[simp]
theorem Session.freeIf_tree {σ : Type} (s : Session σ) (p : Option Nat) :
    (s.freeIf p).tree = s.tree := by
  cases p <;> rfl
@[simp]
theorem Session.freeIf_calls {σ : Type} (s : Session σ) (p : Option Nat) :
    (s.freeIf p).calls = s.calls := by
  cases p <;> rfl
@[simp]
theorem Session.freeIf_TotalDevicesConnected {σ : Type} (s : Session σ) (p : Option Nat) :
    (s.freeIf p).TotalDevicesConnected = s.TotalDevicesConnected := by
  cases p <;> rfl
@[simp]
theorem Session.freeIf_TotalHubs {σ : Type} (s : Session σ) (p : Option Nat) :
    (s.freeIf p).TotalHubs = s.TotalHubs := by
  cases p <;> rfl
@[simp]
theorem Session.freeIf_ioLog {σ : Type} (s : Session σ) (p : Option Nat) :
    (s.freeIf p).world.ioLog = s.world.ioLog := by
  cases p <;> rfl
theorem Session.freeIf_heapLog {σ : Type} (s : Session σ) (p : Option Nat) :
    (s.freeIf p).world.heapLog = s.world.heapLog ++ freeEvents p := by
  cases p <;> simp [freeEvents]

theorem EnumerateHubError_effect {σ : Type} (host : Host σ) (s : Session σ)
    (hHubDevice hubInfo hubCapsEx hubCaps info : Option Nat) :
    (EnumerateHubError host s hHubDevice hubInfo hubCapsEx hubCaps info).tree = s.tree ∧
    (EnumerateHubError host s hHubDevice hubInfo hubCapsEx hubCaps info).TotalDevicesConnected
      = s.TotalDevicesConnected ∧
    (EnumerateHubError host s hHubDevice hubInfo hubCapsEx hubCaps info).TotalHubs =
      s.TotalHubs ∧
    (EnumerateHubError host s hHubDevice hubInfo hubCapsEx hubCaps info).calls =
      s.calls ++
        (match hHubDevice with
         | none => []
         | some h => [OsCall.closeHandle h]) ∧
    (EnumerateHubError host s hHubDevice hubInfo hubCapsEx hubCaps info).world.heapLog =
      s.world.heapLog ++ freeEvents hubInfo ++ freeEvents hubCapsEx ++ freeEvents hubCaps ++
        freeEvents info := by
  unfold EnumerateHubError
  cases hHubDevice <;> simp [Session.freeIf_heapLog]

theorem IOCTL_USB_GET_NODE_INFORMATION_effect {σ : Type} (host : Host σ) (s : Session σ)
    (hHubDevice : Nat) :
    (IOCTL_USB_GET_NODE_INFORMATION host s hHubDevice).2.tree = s.tree ∧
    (IOCTL_USB_GET_NODE_INFORMATION host s hHubDevice).2.TotalDevicesConnected =
      s.TotalDevicesConnected ∧
    (IOCTL_USB_GET_NODE_INFORMATION host s hHubDevice).2.TotalHubs = s.TotalHubs ∧
    (IOCTL_USB_GET_NODE_INFORMATION host s hHubDevice).2.calls = s.calls ++
      [OsCall.nodeInformation hHubDevice
        (IOCTL_USB_GET_NODE_INFORMATION host s hHubDevice).1.isSome] ∧
    (IOCTL_USB_GET_NODE_INFORMATION host s hHubDevice).2.world.heapLog = s.world.heapLog :=
  ⟨rfl, rfl, rfl, rfl, rfl⟩

theorem hubReleases_eq (hub : HubRecords) (x c : Option (Block Nat))
    (hx : ∀ b, x = some b → b.handle = hub.hubCapsEx)
    (hc : ∀ b, c = some b → b.handle = hub.hubCaps) :
    (if x.isSome then [] else [HeapEvent.free hub.hubCapsEx]) ++
      ((if c.isSome then [] else [HeapEvent.free hub.hubCaps]) ++
        (freeEvents (some hub.hubInfo) ++
          (freeEvents (Option.map (fun b => b.handle) x) ++
            (freeEvents (Option.map (fun b => b.handle) c) ++
              freeEvents (some hub.info))))) =
      hubReleases hub x.isSome c.isSome := by
  cases x <;> cases c <;> simp [freeEvents, hubReleases]
  · exact hc _ rfl
  · exact hx _ rfl
  · exact ⟨hx _ rfl, hc _ rfl⟩

theorem EnumerateHub_item_outcome {σ : Type} (host : Host σ) (s : Session σ)
    (args : HubArguments) (hub : HubRecords) :
    ItemOutcome host s args hub (EnumerateHub.item host s args hub) := by
  obtain ⟨xt, xd, xh, xc, xheap, xb⟩ := EnumerateHub_hubCapsEx_effect host s hub
  obtain ⟨ct, cd, ch, cc, cheap, cb⟩ :=
    EnumerateHub_hubCaps_effect host (EnumerateHub.hubCapsEx host s hub).2 hub
  obtain ⟨qt, qd, qh, qc, qheap⟩ := IOCTL_USB_GET_NODE_INFORMATION_effect host
    (EnumerateHub.hubCaps host (EnumerateHub.hubCapsEx host s hub).2 hub).2 hub.hHubDevice
  have hrel := hubReleases_eq hub _ _ xb cb
  unfold EnumerateHub.item EnumerateHub.attach
  simp only []
  split
  · rename_i hq
    obtain ⟨et, ed, eh, ec, eheap⟩ := EnumerateHubError_effect host
      (IOCTL_USB_GET_NODE_INFORMATION host
        (EnumerateHub.hubCaps host (EnumerateHub.hubCapsEx host s hub).2 hub).2
        hub.hHubDevice).2 (some hub.hHubDevice) (some hub.hubInfo)
      (Option.map (fun b => b.handle) (EnumerateHub.hubCapsEx host s hub).1)
      (Option.map (fun b => b.handle)
        (EnumerateHub.hubCaps host (EnumerateHub.hubCapsEx host s hub).2 hub).1)
      (some hub.info)
    refine ItemOutcome.failed _ (EnumerateHub.hubCapsEx host s hub).1.isSome
      (EnumerateHub.hubCaps host (EnumerateHub.hubCapsEx host s hub).2 hub).1.isSome
      ?_ ?_ ?_ ?_ ?_
    · rw [et, qt, ct, xt]
    · rw [ed, qd, cd, xd]
    · rw [eh, qh, ch, xh]
    · refine ⟨[OsCall.hubCapabilitiesEx hub.hHubDevice
          (EnumerateHub.hubCapsEx host s hub).1.isSome,
        OsCall.hubCapabilities hub.hHubDevice
          (EnumerateHub.hubCaps host (EnumerateHub.hubCapsEx host s hub).2 hub).1.isSome,
        OsCall.nodeInformation hub.hHubDevice false,
        OsCall.closeHandle hub.hHubDevice], ?_, ?_⟩
      · rw [ec, qc, cc, xc, hq]
        simp only [List.append_assoc]
        rfl
      · intro c hc
        simp only [List.mem_cons, List.mem_singleton, List.not_mem_nil, or_false] at hc
        rcases hc with rfl | rfl | rfl | rfl <;> rfl
    · rw [eheap, qheap, cheap, xheap]
      simp only [List.append_assoc]
      rw [hrel]
  · rename_i hubInfo hq
    split
    · rename_i hl
      obtain ⟨et, ed, eh, ec, eheap⟩ := EnumerateHubError_effect host
        (AddLeaf host (IOCTL_USB_GET_NODE_INFORMATION host
          (EnumerateHub.hubCaps host (EnumerateHub.hubCapsEx host s hub).2 hub).2
          hub.hHubDevice).2 args.hTreeParent
          (EnumerateHub.node args hub hubInfo (EnumerateHub.hubCapsEx host s hub).1
            (EnumerateHub.hubCaps host (EnumerateHub.hubCapsEx host s hub).2 hub).1)
          Icon.HubIcon).2 (some hub.hHubDevice) (some hub.hubInfo)
        (Option.map (fun b => b.handle) (EnumerateHub.hubCapsEx host s hub).1)
        (Option.map (fun b => b.handle)
          (EnumerateHub.hubCaps host (EnumerateHub.hubCapsEx host s hub).2 hub).1)
        (some hub.info)
      have lt := AddLeaf_tree host (IOCTL_USB_GET_NODE_INFORMATION host
          (EnumerateHub.hubCaps host (EnumerateHub.hubCapsEx host s hub).2 hub).2
          hub.hHubDevice).2 args.hTreeParent
          (EnumerateHub.node args hub hubInfo (EnumerateHub.hubCapsEx host s hub).1
            (EnumerateHub.hubCaps host (EnumerateHub.hubCapsEx host s hub).2 hub).1)
          Icon.HubIcon
      rw [hl] at lt
      simp only [List.append_nil] at lt
      refine ItemOutcome.failed _ (EnumerateHub.hubCapsEx host s hub).1.isSome
        (EnumerateHub.hubCaps host (EnumerateHub.hubCapsEx host s hub).2 hub).1.isSome
        ?_ ?_ ?_ ?_ ?_
      · rw [et, lt, qt, ct, xt]
      · rw [ed, AddLeaf_TotalDevicesConnected, qd, cd, xd]
      · rw [eh, AddLeaf_TotalHubs, qh, ch, xh]
      · refine ⟨[OsCall.hubCapabilitiesEx hub.hHubDevice
            (EnumerateHub.hubCapsEx host s hub).1.isSome,
          OsCall.hubCapabilities hub.hHubDevice
            (EnumerateHub.hubCaps host (EnumerateHub.hubCapsEx host s hub).2 hub).1.isSome,
          OsCall.nodeInformation hub.hHubDevice true,
          OsCall.closeHandle hub.hHubDevice], ?_, ?_⟩
        · rw [ec, AddLeaf_calls, qc, cc, xc, hq]
          simp only [List.append_assoc]
          rfl
        · intro c hc
          simp only [List.mem_cons, List.mem_singleton, List.not_mem_nil, or_false] at hc
          rcases hc with rfl | rfl | rfl | rfl <;> rfl
      · rw [eheap, AddLeaf_heapLog, qheap, cheap, xheap]
        simp only [List.append_assoc]
        rw [hrel]
    · rename_i hItem hl
      have lt := AddLeaf_tree host (IOCTL_USB_GET_NODE_INFORMATION host
          (EnumerateHub.hubCaps host (EnumerateHub.hubCapsEx host s hub).2 hub).2
          hub.hHubDevice).2 args.hTreeParent
          (EnumerateHub.node args hub hubInfo (EnumerateHub.hubCapsEx host s hub).1
            (EnumerateHub.hubCaps host (EnumerateHub.hubCapsEx host s hub).2 hub).1)
          Icon.HubIcon
      rw [hl] at lt
      simp only [] at lt
      refine ItemOutcome.attached hItem hubInfo _ ?_ ?_ ?_ ?_ ?_
      · rw [lt, qt, ct, xt]
      · rw [AddLeaf_TotalDevicesConnected, qd, cd, xd]
      · rw [AddLeaf_TotalHubs, qh, ch, xh]
      · refine ⟨[OsCall.hubCapabilitiesEx hub.hHubDevice
            (EnumerateHub.hubCapsEx host s hub).1.isSome,
          OsCall.hubCapabilities hub.hHubDevice
            (EnumerateHub.hubCaps host (EnumerateHub.hubCapsEx host s hub).2 hub).1.isSome,
          OsCall.nodeInformation hub.hHubDevice true], ?_, ?_⟩
        · rw [AddLeaf_calls, qc, cc, xc, hq]
          simp only [List.append_assoc]
          rfl
        · intro c hc
          simp only [List.mem_cons, List.mem_singleton, List.not_mem_nil, or_false] at hc
          rcases hc with rfl | rfl | rfl <;> rfl
      · rw [AddLeaf_heapLog, qheap, cheap, xheap, List.append_assoc]

theorem EnumerateHub_succ {σ : Type} (host : Host σ) (fuel : Nat) (args : HubArguments)
    (s : Session σ) :
    EnumerateHub host (fuel + 1) args s =
      match (EnumerateHub.open host s args).1 with
      | none => Except.ok (false, (EnumerateHub.open host s args).2)
      | some hub =>
        match (EnumerateHub.item host (EnumerateHub.open host s args).2 args hub).1 with
        | none =>
          Except.ok
            (false, (EnumerateHub.item host (EnumerateHub.open host s args).2 args hub).2)
        | some p =>
          match EnumerateHubPorts host (EnumerateHub host fuel) fuel p.1 hub.hHubDevice p.2
              (EnumerateHub.item host (EnumerateHub.open host s args).2 args hub).2 with
          | Except.error e => Except.error e
          | Except.ok s1 => Except.ok (true, CloseHandle host s1 hub.hHubDevice) := by
  rw [EnumerateHub]

theorem EnumerateHub_item_undone {σ : Type} (host : Host σ) (s : Session σ)
    (args : HubArguments) (hub : HubRecords)
    (hopen : (EnumerateHub.open host s args).1 = some hub)
    (hitem : (EnumerateHub.item host (EnumerateHub.open host s args).2 args hub).1 = none) :
    Undone s (EnumerateHub.item host (EnumerateHub.open host s args).2 args hub).2 := by
  have o := EnumerateHub_open_outcome host s args
  have i := EnumerateHub_item_outcome host (EnumerateHub.open host s args).2 args hub
  revert hopen hitem o i
  generalize EnumerateHub.item host (EnumerateHub.open host s args).2 args hub = it
  generalize EnumerateHub.open host s args = op
  intro hopen hitem o i
  cases o with
  | failed s1 hundone => cases hopen
  | opened hub0 s1 nInfo nName hinfo hhubInfo hhubCapsEx hhubCaps hheap hcalls htree hdev hhubs =>
    simp only [Option.some.injEq] at hopen
    subst hopen
    cases i with
    | attached hItem hubInfo s2 => cases hitem
    | failed s2 a b htree2 hdev2 hhubs2 hcalls2 hheap2 =>
      simp only [] at htree2 hdev2 hhubs2 hcalls2 hheap2 ⊢
      obtain ⟨new, hnew, hport⟩ := hcalls2
      refine ⟨by rw [htree2, htree], by rw [hdev2, hdev], by rw [hhubs2, hhubs], ?_, ?_, ?_⟩
      · refine ⟨OsCall.createFile ("\\\\.\\" ++ args.HubName.value) (some hub0.hHubDevice)
          :: new, ?_, ?_⟩
        · rw [hnew, hcalls]; simp
        · intro c hc
          simp only [List.mem_cons] at hc
          rcases hc with rfl | hc
          · rfl
          · exact hport c hc
      · refine ⟨_, by rw [hheap2, hheap, List.append_assoc], ?_⟩
        intro p hp
        cases a <;> cases b <;>
          simp [hubReleases, hinfo, hhubInfo, hhubCapsEx, hhubCaps] at hp <;> omega
      · rw [hheap2, hheap]
        cases a <;> cases b <;>
          simp [hubReleases, hinfo, hhubInfo, hhubCapsEx, hhubCaps, liveBlocks,
            List.foldl_append, heapStep, List.erase_cons]

theorem EnumerateHub_open_undone {σ : Type} (host : Host σ) (s : Session σ)
    (args : HubArguments) (hopen : (EnumerateHub.open host s args).1 = none) :
    Undone s (EnumerateHub.open host s args).2 := by
  have o := EnumerateHub_open_outcome host s args
  revert hopen o
  generalize EnumerateHub.open host s args = op
  intro hopen o
  cases o with
  | failed s1 hundone => exact hundone
  | opened => cases hopen

/-- C19. When `EnumerateHub` cannot allocate its records or open the hub (lines 518-638),
or cannot get the node information or add the item of the hub (lines 681-743), it returns
`FALSE` and leaves the tree and the counters as they were, asks about no port, releases
every block that it allocated and releases no other block, so none of the blocks passed
in.  The node information request that fails is one of these cases.  It returns `TRUE`
only when the hub was opened, its item was added to the tree and `EnumerateHubPorts`
returned for that item and the reported number of ports. -/
theorem EnumerateHub_failure {σ : Type} (host : Host σ) (fuel : Nat) (args : HubArguments)
    (s : Session σ) :
    ((EnumerateHub.open host s args).1 = none →
      EnumerateHub host (fuel + 1) args s =
        Except.ok (false, (EnumerateHub.open host s args).2) ∧
      Undone s (EnumerateHub.open host s args).2) ∧
    (∀ hub, (EnumerateHub.open host s args).1 = some hub →
      (EnumerateHub.item host (EnumerateHub.open host s args).2 args hub).1 = none →
      EnumerateHub host (fuel + 1) args s =
        Except.ok (false,
          (EnumerateHub.item host (EnumerateHub.open host s args).2 args hub).2) ∧
      Undone s (EnumerateHub.item host (EnumerateHub.open host s args).2 args hub).2) ∧
    (∀ (s0 : Session σ) (hub : HubRecords),
      (IOCTL_USB_GET_NODE_INFORMATION host
        (EnumerateHub.hubCaps host (EnumerateHub.hubCapsEx host s0 hub).2 hub).2
        hub.hHubDevice).1 = none →
      (EnumerateHub.item host s0 args hub).1 = none) ∧
    (∀ s1, EnumerateHub host (fuel + 1) args s = Except.ok (true, s1) →
      ∃ (hub : HubRecords) (hItem : Nat) (hubInfo : USB_NODE_INFORMATION) (s2 : Session σ),
        (EnumerateHub.open host s args).1 = some hub ∧
        (EnumerateHub.item host (EnumerateHub.open host s args).2 args hub).1 =
          some (hItem, hubInfo.bNumberOfPorts % UCHAR_RANGE) ∧
        (EnumerateHub.item host (EnumerateHub.open host s args).2 args hub).2.tree =
          s.tree ++
            [{ hItem := hItem, hTreeParent := args.hTreeParent,
               lParam := EnumerateHub.node args hub hubInfo
                 (EnumerateHub.hubCapsEx host (EnumerateHub.open host s args).2 hub).1
                 (EnumerateHub.hubCaps host
                   (EnumerateHub.hubCapsEx host (EnumerateHub.open host s args).2 hub).2
                   hub).1,
               icon := Icon.HubIcon }] ∧
        EnumerateHubPorts host (EnumerateHub host fuel) fuel hItem hub.hHubDevice
          (hubInfo.bNumberOfPorts % UCHAR_RANGE)
          (EnumerateHub.item host (EnumerateHub.open host s args).2 args hub).2 =
          Except.ok s2 ∧
        s1 = CloseHandle host s2 hub.hHubDevice) := by
  refine ⟨?_, ?_, ?_, ?_⟩
  · intro hopen
    refine ⟨?_, EnumerateHub_open_undone host s args hopen⟩
    rw [EnumerateHub_succ, hopen]
  · intro hub hopen hitem
    refine ⟨?_, EnumerateHub_item_undone host s args hub hopen hitem⟩
    rw [EnumerateHub_succ, hopen]
    simp only [hitem]
  · intro s0 hub hq
    unfold EnumerateHub.item EnumerateHub.attach
    simp only [hq]
  · intro s1 hrun
    rw [EnumerateHub_succ] at hrun
    cases hopen : (EnumerateHub.open host s args).1 with
    | none =>
      rw [hopen] at hrun
      simp only [Except.ok.injEq, Prod.mk.injEq] at hrun
      exact absurd hrun.1 (by decide)
    | some hub =>
      rw [hopen] at hrun
      simp only [] at hrun
      have i := EnumerateHub_item_outcome host (EnumerateHub.open host s args).2 args hub
      have o := EnumerateHub_open_outcome host s args
      have otree : (EnumerateHub.open host s args).2.tree = s.tree := by
        revert hopen o
        generalize EnumerateHub.open host s args = op
        intro hopen o
        cases o with
        | failed => cases hopen
        | opened hub0 s1 nInfo nName hinfo hhubInfo hhubCapsEx hhubCaps hheap hcalls htree =>
          exact htree
      revert hrun i
      generalize hit : EnumerateHub.item host (EnumerateHub.open host s args).2 args hub = it
      intro hrun i
      cases i with
      | failed s2 a b =>
        simp only [Except.ok.injEq, Prod.mk.injEq] at hrun
        exact absurd hrun.1 (by decide)
      | attached hItem hubInfo s2 htree =>
        simp only [] at hrun htree ⊢
        cases hp : EnumerateHubPorts host (EnumerateHub host fuel) fuel hItem hub.hHubDevice
            (hubInfo.bNumberOfPorts % UCHAR_RANGE) s2 with
        | error e => rw [hp] at hrun; cases hrun
        | ok s3 =>
          rw [hp] at hrun
          simp only [Except.ok.injEq, Prod.mk.injEq, true_and] at hrun
          refine ⟨hub, hItem, hubInfo, s3, rfl, ?_, ?_, ?_, hrun.symm⟩
          · rw [hit]
          · rw [hit]
            simp only []
            rw [htree, otree]
          · rw [hit]
            exact hp

theorem EnumerateHub_failure_witness :
    EnumerateHub muteHubHost (3 + 1) rootHubArguments (Session.start () true) =
      Except.ok (false,
        (EnumerateHub.item muteHubHost
          (EnumerateHub.open muteHubHost (Session.start () true) rootHubArguments).2
          rootHubArguments ⟨0, 1, 2, 3, 7⟩).2) ∧
    Undone (Session.start () true)
      (EnumerateHub.item muteHubHost
        (EnumerateHub.open muteHubHost (Session.start () true) rootHubArguments).2
        rootHubArguments ⟨0, 1, 2, 3, 7⟩).2 :=
  (EnumerateHub_failure muteHubHost 3 rootHubArguments (Session.start () true)).2.1
    ⟨0, 1, 2, 3, 7⟩ (by decide) (by decide)

theorem EnumerateHub_node_HubCapsEx (args : HubArguments) (hub : HubRecords)
    (hubInfo : USB_NODE_INFORMATION) (hubCapsEx hubCaps : Option (Block Nat)) :
    (EnumerateHub.node args hub hubInfo hubCapsEx hubCaps).HubCapsEx = hubCapsEx := by
  unfold EnumerateHub.node
  cases args.ConnectionInfo <;> rfl

theorem EnumerateHub_node_HubCaps (args : HubArguments) (hub : HubRecords)
    (hubInfo : USB_NODE_INFORMATION) (hubCapsEx hubCaps : Option (Block Nat)) :
    (EnumerateHub.node args hub hubInfo hubCapsEx hubCaps).HubCaps = hubCaps := by
  unfold EnumerateHub.node
  cases args.ConnectionInfo <;> rfl

/-- C20. When the hub was opened, its node information was obtained and its item was added
to the tree, and `EnumerateHubPorts` returns, `EnumerateHub` returns `TRUE` whatever the two
capabilities requests answered; the field `HubCapsEx` of the node record of the item is
`NULL` exactly when the extended capabilities request failed and holds the answer in the
block allocated for it otherwise, and the same holds, independently, for `HubCaps` and the
capabilities request. -/
theorem EnumerateHub_capabilities_optional {σ : Type} (host : Host σ) (fuel : Nat)
    (args : HubArguments) (s s2 : Session σ) (hub : HubRecords) (hItem NumPorts : Nat)
    (hopen : (EnumerateHub.open host s args).1 = some hub)
    (hitem : (EnumerateHub.item host (EnumerateHub.open host s args).2 args hub).1 =
      some (hItem, NumPorts))
    (hports : EnumerateHubPorts host (EnumerateHub host fuel) fuel hItem hub.hHubDevice
      NumPorts (EnumerateHub.item host (EnumerateHub.open host s args).2 args hub).2 =
      Except.ok s2) :
    EnumerateHub host (fuel + 1) args s =
      Except.ok (true, CloseHandle host s2 hub.hHubDevice) ∧
    ∃ item : TreeItem,
      (EnumerateHub.item host (EnumerateHub.open host s args).2 args hub).2.tree =
        s.tree ++ [item] ∧
      item.hItem = hItem ∧ item.hTreeParent = args.hTreeParent ∧
      (item.lParam.HubCapsEx = none ↔
        (IOCTL_USB_GET_HUB_CAPABILITIES_EX host (EnumerateHub.open host s args).2
          hub.hHubDevice).1 = none) ∧
      (∀ v, (IOCTL_USB_GET_HUB_CAPABILITIES_EX host (EnumerateHub.open host s args).2
          hub.hHubDevice).1 = some v →
        item.lParam.HubCapsEx = some ⟨hub.hubCapsEx, v⟩) ∧
      (item.lParam.HubCaps = none ↔
        (IOCTL_USB_GET_HUB_CAPABILITIES host
          (EnumerateHub.hubCapsEx host (EnumerateHub.open host s args).2 hub).2
          hub.hHubDevice).1 = none) ∧
      (∀ v, (IOCTL_USB_GET_HUB_CAPABILITIES host
          (EnumerateHub.hubCapsEx host (EnumerateHub.open host s args).2 hub).2
          hub.hHubDevice).1 = some v →
        item.lParam.HubCaps = some ⟨hub.hubCaps, v⟩) := by
  refine ⟨?_, ?_⟩
  · rw [EnumerateHub_succ, hopen]
    simp only [hitem]
    rw [hports]
  · have o := EnumerateHub_open_outcome host s args
    have otree : (EnumerateHub.open host s args).2.tree = s.tree := by
      revert hopen o
      generalize EnumerateHub.open host s args = op
      intro hopen o
      cases o with
      | failed => cases hopen
      | opened hub0 s1 nInfo nName hinfo hhubInfo hhubCapsEx hhubCaps hheap hcalls htree =>
        exact htree
    have i := EnumerateHub_item_outcome host (EnumerateHub.open host s args).2 args hub
    revert hitem i
    generalize hit : EnumerateHub.item host (EnumerateHub.open host s args).2 args hub = it
    intro hitem i
    cases i with
    | failed s1 a b => cases hitem
    | attached hItem0 hubInfo s1 htree =>
      simp only [Option.some.injEq, Prod.mk.injEq] at hitem
      obtain ⟨h1, h2⟩ := hitem
      subst h1
      refine ⟨_, by rw [htree, otree], rfl, rfl, ?_, ?_, ?_, ?_⟩
      · show (EnumerateHub.node _ _ _ _ _).HubCapsEx = none ↔ _
        rw [EnumerateHub_node_HubCapsEx]
        exact EnumerateHub_hubCapsEx_none_iff host _ hub
      · intro v hv
        show (EnumerateHub.node _ _ _ _ _).HubCapsEx = _
        rw [EnumerateHub_node_HubCapsEx]
        unfold EnumerateHub.hubCapsEx
        simp only [hv]
      · show (EnumerateHub.node _ _ _ _ _).HubCaps = none ↔ _
        rw [EnumerateHub_node_HubCaps]
        exact EnumerateHub_hubCaps_none_iff host _ hub
      · intro v hv
        show (EnumerateHub.node _ _ _ _ _).HubCaps = _
        rw [EnumerateHub_node_HubCaps]
        unfold EnumerateHub.hubCaps
        simp only [hv]

set_option maxRecDepth 8192 in
theorem EnumerateHub_capabilities_optional_witness :
    EnumerateHub (hubHost 0 (fun _ => none)) (3 + 1) rootHubArguments (Session.start () true) =
      Except.ok (true, CloseHandle (hubHost 0 (fun _ => none)) capabilitiesSession 7) ∧
    ∃ item : TreeItem,
      (EnumerateHub.item (hubHost 0 (fun _ => none))
        (EnumerateHub.open (hubHost 0 (fun _ => none)) (Session.start () true)
          rootHubArguments).2 rootHubArguments ⟨0, 1, 2, 3, 7⟩).2.tree =
        (Session.start () true).tree ++ [item] ∧
      item.hItem = 2 ∧ item.hTreeParent = rootHubArguments.hTreeParent ∧
      (item.lParam.HubCapsEx = none ↔
        (IOCTL_USB_GET_HUB_CAPABILITIES_EX (hubHost 0 (fun _ => none))
          (EnumerateHub.open (hubHost 0 (fun _ => none)) (Session.start () true)
            rootHubArguments).2 7).1 = none) ∧
      (∀ v, (IOCTL_USB_GET_HUB_CAPABILITIES_EX (hubHost 0 (fun _ => none))
          (EnumerateHub.open (hubHost 0 (fun _ => none)) (Session.start () true)
            rootHubArguments).2 7).1 = some v →
        item.lParam.HubCapsEx = some ⟨2, v⟩) ∧
      (item.lParam.HubCaps = none ↔
        (IOCTL_USB_GET_HUB_CAPABILITIES (hubHost 0 (fun _ => none))
          (EnumerateHub.hubCapsEx (hubHost 0 (fun _ => none))
            (EnumerateHub.open (hubHost 0 (fun _ => none)) (Session.start () true)
              rootHubArguments).2 ⟨0, 1, 2, 3, 7⟩).2 7).1 = none) ∧
      (∀ v, (IOCTL_USB_GET_HUB_CAPABILITIES (hubHost 0 (fun _ => none))
          (EnumerateHub.hubCapsEx (hubHost 0 (fun _ => none))
            (EnumerateHub.open (hubHost 0 (fun _ => none)) (Session.start () true)
              rootHubArguments).2 ⟨0, 1, 2, 3, 7⟩).2 7).1 = some v →
        item.lParam.HubCaps = some ⟨3, v⟩) :=
  EnumerateHub_capabilities_optional (hubHost 0 (fun _ => none)) 3 rootHubArguments
    (Session.start () true) capabilitiesSession ⟨0, 1, 2, 3, 7⟩ 2 0
    (by decide) (by decide) (by decide)

/-! ## Steps that leave the tree and the counters alone -/

theorem Quiet.still {σ : Type} (s : Session σ) : Quiet s s :=
  ⟨rfl, rfl, rfl, rfl, rfl, ⟨[], by simp, by simp⟩⟩

theorem Quiet.followedBy {σ : Type} {a b c : Session σ} (h1 : Quiet a b) (h2 : Quiet b c) :
    Quiet a c := by
  obtain ⟨n1, e1, p1⟩ := h1.calls
  obtain ⟨n2, e2, p2⟩ := h2.calls
  refine ⟨h2.tree.trans h1.tree, h2.devices.trans h1.devices, h2.hubs.trans h1.hubs,
    h2.flag.trans h1.flag, h2.list.trans h1.list, ⟨n1 ++ n2, ?_, ?_⟩⟩
  · rw [e2, e1, List.append_assoc]
  · intro c hc
    rcases List.mem_append.mp hc with h | h
    · exact p1 c h
    · exact p2 c h

theorem Quiet_of_fields {σ : Type} {s s1 : Session σ} (htree : s1.tree = s.tree)
    (hdev : s1.TotalDevicesConnected = s.TotalDevicesConnected)
    (hhubs : s1.TotalHubs = s.TotalHubs) (hflag : s1.gDoConfigDesc = s.gDoConfigDesc)
    (hlist : s1.EnumeratedHCList = s.EnumeratedHCList) (hcalls : s1.calls = s.calls) :
    Quiet s s1 :=
  ⟨htree, hdev, hhubs, hflag, hlist, ⟨[], by simp [hcalls], by simp⟩⟩

theorem Quiet_ask {σ α : Type} (s : Session σ) (f : σ → α × σ) : Quiet s (s.ask f).2 :=
  Quiet_of_fields rfl rfl rfl rfl rfl rfl

theorem Quiet_log {σ : Type} (s : Session σ) (c : OsCall) (hc : c.port = none) :
    Quiet s (s.log c) :=
  ⟨rfl, rfl, rfl, rfl, rfl, ⟨[c], rfl, by simpa using hc⟩⟩

theorem Quiet_alloc {σ : Type} (host : Host σ) (s : Session σ) (n : Nat) :
    Quiet s (s.alloc host n).2 :=
  Quiet_of_fields rfl rfl rfl rfl rfl rfl

theorem Quiet_free {σ : Type} (s : Session σ) (p : Nat) : Quiet s (s.free p) :=
  Quiet_of_fields rfl rfl rfl rfl rfl rfl

theorem Quiet_freeIf {σ : Type} (s : Session σ) (p : Option Nat) : Quiet s (s.freeIf p) := by
  cases p
  · exact Quiet.still s
  · exact Quiet_free s _

theorem Quiet_world {σ : Type} (s : Session σ) (w : World σ) :
    Quiet s { s with world := w } :=
  Quiet_of_fields rfl rfl rfl rfl rfl rfl

theorem Quiet_CloseHandle {σ : Type} (host : Host σ) (s : Session σ) (h : Nat) :
    Quiet s (CloseHandle host s h) :=
  ⟨rfl, rfl, rfl, rfl, rfl, ⟨[OsCall.closeHandle h], rfl, by simp [OsCall.port]⟩⟩

theorem Quiet_CreateFile {σ : Type} (host : Host σ) (s : Session σ) (name : String) :
    Quiet s (CreateFile host s name).2 :=
  ⟨rfl, rfl, rfl, rfl, rfl, ⟨[OsCall.createFile name (CreateFile host s name).1], rfl,
    by simp [OsCall.port]⟩⟩

theorem Quiet_DriverNameToDeviceDesc {σ : Type} (host : Host σ) (s : Session σ)
    (name : String) (b : Bool) : Quiet s (DriverNameToDeviceDesc host s name b).2 :=
  Quiet_ask s _

theorem Quiet_WideStrToMultiStr {σ : Type} (host : Host σ) (s : Session σ) (w : String) :
    Quiet s (WideStrToMultiStr host s w).2 := by
  unfold WideStrToMultiStr
  simp only []
  split <;> exact Quiet_alloc host s _

theorem Quiet_nameLengthRequest {σ : Type} (host : Host σ) (s : Session σ)
    (request : NameRequest) (handle index : Nat) :
    Quiet s (nameLengthRequest host s request handle index).2 :=
  (Quiet_ask s _).followedBy (Quiet_log _ _ rfl)

theorem Quiet_nameRequest {σ : Type} (host : Host σ) (s : Session σ)
    (request : NameRequest) (handle index nBytes : Nat) :
    Quiet s (nameRequest host s request handle index nBytes).2 :=
  (Quiet_ask s _).followedBy (Quiet_log _ _ rfl)

theorem Quiet_getName {σ : Type} (host : Host σ) (s : Session σ) (request : NameRequest)
    (handle index : Nat) : Quiet s (getName host s request handle index).2 := by
  unfold getName
  simp only []
  have h1 := Quiet_nameLengthRequest host s request handle index
  split
  · exact h1
  · split
    · exact h1
    · split
      · exact h1.followedBy (Quiet_alloc host _ _)
      · split
        · exact ((h1.followedBy (Quiet_alloc host _ _)).followedBy
            (Quiet_nameRequest host _ request handle index _)).followedBy (Quiet_free _ _)
        · exact (((h1.followedBy (Quiet_alloc host _ _)).followedBy
            (Quiet_nameRequest host _ request handle index _)).followedBy
            (Quiet_WideStrToMultiStr host _ _)).followedBy (Quiet_free _ _)

theorem Quiet_deviceDesc {σ : Type} (host : Host σ) (s : Session σ) (hHubDevice index : Nat)
    (c : USB_NODE_CONNECTION_INFORMATION_EX) :
    Quiet s (EnumerateHubPorts.deviceDesc host s hHubDevice index c).2 := by
  unfold EnumerateHubPorts.deviceDesc
  split
  · simp only []
    have h1 : Quiet s (GetDriverKeyName host s hHubDevice index).2 := Quiet_getName host s _ _ _
    split
    · exact h1
    · exact (h1.followedBy (Quiet_DriverNameToDeviceDesc host _ _ _)).followedBy (Quiet_free _ _)
  · exact Quiet.still s

theorem Quiet_configDesc {σ : Type} (host : Host σ) (s : Session σ) (hHubDevice index : Nat)
    (c : USB_NODE_CONNECTION_INFORMATION_EX) :
    Quiet s (EnumerateHubPorts.configDesc host s hHubDevice index c).2 := by
  unfold EnumerateHubPorts.configDesc
  split
  · exact Quiet_world s _
  · exact Quiet.still s

theorem Quiet_stringDescs {σ : Type} (host : Host σ) (fuel : Nat) (s : Session σ)
    (hHubDevice index : Nat) (c : USB_NODE_CONNECTION_INFORMATION_EX)
    (configDesc : Option HeapBuffer) (t : Option Nat × Session σ)
    (h : EnumerateHubPorts.stringDescs host fuel s hHubDevice index c configDesc =
      Except.ok t) : Quiet s t.2 := by
  unfold EnumerateHubPorts.stringDescs at h
  split at h
  · cases h; exact Quiet.still s
  · split at h
    · cases h
    · cases h; exact Quiet.still s
    · split at h
      · cases h
      · cases h; exact Quiet_world s _

theorem Quiet_freeStringDescs {σ : Type} :
    ∀ (fuel : Nat) (s s1 : Session σ) (p : Nat),
      EnumerateHubPorts.freeStringDescs fuel s p = Except.ok s1 → Quiet s s1 := by
  intro fuel
  induction fuel with
  | zero => intro s s1 p h; cases h
  | succ n ih =>
    intro s s1 p h
    rw [EnumerateHubPorts.freeStringDescs] at h
    split at h
    · cases h
    · split at h
      · cases h; exact Quiet_free s p
      · exact (Quiet_free s p).followedBy (ih _ _ _ h)

theorem Quiet_of_Undone {σ : Type} {s s1 : Session σ} (h : Undone s s1)
    (hflag : s1.gDoConfigDesc = s.gDoConfigDesc)
    (hlist : s1.EnumeratedHCList = s.EnumeratedHCList) : Quiet s s1 :=
  ⟨h.tree, h.devices, h.hubs, hflag, hlist, h.calls⟩

/-! ## The descriptors of the device on a port -/

theorem GetConfigDescriptor_requests {σ : Type} (env : Env σ) (w : World σ)
    (hHubDevice ConnectionIndex DescriptorIndex : Nat) :
    ∃ rest, (GetConfigDescriptor env w hHubDevice ConnectionIndex DescriptorIndex).2.ioLog =
      w.ioLog ++
        configRequest hHubDevice ConnectionIndex DescriptorIndex
          (sizeof_USB_DESCRIPTOR_REQUEST + sizeof_USB_CONFIGURATION_DESCRIPTOR) :: rest := by
  have hprobe : (configProbe env w hHubDevice ConnectionIndex DescriptorIndex).2.ioLog =
      w.ioLog ++ [configRequest hHubDevice ConnectionIndex DescriptorIndex
        (sizeof_USB_DESCRIPTOR_REQUEST + sizeof_USB_CONFIGURATION_DESCRIPTOR)] := by
    unfold configProbe
    simp only []
    rw [DeviceIoControl_ioLog]
  have halloc : (configAlloc env w hHubDevice ConnectionIndex DescriptorIndex).2.ioLog =
      (configProbe env w hHubDevice ConnectionIndex DescriptorIndex).2.ioLog := by
    unfold configAlloc ALLOC
    simp only []
    split_ifs <;> rfl
  have hfull : (configFull env w hHubDevice ConnectionIndex DescriptorIndex).2.ioLog =
      (configAlloc env w hHubDevice ConnectionIndex DescriptorIndex).2.ioLog ++
        [configRequest hHubDevice ConnectionIndex DescriptorIndex
          (sizeof_USB_DESCRIPTOR_REQUEST + wTotalLengthOf
            (configProbe env w hHubDevice ConnectionIndex DescriptorIndex).1.buffer)] := by
    unfold configFull
    simp only []
    rw [DeviceIoControl_ioLog]
  by_cases hok : probeValid (configProbe env w hHubDevice ConnectionIndex DescriptorIndex).1
  · rw [GetConfigDescriptor_of_probe_valid env w _ _ _ hok]
    split
    · exact ⟨[], by rw [halloc, hprobe]⟩
    · split_ifs
      all_goals
        first
        | exact ⟨_, by
            show (configFull env w hHubDevice ConnectionIndex DescriptorIndex).2.ioLog = _
            rw [hfull, halloc, hprobe, List.append_assoc]; rfl⟩
  · rw [GetConfigDescriptor_of_probe_invalid env w _ _ _ hok]
    exact ⟨[], hprobe⟩

theorem GetConfigDescriptor_payload_length {σ : Type} (env : Env σ) (w : World σ)
    (hHubDevice ConnectionIndex DescriptorIndex : Nat) (buf : HeapBuffer)
    (hret : (GetConfigDescriptor env w hHubDevice ConnectionIndex DescriptorIndex).1 =
      some buf) :
    (buf.bytes.drop sizeof_USB_DESCRIPTOR_REQUEST).length = wTotalLengthOf buf.bytes := by
  by_cases hok : probeValid (configProbe env w hHubDevice ConnectionIndex DescriptorIndex).1
  · rw [GetConfigDescriptor_of_probe_valid env w _ _ _ hok] at hret
    have hlen : (configFull env w hHubDevice ConnectionIndex DescriptorIndex).1.buffer.length
        = sizeof_USB_DESCRIPTOR_REQUEST +
          wTotalLengthOf
            (configProbe env w hHubDevice ConnectionIndex DescriptorIndex).1.buffer := by
      unfold configFull
      simp only []
      rw [DeviceIoControl_buffer_length, requestBuffer_length]
      · rfl
      · exact Nat.le_add_right _ _
    split at hret
    · cases hret
    · split_ifs at hret with h1 h2 h3
      simp only [Option.some.injEq] at hret
      subst hret
      simp only []
      have h3' := not_ne_iff.mp h3
      rw [Nat.add_sub_cancel_left] at h3'
      rw [List.length_drop, hlen, h3']
      omega
  · rw [GetConfigDescriptor_of_probe_invalid env w _ _ _ hok] at hret
    cases hret

/-- C16. For a port that reports no hub: (a) `EnumerateHubPorts` requests the configuration
descriptor iff `gDoConfigDesc` is set and the status is `DeviceConnected`, and without the
request the descriptor is `NULL`; (b) the string descriptors are fetched by
`GetAllStringDescriptors` when a configuration descriptor was returned and
`AreThereStringDescriptors` finds a string index, and are `NULL` with no request otherwise;
(c) when the status is `DeviceConnected`, the configuration descriptor is returned,
`AreThereStringDescriptors` finds no string index, the node record is allocated and
`AddLeaf` returns an item, the iteration adds this one item, whose node record holds the
connection information, the configuration descriptor with exactly `wTotalLength` bytes
after the request header, and `NULL` for the string descriptors. -/
theorem EnumerateHubPorts_descriptors {σ : Type} (host : Host σ)
    (EnumerateHub : HubArguments → Session σ → Except Fault (Bool × Session σ))
    (fuel : Nat) (s : Session σ) (hTreeParent hHubDevice index : Nat)
    (connectionInfoEx : Block USB_NODE_CONNECTION_INFORMATION_EX) :
    ((∃ rest, (EnumerateHubPorts.configDesc host s hHubDevice index
          connectionInfoEx.value).2.world.ioLog =
        s.world.ioLog ++ configRequest hHubDevice index 0
          (sizeof_USB_DESCRIPTOR_REQUEST + sizeof_USB_CONFIGURATION_DESCRIPTOR) :: rest) ↔
      (s.gDoConfigDesc = true ∧
        connectionInfoEx.value.ConnectionStatus = USB_CONNECTION_STATUS.DeviceConnected)) ∧
    (¬ (s.gDoConfigDesc = true ∧
        connectionInfoEx.value.ConnectionStatus = USB_CONNECTION_STATUS.DeviceConnected) →
      EnumerateHubPorts.configDesc host s hHubDevice index connectionInfoEx.value =
        (none, s)) ∧
    (s.gDoConfigDesc = true ∧
        connectionInfoEx.value.ConnectionStatus = USB_CONNECTION_STATUS.DeviceConnected →
      (EnumerateHubPorts.configDesc host s hHubDevice index connectionInfoEx.value).1 =
        (GetConfigDescriptor host.toEnv s.world hHubDevice index 0).1) ∧
    EnumerateHubPorts.stringDescs host fuel s hHubDevice index connectionInfoEx.value none =
      Except.ok (none, s) ∧
    (∀ c : HeapBuffer,
      AreThereStringDescriptors fuel connectionInfoEx.value.DeviceDescriptor
        (c.bytes.drop sizeof_USB_DESCRIPTOR_REQUEST) = Except.ok false →
      EnumerateHubPorts.stringDescs host fuel s hHubDevice index connectionInfoEx.value
        (some c) = Except.ok (none, s)) ∧
    (∀ c : HeapBuffer,
      AreThereStringDescriptors fuel connectionInfoEx.value.DeviceDescriptor
        (c.bytes.drop sizeof_USB_DESCRIPTOR_REQUEST) = Except.ok true →
      EnumerateHubPorts.stringDescs host fuel s hHubDevice index connectionInfoEx.value
        (some c) =
        match GetAllStringDescriptors host.toEnv fuel s.world hHubDevice index
            connectionInfoEx.value.DeviceDescriptor
            (c.bytes.drop sizeof_USB_DESCRIPTOR_REQUEST) with
        | Except.error e => Except.error e
        | Except.ok r => Except.ok (r.1, { s with world := r.2 })) ∧
    (∀ (configDesc : HeapBuffer) (info hItem : Nat),
      connectionInfoEx.value.DeviceIsHub = false →
      connectionInfoEx.value.ConnectionStatus = USB_CONNECTION_STATUS.DeviceConnected →
      (EnumerateHubPorts.configDesc host
        (EnumerateHubPorts.deviceDesc host
          (EnumerateHubPorts.count s connectionInfoEx.value) hHubDevice index
          connectionInfoEx.value).2 hHubDevice index connectionInfoEx.value).1 =
        some configDesc →
      AreThereStringDescriptors fuel connectionInfoEx.value.DeviceDescriptor
        (configDesc.bytes.drop sizeof_USB_DESCRIPTOR_REQUEST) = Except.ok false →
      ((EnumerateHubPorts.configDesc host
        (EnumerateHubPorts.deviceDesc host
          (EnumerateHubPorts.count s connectionInfoEx.value) hHubDevice index
          connectionInfoEx.value).2 hHubDevice index connectionInfoEx.value).2.alloc host
        sizeof_USBDEVICEINFO).1 = some info →
      (AddLeaf host
        ((EnumerateHubPorts.configDesc host
          (EnumerateHubPorts.deviceDesc host
            (EnumerateHubPorts.count s connectionInfoEx.value) hHubDevice index
            connectionInfoEx.value).2 hHubDevice index connectionInfoEx.value).2.alloc host
          sizeof_USBDEVICEINFO).2 hTreeParent
        (NodeInfo.DeviceInfo
          { self := info, ConnectionInfo := connectionInfoEx, ConfigDesc := some configDesc,
            StringDescs := none })
        (EnumerateHubPorts.icon connectionInfoEx.value)).1 = some hItem →
      ∃ s1,
        EnumerateHubPorts.port host EnumerateHub fuel s hTreeParent hHubDevice index
          connectionInfoEx = Except.ok (Flow.next, s1) ∧
        s1.tree = s.tree ++
          [{ hItem := hItem, hTreeParent := hTreeParent,
             lParam := NodeInfo.DeviceInfo
               { self := info, ConnectionInfo := connectionInfoEx,
                 ConfigDesc := some configDesc, StringDescs := none },
             icon := EnumerateHubPorts.icon connectionInfoEx.value }] ∧
        (configDesc.bytes.drop sizeof_USB_DESCRIPTOR_REQUEST).length =
          wTotalLengthOf configDesc.bytes) := by
  refine ⟨?_, ?_, ?_, ?_, ?_, ?_, ?_⟩
  · constructor
    · rintro ⟨rest, hrest⟩
      by_contra hcond
      unfold EnumerateHubPorts.configDesc at hrest
      rw [if_neg hcond] at hrest
      have := congrArg List.length hrest
      simp at this
    · intro hcond
      unfold EnumerateHubPorts.configDesc
      rw [if_pos hcond]
      exact GetConfigDescriptor_requests host.toEnv s.world hHubDevice index 0
  · intro hcond
    unfold EnumerateHubPorts.configDesc
    rw [if_neg hcond]
  · intro hcond
    unfold EnumerateHubPorts.configDesc
    rw [if_pos hcond]
  · rfl
  · intro c hc
    unfold EnumerateHubPorts.stringDescs
    simp only [hc]
  · intro c hc
    unfold EnumerateHubPorts.stringDescs
    simp only [hc]
  · intro configDesc info hItem hhub hstatus hconfig hstrings halloc hleaf
    have hq1 := Quiet_deviceDesc host (EnumerateHubPorts.count s connectionInfoEx.value)
      hHubDevice index connectionInfoEx.value
    have hq2 := Quiet_configDesc host
      (EnumerateHubPorts.deviceDesc host
        (EnumerateHubPorts.count s connectionInfoEx.value) hHubDevice index
        connectionInfoEx.value).2 hHubDevice index connectionInfoEx.value
    have hcount : (EnumerateHubPorts.count s connectionInfoEx.value).tree = s.tree := by
      unfold EnumerateHubPorts.count
      simp only []
      split_ifs <;> rfl
    have hlen : (configDesc.bytes.drop sizeof_USB_DESCRIPTOR_REQUEST).length =
        wTotalLengthOf configDesc.bytes := by
      unfold EnumerateHubPorts.configDesc at hconfig
      split_ifs at hconfig with hcond
      exact GetConfigDescriptor_payload_length host.toEnv _ hHubDevice index 0 _ hconfig
    have hstr : EnumerateHubPorts.stringDescs host fuel
        (EnumerateHubPorts.configDesc host
          (EnumerateHubPorts.deviceDesc host
            (EnumerateHubPorts.count s connectionInfoEx.value) hHubDevice index
            connectionInfoEx.value).2 hHubDevice index connectionInfoEx.value).2
        hHubDevice index connectionInfoEx.value (some configDesc) =
        Except.ok (none, (EnumerateHubPorts.configDesc host
          (EnumerateHubPorts.deviceDesc host
            (EnumerateHubPorts.count s connectionInfoEx.value) hHubDevice index
            connectionInfoEx.value).2 hHubDevice index connectionInfoEx.value).2) := by
      unfold EnumerateHubPorts.stringDescs
      simp only [hstrings]
    refine ⟨(AddLeaf host
        ((EnumerateHubPorts.configDesc host
          (EnumerateHubPorts.deviceDesc host
            (EnumerateHubPorts.count s connectionInfoEx.value) hHubDevice index
            connectionInfoEx.value).2 hHubDevice index connectionInfoEx.value).2.alloc host
          sizeof_USBDEVICEINFO).2 hTreeParent
        (NodeInfo.DeviceInfo
          { self := info, ConnectionInfo := connectionInfoEx, ConfigDesc := some configDesc,
            StringDescs := none })
        (EnumerateHubPorts.icon connectionInfoEx.value)).2, ?_, ?_, hlen⟩
    · unfold EnumerateHubPorts.port
      simp only [hconfig, hstr, hhub]
      unfold EnumerateHubPorts.device
      simp only [halloc]
      rfl
    · rw [AddLeaf_tree, hleaf]
      simp only [Session.alloc_tree]
      rw [hq2.tree, hq1.tree, hcount]

set_option maxRecDepth 16384 in
theorem EnumerateHubPorts_descriptors_witness :
    ∃ s1,
      EnumerateHubPorts.port plainDeviceHost neverCalled 10 (Session.start () true) 2 7 1
          ⟨0, plainPort⟩ = Except.ok (Flow.next, s1) ∧
      s1.tree = (Session.start () true).tree ++
        [{ hItem := 3, hTreeParent := 2,
           lParam := NodeInfo.DeviceInfo
             { self := 1, ConnectionInfo := ⟨0, plainPort⟩,
               ConfigDesc := some ⟨0, requestHeader 1 512 0 25 ++ plainConfig⟩,
               StringDescs := none },
           icon := EnumerateHubPorts.icon plainPort }] ∧
      ((requestHeader 1 512 0 25 ++ plainConfig).drop sizeof_USB_DESCRIPTOR_REQUEST).length =
        wTotalLengthOf (requestHeader 1 512 0 25 ++ plainConfig) :=
  (EnumerateHubPorts_descriptors plainDeviceHost neverCalled 10 (Session.start () true) 2 7 1
    ⟨0, plainPort⟩).2.2.2.2.2.2 ⟨0, requestHeader 1 512 0 25 ++ plainConfig⟩ 1 3
    (by decide) (by decide) (by decide) (by decide) (by decide) (by decide)

/-! ## The counters and the log of calls -/

theorem connectedPorts_append (a b : List OsCall) :
    connectedPorts (a ++ b) = connectedPorts a + connectedPorts b := by
  simp [connectedPorts]

theorem hubPorts_append (a b : List OsCall) : hubPorts (a ++ b) = hubPorts a + hubPorts b := by
  simp [hubPorts]

theorem OsCall.connected_of_port_none (c : OsCall) (h : c.port = none) : c.connected = 0 := by
  cases c <;> first | rfl | (simp [OsCall.port] at h)

theorem OsCall.hub_of_port_none (c : OsCall) (h : c.port = none) : c.hub = 0 := by
  cases c <;> first | rfl | (simp [OsCall.port] at h)

theorem connectedPorts_of_port_none (new : List OsCall) (h : ∀ c ∈ new, c.port = none) :
    connectedPorts new = 0 := by
  induction new with
  | nil => rfl
  | cons c rest ih =>
    have h1 := OsCall.connected_of_port_none c (h c (List.mem_cons_self _ _))
    have h2 := ih (fun d hd => h d (List.mem_cons_of_mem _ hd))
    simp only [connectedPorts, List.map_cons, List.sum_cons] at h2 ⊢
    rw [h1, h2]

theorem hubPorts_of_port_none (new : List OsCall) (h : ∀ c ∈ new, c.port = none) :
    hubPorts new = 0 := by
  induction new with
  | nil => rfl
  | cons c rest ih =>
    have h1 := OsCall.hub_of_port_none c (h c (List.mem_cons_self _ _))
    have h2 := ih (fun d hd => h d (List.mem_cons_of_mem _ hd))
    simp only [hubPorts, List.map_cons, List.sum_cons] at h2 ⊢
    rw [h1, h2]

theorem Tally.unchanged {σ : Type} (s : Session σ) : Tally s s :=
  ⟨⟨[], by simp, by simp [connectedPorts], by simp [hubPorts]⟩, ⟨[], by simp⟩, id, id⟩

theorem Tally.append {σ : Type} {a b c : Session σ} (h1 : Tally a b) (h2 : Tally b c) :
    Tally a c := by
  obtain ⟨n1, e1, d1, u1⟩ := h1.calls
  obtain ⟨n2, e2, d2, u2⟩ := h2.calls
  obtain ⟨t1, f1⟩ := h1.tree
  obtain ⟨t2, f2⟩ := h2.tree
  refine ⟨⟨n1 ++ n2, ?_, ?_, ?_⟩, ⟨t1 ++ t2, ?_⟩, fun h => h2.devices (h1.devices h),
    fun h => h2.hubs (h1.hubs h)⟩
  · rw [e2, e1, List.append_assoc]
  · rw [d2, connectedPorts_append, Nat.add_mod, d1]
    conv_rhs => rw [← Nat.add_assoc, Nat.add_mod]
  · rw [u2, hubPorts_append, Nat.add_mod, u1]
    conv_rhs => rw [← Nat.add_assoc, Nat.add_mod]
  · rw [f2, f1, List.append_assoc]

theorem Tally.of_steps {σ : Type} {s s1 : Session σ} (htree : ∃ new, s1.tree = s.tree ++ new)
    (hcalls : ∃ new, s1.calls = s.calls ++ new ∧ ∀ c ∈ new, c.port = none)
    (hdev : s1.TotalDevicesConnected = s.TotalDevicesConnected)
    (hhubs : s1.TotalHubs = s.TotalHubs) : Tally s s1 := by
  obtain ⟨new, e, hp⟩ := hcalls
  refine ⟨⟨new, e, ?_, ?_⟩, htree, fun h => hdev ▸ h, fun h => hhubs ▸ h⟩
  · rw [connectedPorts_of_port_none new hp, hdev, Nat.add_zero]
  · rw [hubPorts_of_port_none new hp, hhubs, Nat.add_zero]

theorem Tally.of_Quiet {σ : Type} {s s1 : Session σ} (h : Quiet s s1) : Tally s s1 :=
  Tally.of_steps ⟨[], by simp [h.tree]⟩ h.calls h.devices h.hubs

theorem Tally.of_Undone {σ : Type} {s s1 : Session σ} (h : Undone s s1) : Tally s s1 :=
  Tally.of_steps ⟨[], by simp [h.tree]⟩ h.calls h.devices h.hubs

theorem Tally_AddLeaf {σ : Type} (host : Host σ) (s : Session σ) (hTreeParent : Nat)
    (lParam : NodeInfo) (icon : Icon) :
    Tally s (AddLeaf host s hTreeParent lParam icon).2 :=
  Tally.of_steps ⟨_, AddLeaf_tree host s hTreeParent lParam icon⟩
    ⟨[], by simp, by simp⟩ (by simp) (by simp)

theorem EnumerateHubPorts_count_fields {σ : Type} (s : Session σ)
    (c : USB_NODE_CONNECTION_INFORMATION_EX) :
    (EnumerateHubPorts.count s c).tree = s.tree ∧
    (EnumerateHubPorts.count s c).calls = s.calls ∧
    (EnumerateHubPorts.count s c).world = s.world ∧
    (EnumerateHubPorts.count s c).gDoConfigDesc = s.gDoConfigDesc ∧
    (EnumerateHubPorts.count s c).EnumeratedHCList = s.EnumeratedHCList ∧
    (EnumerateHubPorts.count s c).TotalDevicesConnected =
      (if c.ConnectionStatus = USB_CONNECTION_STATUS.DeviceConnected then
        (s.TotalDevicesConnected + 1) % ULONG_RANGE else s.TotalDevicesConnected) ∧
    (EnumerateHubPorts.count s c).TotalHubs =
      (if c.DeviceIsHub = true then (s.TotalHubs + 1) % ULONG_RANGE else s.TotalHubs) := by
  unfold EnumerateHubPorts.count
  simp only []
  split_ifs <;> exact ⟨rfl, rfl, rfl, rfl, rfl, rfl, rfl⟩

theorem Tally_count {σ : Type} (s s1 : Session σ) (c : USB_NODE_CONNECTION_INFORMATION_EX)
    (new : List OsCall) (hcalls : s1.calls = s.calls ++ new) (htree : s1.tree = s.tree)
    (hdev : s1.TotalDevicesConnected = s.TotalDevicesConnected)
    (hhubs : s1.TotalHubs = s.TotalHubs)
    (hconnected : connectedPorts new =
      if c.ConnectionStatus = USB_CONNECTION_STATUS.DeviceConnected then 1 else 0)
    (hhub : hubPorts new = if c.DeviceIsHub = true then 1 else 0) :
    Tally s (EnumerateHubPorts.count s1 c) := by
  obtain ⟨ct, cc, -, -, -, cd, ch⟩ := EnumerateHubPorts_count_fields s1 c
  have hR : 0 < ULONG_RANGE := by decide
  refine ⟨⟨new, by rw [cc, hcalls], ?_, ?_⟩, ⟨[], by rw [ct, htree, List.append_nil]⟩, ?_, ?_⟩
  · rw [cd, hconnected, hdev]
    split_ifs
    · rw [Nat.mod_mod]
    · rfl
  · rw [ch, hhub, hhubs]
    split_ifs
    · rw [Nat.mod_mod]
    · rfl
  · intro h
    rw [cd, hdev]
    split_ifs
    · exact Nat.mod_lt _ hR
    · exact h
  · intro h
    rw [ch, hhubs]
    split_ifs
    · exact Nat.mod_lt _ hR
    · exact h

theorem Tally_connectionInfo {σ : Type} (host : Host σ) (s s1 : Session σ)
    (hHubDevice index : Nat) (q : PortQuery)
    (hrun : EnumerateHubPorts.connectionInfo host s hHubDevice index = Except.ok (q, s1)) :
    match q with
    | PortQuery.obtained b => Tally s (EnumerateHubPorts.count s1 b.value)
    | _ => Tally s s1 := by
  have o := EnumerateHubPorts_connectionInfo_outcome host s hHubDevice index
  rw [hrun] at o
  cases o with
  | noMemory _ hcalls htree hheap hdev hhubs =>
    exact Tally.of_steps ⟨[], by simp [htree]⟩ ⟨[], by simp [hcalls], by simp⟩ hdev hhubs
  | extended p r _ hcalls htree hheap hdev hhubs =>
    exact Tally_count s s1 r _ hcalls htree hdev hhubs
      (by simp [connectedPorts, OsCall.connected]) (by simp [hubPorts, OsCall.hub])
  | failed p q0 _ hcalls htree hheap hdev hhubs =>
    exact ⟨⟨_, hcalls, by simp [connectedPorts, OsCall.connected, hdev],
      by simp [hubPorts, OsCall.hub, hhubs]⟩, ⟨[], by simp [htree]⟩, fun h => hdev ▸ h,
      fun h => hhubs ▸ h⟩
  | legacy p q0 r _ hpipes hcalls htree hheap hdev hhubs =>
    exact Tally_count s s1 (EnumerateHubPorts.copy r) _ hcalls htree hdev hhubs
      (by simp [connectedPorts, OsCall.connected, EnumerateHubPorts.copy])
      (by simp [hubPorts, OsCall.hub, EnumerateHubPorts.copy])

theorem Tally_hub {σ : Type} (host : Host σ)
    (EnumerateHub0 : HubArguments → Session σ → Except Fault (Bool × Session σ))
    (hrec : ∀ args t r, EnumerateHub0 args t = Except.ok r → Tally t r.2)
    (fuel : Nat) (s s1 : Session σ) (hTreeParent hHubDevice index : Nat)
    (connectionInfoEx : Block USB_NODE_CONNECTION_INFORMATION_EX)
    (configDesc : Option HeapBuffer) (stringDescs : Option Nat) (deviceDesc : Option String)
    (hrun : EnumerateHubPorts.hub host EnumerateHub0 fuel s hTreeParent hHubDevice index
      connectionInfoEx configDesc stringDescs deviceDesc = Except.ok s1) :
    Tally s s1 := by
  unfold EnumerateHubPorts.hub at hrun
  simp only [] at hrun
  have hn : Quiet s (GetExternalHubName host s hHubDevice index).2 := Quiet_getName host s _ _ _
  split at hrun
  · cases hrun
    exact Tally.of_Quiet hn
  · rename_i extHubName hname
    split at hrun
    · cases hrun
    · rename_i r hr
      have h1 := (Tally.of_Quiet hn).append (hrec _ _ _ hr)
      split_ifs at hrun with hok
      · cases hrun
        exact h1
      · have h2 : Quiet r.2
            (((r.2.free extHubName.handle).free connectionInfoEx.handle).freeIf
              (configDesc.map (fun c => c.handle))) :=
          ((Quiet_free _ _).followedBy (Quiet_free _ _)).followedBy (Quiet_freeIf _ _)
        split at hrun
        · cases hrun
          exact h1.append (Tally.of_Quiet h2)
        · exact (h1.append (Tally.of_Quiet h2)).append
            (Tally.of_Quiet (Quiet_freeStringDescs _ _ _ _ hrun))

theorem Tally_device {σ : Type} (host : Host σ) (s : Session σ) (hTreeParent : Nat)
    (connectionInfoEx : Block USB_NODE_CONNECTION_INFORMATION_EX)
    (configDesc : Option HeapBuffer) (stringDescs : Option Nat) :
    Tally s (EnumerateHubPorts.device host s hTreeParent connectionInfoEx configDesc
      stringDescs).2 := by
  unfold EnumerateHubPorts.device
  simp only []
  split
  · exact Tally.of_Quiet
      (((Quiet_alloc host s _).followedBy (Quiet_freeIf _ _)).followedBy (Quiet_free _ _))
  · exact (Tally.of_Quiet (Quiet_alloc host s _)).append (Tally_AddLeaf host _ _ _ _)

theorem Tally_port {σ : Type} (host : Host σ)
    (EnumerateHub0 : HubArguments → Session σ → Except Fault (Bool × Session σ))
    (hrec : ∀ args t r, EnumerateHub0 args t = Except.ok r → Tally t r.2)
    (fuel : Nat) (s : Session σ) (hTreeParent hHubDevice index : Nat)
    (connectionInfoEx : Block USB_NODE_CONNECTION_INFORMATION_EX) (r : Flow × Session σ)
    (hrun : EnumerateHubPorts.port host EnumerateHub0 fuel s hTreeParent hHubDevice index
      connectionInfoEx = Except.ok r) :
    Tally (EnumerateHubPorts.count s connectionInfoEx.value) r.2 := by
  unfold EnumerateHubPorts.port at hrun
  simp only [] at hrun
  have h1 := Quiet_deviceDesc host (EnumerateHubPorts.count s connectionInfoEx.value)
    hHubDevice index connectionInfoEx.value
  have h2 := h1.followedBy (Quiet_configDesc host _ hHubDevice index connectionInfoEx.value)
  split at hrun
  · cases hrun
  · rename_i t ht
    have h3 := Tally.of_Quiet (h2.followedBy (Quiet_stringDescs host fuel _ _ _ _ _ t ht))
    split_ifs at hrun with hhub
    · split at hrun
      · cases hrun
      · rename_i s2 hs2
        cases hrun
        exact h3.append (Tally_hub host EnumerateHub0 hrec fuel _ _ _ _ _ _ _ _ _ hs2)
    · cases hrun
      exact h3.append (Tally_device host _ _ _ _ _)

theorem Tally_body {σ : Type} (host : Host σ)
    (EnumerateHub0 : HubArguments → Session σ → Except Fault (Bool × Session σ))
    (hrec : ∀ args t r, EnumerateHub0 args t = Except.ok r → Tally t r.2)
    (fuel hTreeParent hHubDevice index : Nat) (s : Session σ) (r : Flow × Session σ)
    (hrun : EnumerateHubPorts.body host EnumerateHub0 fuel hTreeParent hHubDevice index s =
      Except.ok r) : Tally s r.2 := by
  unfold EnumerateHubPorts.body at hrun
  cases hq : EnumerateHubPorts.connectionInfo host s hHubDevice index with
  | error e => rw [hq] at hrun; cases hrun
  | ok q =>
    rw [hq] at hrun
    obtain ⟨q1, q2⟩ := q
    have h1 := Tally_connectionInfo host s q2 hHubDevice index q1 hq
    cases q1 with
    | noMemory =>
      simp only [] at hrun h1
      cases hrun
      exact h1
    | failed =>
      simp only [] at hrun h1
      cases hrun
      exact h1
    | obtained b =>
      simp only [] at hrun h1
      exact h1.append (Tally_port host EnumerateHub0 hrec fuel _ _ _ _ _ _ hrun)

theorem Tally_loop {σ : Type} (body : Nat → Session σ → Except Fault (Flow × Session σ))
    (hbody : ∀ index t r, body index t = Except.ok r → Tally t r.2) (NumPorts : Nat) :
    ∀ (fuel index : Nat) (s s1 : Session σ),
      EnumerateHubPorts.loop body NumPorts fuel index s = Except.ok s1 → Tally s s1 := by
  intro fuel
  induction fuel with
  | zero =>
    intro index s s1 h
    rw [EnumerateHubPorts.loop] at h
    split_ifs at h
    cases h
    exact Tally.unchanged s
  | succ n ih =>
    intro index s s1 h
    rw [EnumerateHubPorts.loop] at h
    split_ifs at h
    · split at h
      · cases h
      · rename_i r hr
        have h1 := hbody _ _ _ hr
        split at h
        · cases h
          exact h1
        · exact h1.append (ih _ _ _ h)
    · cases h
      exact Tally.unchanged s

theorem Tally_EnumerateHub {σ : Type} (host : Host σ) :
    ∀ (fuel : Nat) (args : HubArguments) (s : Session σ) (r : Bool × Session σ),
      EnumerateHub host fuel args s = Except.ok r → Tally s r.2 := by
  intro fuel
  induction fuel with
  | zero =>
    intro args s r h
    rw [EnumerateHub] at h
    cases h
  | succ n ih =>
    intro args s r h
    rw [EnumerateHub_succ] at h
    have o := EnumerateHub_open_outcome host s args
    cases hopen : (EnumerateHub.open host s args).1 with
    | none =>
      rw [hopen] at h
      cases h
      exact Tally.of_Undone (EnumerateHub_open_undone host s args hopen)
    | some hub =>
      rw [hopen] at h
      simp only [] at h
      have h1 : Tally s (EnumerateHub.open host s args).2 := by
        revert o hopen
        generalize EnumerateHub.open host s args = op
        intro o hopen
        cases o with
        | failed => cases hopen
        | opened hub0 s1 nInfo nName hinfo hhubInfo hhubCapsEx hhubCaps hheap hcalls htree
            hdev hhubs =>
          exact Tally.of_steps ⟨[], by simp [htree]⟩ ⟨_, hcalls, by simp [OsCall.port]⟩
            hdev hhubs
      have i := EnumerateHub_item_outcome host (EnumerateHub.open host s args).2 args hub
      revert h i
      generalize EnumerateHub.item host (EnumerateHub.open host s args).2 args hub = it
      intro h i
      cases i with
      | failed s2 a b htree hdev hhubs hcalls hheap =>
        simp only [] at h
        cases h
        exact h1.append (Tally.of_steps ⟨[], by simp [htree]⟩ hcalls hdev hhubs)
      | attached hItem hubInfo s2 htree hdev hhubs hcalls hheap =>
        simp only [] at h
        have h2 := h1.append (Tally.of_steps ⟨_, htree⟩ hcalls hdev hhubs)
        split at h
        · cases h
        · rename_i s3 hs3
          cases h
          have h3 := Tally_loop _
            (fun index t r hr => Tally_body host (EnumerateHub host n) (ih) n hItem
              hub.hHubDevice index t r hr) _ _ _ _ _ hs3
          exact (h2.append h3).append (Tally.of_Quiet (Quiet_CloseHandle host _ _))

/-! ## A port with a hub -/

theorem Tally_EnumerateHubPorts {σ : Type} (host : Host σ)
    (depth fuel hTreeParent hHubDevice NumPorts : Nat) (s s1 : Session σ)
    (h : EnumerateHubPorts host (EnumerateHub host depth) fuel hTreeParent hHubDevice NumPorts
      s = Except.ok s1) : Tally s s1 :=
  Tally_loop _
    (fun _ _ _ hr => Tally_body host _ (Tally_EnumerateHub host depth) fuel _ _ _ _ _ hr)
    NumPorts _ _ _ _ h

theorem EnumerateHub_true {σ : Type} (host : Host σ) (fuel : Nat) (args : HubArguments)
    (s s1 : Session σ) (hrun : EnumerateHub host (fuel + 1) args s = Except.ok (true, s1)) :
    ∃ (hub : HubRecords) (hItem : Nat) (hubInfo : USB_NODE_INFORMATION) (s2 : Session σ),
      (EnumerateHub.open host s args).1 = some hub ∧
      (EnumerateHub.item host (EnumerateHub.open host s args).2 args hub).1 =
        some (hItem, hubInfo.bNumberOfPorts % UCHAR_RANGE) ∧
      (EnumerateHub.item host (EnumerateHub.open host s args).2 args hub).2.tree =
        s.tree ++
          [{ hItem := hItem, hTreeParent := args.hTreeParent,
             lParam := EnumerateHub.node args hub hubInfo
               (EnumerateHub.hubCapsEx host (EnumerateHub.open host s args).2 hub).1
               (EnumerateHub.hubCaps host
                 (EnumerateHub.hubCapsEx host (EnumerateHub.open host s args).2 hub).2
                 hub).1,
             icon := Icon.HubIcon }] ∧
      EnumerateHubPorts host (EnumerateHub host fuel) fuel hItem hub.hHubDevice
        (hubInfo.bNumberOfPorts % UCHAR_RANGE)
        (EnumerateHub.item host (EnumerateHub.open host s args).2 args hub).2 =
        Except.ok s2 ∧
      s1 = CloseHandle host s2 hub.hHubDevice := by
  rw [EnumerateHub_succ] at hrun
  cases hopen : (EnumerateHub.open host s args).1 with
  | none =>
    rw [hopen] at hrun
    simp only [Except.ok.injEq, Prod.mk.injEq] at hrun
    exact absurd hrun.1 (by decide)
  | some hub =>
    rw [hopen] at hrun
    simp only [] at hrun
    have i := EnumerateHub_item_outcome host (EnumerateHub.open host s args).2 args hub
    have o := EnumerateHub_open_outcome host s args
    have otree : (EnumerateHub.open host s args).2.tree = s.tree := by
      revert hopen o
      generalize EnumerateHub.open host s args = op
      intro hopen o
      cases o with
      | failed => cases hopen
      | opened hub0 s1 nInfo nName hinfo hhubInfo hhubCapsEx hhubCaps hheap hcalls htree =>
        exact htree
    revert hrun i
    generalize hit : EnumerateHub.item host (EnumerateHub.open host s args).2 args hub = it
    intro hrun i
    cases i with
    | failed s2 a b =>
      simp only [Except.ok.injEq, Prod.mk.injEq] at hrun
      exact absurd hrun.1 (by decide)
    | attached hItem hubInfo s2 htree =>
      simp only [] at hrun htree ⊢
      cases hp : EnumerateHubPorts host (EnumerateHub host fuel) fuel hItem hub.hHubDevice
          (hubInfo.bNumberOfPorts % UCHAR_RANGE) s2 with
      | error e => rw [hp] at hrun; cases hrun
      | ok s3 =>
        rw [hp] at hrun
        simp only [Except.ok.injEq, Prod.mk.injEq, true_and] at hrun
        refine ⟨hub, hItem, hubInfo, s3, rfl, ?_, ?_, ?_, hrun.symm⟩
        · rw [hit]
        · rw [hit]
          simp only []
          rw [htree, otree]
        · rw [hit]
          exact hp

theorem EnumerateHub_true_tree {σ : Type} (host : Host σ) (fuel : Nat) (args : HubArguments)
    (s s1 : Session σ) (hrun : EnumerateHub host (fuel + 1) args s = Except.ok (true, s1)) :
    ∃ (hub : HubRecords) (hItem : Nat) (hubInfo : USB_NODE_INFORMATION)
      (hubCapsEx hubCaps : Option (Block Nat)) (rest : List TreeItem),
      s1.tree = s.tree ++
        { hItem := hItem, hTreeParent := args.hTreeParent,
          lParam := EnumerateHub.node args hub hubInfo hubCapsEx hubCaps,
          icon := Icon.HubIcon } :: rest := by
  obtain ⟨hub, hItem, hubInfo, s2, _, _, htree, hports, hs1⟩ :=
    EnumerateHub_true host fuel args s s1 hrun
  obtain ⟨rest, hrest⟩ := (Tally_EnumerateHubPorts host fuel fuel _ _ _ _ _ hports).tree
  refine ⟨hub, hItem, hubInfo,
    (EnumerateHub.hubCapsEx host (EnumerateHub.open host s args).2 hub).1,
    (EnumerateHub.hubCaps host
      (EnumerateHub.hubCapsEx host (EnumerateHub.open host s args).2 hub).2 hub).1, rest, ?_⟩
  rw [hs1, CloseHandle_tree, hrest, htree, List.append_assoc]
  rfl

/-- The iteration for a port that reports a hub whose name `GetExternalHubName` returns:
it is one call of `EnumerateHub` with the parent item, this name, the connection
information of the port, the configuration descriptor and the string descriptors fetched
for it and the device description, followed by the release of these blocks when the call
returns `FALSE`.  The iteration itself adds no item, neither before nor after the call, and
goes on with the next port.  When `EnumerateHub` returns `TRUE`, the item that it added
under the parent holds the external hub record with exactly this name, connection
information, configuration descriptor and string descriptors. -/
theorem EnumerateHubPorts_hub_named {σ : Type} (host : Host σ)
    (EnumerateHub0 : HubArguments → Session σ → Except Fault (Bool × Session σ))
    (fuel depth : Nat) (s : Session σ) (hTreeParent hHubDevice index : Nat)
    (connectionInfoEx : Block USB_NODE_CONNECTION_INFORMATION_EX)
    (deviceDesc : Option String) (configDesc : Option HeapBuffer) (stringDescs : Option Nat)
    (extHubName : Block String) (s1 s2 s3 s4 : Session σ)
    (hhub : connectionInfoEx.value.DeviceIsHub = true)
    (hdesc : EnumerateHubPorts.deviceDesc host
      (EnumerateHubPorts.count s connectionInfoEx.value) hHubDevice index
      connectionInfoEx.value = (deviceDesc, s1))
    (hconfig : EnumerateHubPorts.configDesc host s1 hHubDevice index
      connectionInfoEx.value = (configDesc, s2))
    (hstrings : EnumerateHubPorts.stringDescs host fuel s2 hHubDevice index
      connectionInfoEx.value configDesc = Except.ok (stringDescs, s3))
    (hname : GetExternalHubName host s3 hHubDevice index = (some extHubName, s4)) :
    EnumerateHubPorts.port host EnumerateHub0 fuel s hTreeParent hHubDevice index
        connectionInfoEx =
      (match EnumerateHub0
          { hTreeParent := hTreeParent, HubName := extHubName,
            ConnectionInfo := some connectionInfoEx, ConfigDesc := configDesc,
            StringDescs := stringDescs, DeviceDesc := deviceDesc } s4 with
       | Except.error e => Except.error e
       | Except.ok r =>
         if r.1 then Except.ok (Flow.next, r.2)
         else
           match stringDescs with
           | none =>
             Except.ok (Flow.next,
               ((r.2.free extHubName.handle).free connectionInfoEx.handle).freeIf
                 (configDesc.map (fun c => c.handle)))
           | some head =>
             match EnumerateHubPorts.freeStringDescs fuel
                 (((r.2.free extHubName.handle).free connectionInfoEx.handle).freeIf
                   (configDesc.map (fun c => c.handle))) head with
             | Except.error e => Except.error e
             | Except.ok s5 => Except.ok (Flow.next, s5)) ∧
    s4.tree = s.tree ∧
    (∀ (r : Bool × Session σ) (f : Flow) (s5 : Session σ),
      EnumerateHub0
          { hTreeParent := hTreeParent, HubName := extHubName,
            ConnectionInfo := some connectionInfoEx, ConfigDesc := configDesc,
            StringDescs := stringDescs, DeviceDesc := deviceDesc } s4 = Except.ok r →
      EnumerateHubPorts.port host EnumerateHub0 fuel s hTreeParent hHubDevice index
        connectionInfoEx = Except.ok (f, s5) →
      f = Flow.next ∧ s5.tree = r.2.tree) ∧
    (∀ s5 : Session σ,
      EnumerateHub host (depth + 1)
          { hTreeParent := hTreeParent, HubName := extHubName,
            ConnectionInfo := some connectionInfoEx, ConfigDesc := configDesc,
            StringDescs := stringDescs, DeviceDesc := deviceDesc } s4 = Except.ok (true, s5) →
      EnumerateHubPorts.port host (EnumerateHub host (depth + 1)) fuel s hTreeParent
        hHubDevice index connectionInfoEx = Except.ok (Flow.next, s5) ∧
      ∃ (hItem : Nat) (info : USBEXTERNALHUBINFO) (rest : List TreeItem),
        s5.tree = s.tree ++
          { hItem := hItem, hTreeParent := hTreeParent,
            lParam := NodeInfo.ExternalHubInfo info, icon := Icon.HubIcon } :: rest ∧
        info.HubName = extHubName ∧ info.ConnectionInfo = connectionInfoEx ∧
        info.ConfigDesc = configDesc ∧ info.StringDescs = stringDescs) := by
  have hport : ∀ E : HubArguments → Session σ → Except Fault (Bool × Session σ),
      EnumerateHubPorts.port host E fuel s hTreeParent hHubDevice index connectionInfoEx =
        (match E
            { hTreeParent := hTreeParent, HubName := extHubName,
              ConnectionInfo := some connectionInfoEx, ConfigDesc := configDesc,
              StringDescs := stringDescs, DeviceDesc := deviceDesc } s4 with
         | Except.error e => Except.error e
         | Except.ok r =>
           if r.1 then Except.ok (Flow.next, r.2)
           else
             match stringDescs with
             | none =>
               Except.ok (Flow.next,
                 ((r.2.free extHubName.handle).free connectionInfoEx.handle).freeIf
                   (configDesc.map (fun c => c.handle)))
             | some head =>
               match EnumerateHubPorts.freeStringDescs fuel
                   (((r.2.free extHubName.handle).free connectionInfoEx.handle).freeIf
                     (configDesc.map (fun c => c.handle))) head with
               | Except.error e => Except.error e
               | Except.ok s5 => Except.ok (Flow.next, s5)) := by
    intro E
    unfold EnumerateHubPorts.port
    simp only [hdesc, hconfig, hstrings, hhub, if_true]
    unfold EnumerateHubPorts.hub
    simp only [hname]
    cases E _ s4 with
    | error e => rfl
    | ok r =>
      simp only []
      cases r.1 with
      | true => simp
      | false =>
        simp only [Bool.false_eq_true, if_false]
        cases stringDescs with
        | none => rfl
        | some head =>
          simp only []
  have htree : s4.tree = s.tree := by
    have h1 := Quiet_deviceDesc host (EnumerateHubPorts.count s connectionInfoEx.value)
      hHubDevice index connectionInfoEx.value
    rw [hdesc] at h1
    have h2 := Quiet_configDesc host s1 hHubDevice index connectionInfoEx.value
    rw [hconfig] at h2
    have h3 := Quiet_stringDescs host fuel s2 hHubDevice index connectionInfoEx.value
      configDesc _ hstrings
    have h4 := Quiet_getName host s3 NameRequest.nodeConnectionName hHubDevice index
    have h5 : GetExternalHubName host s3 hHubDevice index =
        getName host s3 NameRequest.nodeConnectionName hHubDevice index := rfl
    rw [← h5, hname] at h4
    rw [h4.tree, h3.tree, h2.tree, h1.tree,
      (EnumerateHubPorts_count_fields s connectionInfoEx.value).1]
  refine ⟨hport EnumerateHub0, htree, ?_, ?_⟩
  · intro r f s5 hr hp
    rw [hport EnumerateHub0, hr] at hp
    simp only [] at hp
    by_cases h1 : r.1 = true
    · rw [if_pos h1] at hp
      cases hp
      exact ⟨rfl, rfl⟩
    · rw [if_neg h1] at hp
      cases stringDescs with
      | none =>
        simp only [] at hp
        cases hp
        exact ⟨rfl, by simp⟩
      | some head =>
        simp only [] at hp
        cases hf : EnumerateHubPorts.freeStringDescs fuel
            (((r.2.free extHubName.handle).free connectionInfoEx.handle).freeIf
              (configDesc.map (fun c => c.handle))) head with
        | error e => rw [hf] at hp; cases hp
        | ok s6 =>
          rw [hf] at hp
          cases hp
          refine ⟨rfl, ?_⟩
          rw [(Quiet_freeStringDescs _ _ _ _ hf).tree]
          simp
  · intro s5 hrun
    refine ⟨?_, ?_⟩
    · rw [hport, hrun]
      rfl
    · obtain ⟨hub, hItem, hubInfo, hubCapsEx, hubCaps, rest, hrest⟩ :=
        EnumerateHub_true_tree host depth _ s4 s5 hrun
      refine ⟨hItem,
        { self := hub.info, HubInfo := ⟨hub.hubInfo, hubInfo⟩, HubName := extHubName,
          HubCaps := hubCaps, HubCapsEx := hubCapsEx, ConnectionInfo := connectionInfoEx,
          ConfigDesc := configDesc, StringDescs := stringDescs }, rest, ?_, rfl, rfl, rfl, rfl⟩
      rw [hrest, htree]
      rfl


/-- C18, as the code has it.  For a port whose connection information reports a hub, the
iteration asks `GetExternalHubName` for the name of the hub and adds no item of its own.
When a name is returned, the iteration is one call of `EnumerateHub` with the parent item,
this name, the connection information of the port, the configuration descriptor and the
string descriptors fetched for it and the device description, followed by the release of
these blocks when the call returns `FALSE`; it adds no item after the call either and goes
on with the next port; and when `EnumerateHub` returns `TRUE`, the item that it added under
the parent holds the external hub record with exactly this name, connection information,
configuration descriptor and string descriptors.  When `GetExternalHubName` returns `NULL`,
the iteration ends there, whatever routine stands in the place of `EnumerateHub`: that
routine is not called, no item is added, and the loop goes on with the next port. -/
theorem EnumerateHubPorts_hub_port {σ : Type} (host : Host σ)
    (EnumerateHub0 : HubArguments → Session σ → Except Fault (Bool × Session σ))
    (fuel depth : Nat) (s : Session σ) (hTreeParent hHubDevice index : Nat)
    (connectionInfoEx : Block USB_NODE_CONNECTION_INFORMATION_EX)
    (deviceDesc : Option String) (configDesc : Option HeapBuffer) (stringDescs : Option Nat)
    (name : Option (Block String)) (s1 s2 s3 s4 : Session σ)
    (hhub : connectionInfoEx.value.DeviceIsHub = true)
    (hdesc : EnumerateHubPorts.deviceDesc host
      (EnumerateHubPorts.count s connectionInfoEx.value) hHubDevice index
      connectionInfoEx.value = (deviceDesc, s1))
    (hconfig : EnumerateHubPorts.configDesc host s1 hHubDevice index
      connectionInfoEx.value = (configDesc, s2))
    (hstrings : EnumerateHubPorts.stringDescs host fuel s2 hHubDevice index
      connectionInfoEx.value configDesc = Except.ok (stringDescs, s3))
    (hname : GetExternalHubName host s3 hHubDevice index = (name, s4)) :
    s4.tree = s.tree ∧
    (∀ extHubName : Block String, name = some extHubName →
      EnumerateHubPorts.port host EnumerateHub0 fuel s hTreeParent hHubDevice index
          connectionInfoEx =
        (match EnumerateHub0
            { hTreeParent := hTreeParent, HubName := extHubName,
              ConnectionInfo := some connectionInfoEx, ConfigDesc := configDesc,
              StringDescs := stringDescs, DeviceDesc := deviceDesc } s4 with
         | Except.error e => Except.error e
         | Except.ok r =>
           if r.1 then Except.ok (Flow.next, r.2)
           else
             match stringDescs with
             | none =>
               Except.ok (Flow.next,
                 ((r.2.free extHubName.handle).free connectionInfoEx.handle).freeIf
                   (configDesc.map (fun c => c.handle)))
             | some head =>
               match EnumerateHubPorts.freeStringDescs fuel
                   (((r.2.free extHubName.handle).free connectionInfoEx.handle).freeIf
                     (configDesc.map (fun c => c.handle))) head with
               | Except.error e => Except.error e
               | Except.ok s5 => Except.ok (Flow.next, s5)) ∧
      (∀ (r : Bool × Session σ) (f : Flow) (s5 : Session σ),
        EnumerateHub0
            { hTreeParent := hTreeParent, HubName := extHubName,
              ConnectionInfo := some connectionInfoEx, ConfigDesc := configDesc,
              StringDescs := stringDescs, DeviceDesc := deviceDesc } s4 = Except.ok r →
        EnumerateHubPorts.port host EnumerateHub0 fuel s hTreeParent hHubDevice index
          connectionInfoEx = Except.ok (f, s5) →
        f = Flow.next ∧ s5.tree = r.2.tree) ∧
      (∀ s5 : Session σ,
        EnumerateHub host (depth + 1)
            { hTreeParent := hTreeParent, HubName := extHubName,
              ConnectionInfo := some connectionInfoEx, ConfigDesc := configDesc,
              StringDescs := stringDescs, DeviceDesc := deviceDesc } s4 =
          Except.ok (true, s5) →
        EnumerateHubPorts.port host (EnumerateHub host (depth + 1)) fuel s hTreeParent
          hHubDevice index connectionInfoEx = Except.ok (Flow.next, s5) ∧
        ∃ (hItem : Nat) (info : USBEXTERNALHUBINFO) (rest : List TreeItem),
          s5.tree = s.tree ++
            { hItem := hItem, hTreeParent := hTreeParent,
              lParam := NodeInfo.ExternalHubInfo info, icon := Icon.HubIcon } :: rest ∧
          info.HubName = extHubName ∧ info.ConnectionInfo = connectionInfoEx ∧
          info.ConfigDesc = configDesc ∧ info.StringDescs = stringDescs)) ∧
    (name = none →
      ∀ EnumerateHub1 : HubArguments → Session σ → Except Fault (Bool × Session σ),
        EnumerateHubPorts.port host EnumerateHub1 fuel s hTreeParent hHubDevice index
          connectionInfoEx = Except.ok (Flow.next, s4)) := by
  have htree : s4.tree = s.tree := by
    have h1 := Quiet_deviceDesc host (EnumerateHubPorts.count s connectionInfoEx.value)
      hHubDevice index connectionInfoEx.value
    rw [hdesc] at h1
    have h2 := Quiet_configDesc host s1 hHubDevice index connectionInfoEx.value
    rw [hconfig] at h2
    have h3 := Quiet_stringDescs host fuel s2 hHubDevice index connectionInfoEx.value
      configDesc _ hstrings
    have h4 := Quiet_getName host s3 NameRequest.nodeConnectionName hHubDevice index
    have h5 : GetExternalHubName host s3 hHubDevice index =
        getName host s3 NameRequest.nodeConnectionName hHubDevice index := rfl
    rw [← h5, hname] at h4
    rw [h4.tree, h3.tree, h2.tree, h1.tree,
      (EnumerateHubPorts_count_fields s connectionInfoEx.value).1]
  refine ⟨htree, ?_, ?_⟩
  · intro extHubName hsome
    subst hsome
    have h := EnumerateHubPorts_hub_named host EnumerateHub0 fuel depth s hTreeParent
      hHubDevice index connectionInfoEx deviceDesc configDesc stringDescs extHubName
      s1 s2 s3 s4 hhub hdesc hconfig hstrings hname
    exact ⟨h.1, h.2.2.1, h.2.2.2⟩
  · intro hnone EnumerateHub1
    subst hnone
    unfold EnumerateHubPorts.port
    simp only [hdesc, hconfig, hstrings, hhub, if_true]
    unfold EnumerateHubPorts.hub
    simp only [hname]

set_option maxRecDepth 8192 in
theorem EnumerateHubPorts_hub_port_witness :
    GetExternalHubName (namedHubHost 0 (fun _ => some hubPort)) hubProbedSession 7 1 =
      (some ⟨1, "Hub#2"⟩, hubNamedSession) ∧
    hubNamedSession.tree = (Session.start () false).tree ∧
    EnumerateHub (namedHubHost 0 (fun _ => some hubPort)) (0 + 1)
        { hTreeParent := 2, HubName := ⟨1, "Hub#2"⟩,
          ConnectionInfo := some ⟨50, hubPort⟩, ConfigDesc := none,
          StringDescs := none, DeviceDesc := none } hubNamedSession =
      Except.ok (true, hubAttachedSession) ∧
    (∀ s5 : Session Unit,
      EnumerateHub (namedHubHost 0 (fun _ => some hubPort)) (0 + 1)
          { hTreeParent := 2, HubName := ⟨1, "Hub#2"⟩,
            ConnectionInfo := some ⟨50, hubPort⟩, ConfigDesc := none,
            StringDescs := none, DeviceDesc := none } hubNamedSession = Except.ok (true, s5) →
      EnumerateHubPorts.port (namedHubHost 0 (fun _ => some hubPort))
        (EnumerateHub (namedHubHost 0 (fun _ => some hubPort)) (0 + 1)) 10
        (Session.start () false) 2 7 1 ⟨50, hubPort⟩ = Except.ok (Flow.next, s5) ∧
      ∃ (hItem : Nat) (info : USBEXTERNALHUBINFO) (rest : List TreeItem),
        s5.tree = (Session.start () false).tree ++
          { hItem := hItem, hTreeParent := 2,
            lParam := NodeInfo.ExternalHubInfo info, icon := Icon.HubIcon } :: rest ∧
        info.HubName = ⟨1, "Hub#2"⟩ ∧ info.ConnectionInfo = ⟨50, hubPort⟩ ∧
        info.ConfigDesc = none ∧ info.StringDescs = none) ∧
    GetExternalHubName (hubHost 1 (fun _ => some hubPort)) hubProbedSession 7 1 =
      (none, unnamedHubSession) ∧
    (∀ EnumerateHub1 : HubArguments → Session Unit → Except Fault (Bool × Session Unit),
      EnumerateHubPorts.port (hubHost 1 (fun _ => some hubPort)) EnumerateHub1 10
        (Session.start () false) 2 7 1 ⟨50, hubPort⟩ =
        Except.ok (Flow.next, unnamedHubSession)) :=
  ⟨by decide,
   (EnumerateHubPorts_hub_port (namedHubHost 0 (fun _ => some hubPort)) neverCalled 10 0
     (Session.start () false) 2 7 1 ⟨50, hubPort⟩ none none none (some ⟨1, "Hub#2"⟩)
     hubProbedSession hubProbedSession hubProbedSession hubNamedSession
     (by decide) (by decide) (by decide) (by decide) (by decide)).1,
   by decide,
   ((EnumerateHubPorts_hub_port (namedHubHost 0 (fun _ => some hubPort)) neverCalled 10 0
     (Session.start () false) 2 7 1 ⟨50, hubPort⟩ none none none (some ⟨1, "Hub#2"⟩)
     hubProbedSession hubProbedSession hubProbedSession hubNamedSession
     (by decide) (by decide) (by decide) (by decide) (by decide)).2.1 _ rfl).2.2,
   by decide,
   (EnumerateHubPorts_hub_port (hubHost 1 (fun _ => some hubPort)) neverCalled 10 0
     (Session.start () false) 2 7 1 ⟨50, hubPort⟩ none none none none
     hubProbedSession hubProbedSession hubProbedSession unnamedHubSession
     (by decide) (by decide) (by decide) (by decide) (by decide)).2.2 rfl⟩


set_option maxRecDepth 8192 in
/-- One closed run for C18: a port reports a hub, and the name of the hub cannot be
obtained.  The iteration ends without a call of `EnumerateHub` (the routine in its place
faults when it is called) and without an item for the port. -/
theorem hub_port_without_name :
    hubPort.DeviceIsHub = true ∧
    EnumerateHubPorts.port (hubHost 1 (fun _ => some hubPort)) neverCalled 10
        (Session.start () false) 2 7 1 ⟨50, hubPort⟩ =
      Except.ok (Flow.next, unnamedHubSession) ∧
    unnamedHubSession.tree = [] := by
  decide


/-! ## A hub without attached devices -/

theorem Session.alloc_of_allocOk {σ : Type} (host : Host σ)
    (halloc : ∀ e n, (host.allocOk e n).1 = true) (s : Session σ) (n : Nat) :
    (s.alloc host n).1 = some s.world.heapLog.length := by
  simp [Session.alloc, ALLOC, halloc]

theorem IOCTL_USB_GET_NODE_CONNECTION_INFORMATION_EX_empty {σ : Type} (host : Host σ)
    (hempty : ∀ e hHubDevice index, ∃ c, (host.connectionInformationEx e hHubDevice index).1 =
      some c ∧ c.ConnectionStatus = USB_CONNECTION_STATUS.NoDeviceConnected ∧
      c.DeviceIsHub = false) (s : Session σ) (hHubDevice index : Nat) :
    ∃ r, (IOCTL_USB_GET_NODE_CONNECTION_INFORMATION_EX host s hHubDevice index).1 = some r ∧
      r.ConnectionStatus = USB_CONNECTION_STATUS.NoDeviceConnected ∧ r.DeviceIsHub = false := by
  obtain ⟨c, hc, hst, hhub⟩ := hempty s.world.ext hHubDevice index
  refine ⟨{ c with PipeList := pipeList30 c.PipeList }, ?_, hst, hhub⟩
  simp [IOCTL_USB_GET_NODE_CONNECTION_INFORMATION_EX, Session.ask, hc]

theorem EnumerateHubPorts_port_empty {σ : Type} (host : Host σ)
    (EnumerateHub0 : HubArguments → Session σ → Except Fault (Bool × Session σ))
    (fuel : Nat) (s : Session σ) (hTreeParent hHubDevice index : Nat)
    (connectionInfoEx : Block USB_NODE_CONNECTION_INFORMATION_EX)
    (hst : connectionInfoEx.value.ConnectionStatus = USB_CONNECTION_STATUS.NoDeviceConnected)
    (hhub : connectionInfoEx.value.DeviceIsHub = false) :
    EnumerateHubPorts.port host EnumerateHub0 fuel s hTreeParent hHubDevice index
        connectionInfoEx =
      Except.ok (EnumerateHubPorts.device host s hTreeParent connectionInfoEx none none) := by
  have hcount : EnumerateHubPorts.count s connectionInfoEx.value = s := by
    simp [EnumerateHubPorts.count, hst, hhub]
  have hd : EnumerateHubPorts.deviceDesc host s hHubDevice index connectionInfoEx.value =
      (none, s) := by
    simp [EnumerateHubPorts.deviceDesc, hst]
  have hc : EnumerateHubPorts.configDesc host s hHubDevice index connectionInfoEx.value =
      (none, s) := by
    simp [EnumerateHubPorts.configDesc, hst]
  unfold EnumerateHubPorts.port
  simp only [hcount, hd, hc, EnumerateHubPorts.stringDescs, hhub]
  rfl

theorem EnumerateHubPorts_body_empty {σ : Type} (host : Host σ)
    (hempty : ∀ e hHubDevice index, ∃ c, (host.connectionInformationEx e hHubDevice index).1 =
      some c ∧ c.ConnectionStatus = USB_CONNECTION_STATUS.NoDeviceConnected ∧
      c.DeviceIsHub = false)
    (halloc : ∀ e n, (host.allocOk e n).1 = true)
    (hleaf : ∀ e hTreeParent, ∃ hItem, (host.addLeaf e hTreeParent).1 = some hItem)
    (EnumerateHub0 : HubArguments → Session σ → Except Fault (Bool × Session σ))
    (fuel hTreeParent hHubDevice index : Nat) (s : Session σ) :
    ∃ (hItem : Nat) (info : USBDEVICEINFO) (s1 : Session σ),
      EnumerateHubPorts.body host EnumerateHub0 fuel hTreeParent hHubDevice index s =
        Except.ok (Flow.next, s1) ∧
      s1.tree = s.tree ++
        [{ hItem := hItem, hTreeParent := hTreeParent, lParam := NodeInfo.DeviceInfo info,
           icon := Icon.NoDeviceIcon }] ∧
      info.ConnectionInfo.value.ConnectionStatus = USB_CONNECTION_STATUS.NoDeviceConnected ∧
      info.ConfigDesc = none ∧ info.StringDescs = none ∧
      s1.TotalDevicesConnected = s.TotalDevicesConnected ∧ s1.TotalHubs = s.TotalHubs := by
  have ha := Session.alloc_of_allocOk host halloc s
    (sizeof_USB_NODE_CONNECTION_INFORMATION_EX + sizeof_USB_PIPE_INFO * PIPE_LIST_ENTRIES)
  obtain ⟨r, hr, hst, hhub⟩ := IOCTL_USB_GET_NODE_CONNECTION_INFORMATION_EX_empty host hempty
    (s.alloc host
      (sizeof_USB_NODE_CONNECTION_INFORMATION_EX + sizeof_USB_PIPE_INFO * PIPE_LIST_ENTRIES)).2
    hHubDevice index
  have hci : EnumerateHubPorts.connectionInfo host s hHubDevice index =
      Except.ok (PortQuery.obtained ⟨s.world.heapLog.length, r⟩,
        (IOCTL_USB_GET_NODE_CONNECTION_INFORMATION_EX host (s.alloc host
          (sizeof_USB_NODE_CONNECTION_INFORMATION_EX +
            sizeof_USB_PIPE_INFO * PIPE_LIST_ENTRIES)).2 hHubDevice index).2) := by
    unfold EnumerateHubPorts.connectionInfo
    simp only [ha, hr]
  have o := EnumerateHubPorts_connectionInfo_outcome host s hHubDevice index
  rw [hci] at o
  generalize (IOCTL_USB_GET_NODE_CONNECTION_INFORMATION_EX host (s.alloc host
    (sizeof_USB_NODE_CONNECTION_INFORMATION_EX +
      sizeof_USB_PIPE_INFO * PIPE_LIST_ENTRIES)).2 hHubDevice index).2 = t at hci o
  have hfields : t.tree = s.tree ∧ t.TotalDevicesConnected = s.TotalDevicesConnected ∧
      t.TotalHubs = s.TotalHubs := by
    cases o with
    | extended p r0 _ hcalls htree hheap hdev hhubs => exact ⟨htree, hdev, hhubs⟩
    | legacy p q0 r0 _ hpipes hcalls htree hheap hdev hhubs => exact ⟨htree, hdev, hhubs⟩
  have hb := Session.alloc_of_allocOk host halloc t sizeof_USBDEVICEINFO
  obtain ⟨hItem, hItemEq⟩ := hleaf (t.alloc host sizeof_USBDEVICEINFO).2.world.ext hTreeParent
  have hres := AddLeaf_result host (t.alloc host sizeof_USBDEVICEINFO).2 hTreeParent
    (NodeInfo.DeviceInfo
      { self := t.world.heapLog.length, ConnectionInfo := ⟨s.world.heapLog.length, r⟩,
        ConfigDesc := none, StringDescs := none }) Icon.NoDeviceIcon
  rw [hItemEq] at hres
  have htr := AddLeaf_tree host (t.alloc host sizeof_USBDEVICEINFO).2 hTreeParent
    (NodeInfo.DeviceInfo
      { self := t.world.heapLog.length, ConnectionInfo := ⟨s.world.heapLog.length, r⟩,
        ConfigDesc := none, StringDescs := none }) Icon.NoDeviceIcon
  rw [hres] at htr
  have hicon : EnumerateHubPorts.icon r = Icon.NoDeviceIcon := by
    simp [EnumerateHubPorts.icon, hst]
  refine ⟨hItem,
    { self := t.world.heapLog.length, ConnectionInfo := ⟨s.world.heapLog.length, r⟩,
      ConfigDesc := none, StringDescs := none },
    (AddLeaf host (t.alloc host sizeof_USBDEVICEINFO).2 hTreeParent
      (NodeInfo.DeviceInfo
        { self := t.world.heapLog.length, ConnectionInfo := ⟨s.world.heapLog.length, r⟩,
          ConfigDesc := none, StringDescs := none }) Icon.NoDeviceIcon).2,
    ?_, ?_, hst, rfl, rfl, ?_, ?_⟩
  · unfold EnumerateHubPorts.body
    rw [hci]
    simp only []
    rw [EnumerateHubPorts_port_empty host EnumerateHub0 fuel t hTreeParent hHubDevice index _
      hst hhub]
    unfold EnumerateHubPorts.device
    simp only [hb, hicon]
  · rw [htr]
    simp [hfields.1]
  · rw [AddLeaf_TotalDevicesConnected, Session.alloc_TotalDevicesConnected, hfields.2.1]
  · rw [AddLeaf_TotalHubs, Session.alloc_TotalHubs, hfields.2.2]

theorem EnumerateHubPorts_loop_empty {σ : Type} (host : Host σ)
    (hempty : ∀ e hHubDevice index, ∃ c, (host.connectionInformationEx e hHubDevice index).1 =
      some c ∧ c.ConnectionStatus = USB_CONNECTION_STATUS.NoDeviceConnected ∧
      c.DeviceIsHub = false)
    (halloc : ∀ e n, (host.allocOk e n).1 = true)
    (hleaf : ∀ e hTreeParent, ∃ hItem, (host.addLeaf e hTreeParent).1 = some hItem)
    (EnumerateHub0 : HubArguments → Session σ → Except Fault (Bool × Session σ))
    (depth hTreeParent hHubDevice NumPorts : Nat) (hN : NumPorts + 1 < ULONG_RANGE) :
    ∀ (fuel index : Nat) (s : Session σ), index ≤ NumPorts + 1 →
      NumPorts + 1 - index ≤ fuel →
      ∃ (s1 : Session σ) (devices : List TreeItem),
        EnumerateHubPorts.loop
          (EnumerateHubPorts.body host EnumerateHub0 depth hTreeParent hHubDevice) NumPorts
          fuel index s = Except.ok s1 ∧
        s1.tree = s.tree ++ devices ∧ devices.length = NumPorts + 1 - index ∧
        (∀ d ∈ devices, isEmptyPortItem hTreeParent d = true) ∧
        s1.TotalDevicesConnected = s.TotalDevicesConnected ∧ s1.TotalHubs = s.TotalHubs := by
  intro fuel
  induction fuel with
  | zero =>
    intro index s hle hfuel
    have hidx : index = NumPorts + 1 := by omega
    refine ⟨s, [], ?_, by simp, by simp [hidx], by simp, rfl, rfl⟩
    rw [EnumerateHubPorts.loop, if_neg (by omega)]
  | succ n ih =>
    intro index s hle hfuel
    rw [EnumerateHubPorts.loop]
    by_cases hi : index ≤ NumPorts
    · rw [if_pos hi]
      obtain ⟨hItem, info, t, hbody, htree, hst, hcfg, hstr, hdev, hhubs⟩ :=
        EnumerateHubPorts_body_empty host hempty halloc hleaf EnumerateHub0 depth hTreeParent
          hHubDevice index s
      rw [hbody]
      simp only []
      have hmod : (index + 1) % ULONG_RANGE = index + 1 := Nat.mod_eq_of_lt (by omega)
      rw [hmod]
      obtain ⟨s1, devices, hrun, htree1, hlen, hall, hdev1, hhubs1⟩ :=
        ih (index + 1) t (by omega) (by omega)
      refine ⟨s1,
        { hItem := hItem, hTreeParent := hTreeParent, lParam := NodeInfo.DeviceInfo info,
          icon := Icon.NoDeviceIcon } :: devices,
        hrun, ?_, ?_, ?_, hdev1.trans hdev, hhubs1.trans hhubs⟩
      · rw [htree1, htree, List.append_assoc]
        rfl
      · simp only [List.length_cons, hlen]
        omega
      · intro d hd
        rcases List.mem_cons.mp hd with h | h
        · subst h
          simp [isEmptyPortItem, hst, hcfg, hstr]
        · exact hall d h
    · rw [if_neg hi]
      have hidx : index = NumPorts + 1 := by omega
      exact ⟨s, [], rfl, by simp, by simp [hidx], by simp, rfl, rfl⟩

/-- C17, as the code has it.  On a host where every port reports `NoDeviceConnected` and no
hub, and where no allocation and no insertion into the tree fails: when the hub is opened
and its item is attached, `EnumerateHub` returns `TRUE` and has added the item of the hub
followed by one device item for each of its ports, each under the item of the hub with the
icon `NoDeviceIcon`, without configuration descriptor and string descriptors; both
counters are the ones before the call. -/
theorem EnumerateHub_no_devices {σ : Type} (host : Host σ) (fuel : Nat) (args : HubArguments)
    (s : Session σ) (hub : HubRecords) (hItem NumPorts : Nat)
    (hempty : ∀ e hHubDevice index, ∃ c, (host.connectionInformationEx e hHubDevice index).1 =
      some c ∧ c.ConnectionStatus = USB_CONNECTION_STATUS.NoDeviceConnected ∧
      c.DeviceIsHub = false)
    (halloc : ∀ e n, (host.allocOk e n).1 = true)
    (hleaf : ∀ e hTreeParent, ∃ hItem, (host.addLeaf e hTreeParent).1 = some hItem)
    (hopen : (EnumerateHub.open host s args).1 = some hub)
    (hitem : (EnumerateHub.item host (EnumerateHub.open host s args).2 args hub).1 =
      some (hItem, NumPorts))
    (hfuel : NumPorts ≤ fuel) :
    ∃ (s1 : Session σ) (hubItem : TreeItem) (devices : List TreeItem),
      EnumerateHub host (fuel + 1) args s = Except.ok (true, s1) ∧
      s1.tree = s.tree ++ hubItem :: devices ∧
      hubItem.hItem = hItem ∧ hubItem.hTreeParent = args.hTreeParent ∧
      hubItem.icon = Icon.HubIcon ∧
      (args.ConnectionInfo = none → ∃ info, hubItem.lParam = NodeInfo.RootHubInfo info) ∧
      devices.length = NumPorts ∧
      (∀ d ∈ devices, isEmptyPortItem hItem d = true) ∧
      s1.TotalDevicesConnected = s.TotalDevicesConnected ∧ s1.TotalHubs = s.TotalHubs := by
  have o := EnumerateHub_open_outcome host s args
  have i := EnumerateHub_item_outcome host (EnumerateHub.open host s args).2 args hub
  have ho : (EnumerateHub.open host s args).2.tree = s.tree ∧
      (EnumerateHub.open host s args).2.TotalDevicesConnected = s.TotalDevicesConnected ∧
      (EnumerateHub.open host s args).2.TotalHubs = s.TotalHubs := by
    revert hopen o
    generalize EnumerateHub.open host s args = op
    intro hopen o
    cases o with
    | failed => cases hopen
    | opened hub0 s1 nInfo nName hinfo hhubInfo hhubCapsEx hhubCaps hheap hcalls htree
        hdev hhubs => exact ⟨htree, hdev, hhubs⟩
  rw [EnumerateHub_succ, hopen]
  simp only []
  revert hitem i
  generalize EnumerateHub.item host (EnumerateHub.open host s args).2 args hub = it
  intro hitem i
  cases i with
  | failed s2 a b htree hdev hhubs hcalls hheap => cases hitem
  | attached hItem0 hubInfo s2 htree hdev hhubs hcalls hheap =>
    simp only [Option.some.injEq, Prod.mk.injEq] at hitem
    obtain ⟨h1, h2⟩ := hitem
    subst h1
    have hN : NumPorts + 1 < ULONG_RANGE := by
      have : hubInfo.bNumberOfPorts % UCHAR_RANGE < UCHAR_RANGE :=
        Nat.mod_lt _ (by decide)
      rw [h2] at this
      simp only [UCHAR_RANGE] at this
      simp only [ULONG_RANGE]
      omega
    obtain ⟨s3, devices, hrun, htree3, hlen, hall, hdev3, hhubs3⟩ :=
      EnumerateHubPorts_loop_empty host hempty halloc hleaf (EnumerateHub host fuel) fuel
        hItem0 hub.hHubDevice NumPorts hN fuel 1 s2 (by omega) (by omega)
    simp only []
    unfold EnumerateHubPorts
    rw [h2, hrun]
    refine ⟨CloseHandle host s3 hub.hHubDevice,
      { hItem := hItem0, hTreeParent := args.hTreeParent,
        lParam := EnumerateHub.node args hub hubInfo
          (EnumerateHub.hubCapsEx host (EnumerateHub.open host s args).2 hub).1
          (EnumerateHub.hubCaps host
            (EnumerateHub.hubCapsEx host (EnumerateHub.open host s args).2 hub).2 hub).1,
        icon := Icon.HubIcon },
      devices, rfl, ?_, rfl, rfl, rfl, ?_, ?_, hall, ?_, ?_⟩
    · rw [CloseHandle_tree, htree3, htree, ho.1, List.append_assoc]
      rfl
    · intro hnone
      simp only [EnumerateHub.node, hnone]
      exact ⟨_, rfl⟩
    · rw [hlen]
      omega
    · rw [CloseHandle_TotalDevicesConnected, hdev3, hdev, ho.2.1]
    · rw [CloseHandle_TotalHubs, hhubs3, hhubs, ho.2.2]

set_option maxRecDepth 16384 in
theorem EnumerateHub_no_devices_witness :
    ∃ (s1 : Session Unit) (hubItem : TreeItem) (devices : List TreeItem),
      EnumerateHub (hubHost 2 (fun _ => some emptyPort)) (5 + 1) rootHubArguments
        (Session.start () true) = Except.ok (true, s1) ∧
      s1.tree = (Session.start () true).tree ++ hubItem :: devices ∧
      hubItem.hItem = 2 ∧ hubItem.hTreeParent = rootHubArguments.hTreeParent ∧
      hubItem.icon = Icon.HubIcon ∧
      (rootHubArguments.ConnectionInfo = none →
        ∃ info, hubItem.lParam = NodeInfo.RootHubInfo info) ∧
      devices.length = 2 ∧
      (∀ d ∈ devices, isEmptyPortItem 2 d = true) ∧
      s1.TotalDevicesConnected = (Session.start () true).TotalDevicesConnected ∧
      s1.TotalHubs = (Session.start () true).TotalHubs :=
  EnumerateHub_no_devices (hubHost 2 (fun _ => some emptyPort)) 5 rootHubArguments
    (Session.start () true)
    { info := 0, hubInfo := 1, hubCapsEx := 2, hubCaps := 3, hHubDevice := 7 } 2 2
    (fun _ _ _ => ⟨emptyPort, rfl, rfl, rfl⟩) (fun _ _ => rfl)
    (fun _ hTreeParent => ⟨hTreeParent + 1, rfl⟩) (by decide) (by decide) (by decide)

set_option maxRecDepth 16384 in
/-- One closed run for C17: a root hub with two ports, both of which report
`NoDeviceConnected`.  `EnumerateHub` adds the item of the hub and, under it, one device
item with the icon `NoDeviceIcon` for each port; the counter of connected devices stays
0. -/
theorem empty_ports_get_device_items :
    (match EnumerateHub (hubHost 2 (fun _ => some emptyPort)) 6 rootHubArguments
        (Session.start () true) with
     | Except.ok r =>
       some (r.1, r.2.tree.map (fun item => (item.hTreeParent, item.icon)),
         (r.2.tree.filter (isEmptyPortItem 2)).length, r.2.TotalDevicesConnected)
     | Except.error _ => none) =
      some (true, [(1, Icon.HubIcon), (2, Icon.NoDeviceIcon), (2, Icon.NoDeviceIcon)], 2, 0) := by
  decide

/-! ## The counters of a pass -/

theorem Tally_EnumerateHostController {σ : Type} (host : Host σ) (fuel hTreeParent hHCDev : Nat)
    (s s1 : Session σ)
    (hrun : EnumerateHostController host fuel hTreeParent hHCDev s = Except.ok s1) :
    Tally s s1 := by
  unfold EnumerateHostController at hrun
  simp only [] at hrun
  have ha := Quiet_alloc host s sizeof_USBHOSTCONTROLLERINFO
  split at hrun
  · cases hrun
    exact Tally.of_Quiet ha
  · rename_i hcInfo _
    have hk := ha.followedBy (Quiet_getName host (s.alloc host sizeof_USBHOSTCONTROLLERINFO).2
      NameRequest.hcdDriverKeyName hHCDev 0)
    change Quiet s (GetHCDDriverKeyName host (s.alloc host sizeof_USBHOSTCONTROLLERINFO).2
      hHCDev).2 at hk
    generalize GetHCDDriverKeyName host (s.alloc host sizeof_USBHOSTCONTROLLERINFO).2
      hHCDev = k at hrun hk
    split at hrun
    · cases hrun
      exact Tally.of_Quiet (hk.followedBy (Quiet_free _ _))
    · rename_i driverKeyName _
      split at hrun
      · cases hrun
      · cases hrun
        exact Tally.of_Quiet ((hk.followedBy (Quiet_free _ _)).followedBy (Quiet_free _ _))
      · have hi := hk.followedBy (Quiet_DriverNameToDeviceDesc host k.2 driverKeyName.value true)
        have hd := hi.followedBy (Quiet_DriverNameToDeviceDesc host
          (DriverNameToDeviceDesc host k.2 driverKeyName.value true).2 driverKeyName.value false)
        have hl := (Tally.of_Quiet hd).append (Tally_AddLeaf host _ hTreeParent
          (NodeInfo.HostControllerInfo (EnumerateHostController.record host hcInfo driverKeyName
            (DriverNameToDeviceDesc host k.2 driverKeyName.value true).1)) Icon.GoodDeviceIcon)
        generalize AddLeaf host _ hTreeParent
          (NodeInfo.HostControllerInfo (EnumerateHostController.record host hcInfo driverKeyName
            (DriverNameToDeviceDesc host k.2 driverKeyName.value true).1))
          Icon.GoodDeviceIcon = l at hrun hl
        split at hrun
        · cases hrun
          exact hl.append (Tally.of_Quiet ((Quiet_free _ _).followedBy (Quiet_free _ _)))
        · rename_i hHCItem _
          have hlist : Tally l.2 { l.2 with
              EnumeratedHCList := l.2.EnumeratedHCList ++
                [EnumerateHostController.record host hcInfo driverKeyName
                  (DriverNameToDeviceDesc host k.2 driverKeyName.value true).1] } :=
            Tally.of_steps ⟨[], by simp⟩ ⟨[], by simp⟩ rfl rfl
          have hr := (hl.append hlist).append (Tally.of_Quiet (Quiet_getName host _
            NameRequest.rootHubName hHCDev 0))
          change Tally s (GetRootHubName host _ hHCDev).2 at hr
          generalize GetRootHubName host _ hHCDev = r at hrun hr
          split at hrun
          · cases hrun
            exact hr
          · rename_i rootHubName _
            split at hrun
            · cases hrun
            · rename_i h hh
              have hhub := hr.append (Tally_EnumerateHub host fuel _ _ _ hh)
              split at hrun
              · cases hrun
                exact hhub
              · cases hrun
                exact hhub.append (Tally.of_Quiet (Quiet_free _ _))

theorem Tally_numbered {σ : Type} (host : Host σ) (fuel hTreeParent : Nat) :
    ∀ (n HCNum : Nat) (s s1 : Session σ),
      EnumerateHostControllers.numbered host fuel hTreeParent n HCNum s = Except.ok s1 →
      Tally s s1 := by
  intro n
  induction n with
  | zero =>
    intro HCNum s s1 h
    rw [EnumerateHostControllers.numbered] at h
    split_ifs at h
    cases h
    exact Tally.unchanged s
  | succ n ih =>
    intro HCNum s s1 h
    rw [EnumerateHostControllers.numbered] at h
    split_ifs at h
    · simp only [] at h
      have hf := Quiet_CreateFile host s ("\\\\.\\HCD" ++ toString HCNum)
      generalize CreateFile host s ("\\\\.\\HCD" ++ toString HCNum) = f at h hf
      split at h
      · exact (Tally.of_Quiet hf).append (ih _ _ _ h)
      · rename_i hHCDev _
        split at h
        · cases h
        · rename_i t ht
          exact (((Tally.of_Quiet hf).append
            (Tally_EnumerateHostController host fuel hTreeParent hHCDev _ _ ht)).append
            (Tally.of_Quiet (Quiet_CloseHandle host t hHCDev))).append (ih _ _ _ h)
    · cases h
      exact Tally.unchanged s

theorem Tally_interfaces {σ : Type} (host : Host σ) (fuel hTreeParent deviceInfo : Nat) :
    ∀ (n index : Nat) (s s1 : Session σ),
      EnumerateHostControllers.interfaces host fuel hTreeParent deviceInfo n index s =
        Except.ok s1 → Tally s s1 := by
  intro n
  induction n with
  | zero =>
    intro index s s1 h
    rw [EnumerateHostControllers.interfaces] at h
    cases h
  | succ n ih =>
    intro index s s1 h
    rw [EnumerateHostControllers.interfaces] at h
    simp only [] at h
    have he := Quiet_ask s (fun x => host.setupDiEnumDeviceInterfaces x deviceInfo index)
    generalize s.ask (fun x => host.setupDiEnumDeviceInterfaces x deviceInfo index) = e at h he
    split_ifs at h
    · have hl := he.followedBy (Quiet_ask e.2
        (fun x => host.setupDiGetDeviceInterfaceDetail x deviceInfo index 0))
      generalize e.2.ask (fun x => host.setupDiGetDeviceInterfaceDetail x deviceInfo index 0) =
        l at h hl
      have hg := hl.followedBy (Quiet_alloc host l.2 (l.1.1 % ULONG_RANGE))
      generalize l.2.alloc host (l.1.1 % ULONG_RANGE) = g at h hg
      split at h
      · cases h
      · rename_i deviceDetailData _
        have hd := hg.followedBy (Quiet_ask g.2 (fun x =>
          host.setupDiGetDeviceInterfaceDetail x deviceInfo index (l.1.1 % ULONG_RANGE)))
        generalize g.2.ask (fun x =>
          host.setupDiGetDeviceInterfaceDetail x deviceInfo index (l.1.1 % ULONG_RANGE)) =
          d at h hd
        have hf := hd.followedBy (Quiet_CreateFile host d.2 d.1.2)
        generalize CreateFile host d.2 d.1.2 = f at h hf
        split at h
        · exact (Tally.of_Quiet (hf.followedBy (Quiet_free _ _))).append (ih _ _ _ h)
        · rename_i hHCDev _
          split at h
          · cases h
          · rename_i t ht
            exact (((Tally.of_Quiet hf).append
              (Tally_EnumerateHostController host fuel hTreeParent hHCDev _ _ ht)).append
              (Tally.of_Quiet ((Quiet_CloseHandle host t hHCDev).followedBy
                (Quiet_free _ _)))).append (ih _ _ _ h)
    · cases h
      exact Tally.of_Quiet he


/-- C15.  `EnumerateHostControllers` sets both counters to 0 before anything else: a pass
does the same from any values of the counters as from 0.  For a port whose connection
information was obtained, the counter of connected devices goes up by one iff the status
is `DeviceConnected` and the counter of hubs by one iff the port reports a hub (both are
32-bit variables).  At the end of a pass the value written to `*DevicesConnected` is the
counter of connected devices, which is the number of the ports in the calls of the pass
whose connection information was obtained with the status `DeviceConnected`, as a 32-bit
value; the counter of hubs is the number of those that report a hub. -/
theorem EnumerateHostControllers_counters {σ : Type} (host : Host σ) (fuel hTreeParent : Nat)
    (s s1 : Session σ) (n : Nat)
    (hrun : EnumerateHostControllers host fuel hTreeParent s = Except.ok (n, s1)) :
    EnumerateHostControllers host fuel hTreeParent s =
      EnumerateHostControllers host fuel hTreeParent
        { s with TotalDevicesConnected := 0, TotalHubs := 0 } ∧
    (∀ (t : Session σ) (c : USB_NODE_CONNECTION_INFORMATION_EX),
      (EnumerateHubPorts.count t c).TotalDevicesConnected =
        (if c.ConnectionStatus = USB_CONNECTION_STATUS.DeviceConnected then
          (t.TotalDevicesConnected + 1) % ULONG_RANGE else t.TotalDevicesConnected) ∧
      (EnumerateHubPorts.count t c).TotalHubs =
        (if c.DeviceIsHub = true then (t.TotalHubs + 1) % ULONG_RANGE else t.TotalHubs)) ∧
    ∃ new : List OsCall, s1.calls = s.calls ++ new ∧
      n = s1.TotalDevicesConnected ∧
      s1.TotalDevicesConnected = connectedPorts new % ULONG_RANGE ∧
      s1.TotalHubs = hubPorts new % ULONG_RANGE ∧
      (connectedPorts new < ULONG_RANGE → n = connectedPorts new) := by
  refine ⟨rfl, ?_, ?_⟩
  · intro t c
    exact ⟨(EnumerateHubPorts_count_fields t c).2.2.2.2.2.1,
      (EnumerateHubPorts_count_fields t c).2.2.2.2.2.2⟩
  · have key : Tally { s with TotalDevicesConnected := 0, TotalHubs := 0 } s1 ∧
        n = s1.TotalDevicesConnected := by
      unfold EnumerateHostControllers at hrun
      split at hrun
      · cases hrun
      · rename_i t ht
        have h1 := Tally_numbered host fuel hTreeParent _ _ _ _ ht
        simp only [] at hrun
        have h2 := h1.append (Tally.of_Quiet (Quiet_ask t host.setupDiGetClassDevs))
        generalize t.ask host.setupDiGetClassDevs = c at hrun h2
        split at hrun
        · cases hrun
          exact ⟨h2, rfl⟩
        · rename_i deviceInfo _
          split at hrun
          · cases hrun
          · rename_i t2 ht2
            cases hrun
            exact ⟨(h2.append (Tally_interfaces host fuel hTreeParent deviceInfo _ _ _ _
              ht2)).append (Tally.of_Quiet (Quiet_ask t2 _)), rfl⟩
    obtain ⟨T, hn⟩ := key
    obtain ⟨new, hcalls, hdev, hhubs⟩ := T.calls
    have hd := T.devices (by simp [ULONG_RANGE])
    have hh := T.hubs (by simp [ULONG_RANGE])
    simp only [Nat.zero_add] at hdev hhubs
    rw [Nat.mod_eq_of_lt hd] at hdev
    rw [Nat.mod_eq_of_lt hh] at hhubs
    refine ⟨new, hcalls, hn, hdev, hhubs, ?_⟩
    intro hlt
    rw [hn, hdev, Nat.mod_eq_of_lt hlt]

set_option maxRecDepth 100000 in
theorem EnumerateHostControllers_counters_witness :
    EnumerateHostControllers (controllerHost (some pciDeviceId) (fun _ => true) 0) 20 0
      { Session.start () false with TotalDevicesConnected := 5, TotalHubs := 5 } =
      Except.ok (1, passSession) ∧
    ∃ new : List OsCall,
      passSession.calls =
        ({ Session.start () false with TotalDevicesConnected := 5, TotalHubs := 5 } :
          Session Unit).calls ++ new ∧
      1 = passSession.TotalDevicesConnected ∧
      passSession.TotalDevicesConnected = connectedPorts new % ULONG_RANGE ∧
      passSession.TotalHubs = hubPorts new % ULONG_RANGE ∧
      (connectedPorts new < ULONG_RANGE → 1 = connectedPorts new) :=
  ⟨by decide,
   (EnumerateHostControllers_counters (controllerHost (some pciDeviceId) (fun _ => true) 0)
     20 0 { Session.start () false with TotalDevicesConnected := 5, TotalHubs := 5 }
     passSession 1 (by decide)).2.2⟩

/-! ## The icon of a device item -/

theorem EnumerateHubPorts_icon_cases (c : USB_NODE_CONNECTION_INFORMATION_EX) :
    (EnumerateHubPorts.icon c = Icon.NoDeviceIcon ↔
      c.ConnectionStatus = USB_CONNECTION_STATUS.NoDeviceConnected) ∧
    (EnumerateHubPorts.icon c = Icon.GoodDeviceIcon ↔
      c.ConnectionStatus ≠ USB_CONNECTION_STATUS.NoDeviceConnected ∧
      c.CurrentConfigurationValue ≠ 0) ∧
    (EnumerateHubPorts.icon c = Icon.BadDeviceIcon ↔
      c.ConnectionStatus ≠ USB_CONNECTION_STATUS.NoDeviceConnected ∧
      c.CurrentConfigurationValue = 0) := by
  unfold EnumerateHubPorts.icon
  by_cases h1 : c.ConnectionStatus = USB_CONNECTION_STATUS.NoDeviceConnected
  · simp [h1]
  · by_cases h2 : c.CurrentConfigurationValue = 0
    · simp [h1, h2]
    · simp [h1, h2]

/-- C27.  For a port that reports no hub and whose connection information was obtained,
the iteration adds at most one item, under the item of the hub: the device item, whose
record holds the connection information of the port.  It is added unless the allocation of
the record or `AddLeaf` fails.  Its icon is `NoDeviceIcon` iff the status is
`NoDeviceConnected`; otherwise it is `GoodDeviceIcon` iff `CurrentConfigurationValue` is
not 0, and `BadDeviceIcon` iff it is 0. -/
theorem EnumerateHubPorts_device_icon {σ : Type} (host : Host σ)
    (EnumerateHub0 : HubArguments → Session σ → Except Fault (Bool × Session σ))
    (fuel : Nat) (s : Session σ) (hTreeParent hHubDevice index : Nat)
    (connectionInfoEx : Block USB_NODE_CONNECTION_INFORMATION_EX) (r : Flow × Session σ)
    (hhub : connectionInfoEx.value.DeviceIsHub = false)
    (hrun : EnumerateHubPorts.port host EnumerateHub0 fuel s hTreeParent hHubDevice index
      connectionInfoEx = Except.ok r) :
    (∃ (t : Session σ) (configDesc : Option HeapBuffer) (stringDescs : Option Nat),
      t.tree = s.tree ∧
      r = EnumerateHubPorts.device host t hTreeParent connectionInfoEx configDesc stringDescs ∧
      ((t.alloc host sizeof_USBDEVICEINFO).1 = none → r.1 = Flow.leave ∧ r.2.tree = s.tree) ∧
      (∀ info, (t.alloc host sizeof_USBDEVICEINFO).1 = some info →
        r.1 = Flow.next ∧
        r.2.tree = s.tree ++
          (match (host.addLeaf (t.alloc host sizeof_USBDEVICEINFO).2.world.ext
              hTreeParent).1 with
           | none => []
           | some hItem =>
             [{ hItem := hItem, hTreeParent := hTreeParent,
                lParam := NodeInfo.DeviceInfo
                  { self := info, ConnectionInfo := connectionInfoEx,
                    ConfigDesc := configDesc, StringDescs := stringDescs },
                icon := EnumerateHubPorts.icon connectionInfoEx.value }]))) ∧
    (EnumerateHubPorts.icon connectionInfoEx.value = Icon.NoDeviceIcon ↔
      connectionInfoEx.value.ConnectionStatus = USB_CONNECTION_STATUS.NoDeviceConnected) ∧
    (EnumerateHubPorts.icon connectionInfoEx.value = Icon.GoodDeviceIcon ↔
      connectionInfoEx.value.ConnectionStatus ≠ USB_CONNECTION_STATUS.NoDeviceConnected ∧
      connectionInfoEx.value.CurrentConfigurationValue ≠ 0) ∧
    (EnumerateHubPorts.icon connectionInfoEx.value = Icon.BadDeviceIcon ↔
      connectionInfoEx.value.ConnectionStatus ≠ USB_CONNECTION_STATUS.NoDeviceConnected ∧
      connectionInfoEx.value.CurrentConfigurationValue = 0) := by
  refine ⟨?_, EnumerateHubPorts_icon_cases connectionInfoEx.value⟩
  unfold EnumerateHubPorts.port at hrun
  simp only [hhub] at hrun
  have h1 := Quiet_deviceDesc host (EnumerateHubPorts.count s connectionInfoEx.value)
    hHubDevice index connectionInfoEx.value
  have h2 := h1.followedBy (Quiet_configDesc host _ hHubDevice index connectionInfoEx.value)
  split at hrun
  · cases hrun
  · rename_i t ht
    have h3 := h2.followedBy (Quiet_stringDescs host fuel _ _ _ _ _ t ht)
    have htree : t.2.tree = s.tree := by
      rw [h3.tree, (EnumerateHubPorts_count_fields s connectionInfoEx.value).1]
    simp only [Bool.false_eq_true, if_false, Except.ok.injEq] at hrun
    refine ⟨t.2, _, t.1, htree, hrun.symm, ?_, ?_⟩
    · intro hnone
      rw [← hrun]
      unfold EnumerateHubPorts.device
      simp only [hnone, true_and]
      rw [Session.free_tree, Session.freeIf_tree, Session.alloc_tree, htree]
    · intro info hsome
      rw [← hrun]
      unfold EnumerateHubPorts.device
      simp only [hsome, true_and]
      rw [AddLeaf_tree, AddLeaf_result, Session.alloc_tree, htree]
      try rfl

set_option maxRecDepth 8192 in
theorem EnumerateHubPorts_device_icon_witness :
    EnumerateHubPorts.port plainDeviceHost neverCalled 10 (Session.start () false) 2 7 1
      ⟨50, plainPort⟩ =
      Except.ok (EnumerateHubPorts.device plainDeviceHost
        (EnumerateHubPorts.deviceDesc plainDeviceHost
          (EnumerateHubPorts.count (Session.start () false) plainPort) 7 1 plainPort).2
        2 ⟨50, plainPort⟩ none none) ∧
    (EnumerateHubPorts.device plainDeviceHost
        (EnumerateHubPorts.deviceDesc plainDeviceHost
          (EnumerateHubPorts.count (Session.start () false) plainPort) 7 1 plainPort).2
        2 ⟨50, plainPort⟩ none none).2.tree =
      [{ hItem := 3, hTreeParent := 2,
         lParam := NodeInfo.DeviceInfo
           { self := 0, ConnectionInfo := ⟨50, plainPort⟩, ConfigDesc := none,
             StringDescs := none },
         icon := Icon.GoodDeviceIcon }] ∧
    (EnumerateHubPorts.icon plainPort = Icon.NoDeviceIcon ↔
      plainPort.ConnectionStatus = USB_CONNECTION_STATUS.NoDeviceConnected) ∧
    (EnumerateHubPorts.icon plainPort = Icon.GoodDeviceIcon ↔
      plainPort.ConnectionStatus ≠ USB_CONNECTION_STATUS.NoDeviceConnected ∧
      plainPort.CurrentConfigurationValue ≠ 0) ∧
    (EnumerateHubPorts.icon plainPort = Icon.BadDeviceIcon ↔
      plainPort.ConnectionStatus ≠ USB_CONNECTION_STATUS.NoDeviceConnected ∧
      plainPort.CurrentConfigurationValue = 0) :=
  ⟨by decide, by decide,
   (EnumerateHubPorts_device_icon plainDeviceHost neverCalled 10 (Session.start () false) 2 7 1
     ⟨50, plainPort⟩ _ (by decide) (by decide : _ = Except.ok (EnumerateHubPorts.device
        plainDeviceHost
        (EnumerateHubPorts.deviceDesc plainDeviceHost
          (EnumerateHubPorts.count (Session.start () false) plainPort) 7 1 plainPort).2
        2 ⟨50, plainPort⟩ none none))).2⟩

/-! ## CleanupItem -/

theorem IsChain_free {σ : Type} (s : Session σ) (p : Nat) :
    ∀ (L : List (Nat × StringRecord)) (head : Option Nat),
      IsChain s.world head L → IsChain (s.free p).world head L := by
  intro L
  induction L with
  | nil => intro head h; exact h
  | cons e rest ih =>
    intro head h
    obtain ⟨h1, n, hn, hr, hrest⟩ := h
    exact ⟨h1, n, hn, hr, ih _ hrest⟩

theorem CleanupItem_freeStringDescs_chain {σ : Type} :
    ∀ (L : List (Nat × StringRecord)) (fuel head : Nat) (s : Session σ),
      IsChain s.world (some head) L → L.length ≤ fuel →
      ∃ s1, CleanupItem.freeStringDescs fuel s head = Except.ok s1 ∧
        s1.world.heapLog = s.world.heapLog ++ (L.map Prod.fst).map HeapEvent.free ∧
        s1.tree = s.tree ∧ s1.calls = s.calls ∧
        s1.EnumeratedHCList = s.EnumeratedHCList ∧
        s1.TotalDevicesConnected = s.TotalDevicesConnected ∧ s1.TotalHubs = s.TotalHubs := by
  intro L
  induction L with
  | nil =>
    intro fuel head s h
    cases h
  | cons e rest ih =>
    intro fuel head s h hfuel
    obtain ⟨h1, n, hn, hr, hrest⟩ := h
    cases h1
    cases fuel with
    | zero => simp at hfuel
    | succ f =>
      rw [CleanupItem.freeStringDescs, hn]
      simp only []
      cases hnext : n.Next with
      | none =>
        rw [hnext] at hrest
        cases rest with
        | nil => exact ⟨_, rfl, by simp, rfl, rfl, rfl, rfl, rfl⟩
        | cons e2 rest2 => cases hrest.1
      | some next =>
        rw [hnext] at hrest
        simp only []
        obtain ⟨s1, hrun, hheap, htree, hcalls, hlist, hdev, hhubs⟩ :=
          ih f next (s.free e.1) (IsChain_free s e.1 rest _ hrest)
            (by simp only [List.length_cons] at hfuel; omega)
        exact ⟨s1, hrun, by rw [hheap]; simp, htree, hcalls, hlist, hdev, hhubs⟩

theorem IsChain_freeIf {σ : Type} (s : Session σ) (p : Option Nat)
    (L : List (Nat × StringRecord)) (head : Option Nat) (h : IsChain s.world head L) :
    IsChain (s.freeIf p).world head L := by
  cases p with
  | none => exact h
  | some q => exact IsChain_free s q L head h

theorem CleanupItem_chain_stage {σ : Type} (fuel : Nat) (s : Session σ) (p : Option Nat)
    (L : List (Nat × StringRecord)) (hchain : IsChain s.world p L) (hfuel : L.length ≤ fuel) :
    ∃ s1, (match p with
        | none => Except.ok s
        | some head => CleanupItem.freeStringDescs fuel s head) = Except.ok s1 ∧
      s1.world.heapLog = s.world.heapLog ++ (L.map Prod.fst).map HeapEvent.free ∧
      s1.tree = s.tree ∧ s1.calls = s.calls ∧
      s1.EnumeratedHCList = s.EnumeratedHCList ∧
      s1.TotalDevicesConnected = s.TotalDevicesConnected ∧ s1.TotalHubs = s.TotalHubs := by
  cases p with
  | none =>
    cases L with
    | nil => exact ⟨s, rfl, by simp, rfl, rfl, rfl, rfl, rfl⟩
    | cons e rest => cases hchain.1
  | some head => exact CleanupItem_freeStringDescs_chain L fuel head s hchain hfuel

theorem ownedBlocks_getLast (chain : List Nat) (info : NodeInfo) :
    (ownedBlocks chain info).getLast? = some info.self := by
  have h2 : ∀ (l : List Nat) (a b : Nat), (l ++ [a, b]).getLast? = some b := by
    intro l a b
    simp
  cases info with
  | HostControllerInfo hc => exact List.getLast?_concat _
  | RootHubInfo hub => exact List.getLast?_concat _
  | ExternalHubInfo hub => exact h2 _ _ _
  | DeviceInfo dev => exact h2 _ _ _

theorem ownedBlocks_eq (chain : List Nat) (info : NodeInfo)
    (hchain : (CleanupItem.pointers info).StringDescs = none → chain = []) :
    freeEvents (CleanupItem.pointers info).DriverKey ++
      freeEvents (CleanupItem.pointers info).HubInfo ++
      freeEvents (CleanupItem.pointers info).HubName ++
      freeEvents (CleanupItem.pointers info).HubCaps ++
      freeEvents (CleanupItem.pointers info).HubCapsEx ++
      freeEvents (CleanupItem.pointers info).ConfigDesc ++
      chain.map HeapEvent.free ++
      freeEvents (CleanupItem.pointers info).ConnectionInfoEx ++
      [HeapEvent.free info.self] = (ownedBlocks chain info).map HeapEvent.free := by
  cases info with
  | HostControllerInfo hc =>
    have := hchain rfl
    subst this
    cases h : hc.DriverKey <;>
      simp [CleanupItem.pointers, ownedBlocks, NodeInfo.self, h, freeEvents]
  | RootHubInfo hub =>
    have := hchain rfl
    subst this
    cases h1 : hub.HubCaps <;> cases h2 : hub.HubCapsEx <;>
      simp [CleanupItem.pointers, ownedBlocks, NodeInfo.self, h1, h2, freeEvents]
  | ExternalHubInfo hub =>
    cases h1 : hub.HubCaps <;> cases h2 : hub.HubCapsEx <;> cases h3 : hub.ConfigDesc <;>
      simp [CleanupItem.pointers, ownedBlocks, NodeInfo.self, h1, h2, h3, freeEvents]
  | DeviceInfo dev =>
    cases h3 : dev.ConfigDesc <;>
      simp [CleanupItem.pointers, ownedBlocks, NodeInfo.self, h3, freeEvents]

/-- C22.  When the item has a node record and the string descriptor chain of the record
consists of the nodes `L`, `CleanupItem` ends and the heap events that it adds are the
releases of the blocks that the record owns, each released once, in the order of
`ownedBlocks`, the block of the record last: for a host controller the driver key; for a
root hub the hub information, the hub name, the capabilities and the extended capabilities;
for an external hub these four, the configuration descriptor, every node of the chain and
the connection information; for a device the configuration descriptor, every node of the
chain and the connection information.  Fields that are `NULL` are skipped. -/
theorem CleanupItem_releases {σ : Type} (fuel : Nat) (s : Session σ) (hTreeItem : Nat)
    (info : NodeInfo) (L : List (Nat × StringRecord))
    (hitem : TreeView_GetItem s hTreeItem = some info)
    (hchain : IsChain s.world (CleanupItem.pointers info).StringDescs L)
    (hfuel : L.length ≤ fuel) :
    ∃ s1 : Session σ, CleanupItem fuel s hTreeItem = Except.ok s1 ∧
      s1.world.heapLog = s.world.heapLog ++
        (ownedBlocks (L.map Prod.fst) info).map HeapEvent.free ∧
      (ownedBlocks (L.map Prod.fst) info).getLast? = some info.self ∧
      s1.tree = s.tree ∧ s1.calls = s.calls := by
  have hnil : (CleanupItem.pointers info).StringDescs = none → L.map Prod.fst = [] := by
    intro h
    rw [h] at hchain
    cases L with
    | nil => rfl
    | cons e rest => cases hchain.1
  have hworld : ∀ s0 : Session σ, s0.world = s.world →
      ∃ s1 : Session σ,
        (match (match (CleanupItem.pointers info).StringDescs with
            | none => Except.ok
                ((((((s0.freeIf (CleanupItem.pointers info).DriverKey).freeIf
                  (CleanupItem.pointers info).HubInfo).freeIf
                  (CleanupItem.pointers info).HubName).freeIf
                  (CleanupItem.pointers info).HubCaps).freeIf
                  (CleanupItem.pointers info).HubCapsEx).freeIf
                  (CleanupItem.pointers info).ConfigDesc)
            | some head => CleanupItem.freeStringDescs fuel
                ((((((s0.freeIf (CleanupItem.pointers info).DriverKey).freeIf
                  (CleanupItem.pointers info).HubInfo).freeIf
                  (CleanupItem.pointers info).HubName).freeIf
                  (CleanupItem.pointers info).HubCaps).freeIf
                  (CleanupItem.pointers info).HubCapsEx).freeIf
                  (CleanupItem.pointers info).ConfigDesc) head) with
          | Except.error e => Except.error e
          | Except.ok s2 =>
            Except.ok ((s2.freeIf (CleanupItem.pointers info).ConnectionInfoEx).free
              info.self)) = Except.ok s1 ∧
        s1.world.heapLog = s.world.heapLog ++
          (ownedBlocks (L.map Prod.fst) info).map HeapEvent.free ∧
        s1.tree = s0.tree ∧ s1.calls = s0.calls := by
    intro s0 hs0
    have hc : IsChain
        ((((((s0.freeIf (CleanupItem.pointers info).DriverKey).freeIf
          (CleanupItem.pointers info).HubInfo).freeIf
          (CleanupItem.pointers info).HubName).freeIf
          (CleanupItem.pointers info).HubCaps).freeIf
          (CleanupItem.pointers info).HubCapsEx).freeIf
          (CleanupItem.pointers info).ConfigDesc).world
        (CleanupItem.pointers info).StringDescs L := by
      repeat apply IsChain_freeIf
      rw [hs0]
      exact hchain
    obtain ⟨s2, hrun, hheap, htree, hcalls, _, _, _⟩ :=
      CleanupItem_chain_stage fuel _ _ L hc hfuel
    rw [hrun]
    refine ⟨_, rfl, ?_, ?_, ?_⟩
    · rw [Session.free_heapLog, Session.freeIf_heapLog, hheap]
      simp only [Session.freeIf_heapLog, hs0]
      rw [← ownedBlocks_eq (L.map Prod.fst) info hnil]
      simp only [List.append_assoc]
    · simp [htree]
    · simp [hcalls]
  unfold CleanupItem
  rw [hitem]
  simp only []
  cases info with
  | HostControllerInfo hc =>
    obtain ⟨s1, h1, h2, h3, h4⟩ := hworld
      { s with EnumeratedHCList := RemoveEntryList s.EnumeratedHCList hc } rfl
    exact ⟨s1, h1, h2, ownedBlocks_getLast _ _, h3, h4⟩
  | RootHubInfo hub =>
    obtain ⟨s1, h1, h2, h3, h4⟩ := hworld s rfl
    exact ⟨s1, h1, h2, ownedBlocks_getLast _ _, h3, h4⟩
  | ExternalHubInfo hub =>
    obtain ⟨s1, h1, h2, h3, h4⟩ := hworld s rfl
    exact ⟨s1, h1, h2, ownedBlocks_getLast _ _, h3, h4⟩
  | DeviceInfo dev =>
    obtain ⟨s1, h1, h2, h3, h4⟩ := hworld s rfl
    exact ⟨s1, h1, h2, ownedBlocks_getLast _ _, h3, h4⟩

set_option maxRecDepth 8192 in
theorem CleanupItem_releases_witness :
    ownedBlocks [15, 16] (NodeInfo.ExternalHubInfo externalHubRecord) =
      [11, 12, 13, 14, 15, 16, 17, 10] ∧
    ∃ s1 : Session Unit, CleanupItem 5 cleanupSession 3 = Except.ok s1 ∧
      s1.world.heapLog = cleanupSession.world.heapLog ++
        (ownedBlocks
          ([(15, ({ DescriptorIndex := 0, LanguageID := 0, StringDescriptor := [4, 3, 9, 4] } :
              StringRecord)),
            (16, { DescriptorIndex := 1, LanguageID := 1033,
                   StringDescriptor := [4, 3, 65, 0] })].map Prod.fst)
          (NodeInfo.ExternalHubInfo externalHubRecord)).map HeapEvent.free ∧
      (ownedBlocks
          ([(15, ({ DescriptorIndex := 0, LanguageID := 0, StringDescriptor := [4, 3, 9, 4] } :
              StringRecord)),
            (16, { DescriptorIndex := 1, LanguageID := 1033,
                   StringDescriptor := [4, 3, 65, 0] })].map Prod.fst)
          (NodeInfo.ExternalHubInfo externalHubRecord)).getLast? =
        some (NodeInfo.ExternalHubInfo externalHubRecord).self ∧
      s1.tree = cleanupSession.tree ∧ s1.calls = cleanupSession.calls :=
  ⟨by decide,
   CleanupItem_releases 5 cleanupSession 3 (NodeInfo.ExternalHubInfo externalHubRecord)
    [(15, { DescriptorIndex := 0, LanguageID := 0, StringDescriptor := [4, 3, 9, 4] }),
     (16, { DescriptorIndex := 1, LanguageID := 1033, StringDescriptor := [4, 3, 65, 0] })]
    (by decide)
    ⟨rfl, _, rfl, rfl, rfl, _, rfl, rfl, rfl⟩ (by decide)⟩

@[simp]
theorem Session.freeIf_EnumeratedHCList {σ : Type} (s : Session σ) (p : Option Nat) :
    (s.freeIf p).EnumeratedHCList = s.EnumeratedHCList := by
  cases p <;> rfl

theorem CleanupItem_freeStringDescs_list {σ : Type} :
    ∀ (fuel : Nat) (s s1 : Session σ) (p : Nat),
      CleanupItem.freeStringDescs fuel s p = Except.ok s1 →
      s1.EnumeratedHCList = s.EnumeratedHCList := by
  intro fuel
  induction fuel with
  | zero =>
    intro s s1 p h
    rw [CleanupItem.freeStringDescs] at h
    cases h
  | succ n ih =>
    intro s s1 p h
    rw [CleanupItem.freeStringDescs] at h
    split at h
    · cases h
    · split at h
      · cases h
        rfl
      · rw [ih _ _ _ h]
        rfl

theorem EnumerateHostController_listed_false (driverKeyName : String) :
    ∀ list : List USBHOSTCONTROLLERINFO,
      (∀ entry ∈ list, ∃ key, entry.DriverKey = some key ∧ key.value ≠ driverKeyName) →
      EnumerateHostController.listed driverKeyName list = Except.ok false := by
  intro list
  induction list with
  | nil => intro _; rfl
  | cons e rest ih =>
    intro h
    obtain ⟨key, hk, hne⟩ := h e (List.mem_cons_self _ _)
    rw [EnumerateHostController.listed, hk]
    simp only []
    rw [if_neg (fun h2 => hne h2.symm)]
    exact ih (fun entry hmem => h entry (List.mem_cons_of_mem _ hmem))

theorem RemoveEntryList_middle (before after : List USBHOSTCONTROLLERINFO)
    (info : USBHOSTCONTROLLERINFO)
    (hother : ∀ entry ∈ before ++ after, entry.self ≠ info.self) :
    RemoveEntryList (before ++ info :: after) info = before ++ after := by
  unfold RemoveEntryList
  rw [List.filter_append, List.filter_cons]
  simp only [ne_eq, not_true_eq_false, decide_False, Bool.false_eq_true, if_false]
  rw [← List.filter_append]
  apply List.filter_eq_self.mpr
  intro entry hmem
  simpa using hother entry hmem

/-- C23.  `CleanupItem` on the item of a host controller whose record is in the list of
enumerated controllers, between the entries `before` and the entries `after`, which are
other blocks, ends with the list `before ++ after`: that record is removed, and the other
entries stay, in their order.  After that a driver key that none of the remaining entries
has is not found by the loop over the list in `EnumerateHostController`.  `CleanupItem` on
an item with a record of a root hub, an external hub or a device leaves the list as it
is. -/
theorem CleanupItem_list {σ : Type} (fuel : Nat) (s : Session σ) (hTreeItem : Nat)
    (hcInfo : USBHOSTCONTROLLERINFO) (before after : List USBHOSTCONTROLLERINFO)
    (hitem : TreeView_GetItem s hTreeItem = some (NodeInfo.HostControllerInfo hcInfo))
    (hlist : s.EnumeratedHCList = before ++ hcInfo :: after)
    (hother : ∀ entry ∈ before ++ after, entry.self ≠ hcInfo.self) :
    (∃ s1 : Session σ, CleanupItem fuel s hTreeItem = Except.ok s1 ∧
      s1.EnumeratedHCList = before ++ after ∧
      (∀ driverKeyName : String,
        (∀ entry ∈ before ++ after,
          ∃ key, entry.DriverKey = some key ∧ key.value ≠ driverKeyName) →
        EnumerateHostController.listed driverKeyName s1.EnumeratedHCList =
          Except.ok false)) ∧
    (∀ (fuel0 : Nat) (t t1 : Session σ) (hItem : Nat) (info : NodeInfo),
      TreeView_GetItem t hItem = some info →
      (∀ hc, info ≠ NodeInfo.HostControllerInfo hc) →
      CleanupItem fuel0 t hItem = Except.ok t1 →
      t1.EnumeratedHCList = t.EnumeratedHCList) ∧
    (∀ (fuel0 : Nat) (t : Session σ) (hItem : Nat),
      TreeView_GetItem t hItem = none → CleanupItem fuel0 t hItem = Except.ok t) := by
  refine ⟨?_, ?_, ?_⟩
  · refine ⟨((({ s with EnumeratedHCList := RemoveEntryList s.EnumeratedHCList hcInfo } :
      Session σ).freeIf (hcInfo.DriverKey.map (fun b => b.handle)))).free hcInfo.self,
      ?_, ?_, ?_⟩
    · unfold CleanupItem
      rw [hitem]
      simp [CleanupItem.pointers, NodeInfo.self, Session.freeIf]
    · cases hcInfo.DriverKey <;>
        simp [Session.freeIf, Session.free, hlist, RemoveEntryList_middle before after _ hother]
    · intro driverKeyName hkeys
      have : (((({ s with EnumeratedHCList := RemoveEntryList s.EnumeratedHCList hcInfo } :
          Session σ).freeIf (hcInfo.DriverKey.map (fun b => b.handle)))).free
          hcInfo.self).EnumeratedHCList = before ++ after := by
        cases hcInfo.DriverKey <;>
          simp [Session.freeIf, Session.free, hlist,
            RemoveEntryList_middle before after _ hother]
      rw [this]
      exact EnumerateHostController_listed_false driverKeyName _ hkeys
  · intro fuel0 t t1 hItem info hget hnot hrun
    unfold CleanupItem at hrun
    rw [hget] at hrun
    cases info with
    | HostControllerInfo hc => exact absurd rfl (hnot hc)
    | RootHubInfo hub =>
      simp only [CleanupItem.pointers, Except.ok.injEq] at hrun
      rw [← hrun]
      simp
    | ExternalHubInfo hub =>
      cases hsd : hub.StringDescs with
      | none =>
        simp only [CleanupItem.pointers, hsd, Except.ok.injEq] at hrun
        rw [← hrun]
        simp
      | some head =>
        simp only [CleanupItem.pointers, hsd] at hrun
        split at hrun
        · cases hrun
        · rename_i s2 hs2
          cases hrun
          simp [CleanupItem_freeStringDescs_list _ _ _ _ hs2]
    | DeviceInfo dev =>
      cases hsd : dev.StringDescs with
      | none =>
        simp only [CleanupItem.pointers, hsd, Except.ok.injEq] at hrun
        rw [← hrun]
        simp
      | some head =>
        simp only [CleanupItem.pointers, hsd] at hrun
        split at hrun
        · cases hrun
        · rename_i s2 hs2
          cases hrun
          simp [CleanupItem_freeStringDescs_list _ _ _ _ hs2]
  · intro fuel0 t hItem hget
    unfold CleanupItem
    rw [hget]

set_option maxRecDepth 8192 in
theorem CleanupItem_list_witness :
    ∃ s1 : Session Unit, CleanupItem 5 cleanupSession 1 = Except.ok s1 ∧
      s1.EnumeratedHCList = [] ++ [secondController] ∧
      (∀ driverKeyName : String,
        (∀ entry ∈ [] ++ [secondController],
          ∃ key, entry.DriverKey = some key ∧ key.value ≠ driverKeyName) →
        EnumerateHostController.listed driverKeyName s1.EnumeratedHCList =
          Except.ok false) :=
  (CleanupItem_list 5 cleanupSession 1 firstController [] [secondController] (by decide)
    (by decide) (by decide)).1

/-! ## Buffers that no node owns -/

set_option maxRecDepth 16384 in
/-- The failing input for C21: the one port of a hub reports a hub whose name cannot be
obtained, and configuration descriptors are fetched.  The iteration ends with the block of
the connection information (block 0) and the block of the configuration descriptor (block
1) neither released nor owned by an item: the tree is empty, and after the disposal of
every item both blocks are still allocated. -/
theorem unresolved_hub_name_leaks :
    (match EnumerateHubPorts unnamedHubHost neverCalled 10 2 7 1 (Session.start () true) with
     | Except.ok s1 =>
       match cleanupItems 10 (s1.tree.map (fun item => item.hItem)) s1 with
       | Except.ok s2 => some (s1.tree, s1.world.heapLog, liveBlocks s2.world.heapLog)
       | Except.error _ => none
     | Except.error _ => none) =
      some ([], [HeapEvent.alloc 0 365, HeapEvent.alloc 1 37], [1, 0]) := by
  decide

/-! ## The driver key of a listed controller -/

theorem EnumerateHostController_listed_null (driverKeyName : String)
    (entry : USBHOSTCONTROLLERINFO) (rest : List USBHOSTCONTROLLERINFO)
    (hnull : entry.DriverKey = none) :
    EnumerateHostController.listed driverKeyName (entry :: rest) =
      Except.error Fault.nullDereference := by
  rw [EnumerateHostController.listed, hnull]

/-- The failing input for C24: the list of enumerated controllers starts with a controller
whose `DriverKey` is `NULL` (one whose device id was not found).  Whatever driver key a call
of `EnumerateHostController` then resolves, the comparison of line 233 reads through the
`NULL` pointer: the call does not return. -/
theorem EnumerateHostController_null_key {σ : Type} (host : Host σ)
    (fuel hTreeParent hHCDev hcInfo : Nat) (s t : Session σ) (driverKeyName : Block String)
    (entry : USBHOSTCONTROLLERINFO) (rest : List USBHOSTCONTROLLERINFO)
    (halloc : (s.alloc host sizeof_USBHOSTCONTROLLERINFO).1 = some hcInfo)
    (hkey : GetHCDDriverKeyName host (s.alloc host sizeof_USBHOSTCONTROLLERINFO).2 hHCDev =
      (some driverKeyName, t))
    (hlist : t.EnumeratedHCList = entry :: rest)
    (hnull : entry.DriverKey = none) :
    EnumerateHostController host fuel hTreeParent hHCDev s =
      Except.error Fault.nullDereference := by
  unfold EnumerateHostController
  simp only [halloc, hkey, hlist, EnumerateHostController_listed_null _ entry rest hnull]

set_option maxRecDepth 100000 in
theorem EnumerateHostController_null_key_witness :
    EnumerateHostController (controllerHost none (fun _ => true) 0) 20 0 7
      (Session.start () false) = Except.ok noDeviceIdSession ∧
    EnumerateHostController (controllerHost none (fun _ => true) 0) 20 0 7
      noDeviceIdSession = Except.error Fault.nullDereference ∧
    EnumerateHostControllers (controllerHost none (fun _ => true) 0) 20 0
      (Session.start () false) = Except.error Fault.nullDereference :=
  ⟨by decide,
   EnumerateHostController_null_key (controllerHost none (fun _ => true) 0) 20 0 7
     noDeviceIdSession.world.heapLog.length noDeviceIdSession
     (GetHCDDriverKeyName (controllerHost none (fun _ => true) 0)
       (noDeviceIdSession.alloc (controllerHost none (fun _ => true) 0)
         sizeof_USBHOSTCONTROLLERINFO).2 7).2
     ⟨noDeviceIdSession.world.heapLog.length + 2, "usb#0000"⟩
     { self := 0, DriverKey := none, VendorID := 0, DeviceID := 0, SubSysID := 0,
       Revision := 0 } []
     (by decide) (by decide) (by decide) (by decide),
   by decide⟩

set_option maxRecDepth 100000 in
/-- The failing input for C25: a controller whose driver key is resolved (`usb#0000`) and
whose device id is not found.  `EnumerateHostController` adds its item and appends its
record to the list of enumerated controllers with the field `DriverKey` still `NULL`: the
controller in the list does not carry the driver key that it was resolved with, and the
block of the key is owned by no record. -/
theorem EnumerateHostController_key_not_recorded :
    (GetHCDDriverKeyName (controllerHost none (fun _ => true) 0)
      ((Session.start () false).alloc (controllerHost none (fun _ => true) 0)
        sizeof_USBHOSTCONTROLLERINFO).2 7).1 = some ⟨2, "usb#0000"⟩ ∧
    EnumerateHostController (controllerHost none (fun _ => true) 0) 20 0 7
      (Session.start () false) = Except.ok noDeviceIdSession ∧
    noDeviceIdSession.EnumeratedHCList =
      [{ self := 0, DriverKey := none, VendorID := 0, DeviceID := 0, SubSysID := 0,
         Revision := 0 }] ∧
    noDeviceIdSession.tree.head? =
      some { hItem := 1, hTreeParent := 0,
             lParam := NodeInfo.HostControllerInfo
               { self := 0, DriverKey := none, VendorID := 0, DeviceID := 0, SubSysID := 0,
                 Revision := 0 },
             icon := Icon.GoodDeviceIcon } ∧
    2 ∈ liveBlocks noDeviceIdSession.world.heapLog := by
  decide

/-! ## The PCI identifiers of a controller -/

/-- The failing input for C26: a device id of which `_stscanf_s` converts fewer than four
fields.  The record of the controller is built all the same, and the fields that were not
converted are given the values that the local variables `ven`, `dev`, `subsys` and `rev`
happen to hold: `Revision` is the uninitialised `rev`, and when no field is converted all
four identifiers are uninitialised values. -/
theorem EnumerateHostController_record_unparsed {σ : Type} (host : Host σ) (hcInfo : Nat)
    (driverKeyName : Block String) (deviceId : String)
    (hfew : (host.sscanf deviceId).length < 4) :
    (EnumerateHostController.record host hcInfo driverKeyName (some deviceId)).DriverKey =
      some driverKeyName ∧
    (EnumerateHostController.record host hcInfo driverKeyName (some deviceId)).Revision =
      host.uninitialized 3 % ULONG_RANGE ∧
    (host.sscanf deviceId = [] →
      EnumerateHostController.record host hcInfo driverKeyName (some deviceId) =
        { self := hcInfo, DriverKey := some driverKeyName,
          VendorID := host.uninitialized 0 % ULONG_RANGE,
          DeviceID := host.uninitialized 1 % ULONG_RANGE,
          SubSysID := host.uninitialized 2 % ULONG_RANGE,
          Revision := host.uninitialized 3 % ULONG_RANGE }) := by
  refine ⟨rfl, ?_, ?_⟩
  · unfold EnumerateHostController.record
    simp only []
    rw [List.getD_eq_default]
    rw [List.length_take]
    omega
  · intro h
    unfold EnumerateHostController.record
    simp [h]

set_option maxRecDepth 100000 in
theorem EnumerateHostController_record_unparsed_witness :
    (match EnumerateHostController unparsedHost 20 0 7 (Session.start () false) with
     | Except.ok s => s.tree.head?.map (fun item => item.lParam)
     | Except.error _ => none) =
      some (NodeInfo.HostControllerInfo
        { self := 0, DriverKey := some ⟨2, "usb#0000"⟩, VendorID := 3735928559,
          DeviceID := 3735928559, SubSysID := 3735928559, Revision := 3735928559 }) ∧
    (EnumerateHostController.record unparsedHost 0 ⟨2, "usb#0000"⟩
      (some "USB\\ROOT_HUB")).DriverKey = some ⟨2, "usb#0000"⟩ ∧
    (EnumerateHostController.record unparsedHost 0 ⟨2, "usb#0000"⟩
      (some "USB\\ROOT_HUB")).Revision = unparsedHost.uninitialized 3 % ULONG_RANGE ∧
    (unparsedHost.sscanf "USB\\ROOT_HUB" = [] →
      EnumerateHostController.record unparsedHost 0 ⟨2, "usb#0000"⟩ (some "USB\\ROOT_HUB") =
        { self := 0, DriverKey := some ⟨2, "usb#0000"⟩,
          VendorID := unparsedHost.uninitialized 0 % ULONG_RANGE,
          DeviceID := unparsedHost.uninitialized 1 % ULONG_RANGE,
          SubSysID := unparsedHost.uninitialized 2 % ULONG_RANGE,
          Revision := unparsedHost.uninitialized 3 % ULONG_RANGE }) :=
  ⟨by decide,
   EnumerateHostController_record_unparsed unparsedHost 0 ⟨2, "usb#0000"⟩ "USB\\ROOT_HUB"
     (by decide)⟩

/-! ## A descriptor of length 0 -/

/-- The failing input for C29: the cursor of the walk stands, inside the bounds, on a
descriptor whose declared length is 0 and whose type is neither configuration nor
interface.  The `default` case adds the length 0 to the cursor and continues: the step
neither ends the walk nor advances the cursor, and the walks of
`AreThereStringDescriptors` and of `GetAllStringDescriptors` do not end, whatever the
number of steps they are given. -/
theorem walk_stalls_at_zero_length {σ : Type} (env : Env σ)
    (hHubDevice ConnectionIndex numLanguageIDs block offset : Nat) (ConfigDesc : List Nat)
    (descEnd commonDesc bDescriptorType : Nat)
    (hin : commonDesc + sizeof_USB_COMMON_DESCRIPTOR < descEnd)
    (hlen : readByte ConfigDesc commonDesc = Except.ok 0)
    (htype : readByte ConfigDesc (commonDesc + 1) = Except.ok bDescriptorType)
    (hconfig : bDescriptorType ≠ USB_CONFIGURATION_DESCRIPTOR_TYPE)
    (hinterface : bDescriptorType ≠ USB_INTERFACE_DESCRIPTOR_TYPE) :
    (∀ fuel, AreThereStringDescriptors.walk ConfigDesc descEnd (fuel + 1) commonDesc =
      AreThereStringDescriptors.walk ConfigDesc descEnd fuel commonDesc) ∧
    (∀ fuel, AreThereStringDescriptors.walk ConfigDesc descEnd fuel commonDesc =
      Except.error Fault.outOfFuel) ∧
    (∀ (fuel tail : Nat) (w : World σ),
      GetAllStringDescriptors.walk env hHubDevice ConnectionIndex numLanguageIDs block offset
        ConfigDesc descEnd (fuel + 1) commonDesc tail w =
      GetAllStringDescriptors.walk env hHubDevice ConnectionIndex numLanguageIDs block offset
        ConfigDesc descEnd fuel commonDesc tail w) ∧
    (∀ (fuel tail : Nat) (w : World σ),
      GetAllStringDescriptors.walk env hHubDevice ConnectionIndex numLanguageIDs block offset
        ConfigDesc descEnd fuel commonDesc tail w = Except.error Fault.outOfFuel) := by
  have h1 : ∀ fuel, AreThereStringDescriptors.walk ConfigDesc descEnd (fuel + 1) commonDesc =
      AreThereStringDescriptors.walk ConfigDesc descEnd fuel commonDesc := by
    intro fuel
    rw [AreThereStringDescriptors.walk, if_pos hin, hlen]
    simp only []
    rw [if_pos (by omega), htype]
    simp only []
    rw [if_neg hconfig, if_neg hinterface]
    rfl
  have h2 : ∀ (fuel tail : Nat) (w : World σ),
      GetAllStringDescriptors.walk env hHubDevice ConnectionIndex numLanguageIDs block offset
        ConfigDesc descEnd (fuel + 1) commonDesc tail w =
      GetAllStringDescriptors.walk env hHubDevice ConnectionIndex numLanguageIDs block offset
        ConfigDesc descEnd fuel commonDesc tail w := by
    intro fuel tail w
    rw [GetAllStringDescriptors.walk, if_pos hin, hlen]
    simp only []
    rw [if_pos (by omega), htype]
    simp only []
    rw [if_neg hconfig, if_neg hinterface]
    rfl
  refine ⟨h1, ?_, h2, ?_⟩
  · intro fuel
    induction fuel with
    | zero => rfl
    | succ n ih => rw [h1, ih]
  · intro fuel tail w
    induction fuel with
    | zero => rfl
    | succ n ih => rw [h2, ih]

theorem walk_stalls_at_zero_length_witness :
    readByte stalledConfig 9 = Except.ok 0 ∧
    readWord stalledConfig 2 = Except.ok 12 ∧
    (∀ fuel, AreThereStringDescriptors fuel noStringsDevice stalledConfig =
      Except.error Fault.outOfFuel) ∧
    (∀ fuel, AreThereStringDescriptors.walk stalledConfig 12 fuel 9 =
      Except.error Fault.outOfFuel) ∧
    (∀ (fuel tail : Nat) (w : World Unit),
      GetAllStringDescriptors.walk deadDevice 7 1 1 0 2 stalledConfig 12 fuel 9 tail w =
        Except.error Fault.outOfFuel) :=
  ⟨by decide, by decide,
   fun fuel => by
     cases fuel with
     | zero => rfl
     | succ n =>
       have h := (walk_stalls_at_zero_length deadDevice 7 1 1 0 2 stalledConfig 12 9 5
         (by decide) (by decide) (by decide) (by decide) (by decide)).2.1 n
       unfold AreThereStringDescriptors
       rw [if_neg (by decide)]
       have hw : readWord stalledConfig 2 = Except.ok 12 := by decide
       rw [hw]
       simp only []
       rw [AreThereStringDescriptors.walk, if_pos (by decide)]
       have hb : readByte stalledConfig 0 = Except.ok 9 := by decide
       have ht : readByte stalledConfig (0 + 1) = Except.ok 2 := by decide
       have hs : readByte stalledConfig (0 + 6) = Except.ok 0 := by decide
       rw [hb]
       simp only []
       rw [if_pos (by decide), ht]
       simp only []
       rw [if_pos (by decide), if_neg (by decide), hs]
       simp only []
       rw [if_neg (by decide)]
       exact h,
   (walk_stalls_at_zero_length deadDevice 7 1 1 0 2 stalledConfig 12 9 5
     (by decide) (by decide) (by decide) (by decide) (by decide)).2.1,
   (walk_stalls_at_zero_length deadDevice 7 1 1 0 2 stalledConfig 12 9 5
     (by decide) (by decide) (by decide) (by decide) (by decide)).2.2.2⟩

/-! ## AreThereStringDescriptors and the requests of GetAllStringDescriptors -/

theorem AreThereStringDescriptors_walk_spec (ConfigDesc : List Nat) (descEnd : Nat) :
    ∀ (fuel commonDesc : Nat),
      (∀ idxs, walkIndices ConfigDesc descEnd fuel commonDesc = Except.ok idxs →
        AreThereStringDescriptors.walk ConfigDesc descEnd fuel commonDesc =
          Except.ok (decide (idxs ≠ []))) ∧
      (AreThereStringDescriptors.walk ConfigDesc descEnd fuel commonDesc = Except.ok false →
        walkIndices ConfigDesc descEnd fuel commonDesc = Except.ok []) := by
  intro fuel
  induction fuel with
  | zero =>
    intro c
    constructor
    · intro idxs h
      rw [walkIndices] at h
      cases h
    · intro h
      rw [AreThereStringDescriptors.walk] at h
      cases h
  | succ n ih =>
    intro c
    have step : ∀ (i : Nat),
        (∀ idxs,
          (match walkIndices ConfigDesc descEnd n i with
            | Except.error e => Except.error e
            | Except.ok rest => Except.ok rest) = Except.ok idxs →
          AreThereStringDescriptors.walk ConfigDesc descEnd n i =
            Except.ok (decide (idxs ≠ []))) ∧
        (AreThereStringDescriptors.walk ConfigDesc descEnd n i = Except.ok false →
          (match walkIndices ConfigDesc descEnd n i with
            | Except.error e => Except.error e
            | Except.ok rest => Except.ok rest) = Except.ok ([] : List Nat)) := by
      intro i
      obtain ⟨ih1, ih2⟩ := ih i
      constructor
      · intro idxs h
        cases hw : walkIndices ConfigDesc descEnd n i with
        | error e => rw [hw] at h; cases h
        | ok rest =>
          rw [hw] at h
          cases h
          exact ih1 _ hw
      · intro h
        rw [ih2 h]
    have named : ∀ (i x : Nat), x ≠ 0 →
        (∀ idxs,
          (match walkIndices ConfigDesc descEnd n i with
            | Except.error e => Except.error e
            | Except.ok rest => Except.ok (if x ≠ 0 then x :: rest else rest)) =
            Except.ok idxs →
          (Except.ok true : Except Fault Bool) = Except.ok (decide (idxs ≠ []))) := by
      intro i x hx idxs h
      cases hw : walkIndices ConfigDesc descEnd n i with
      | error e => rw [hw] at h; cases h
      | ok rest =>
        rw [hw] at h
        simp only [hx, ne_eq, not_false_eq_true, if_true, Except.ok.injEq] at h
        subst h
        simp
    rw [walkIndices, AreThereStringDescriptors.walk]
    by_cases h1 : c + sizeof_USB_COMMON_DESCRIPTOR < descEnd
    · rw [if_pos h1, if_pos h1]
      cases hb : readByte ConfigDesc c with
      | error e => simp
      | ok bLength =>
        simp only []
        by_cases h2 : c + bLength ≤ descEnd
        · rw [if_pos h2, if_pos h2]
          cases ht : readByte ConfigDesc (c + 1) with
          | error e => simp
          | ok t =>
            simp only []
            by_cases hc : t = USB_CONFIGURATION_DESCRIPTOR_TYPE
            · rw [if_pos hc, if_pos hc]
              by_cases hl : bLength ≠ sizeof_USB_CONFIGURATION_DESCRIPTOR
              · rw [if_pos hl, if_pos hl]
                simp
              · rw [if_neg hl, if_neg hl]
                cases hi : readByte ConfigDesc (c + 6) with
                | error e => simp
                | ok x =>
                  simp only []
                  by_cases hz : x ≠ 0
                  · rw [if_pos hz]
                    exact ⟨named _ x hz, fun h => by cases h⟩
                  · rw [if_neg hz]
                    simp only [hz, if_false]
                    exact step _
            · rw [if_neg hc, if_neg hc]
              by_cases hi4 : t = USB_INTERFACE_DESCRIPTOR_TYPE
              · rw [if_pos hi4, if_pos hi4]
                by_cases hl : bLength ≠ sizeof_USB_INTERFACE_DESCRIPTOR ∧
                    bLength ≠ sizeof_USB_INTERFACE_DESCRIPTOR2
                · rw [if_pos hl, if_pos hl]
                  simp
                · rw [if_neg hl, if_neg hl]
                  cases hi : readByte ConfigDesc (c + 8) with
                  | error e => simp
                  | ok x =>
                    simp only []
                    by_cases hz : x ≠ 0
                    · rw [if_pos hz]
                      exact ⟨named _ x hz, fun h => by cases h⟩
                    · rw [if_neg hz]
                      simp only [hz, if_false]
                      exact step _
              · rw [if_neg hi4, if_neg hi4]
                exact ih _
        · rw [if_neg h2, if_neg h2]
          simp
    · rw [if_neg h1, if_neg h1]
      simp

theorem walkIndices_nonzero (ConfigDesc : List Nat) (descEnd : Nat) :
    ∀ (fuel commonDesc : Nat) (idxs : List Nat),
      walkIndices ConfigDesc descEnd fuel commonDesc = Except.ok idxs →
      ∀ index ∈ idxs, index ≠ 0 := by
  intro fuel
  induction fuel with
  | zero =>
    intro c idxs h
    rw [walkIndices] at h
    cases h
  | succ n ih =>
    intro c idxs h
    have step : ∀ (i x : Nat) (l : List Nat),
        (match walkIndices ConfigDesc descEnd n i with
          | Except.error e => Except.error e
          | Except.ok rest => Except.ok (if x ≠ 0 then x :: rest else rest)) = Except.ok l →
        ∀ index ∈ l, index ≠ 0 := by
      intro i x l hl
      cases hw : walkIndices ConfigDesc descEnd n i with
      | error e => rw [hw] at hl; cases hl
      | ok rest =>
        rw [hw] at hl
        simp only [Except.ok.injEq] at hl
        subst hl
        intro index hmem
        by_cases hx : x ≠ 0
        · rw [if_pos hx] at hmem
          rcases List.mem_cons.mp hmem with h1 | h1
          · rw [h1]; exact hx
          · exact ih _ _ hw index h1
        · rw [if_neg hx] at hmem
          exact ih _ _ hw index hmem
    rw [walkIndices] at h
    by_cases h1 : c + sizeof_USB_COMMON_DESCRIPTOR < descEnd
    · rw [if_pos h1] at h
      cases hb : readByte ConfigDesc c with
      | error e => rw [hb] at h; cases h
      | ok bLength =>
        rw [hb] at h
        simp only [] at h
        by_cases h2 : c + bLength ≤ descEnd
        · rw [if_pos h2] at h
          cases ht : readByte ConfigDesc (c + 1) with
          | error e => rw [ht] at h; cases h
          | ok t =>
            rw [ht] at h
            simp only [] at h
            by_cases hc : t = USB_CONFIGURATION_DESCRIPTOR_TYPE
            · rw [if_pos hc] at h
              by_cases hl : bLength ≠ sizeof_USB_CONFIGURATION_DESCRIPTOR
              · rw [if_pos hl] at h
                cases h
                simp
              · rw [if_neg hl] at h
                cases hx : readByte ConfigDesc (c + 6) with
                | error e => rw [hx] at h; cases h
                | ok x =>
                  rw [hx] at h
                  exact step _ x idxs h
            · rw [if_neg hc] at h
              by_cases hi4 : t = USB_INTERFACE_DESCRIPTOR_TYPE
              · rw [if_pos hi4] at h
                by_cases hl : bLength ≠ sizeof_USB_INTERFACE_DESCRIPTOR ∧
                    bLength ≠ sizeof_USB_INTERFACE_DESCRIPTOR2
                · rw [if_pos hl] at h
                  cases h
                  simp
                · rw [if_neg hl] at h
                  cases hx : readByte ConfigDesc (c + 8) with
                  | error e => rw [hx] at h; cases h
                  | ok x =>
                    rw [hx] at h
                    exact step _ x idxs h
              · rw [if_neg hi4] at h
                exact ih _ _ h
        · rw [if_neg h2] at h
          cases h
          simp
    · rw [if_neg h1] at h
      cases h
      simp

theorem stringPairs_eq_nil_iff (indices languages : List Nat) :
    stringPairs indices languages = [] ↔ indices = [] ∨ languages = [] := by
  induction indices with
  | nil => simp [stringPairs]
  | cons i rest ih =>
    rw [stringPairs_cons]
    simp only [List.append_eq_nil, List.map_eq_nil_iff, ih, reduceCtorEq, false_or]
    constructor
    · intro h; exact h.1
    · intro h; exact ⟨h, Or.inr h⟩

/-- C30, as the code has it.  When the index-0 request succeeds and the descriptor walk
ends with the string indices `idxs` (those of the device descriptor, then those that the
walk over the configuration meets), none of which is 0: `AreThereStringDescriptors` returns
`TRUE` iff `idxs` is not empty; the requests of `GetAllStringDescriptors` are the index-0
request followed by one request for each index of `idxs` in each language of the language
list, so that a string index other than 0 is requested iff `AreThereStringDescriptors`
returns `TRUE` and the language list is not empty.  When `AreThereStringDescriptors`
returns `FALSE` the walk ends with no index, and `GetAllStringDescriptors` requests the
index 0 and nothing else. -/
theorem AreThereStringDescriptors_agrees {σ : Type} (env : Env σ) (fuel : Nat) (w : World σ)
    (hHubDevice ConnectionIndex : Nat) (DeviceDesc : USB_DEVICE_DESCRIPTOR)
    (ConfigDesc : List Nat) (head : Nat) (idxs : List Nat)
    (h0 : (GetStringDescriptor env w hHubDevice ConnectionIndex 0 0).1 = some head)
    (hwalk : allIndices fuel DeviceDesc ConfigDesc = Except.ok idxs) :
    AreThereStringDescriptors fuel DeviceDesc ConfigDesc = Except.ok (decide (idxs ≠ [])) ∧
    (∀ index ∈ idxs, index ≠ 0) ∧
    requestsOf (GetAllStringDescriptors env fuel w hHubDevice ConnectionIndex DeviceDesc
        ConfigDesc) =
      Except.ok
        (w.ioLog ++ stringRequest hHubDevice ConnectionIndex 0 0 ::
          (stringPairs idxs
            (languageIDsOf (languageDescriptor env w hHubDevice ConnectionIndex))).map
            (fun pr => stringRequest hHubDevice ConnectionIndex pr.1 pr.2)) ∧
    (stringPairs idxs (languageIDsOf (languageDescriptor env w hHubDevice ConnectionIndex)) ≠
        [] ↔
      AreThereStringDescriptors fuel DeviceDesc ConfigDesc = Except.ok true ∧
      languageIDsOf (languageDescriptor env w hHubDevice ConnectionIndex) ≠ []) ∧
    (AreThereStringDescriptors fuel DeviceDesc ConfigDesc = Except.ok false →
      idxs = [] ∧
      requestsOf (GetAllStringDescriptors env fuel w hHubDevice ConnectionIndex DeviceDesc
          ConfigDesc) =
        Except.ok (w.ioLog ++ [stringRequest hHubDevice ConnectionIndex 0 0])) := by
  have hreq := TableAgrees_requests env w hHubDevice ConnectionIndex head idxs _
    (by
      have := GetAllStringDescriptors_spec env fuel w hHubDevice ConnectionIndex DeviceDesc
        ConfigDesc head h0
      rw [hwalk] at this
      exact this)
  have hare : AreThereStringDescriptors fuel DeviceDesc ConfigDesc =
      Except.ok (decide (idxs ≠ [])) ∧ ∀ index ∈ idxs, index ≠ 0 := by
    unfold allIndices at hwalk
    cases hw : readWord ConfigDesc 2 with
    | error e => rw [hw] at hwalk; cases hwalk
    | ok wTotalLength =>
      rw [hw] at hwalk
      simp only [] at hwalk
      cases hi : walkIndices ConfigDesc wTotalLength fuel 0 with
      | error e => rw [hi] at hwalk; cases hwalk
      | ok rest =>
        rw [hi] at hwalk
        simp only [Except.ok.injEq] at hwalk
        subst hwalk
        have hnz := walkIndices_nonzero ConfigDesc wTotalLength fuel 0 rest hi
        refine ⟨?_, ?_⟩
        · unfold AreThereStringDescriptors
          by_cases hd : DeviceDesc.iManufacturer ≠ 0 ∨ DeviceDesc.iProduct ≠ 0 ∨
              DeviceDesc.iSerialNumber ≠ 0
          · rw [if_pos hd]
            have hne : deviceIndices DeviceDesc ≠ [] := by
              rw [deviceIndices_eq]
              rcases hd with h | h | h <;> simp [h]
            simp [hne]
          · rw [if_neg hd, hw]
            simp only []
            have hnil : deviceIndices DeviceDesc = [] := by
              rw [deviceIndices_eq]
              simp only [not_or, not_not] at hd
              simp [hd.1, hd.2.1, hd.2.2]
            rw [(AreThereStringDescriptors_walk_spec ConfigDesc wTotalLength fuel 0).1 rest hi,
              hnil]
            simp
        · intro index hmem
          rcases List.mem_append.mp hmem with h | h
          · unfold deviceIndices at h
            simpa using (List.mem_filter.mp h).2
          · exact hnz index h
  refine ⟨hare.1, hare.2, hreq, ?_, ?_⟩
  · rw [ne_eq, stringPairs_eq_nil_iff, hare.1]
    simp only [not_or, Except.ok.injEq, decide_eq_true_eq, ne_eq]
  · intro hfalse
    rw [hare.1] at hfalse
    simp only [Except.ok.injEq, decide_eq_false_iff_not, ne_eq, not_not] at hfalse
    refine ⟨hfalse, ?_⟩
    rw [hreq, hfalse]
    rfl

set_option maxRecDepth 16384 in
/-- One closed run for C30: the device descriptor names the string 1 as the manufacturer,
and string descriptor 0 lists no language.  `AreThereStringDescriptors` returns `TRUE`, the
index-0 request succeeds, and `GetAllStringDescriptors` requests the index 0 and nothing
else. -/
theorem string_named_none_requested :
    AreThereStringDescriptors 10 namedManufacturer plainConfig = Except.ok true ∧
    (GetStringDescriptor noLanguageDevice (World.start ()) 7 1 0 0).1 = some 0 ∧
    requestsOf (GetAllStringDescriptors noLanguageDevice 10 (World.start ()) 7 1
        namedManufacturer plainConfig) =
      Except.ok [stringRequest 7 1 0 0] := by
  decide

set_option maxRecDepth 16384 in
theorem AreThereStringDescriptors_agrees_witness :
    (GetStringDescriptor oneStringDevice (World.start ()) 7 1 0 0).1 = some 0 ∧
    allIndices 10 namedManufacturer plainConfig = Except.ok [1] ∧
    AreThereStringDescriptors 10 namedManufacturer plainConfig =
      Except.ok (decide (([1] : List Nat) ≠ [])) ∧
    requestsOf (GetAllStringDescriptors oneStringDevice 10 (World.start ()) 7 1
        namedManufacturer plainConfig) =
      Except.ok
        ((World.start ()).ioLog ++ stringRequest 7 1 0 0 ::
          (stringPairs [1]
            (languageIDsOf (languageDescriptor oneStringDevice (World.start ()) 7 1))).map
            (fun pr => stringRequest 7 1 pr.1 pr.2)) :=
  ⟨by decide, by decide,
   (AreThereStringDescriptors_agrees oneStringDevice 10 (World.start ()) 7 1 namedManufacturer
     plainConfig 0 [1] (by decide) (by decide)).1,
   (AreThereStringDescriptors_agrees oneStringDevice 10 (World.start ()) 7 1 namedManufacturer
     plainConfig 0 [1] (by decide) (by decide)).2.2.1⟩

/-! ## The loop over the numbered controllers -/

theorem EnumerateHostControllers_numbered_eq_visit {σ : Type} (host : Host σ)
    (fuel hTreeParent : Nat) :
    ∀ (n HCNum : Nat) (s : Session σ), HCNum ≤ NUM_HCS_TO_CHECK →
      NUM_HCS_TO_CHECK - HCNum ≤ n →
      EnumerateHostControllers.numbered host fuel hTreeParent n HCNum s =
        visitPorts (probeSlot host fuel hTreeParent)
          (List.range' HCNum (NUM_HCS_TO_CHECK - HCNum)) s := by
  intro n
  induction n with
  | zero =>
    intro HCNum s hle hn
    have h : NUM_HCS_TO_CHECK - HCNum = 0 := by omega
    rw [EnumerateHostControllers.numbered, if_neg (by omega), h]
    rfl
  | succ n ih =>
    intro HCNum s hle hn
    rw [EnumerateHostControllers.numbered]
    by_cases hlt : HCNum < NUM_HCS_TO_CHECK
    · rw [if_pos hlt]
      have hk : NUM_HCS_TO_CHECK - HCNum = (NUM_HCS_TO_CHECK - (HCNum + 1)) + 1 := by omega
      rw [hk, List.range'_succ, visitPorts]
      unfold probeSlot
      simp only []
      cases hf : (CreateFile host s ("\\\\.\\HCD" ++ toString HCNum)).1 with
      | none =>
        simp only []
        exact ih _ _ (by omega) (by omega)
      | some hHCDev =>
        simp only []
        cases hc : EnumerateHostController host fuel hTreeParent hHCDev
            (CreateFile host s ("\\\\.\\HCD" ++ toString HCNum)).2 with
        | error e => rfl
        | ok s1 =>
          simp only []
          exact ih _ _ (by omega) (by omega)
    · have h : NUM_HCS_TO_CHECK - HCNum = 0 := by omega
      rw [if_neg hlt, h]
      rfl

/-- The loop over the numbered controllers as far as it goes.  With room for the ten
slots, the loop of `EnumerateHostControllers` over the numbered controllers is the run of
the slot body on the slots 0, 1, ..., 9 in this order, each once, up to a slot whose
enumeration does not return.  The body of a slot asks first
to open the name of its slot and always goes on with the next slot.  A slot that does not
open adds no item and leaves the list of controllers as it is; so does a controller whose
driver key cannot be obtained; a controller whose root hub name cannot be obtained gets its
own item and nothing below it.  In each of these cases `EnumerateHostController` returns,
so that the later slots are probed. -/
theorem EnumerateHostControllers_slots {σ : Type} (host : Host σ) (fuel hTreeParent n : Nat)
    (s : Session σ) (hn : NUM_HCS_TO_CHECK ≤ n) :
    EnumerateHostControllers.numbered host fuel hTreeParent n 0 s =
      visitPorts (probeSlot host fuel hTreeParent) [0, 1, 2, 3, 4, 5, 6, 7, 8, 9] s ∧
    (∀ (HCNum : Nat) (t : Session σ) (r : Flow × Session σ),
      probeSlot host fuel hTreeParent HCNum t = Except.ok r →
      r.1 = Flow.next ∧
      ∃ rest, r.2.calls = t.calls ++
        OsCall.createFile ("\\\\.\\HCD" ++ toString HCNum)
          (CreateFile host t ("\\\\.\\HCD" ++ toString HCNum)).1 :: rest) ∧
    (∀ (HCNum : Nat) (t : Session σ),
      (CreateFile host t ("\\\\.\\HCD" ++ toString HCNum)).1 = none →
      ∃ t1, probeSlot host fuel hTreeParent HCNum t = Except.ok (Flow.next, t1) ∧
        t1.tree = t.tree ∧ t1.EnumeratedHCList = t.EnumeratedHCList) ∧
    (∀ (hHCDev : Nat) (t : Session σ),
      (GetHCDDriverKeyName host (t.alloc host sizeof_USBHOSTCONTROLLERINFO).2 hHCDev).1 =
        none →
      ∃ t1, EnumerateHostController host fuel hTreeParent hHCDev t = Except.ok t1 ∧
        t1.tree = t.tree ∧ t1.EnumeratedHCList = t.EnumeratedHCList) ∧
    (∀ (hHCDev hcInfo hHCItem : Nat) (driverKeyName : Block String)
      (deviceId deviceDesc : Option String) (t t1 t2 t3 t4 t5 : Session σ),
      (t.alloc host sizeof_USBHOSTCONTROLLERINFO).1 = some hcInfo →
      GetHCDDriverKeyName host (t.alloc host sizeof_USBHOSTCONTROLLERINFO).2 hHCDev =
        (some driverKeyName, t1) →
      EnumerateHostController.listed driverKeyName.value t1.EnumeratedHCList =
        Except.ok false →
      DriverNameToDeviceDesc host t1 driverKeyName.value true = (deviceId, t2) →
      DriverNameToDeviceDesc host t2 driverKeyName.value false = (deviceDesc, t3) →
      AddLeaf host t3 hTreeParent
        (NodeInfo.HostControllerInfo
          (EnumerateHostController.record host hcInfo driverKeyName deviceId))
        Icon.GoodDeviceIcon = (some hHCItem, t4) →
      GetRootHubName host
        { t4 with EnumeratedHCList := t4.EnumeratedHCList ++
          [EnumerateHostController.record host hcInfo driverKeyName deviceId] } hHCDev =
        (none, t5) →
      EnumerateHostController host fuel hTreeParent hHCDev t = Except.ok t5 ∧
      t5.tree = t.tree ++
        [{ hItem := hHCItem, hTreeParent := hTreeParent,
           lParam := NodeInfo.HostControllerInfo
             (EnumerateHostController.record host hcInfo driverKeyName deviceId),
           icon := Icon.GoodDeviceIcon }]) := by
  refine ⟨?_, ?_, ?_, ?_, ?_⟩
  · have h := EnumerateHostControllers_numbered_eq_visit host fuel hTreeParent n 0 s
      (by decide) (by simpa using hn)
    rw [h]
    rfl
  · intro HCNum t r hr
    unfold probeSlot at hr
    simp only [] at hr
    have hc := CreateFile_calls host t ("\\\\.\\HCD" ++ toString HCNum)
    cases hf : (CreateFile host t ("\\\\.\\HCD" ++ toString HCNum)).1 with
    | none =>
      rw [hf] at hr
      cases hr
      exact ⟨rfl, [], by rw [hc, hf]⟩
    | some hHCDev =>
      rw [hf] at hr
      simp only [] at hr
      cases he : EnumerateHostController host fuel hTreeParent hHCDev
          (CreateFile host t ("\\\\.\\HCD" ++ toString HCNum)).2 with
      | error e => rw [he] at hr; cases hr
      | ok s1 =>
        rw [he] at hr
        cases hr
        obtain ⟨new, hnew, _, _⟩ :=
          (Tally_EnumerateHostController host fuel hTreeParent hHCDev _ _ he).calls
        refine ⟨rfl, new ++ [OsCall.closeHandle hHCDev], ?_⟩
        rw [CloseHandle_calls, hnew, hc, hf]
        simp
  · intro HCNum t hf
    refine ⟨(CreateFile host t ("\\\\.\\HCD" ++ toString HCNum)).2, ?_, ?_, ?_⟩
    · unfold probeSlot
      simp only [hf]
    · exact (Quiet_CreateFile host t _).tree
    · exact (Quiet_CreateFile host t _).list
  · intro hHCDev t hk
    unfold EnumerateHostController
    simp only []
    have ha := Quiet_alloc host t sizeof_USBHOSTCONTROLLERINFO
    cases hal : (t.alloc host sizeof_USBHOSTCONTROLLERINFO).1 with
    | none => exact ⟨_, rfl, ha.tree, ha.list⟩
    | some hcInfo =>
      simp only [hk]
      have hq := (ha.followedBy (Quiet_getName host _ NameRequest.hcdDriverKeyName hHCDev
        0)).followedBy (Quiet_free _ hcInfo)
      exact ⟨_, rfl, hq.tree, hq.list⟩
  · intro hHCDev hcInfo hHCItem driverKeyName deviceId deviceDesc t t1 t2 t3 t4 t5
      halloc hkey hlisted hid hdesc hleaf hroot
    have hid1 : (DriverNameToDeviceDesc host t1 driverKeyName.value true).1 = deviceId := by
      rw [hid]
    have hid2 : (DriverNameToDeviceDesc host t1 driverKeyName.value true).2 = t2 := by
      rw [hid]
    refine ⟨?_, ?_⟩
    · unfold EnumerateHostController
      simp only [halloc, hkey, hlisted, hid1, hid2, hdesc, hleaf, hroot]
    · have h1 := Quiet_alloc host t sizeof_USBHOSTCONTROLLERINFO
      have h2 := Quiet_getName host (t.alloc host sizeof_USBHOSTCONTROLLERINFO).2
        NameRequest.hcdDriverKeyName hHCDev 0
      have h2b : GetHCDDriverKeyName host (t.alloc host sizeof_USBHOSTCONTROLLERINFO).2
          hHCDev = getName host (t.alloc host sizeof_USBHOSTCONTROLLERINFO).2
          NameRequest.hcdDriverKeyName hHCDev 0 := rfl
      rw [← h2b, hkey] at h2
      have h3 := Quiet_DriverNameToDeviceDesc host t1 driverKeyName.value true
      rw [hid] at h3
      have h4 := Quiet_DriverNameToDeviceDesc host t2 driverKeyName.value false
      rw [hdesc] at h4
      have h5 := AddLeaf_tree host t3 hTreeParent
        (NodeInfo.HostControllerInfo
          (EnumerateHostController.record host hcInfo driverKeyName deviceId))
        Icon.GoodDeviceIcon
      rw [hleaf] at h5
      have h6 := Quiet_getName host
        { t4 with EnumeratedHCList := t4.EnumeratedHCList ++
          [EnumerateHostController.record host hcInfo driverKeyName deviceId] }
        NameRequest.rootHubName hHCDev 0
      have h6b : GetRootHubName host
          { t4 with EnumeratedHCList := t4.EnumeratedHCList ++
            [EnumerateHostController.record host hcInfo driverKeyName deviceId] } hHCDev =
          getName host
          { t4 with EnumeratedHCList := t4.EnumeratedHCList ++
            [EnumerateHostController.record host hcInfo driverKeyName deviceId] }
          NameRequest.rootHubName hHCDev 0 := rfl
      rw [← h6b, hroot] at h6
      rw [h6.tree]
      simp only [] at h5 ⊢
      rw [h5, h4.tree, h3.tree, h2.tree, h1.tree]

set_option maxRecDepth 100000 in
theorem EnumerateHostControllers_slots_witness :
    EnumerateHostControllers.numbered rootlessHost 20 0 10 0 (Session.start () false) =
      visitPorts (probeSlot rootlessHost 20 0) [0, 1, 2, 3, 4, 5, 6, 7, 8, 9]
        (Session.start () false) ∧
    (match EnumerateHostControllers.numbered rootlessHost 20 0 10 0
        (Session.start () false) with
     | Except.ok s1 => some (openedNames s1.calls, s1.tree.length)
     | Except.error _ => none) =
      some (["\\\\.\\HCD0", "\\\\.\\HCD1", "\\\\.\\HCD2", "\\\\.\\HCD3",
        "\\\\.\\HCD4", "\\\\.\\HCD5", "\\\\.\\HCD6", "\\\\.\\HCD7",
        "\\\\.\\HCD8", "\\\\.\\HCD9"], 1) :=
  ⟨(EnumerateHostControllers_slots rootlessHost 20 0 10 (Session.start () false)
     (by decide)).1,
   by decide⟩

/-! ## The ports that the loop asks about -/

theorem EnumerateHubPorts_connectionInfo_calls {σ : Type} (host : Host σ)
    (hHubDevice index : Nat) (t t1 : Session σ) (q : PortQuery)
    (hrun : EnumerateHubPorts.connectionInfo host t hHubDevice index = Except.ok (q, t1)) :
    ∃ new, t1.calls = t.calls ++ new ∧ (∀ c ∈ new, c.port = some (hHubDevice, index)) ∧
      (q ≠ PortQuery.noMemory →
        ∃ reply rest, new = OsCall.connectionInformationEx hHubDevice index reply :: rest) := by
  have o := EnumerateHubPorts_connectionInfo_outcome host t hHubDevice index
  rw [hrun] at o
  cases o with
  | noMemory _ hcalls =>
    exact ⟨[], by rw [hcalls, List.append_nil], by simp, fun h => absurd rfl h⟩
  | extended p r0 _ hcalls =>
    exact ⟨_, hcalls, by simp [OsCall.port], fun _ => ⟨_, _, rfl⟩⟩
  | failed p q0 _ hcalls =>
    exact ⟨_, hcalls, by simp [OsCall.port], fun _ => ⟨_, _, rfl⟩⟩
  | legacy p q0 r0 _ hpipes hcalls =>
    exact ⟨_, hcalls, by simp [OsCall.port], fun _ => ⟨_, _, rfl⟩⟩

/-- C14. For a hub with `NumPorts` ports (`NumPorts` below the range of a `ULONG`), the
loop of `EnumerateHubPorts` runs its body on the indices `1, 2, ..., NumPorts` in this
order, each index once, up to the iteration that ends with `break` or a fault: it is the
reference run over the list of these indices, whose members lie in `[1, NumPorts]` and
ascend strictly.  The body for the index `index` is the lookup of the connection
information of the port `index` of this hub, followed by the work on the record obtained:
every call of the lookup asks about the port `index` of the hub, the first of them is the
extended query for that port (unless there is no block for the record), and in the
recursion over the hubs the calls of an iteration begin with the calls of this lookup. -/
theorem EnumerateHubPorts_indices {σ : Type} (host : Host σ)
    (EnumerateHub0 : HubArguments → Session σ → Except Fault (Bool × Session σ))
    (fuel hTreeParent hHubDevice NumPorts : Nat) (s : Session σ)
    (hN : NumPorts + 1 < ULONG_RANGE) (hfuel : NumPorts ≤ fuel) :
    EnumerateHubPorts host EnumerateHub0 fuel hTreeParent hHubDevice NumPorts s =
      visitPorts (EnumerateHubPorts.body host EnumerateHub0 fuel hTreeParent hHubDevice)
        (List.range' 1 NumPorts) s ∧
    (∀ index ∈ List.range' 1 NumPorts, 1 ≤ index ∧ index ≤ NumPorts) ∧
    (List.range' 1 NumPorts).Sorted (fun a b => a < b) ∧
    (List.range' 1 NumPorts).Nodup ∧
    (∀ (index : Nat) (t t1 : Session σ) (q : PortQuery),
      EnumerateHubPorts.connectionInfo host t hHubDevice index = Except.ok (q, t1) →
      ∃ new, t1.calls = t.calls ++ new ∧ ∀ c ∈ new, c.port = some (hHubDevice, index)) ∧
    (∀ (index : Nat) (t : Session σ),
      EnumerateHubPorts.body host EnumerateHub0 fuel hTreeParent hHubDevice index t =
        match EnumerateHubPorts.connectionInfo host t hHubDevice index with
        | Except.error e => Except.error e
        | Except.ok q =>
          match q.1 with
          | PortQuery.noMemory => Except.ok (Flow.leave, q.2)
          | PortQuery.failed => Except.ok (Flow.next, q.2)
          | PortQuery.obtained connectionInfoEx =>
            EnumerateHubPorts.port host EnumerateHub0 fuel q.2 hTreeParent hHubDevice index
              connectionInfoEx) ∧
    (∀ (index : Nat) (t t1 : Session σ) (q : PortQuery),
      EnumerateHubPorts.connectionInfo host t hHubDevice index = Except.ok (q, t1) →
      q ≠ PortQuery.noMemory →
      ∃ reply rest,
        t1.calls = t.calls ++ OsCall.connectionInformationEx hHubDevice index reply :: rest) ∧
    (∀ (depth index : Nat) (t : Session σ) (r : Flow × Session σ),
      EnumerateHubPorts.body host (EnumerateHub host depth) fuel hTreeParent hHubDevice index
        t = Except.ok r →
      ∃ (q : PortQuery) (t1 : Session σ) (new rest : List OsCall),
        EnumerateHubPorts.connectionInfo host t hHubDevice index = Except.ok (q, t1) ∧
        t1.calls = t.calls ++ new ∧ (∀ c ∈ new, c.port = some (hHubDevice, index)) ∧
        r.2.calls = t.calls ++ new ++ rest) := by
  refine ⟨?_, ?_, ?_, ?_, ?_, ?_, ?_, ?_⟩
  · unfold EnumerateHubPorts
    rw [EnumerateHubPorts_loop_eq_visitPorts _ NumPorts hN fuel 1 s (by omega) (by omega)]
    rfl
  · intro index hmem
    rw [List.mem_range'_1] at hmem
    omega
  · exact List.pairwise_lt_range' 1 NumPorts
  · exact List.nodup_range' 1 NumPorts
  · intro index t t1 q hrun
    obtain ⟨new, h1, h2, _⟩ :=
      EnumerateHubPorts_connectionInfo_calls host hHubDevice index t t1 q hrun
    exact ⟨new, h1, h2⟩
  · intro index t
    unfold EnumerateHubPorts.body
    cases EnumerateHubPorts.connectionInfo host t hHubDevice index with
    | error e => rfl
    | ok q =>
      obtain ⟨q1, q2⟩ := q
      cases q1 <;> rfl
  · intro index t t1 q hrun hq
    obtain ⟨new, h1, _, h3⟩ :=
      EnumerateHubPorts_connectionInfo_calls host hHubDevice index t t1 q hrun
    obtain ⟨reply, rest, hnew⟩ := h3 hq
    exact ⟨reply, rest, by rw [h1, hnew]⟩
  · intro depth index t r hr
    unfold EnumerateHubPorts.body at hr
    cases hq : EnumerateHubPorts.connectionInfo host t hHubDevice index with
    | error e => rw [hq] at hr; cases hr
    | ok q =>
      rw [hq] at hr
      obtain ⟨q1, q2⟩ := q
      obtain ⟨new, h1, h2, _⟩ :=
        EnumerateHubPorts_connectionInfo_calls host hHubDevice index t q2 q1 hq
      cases q1 with
      | noMemory =>
        cases hr
        exact ⟨_, _, new, [], rfl, h1, h2, by simp [h1]⟩
      | failed =>
        cases hr
        exact ⟨_, _, new, [], rfl, h1, h2, by simp [h1]⟩
      | obtained connectionInfoEx =>
        simp only [] at hr
        obtain ⟨rest, hrest, _, _⟩ :=
          (Tally_port host (EnumerateHub host depth) (Tally_EnumerateHub host depth) fuel q2
            hTreeParent hHubDevice index connectionInfoEx r hr).calls
        rw [(EnumerateHubPorts_count_fields q2 connectionInfoEx.value).2.1] at hrest
        exact ⟨_, _, new, rest, rfl, h1, h2, by rw [hrest, h1]⟩

set_option maxRecDepth 16384 in
theorem EnumerateHubPorts_indices_witness :
    EnumerateHubPorts (hubHost 3 (fun _ => some emptyPort)) neverCalled 5 0 7 3
        (Session.start () true) =
      visitPorts (EnumerateHubPorts.body (hubHost 3 (fun _ => some emptyPort)) neverCalled 5
        0 7) (List.range' 1 3) (Session.start () true) ∧
    List.range' 1 3 = [1, 2, 3] ∧
    (match EnumerateHubPorts (hubHost 3 (fun _ => some emptyPort)) neverCalled 5 0 7 3
        (Session.start () true) with
     | Except.ok s1 => some (s1.calls.filterMap OsCall.port)
     | Except.error _ => none) = some [(7, 1), (7, 2), (7, 3)] :=
  ⟨(EnumerateHubPorts_indices (hubHost 3 (fun _ => some emptyPort)) neverCalled 5 0 7 3
     (Session.start () true) (by decide) (by decide)).1,
   by decide, by decide⟩

/-! ## A slot whose enumeration does not return -/

/-- The failing input for C28: the slot 0 is probed and its enumeration returns, and the
enumeration of the controller in slot 1 does not return (it faults).  Then the loop over
the numbered controllers ends in slot 1: its run over the slots 0, 1, ..., 9 is that
fault, the slots 2 to 9 are not probed, and `EnumerateHostControllers` does not return
either. -/
theorem EnumerateHostControllers_fault_ends_pass {σ : Type} (host : Host σ)
    (fuel hTreeParent : Nat) (s s1 : Session σ) (e : Fault)
    (hfuel : NUM_HCS_TO_CHECK ≤ fuel)
    (hfirst : probeSlot host fuel hTreeParent 0
      { s with TotalDevicesConnected := 0, TotalHubs := 0 } = Except.ok (Flow.next, s1))
    (hsecond : probeSlot host fuel hTreeParent 1 s1 = Except.error e) :
    EnumerateHostControllers.numbered host fuel hTreeParent fuel 0
        { s with TotalDevicesConnected := 0, TotalHubs := 0 } =
      visitPorts (probeSlot host fuel hTreeParent) [0, 1, 2, 3, 4, 5, 6, 7, 8, 9]
        { s with TotalDevicesConnected := 0, TotalHubs := 0 } ∧
    visitPorts (probeSlot host fuel hTreeParent) [0, 1, 2, 3, 4, 5, 6, 7, 8, 9]
        { s with TotalDevicesConnected := 0, TotalHubs := 0 } = Except.error e ∧
    (∀ rest : List Nat,
      visitPorts (probeSlot host fuel hTreeParent) (0 :: 1 :: rest)
        { s with TotalDevicesConnected := 0, TotalHubs := 0 } = Except.error e) ∧
    EnumerateHostControllers host fuel hTreeParent s = Except.error e := by
  have hrest : ∀ rest : List Nat,
      visitPorts (probeSlot host fuel hTreeParent) (0 :: 1 :: rest)
        { s with TotalDevicesConnected := 0, TotalHubs := 0 } = Except.error e := by
    intro rest
    rw [visitPorts, hfirst]
    simp only []
    rw [visitPorts, hsecond]
  have hnum : EnumerateHostControllers.numbered host fuel hTreeParent fuel 0
        { s with TotalDevicesConnected := 0, TotalHubs := 0 } =
      visitPorts (probeSlot host fuel hTreeParent) [0, 1, 2, 3, 4, 5, 6, 7, 8, 9]
        { s with TotalDevicesConnected := 0, TotalHubs := 0 } := by
    rw [EnumerateHostControllers_numbered_eq_visit host fuel hTreeParent fuel 0 _
      (by decide) (by simpa using hfuel)]
    rfl
  refine ⟨hnum, hrest _, hrest, ?_⟩
  unfold EnumerateHostControllers
  rw [hnum, hrest]

set_option maxRecDepth 100000 in
theorem EnumerateHostControllers_fault_ends_pass_witness :
    probeSlot (controllerHost none (fun _ => true) 0) 20 0 0 (Session.start () false) =
      Except.ok (Flow.next, firstSlotSession) ∧
    openedNames firstSlotSession.calls = ["\\\\.\\HCD0", "\\\\.\\RootHub#1"] ∧
    (CreateFile (controllerHost none (fun _ => true) 0) firstSlotSession
      "\\\\.\\HCD1").1 = some 7 ∧
    probeSlot (controllerHost none (fun _ => true) 0) 20 0 1 firstSlotSession =
      Except.error Fault.nullDereference ∧
    visitPorts (probeSlot (controllerHost none (fun _ => true) 0) 20 0)
        [0, 1, 2, 3, 4, 5, 6, 7, 8, 9]
        { Session.start () false with TotalDevicesConnected := 0, TotalHubs := 0 } =
      Except.error Fault.nullDereference ∧
    EnumerateHostControllers (controllerHost none (fun _ => true) 0) 20 0
      (Session.start () false) = Except.error Fault.nullDereference :=
  ⟨by decide, by decide, by decide, by decide,
   (EnumerateHostControllers_fault_ends_pass (controllerHost none (fun _ => true) 0) 20 0
     (Session.start () false) firstSlotSession Fault.nullDereference (by decide) (by decide)
     (by decide)).2.1,
   (EnumerateHostControllers_fault_ends_pass (controllerHost none (fun _ => true) 0) 20 0
     (Session.start () false) firstSlotSession Fault.nullDereference (by decide) (by decide)
     (by decide)).2.2.2⟩

end UsbView
